import Mathlib

/-! # Link handshake, ticket check and migration-target link replay of the SPICE server

A shallow embedding of the handshake handlers of `server/reds.cpp` and of the
"do seamless" handler of `server/main-channel-client.cpp`.

* Objects reached through pointers are passed and returned explicitly.
* Calls into collaborators whose code lives elsewhere (stream I/O, channel
  objects, the agent device) are recorded, in program order, in a list of `Event`s.
* Integers received from the wire are natural numbers; `GUINT32_FROM_LE` is the
  identity on the decoded value. Where the C code computes in `uint32_t` or
  `size_t` the reduction modulo `2 ^ 32` or `2 ^ 64` is written out (`size_t` has
  64 bits).
* A failed `spice_assert` and `exit` stop the process: the handlers that can reach
  one return `Except Halt`.
-/

namespace Spice

/-- Constants of the protocol headers, which are not part of the server sources. -/
structure ProtoConsts where
  SPICE_VERSION_MAJOR : Nat
  sizeof_SpiceLinkMess : Nat
  SPICE_CHANNEL_MAIN : Nat
  SPICE_MIGRATION_PROTOCOL_VERSION : Nat
  SPICE_COMMON_CAP_PROTOCOL_AUTH_SELECTION : Nat
  SPICE_COMMON_CAP_AUTH_SPICE : Nat
  SPICE_COMMON_CAP_AUTH_SASL : Nat
  SPICE_CHANNEL_SECURITY_NONE : Nat
  SPICE_CHANNEL_SECURITY_SSL : Nat
  sizeof_SpiceLinkAuthMechanism : Nat
  deriving DecidableEq, Repr

/-- The values these constants have in spice-protocol: `SpiceLinkMess` is packed
(4 + 1 + 1 + 4 + 4 + 4 bytes). -/
def stdConsts : ProtoConsts where
  SPICE_VERSION_MAJOR := 2
  sizeof_SpiceLinkMess := 18
  SPICE_CHANNEL_MAIN := 1
  SPICE_MIGRATION_PROTOCOL_VERSION := 1
  SPICE_COMMON_CAP_PROTOCOL_AUTH_SELECTION := 0
  SPICE_COMMON_CAP_AUTH_SPICE := 1
  SPICE_COMMON_CAP_AUTH_SASL := 2
  SPICE_CHANNEL_SECURITY_NONE := 1
  SPICE_CHANNEL_SECURITY_SSL := 2
  sizeof_SpiceLinkAuthMechanism := 4

/-- The `SPICE_LINK_ERR_*` enumeration. -/
inductive LinkErr where
  | OK
  | ERROR
  | INVALID_MAGIC
  | INVALID_DATA
  | VERSION_MISMATCH
  | NEED_SECURED
  | NEED_UNSECURED
  | PERMISSION_DENIED
  | BAD_CONNECTION_ID
  | CHANNEL_NOT_AVAILABLE
  deriving DecidableEq, Repr

/-- The fixed link header, fields already converted to host order. -/
structure SpiceLinkHeader where
  magic : Nat
  major_version : Nat
  minor_version : Nat
  size : Nat
  deriving DecidableEq, Repr

/-- The link message: its fixed fields and `raw`, the bytes of the whole payload
buffer of `link_header.size` bytes, in which the capability words lie at
`caps_offset`. -/
structure SpiceLinkMess where
  connection_id : Nat
  channel_type : Nat
  channel_id : Nat
  num_common_caps : Nat
  num_channel_caps : Nat
  caps_offset : Nat
  raw : List Nat
  deriving DecidableEq, Repr

/-- A stream: `RedStream` is a collaborator; `writable` tells whether
`red_stream_write_all` succeeds on it. -/
structure RedStream where
  id : Nat
  is_ssl : Bool
  writable : Bool
  af_unix : Bool
  deriving DecidableEq, Repr

/-- The ticketing material of a link (`TicketInfo`): whether the big number and
the RSA key are allocated, the key size and the encrypted ticket read so far. -/
structure TicketInfo where
  bn : Bool
  rsa : Bool
  rsa_size : Nat
  encrypted_data : List Nat
  deriving DecidableEq, Repr

/-- Per-connection handshake state (`RedLinkInfo`). -/
structure RedLinkInfo where
  stream : Option RedStream
  link_header : SpiceLinkHeader
  link_mess : Option SpiceLinkMess
  tiTicketing : TicketInfo
  auth_mechanism : Nat
  skip_auth : Bool
  deriving DecidableEq, Repr

/-- Capabilities of a channel or of a peer (`RedChannelCapabilities`). -/
structure RedChannelCapabilities where
  common_caps : List Nat
  caps : List Nat
  deriving DecidableEq, Repr

/-- A registered channel: its type, id and local capabilities. -/
structure RedChannel where
  type : Nat
  id : Nat
  local_caps : RedChannelCapabilities
  deriving DecidableEq, Repr

/-- The handler a `red_stream_async_read` continues with. -/
inductive ReadThen where
  | reds_handle_read_magic_done
  | reds_handle_read_header_done
  | reds_handle_read_link_done
  | reds_handle_auth_mechanism
  | reds_handle_ticket
  deriving DecidableEq, Repr

/-- Items queued on the pipe of a control channel client. -/
inductive PipeItem where
  | MAIN_INIT (connection_id : Nat)
  | MAIN_NAME
  | MAIN_UUID
  | MIGRATE_DST_SEAMLESS_ACK
  | MIGRATE_DST_SEAMLESS_NACK
  | MIGRATE_BEGIN
  | MIGRATE_BEGIN_SEAMLESS
  | MIGRATE_END
  | MIGRATE_CANCEL
  | MIGRATE_SWITCH_HOST
  deriving DecidableEq, Repr

/-- Verdicts of the agent message filter (`AgentMsgFilterResult`). -/
inductive AgentMsgFilterResult where
  | OK
  | DISCARD
  | PROTO_ERROR
  | MONITORS_CONFIG
  deriving DecidableEq, Repr

/-- An agent message filter (`AgentMsgFilter`); a zeroed filter has verdict `OK`. -/
structure AgentMsgFilter where
  msg_data_to_read : Nat := 0
  result : AgentMsgFilterResult := AgentMsgFilterResult.OK
  copy_paste_enabled : Bool := false
  file_xfer_enabled : Bool := false
  use_client_monitors_config : Bool := false
  discard_all : Bool := false
  deriving DecidableEq, Repr

/-- States of the agent reader (`VDIPortReadStates`). -/
inductive VDIPortReadStates where
  | READ_HEADER
  | GET_BUFF
  | READ_DATA
  deriving DecidableEq, Repr

/-- A read buffer (`RedVDIReadBuf`): `len` is its planned length, `data` the bytes
stored in it so far, from its start. -/
structure RedVDIReadBuf where
  len : Nat
  data : List Nat
  deriving DecidableEq, Repr

/-- Types of the pipe items `main_channel_client_send_item` handles; `other` is any
type its switch has no case for. -/
inductive MainPipeItemType where
  | CHANNELS_LIST
  | PING
  | MOUSE_MODE
  | AGENT_DISCONNECTED
  | AGENT_TOKEN
  | AGENT_DATA
  | MIGRATE_DATA
  | INIT
  | NOTIFY
  | MIGRATE_BEGIN
  | MIGRATE_BEGIN_SEAMLESS
  | MULTI_MEDIA_TIME
  | MIGRATE_SWITCH_HOST
  | NAME
  | UUID
  | AGENT_CONNECTED_TOKENS
  | REGISTERED_CHANNEL
  | other
  deriving DecidableEq, Repr

/-- Calls into collaborators, in program order. -/
inductive Event where
  /-- Written by `reds_send_link_error`: a link header, then a zeroed reply carrying `e`. -/
  | send_link_error (e : LinkErr)
  /-- Written by `reds_send_link_result`: the four bytes of `e`. -/
  | send_link_result (e : LinkErr)
  /-- The header and `SpiceLinkReply` written by `reds_send_link_ack`. -/
  | send_link_ack (error : LinkErr) (num_common_caps num_channel_caps : Nat) (with_key : Bool)
  /-- One capability word written after the link ack. -/
  | write_cap (word : Nat)
  | red_channel_set_common_cap (type id cap : Nat)
  | rsa_generate_key
  /-- Allocation of the link message by `g_malloc`. -/
  | malloc_link_mess (size : Nat)
  | async_read (nbytes : Nat) (next : ReadThen)
  /-- Capability word `i` of the payload is converted in place. -/
  | cap_from_le (i : Nat)
  /-- Capability word `index` of the payload is read and tested for a bit. -/
  | cap_test (index : Nat)
  | sasl_start_auth
  | stream_remove_watch
  | stream_free (stream : RedStream)
  /-- Call of `reds_info_new_channel`. -/
  | info_new_channel (connection_id type id : Nat)
  /-- Call of `red_channel_connect`, reached through `reds_channel_do_link`. -/
  | channel_connect (type id : Nat) (client : Nat) (stream : RedStream) (migration : Bool)
      (caps : RedChannelCapabilities)
  /-- Call of `main_channel_link`. -/
  | main_channel_link (client : Nat) (stream : Option RedStream) (connection_id : Nat)
      (mig_target : Bool) (caps : RedChannelCapabilities)
  /-- Creation of the channels of the stream devices by `reds_late_initialization`. -/
  | late_initialization
  | char_device_client_remove (client : Nat)
  | red_client_destroy (client : Nat)
  /-- The callback `migrate_connect_complete` or `migrate_end_complete` of the
  migration interface. -/
  | migrate_complete_callback (connect : Bool)
  | mig_timer_cancel
  | start_net_test (client : Nat) (ping : Bool)
  /-- The warning of a failed `g_warn_if_fail`. -/
  | g_warn_if_fail
  | main_channel_registered_new_channel (type id : Nat)
  | main_channel_migrate_src_complete (success : Bool)
  | main_channel_migrate_connect (try_seamless : Bool)
  | main_channel_migrate_cancel_wait
  | red_client_migrate
  | mig_timer_start
  /-- Call of `vdi_port_read_buf_process` on a completed buffer, with the state the
  reader is in at the call. -/
  | vdi_port_read_buf_process (read_state : VDIPortReadStates) (buf : RedVDIReadBuf)
  /-- The buffer `VD_AGENT_CLIENT_DISCONNECTED` is added to the agent's write queue. -/
  | agent_write_client_disconnected
  | red_char_device_wakeup
  | red_char_device_reset
  | red_char_device_restore
  /-- Call of `state` of the agent interface. -/
  | sif_state (connected : Nat)
  | reds_update_mouse_mode
  | main_channel_push_agent_disconnected
  | main_channel_client_push_agent_data (client : Nat) (data : List Nat)
  | reds_send_device_display_info
  /-- Call of `reds_client_monitors_config` with the bytes of the configuration. -/
  | reds_client_monitors_config (config : List Nat)
  | red_channel_client_disconnect (client : Nat)
  | red_channel_warning
  /-- The message for an item of this type is marshalled, which starts with
  `init_send_data`. -/
  | marshall_item (type : MainPipeItemType)
  | begin_send_message
  deriving DecidableEq, Repr

/-- The configured ticket: the password as the bytes of its character array, and
the expiration time in seconds. -/
structure TicketAuthentication where
  password : List Nat
  expiration_time : Int
  deriving DecidableEq, Repr

/-- One entry of the per-channel security list. -/
structure ChannelSecurityOptions where
  channel_id : Nat
  options : Nat
  deriving DecidableEq, Repr

/-- The part of `RedServerConfig` the handshake reads. -/
structure RedServerConfig where
  default_channel_security : Nat
  channels_security : List ChannelSecurityOptions
  sasl_enabled : Bool
  ticketing_enabled : Bool
  taTicket : TicketAuthentication
  spice_name_set : Bool
  spice_uuid_is_set : Bool
  exit_on_disconnect : Bool
  agent_copypaste : Bool := true
  agent_file_xfer : Bool := true
  /-- Whether `mig_spice`, the migration destination, is set. -/
  mig_spice_set : Bool := false
  deriving DecidableEq, Repr

/-- The control channel client of a client: its connection id, its migration
flags and its pipe (newest item last). -/
structure MainChannelClient where
  connection_id : Nat
  seamless_mig_dst : Bool
  pipe : List PipeItem
  mig_wait_connect : Bool := false
  mig_connect_ok : Bool := false
  mig_wait_prev_complete : Bool := false
  mig_wait_prev_try_seamless : Bool := false
  /-- Result of `test_remote_cap(SPICE_MAIN_CAP_SEMI_SEAMLESS_MIGRATE)`. -/
  cap_semi_seamless_migrate : Bool := false
  /-- Result of `test_remote_cap(SPICE_MAIN_CAP_NAME_AND_UUID)`. -/
  cap_name_and_uuid : Bool := false
  init_sent : Bool := false
  initial_channels_list_sent : Bool := false
  ping_id : Nat := 0
  deriving DecidableEq, Repr

/-- A client; `ptr` stands for the address of the `RedClient`. -/
structure RedClient where
  ptr : Nat
  during_target_migrate : Bool
  seamless_migrate : Bool
  disconnecting : Bool
  mcc : MainChannelClient
  deriving DecidableEq, Repr

/-- A link waiting for the migration handshake (`RedsMigPendingLink`). -/
structure RedsMigPendingLink where
  link_msg : SpiceLinkMess
  stream : Option RedStream
  deriving DecidableEq, Repr

/-- The pending links of one migration-target client (`RedsMigTargetClient`);
`client` is the address of its `RedClient`. -/
structure RedsMigTargetClient where
  client : Nat
  pending_links : List RedsMigPendingLink
  deriving DecidableEq, Repr

/-- Where `receive_pos` points: nowhere, `off` bytes into `vdi_chunk_header`, or
`off` bytes into the data of the current read buffer. -/
inductive ReceivePos where
  | null
  | chunk_header (off : Nat)
  | read_buf (off : Nat)
  deriving DecidableEq, Repr

/-- The agent part of the migration data (`SpiceMigrateDataMain`): `agent2client`
and `client2agent` fields are prefixed `a2c_` and `c2a_`; `msg_header_partial` is
the data `msg_header_ptr` refers to. The filter verdicts travel as one byte each. -/
structure SpiceMigrateDataMain where
  agent_base_connected : Bool
  client_agent_started : Bool
  a2c_chunk_header_size : Nat
  a2c_chunk_header : List Nat
  a2c_msg_header_done : Bool
  a2c_msg_header_partial_len : Nat
  a2c_msg_header_partial : List Nat
  a2c_msg_remaining : Nat
  a2c_msg_filter_result : AgentMsgFilterResult
  c2a_msg_remaining : Nat
  c2a_msg_filter_result : AgentMsgFilterResult
  deriving DecidableEq, Repr

/-- The private state of the agent device (`RedCharDeviceVDIPortPrivate`), zeroed
when nothing else is given; `vdi_chunk_header` holds the raw bytes of the chunk
header. -/
structure RedCharDeviceVDIPortPrivate where
  agent_attached : Bool := false
  plug_generation : Nat := 0
  client_agent_started : Bool := false
  agent_supports_graphics_device_info : Bool := false
  write_filter : AgentMsgFilter := {}
  num_read_buf : Nat := 0
  read_state : VDIPortReadStates := VDIPortReadStates.READ_HEADER
  message_receive_len : Nat := 0
  receive_pos : ReceivePos := ReceivePos.null
  receive_len : Nat := 0
  current_read_buf : Option RedVDIReadBuf := none
  read_filter : AgentMsgFilter := {}
  vdi_chunk_header : List Nat := []
  mig_data : Option SpiceMigrateDataMain := none
  deriving DecidableEq, Repr

/-- The part of `RedsState` used by the link handlers. -/
structure RedsState where
  config : RedServerConfig
  clients : List RedClient
  channels : List RedChannel
  main_channel : Option RedChannel
  mig_target_clients : List RedsMigTargetClient
  mig_inprogress : Bool
  mig_wait_connect : Bool
  mig_wait_disconnect : Bool
  mig_wait_disconnect_clients : List Nat
  migration_interface : Bool
  dst_do_seamless_migrate : Bool
  allow_multiple_clients : Bool
  late_initialization_done : Bool
  vdagent : Bool
  seamless_migration_enabled : Bool := false
  expect_migrate : Bool := false
  /-- The private state of `agent_dev`. -/
  agent_dev : RedCharDeviceVDIPortPrivate := {}
  /-- The bytes held by the buffer `client_monitors_config`. -/
  client_monitors_config : List Nat := []
  /-- What `reds_use_client_monitors_config` returns; the QXL instances that decide
  it are not part of this state. -/
  use_client_monitors_config : Bool := false
  /-- Whether `mig_timer` is armed: started and neither cancelled nor fired since. -/
  mig_timer_armed : Bool := false
  src_do_seamless_migrate : Bool := false
  /-- What `reds_main_channel_connected` returns. -/
  main_channel_connected : Bool := false
  /-- What `red_channel_is_waiting_for_migrate_data` returns for the control channel. -/
  waiting_for_migrate_data : Bool := false
  deriving DecidableEq, Repr

/-- Ways the process stops inside a handler. -/
inductive Halt where
  | assert_failed
  | exited
  /-- Every supplied output of `rand()` was 0: the loop drawing a connection id goes on. -/
  | rand_loop
  /-- Memory is used through a pointer that is null or was freed. -/
  | use_after_free
  deriving DecidableEq, Repr

/-- What a link handler leaves behind: the server state, the link (`none` once
`reds_link_free` has released it) and the calls it made. -/
structure LinkStep where
  reds : RedsState
  link : Option RedLinkInfo
  out : List Event
  deriving DecidableEq, Repr

/-- Events of `reds_send_link_error`. -/
def reds_send_link_error (_link : RedLinkInfo) (error : LinkErr) : List Event :=
  [Event.send_link_error error]

/-- Events of `reds_send_link_result`. -/
def reds_send_link_result (_link : RedLinkInfo) (error : LinkErr) : List Event :=
  [Event.send_link_result error]

/-- Events of `reds_link_free`: the stream, when the link still owns one, is
freed; the link message, the ticketing material and the link itself go with it. -/
def reds_link_free (link : RedLinkInfo) : List Event :=
  match link.stream with
  | some s => [Event.stream_free s]
  | none => []

/-- A freshly allocated link message buffer of `n` bytes, its content not yet read. -/
def SpiceLinkMess.alloc (n : Nat) : SpiceLinkMess :=
  { connection_id := 0, channel_type := 0, channel_id := 0, num_common_caps := 0,
    num_channel_caps := 0, caps_offset := 0, raw := List.replicate n 0 }

/-- Embedding of `reds_handle_read_header_done`. -/
def reds_handle_read_header_done (K : ProtoConsts) (reds : RedsState) (link : RedLinkInfo) :
    LinkStep :=
  let header := link.link_header
  if header.major_version ≠ K.SPICE_VERSION_MAJOR then
    let w := if header.major_version > 0 then
      reds_send_link_error link LinkErr.VERSION_MISMATCH else []
    { reds := reds, link := none, out := w ++ reds_link_free link }
  else if header.size < K.sizeof_SpiceLinkMess ∨ header.size > 4096 then
    { reds := reds, link := none,
      out := reds_send_link_error link LinkErr.INVALID_DATA ++ reds_link_free link }
  else
    { reds := reds, link := some { link with link_mess := some (SpiceLinkMess.alloc header.size) },
      out := [Event.malloc_link_mess header.size,
              Event.async_read header.size ReadThen.reds_handle_read_link_done] }

/-- Outcomes of the calls into OpenSSL, the SASL library and the C library, and the
build flag `HAVE_SASL`: `rand_outputs` are the successive results of `rand()`,
`new_client` is the address `red_client_new` returns. The number of the control
channel capability SPICE_MAIN_CAP_NAME_AND_UUID, a constant of spice-protocol, is
kept here as well. -/
structure LinkEnv where
  HAVE_SASL : Bool
  sasl_start_ok : Bool
  rsa_new_ok : Bool
  bio_new_ok : Bool
  rsa_generate_ok : Bool
  rsa_size : Nat
  rand_outputs : List Nat
  new_client : Nat
  SPICE_MAIN_CAP_NAME_AND_UUID : Nat := 1
  deriving DecidableEq, Repr

/-- Capability word `i` of the payload: the four little-endian bytes at
`caps_offset + 4 * i` (`red_link_info_get_caps`). -/
def SpiceLinkMess.cap_word (m : SpiceLinkMess) (i : Nat) : Nat :=
  m.raw.getD (m.caps_offset + 4 * i) 0
    + 256 * m.raw.getD (m.caps_offset + 4 * i + 1) 0
    + 65536 * m.raw.getD (m.caps_offset + 4 * i + 2) 0
    + 16777216 * m.raw.getD (m.caps_offset + 4 * i + 3) 0

/-- Modelled from the spec: the helper `test_capability(caps, num_caps, cap)`, whose
code is not among the sources. Capabilities are bits of 32-bit capability words;
word `cap / 32` is read only when `num_caps` exceeds that index. -/
def test_capability (caps : Nat → Nat) (num_caps cap : Nat) : Bool × List Event :=
  let index := cap / 32
  if num_caps ≤ index then (false, [])
  else ((caps index).testBit (cap % 32), [Event.cap_test index])

/-- Embedding of `red_link_info_test_capability`. -/
def red_link_info_test_capability (m : SpiceLinkMess) (cap : Nat) : Bool × List Event :=
  test_capability m.cap_word m.num_common_caps cap

/-- Embedding of `reds_find_channel`: the first registered channel with this type and id. -/
def reds_find_channel (reds : RedsState) (type id : Nat) : Option RedChannel :=
  reds.channels.find? (fun c => c.type == type && c.id == id)

/-- Embedding of `reds_find_channel_security`. -/
def reds_find_channel_security (reds : RedsState) (id : Nat) : Option ChannelSecurityOptions :=
  reds.config.channels_security.find? (fun o => o.channel_id == id)

/-- Result of `red_stream_is_ssl` on the stream of a link. -/
def RedLinkInfo.is_ssl (link : RedLinkInfo) : Bool :=
  match link.stream with
  | some s => s.is_ssl
  | none => false

/-- Result of `red_stream_write_all` on the stream of a link. -/
def RedLinkInfo.write_ok (link : RedLinkInfo) : Bool :=
  match link.stream with
  | some s => s.writable
  | none => false

/-- Embedding of `reds_security_check`. -/
def reds_security_check (K : ProtoConsts) (reds : RedsState) (link : RedLinkInfo)
    (m : SpiceLinkMess) : Bool :=
  let security := match reds_find_channel_security reds m.channel_type with
    | some o => o.options
    | none => reds.config.default_channel_security
  (link.is_ssl && (security &&& K.SPICE_CHANNEL_SECURITY_SSL != 0)) ||
    (!link.is_ssl && (security &&& K.SPICE_CHANNEL_SECURITY_NONE != 0))

/-- Modelled from the spec: the helper behind `red_channel_set_common_cap`, whose
code is not among the sources. The array of capability words grows to hold bit
`cap`, which is set. -/
def add_capability (caps : List Nat) (cap : Nat) : List Nat :=
  let n := cap / 32
  let grown := caps ++ List.replicate (n + 1 - caps.length) 0
  grown.set n (grown.getD n 0 ||| 2 ^ (cap % 32))

/-- Embedding of `reds_channel_init_auth_caps`: the capability set on the channel. -/
def reds_channel_init_auth_caps (K : ProtoConsts) (reds : RedsState) (link : RedLinkInfo) :
    Nat :=
  if reds.config.sasl_enabled && !link.skip_auth then K.SPICE_COMMON_CAP_AUTH_SASL
  else K.SPICE_COMMON_CAP_AUTH_SPICE

/-- Embedding of `reds_send_link_ack`: whether the ack was sent, the link with its
ticketing key, and the calls made. A requested channel that is not registered is
replaced by the main channel only when the request names the main channel. -/
def reds_send_link_ack (K : ProtoConsts) (env : LinkEnv) (reds : RedsState)
    (link : RedLinkInfo) (m : SpiceLinkMess) : Except Halt (Bool × RedLinkInfo × List Event) :=
  let found : Except Halt (Option RedChannel) :=
    match reds_find_channel reds m.channel_type m.channel_id with
    | some c => Except.ok (some c)
    | none =>
      if m.channel_type ≠ K.SPICE_CHANNEL_MAIN then Except.ok none
      else match reds.main_channel with
        | none => Except.error Halt.assert_failed
        | some c => Except.ok (some c)
  match found with
  | Except.error h => Except.error h
  | Except.ok none => Except.ok (false, link, [])
  | Except.ok (some channel) =>
    let cap := reds_channel_init_auth_caps K reds link
    let ev_cap := [Event.red_channel_set_common_cap channel.type channel.id cap]
    let common := add_capability channel.local_caps.common_caps cap
    let caps := channel.local_caps.caps
    let sasl_test : Bool × List Event :=
      if reds.config.sasl_enabled then red_link_info_test_capability m K.SPICE_COMMON_CAP_AUTH_SASL
      else (false, [])
    let ack := fun (with_key : Bool) =>
      Event.send_link_ack LinkErr.OK common.length caps.length with_key
    let writes := fun (with_key : Bool) =>
      if link.write_ok then ack with_key :: (common.map Event.write_cap ++ caps.map Event.write_cap)
      else [ack with_key]
    if !reds.config.sasl_enabled || !sasl_test.1 then
      if !env.rsa_new_ok then
        Except.ok (false, { link with tiTicketing := { link.tiTicketing with rsa := false } },
          ev_cap ++ sasl_test.2)
      else
        let link1 := { link with tiTicketing := { link.tiTicketing with rsa := true } }
        if !env.bio_new_ok then Except.ok (false, link1, ev_cap ++ sasl_test.2)
        else if !env.rsa_generate_ok then
          Except.ok (false, link1, ev_cap ++ sasl_test.2 ++ [Event.rsa_generate_key])
        else
          let link2 := { link1 with
            tiTicketing := { link1.tiTicketing with rsa_size := env.rsa_size } }
          Except.ok (link.write_ok, link2,
            ev_cap ++ sasl_test.2 ++ [Event.rsa_generate_key] ++ writes true)
    else
      Except.ok (link.write_ok, link, ev_cap ++ sasl_test.2 ++ writes false)

/-- Events of `reds_get_spice_ticket`. -/
def reds_get_spice_ticket (link : RedLinkInfo) : List Event :=
  [Event.async_read link.tiTicketing.rsa_size ReadThen.reds_handle_ticket]

/-- Embedding of `reds_handle_read_link_done`, for a link whose message `m` has
been read (`link.link_mess = some m`); without a message nothing is done. -/
def reds_handle_read_link_done (K : ProtoConsts) (env : LinkEnv) (reds : RedsState)
    (link : RedLinkInfo) : Except Halt LinkStep :=
  match link.link_mess with
  | none => Except.ok { reds := reds, link := some link, out := [] }
  | some m =>
    if m.num_channel_caps > 1024 ∨ m.num_common_caps > 1024 then
      Except.ok { reds := reds, link := none,
                  out := reds_send_link_error link LinkErr.INVALID_DATA ++ reds_link_free link }
    else
      let num_caps := (m.num_common_caps + m.num_channel_caps) % 2 ^ 32
      if num_caps ≠ 0 ∧ ((num_caps * 4 + m.caps_offset) % 2 ^ 64 > link.link_header.size ∨
          m.caps_offset < K.sizeof_SpiceLinkMess) then
        Except.ok { reds := reds, link := none,
                    out := reds_send_link_error link LinkErr.INVALID_DATA ++ reds_link_free link }
      else
        let swaps := (List.range num_caps).map Event.cap_from_le
        let auth_selection :=
          red_link_info_test_capability m K.SPICE_COMMON_CAP_PROTOCOL_AUTH_SELECTION
        let pre := swaps ++ auth_selection.2
        if !reds_security_check K reds link m then
          let e := if link.is_ssl then LinkErr.NEED_UNSECURED else LinkErr.NEED_SECURED
          Except.ok { reds := reds, link := none,
                      out := pre ++ reds_send_link_error link e ++ reds_link_free link }
        else
          match reds_send_link_ack K env reds link m with
          | Except.error h => Except.error h
          | Except.ok (false, link1, ev) =>
            Except.ok { reds := reds, link := none, out := pre ++ ev ++ reds_link_free link1 }
          | Except.ok (true, link1, ev) =>
            if !auth_selection.1 then
              if reds.config.sasl_enabled && !link1.skip_auth then
                Except.ok { reds := reds, link := some link1,
                            out := pre ++ ev ++
                              reds_send_link_error link1 LinkErr.VERSION_MISMATCH }
              else
                Except.ok { reds := reds, link := some link1,
                            out := pre ++ ev ++ reds_get_spice_ticket link1 }
            else
              Except.ok { reds := reds, link := some link1,
                          out := pre ++ ev ++
                            [Event.async_read K.sizeof_SpiceLinkAuthMechanism
                              ReadThen.reds_handle_auth_mechanism] }

/-- Embedding of `reds_start_auth_sasl`. -/
def reds_start_auth_sasl (env : LinkEnv) (reds : RedsState) (link : RedLinkInfo) : LinkStep :=
  if !env.sasl_start_ok then
    { reds := reds, link := none, out := Event.sasl_start_auth :: reds_link_free link }
  else { reds := reds, link := some link, out := [Event.sasl_start_auth] }

/-- Embedding of `reds_handle_auth_mechanism`. -/
def reds_handle_auth_mechanism (K : ProtoConsts) (env : LinkEnv) (reds : RedsState)
    (link : RedLinkInfo) : LinkStep :=
  if link.auth_mechanism = K.SPICE_COMMON_CAP_AUTH_SPICE ∧ !reds.config.sasl_enabled then
    { reds := reds, link := some link, out := reds_get_spice_ticket link }
  else if env.HAVE_SASL ∧ link.auth_mechanism = K.SPICE_COMMON_CAP_AUTH_SASL then
    reds_start_auth_sasl env reds link
  else
    { reds := reds, link := none,
      out := reds_send_link_error link LinkErr.INVALID_DATA ++ reds_link_free link }

/-- Embedding of `red_channel_capabilities_init_from_link_message`. -/
def red_channel_capabilities_init_from_link_message (m : SpiceLinkMess) :
    RedChannelCapabilities :=
  { common_caps := (List.range m.num_common_caps).map m.cap_word,
    caps := (List.range m.num_channel_caps).map (fun i => m.cap_word (m.num_common_caps + i)) }

/-- Modelled from the spec: the getter of `red-client.cpp`, which is not among the
sources; it tells whether the client's migration role is target. -/
def red_client_during_migrate_at_target (client : RedClient) : Bool :=
  client.during_target_migrate

/-- Modelled from the spec: the setter of `red-client.cpp` that marks the client as
confirmed for seamless migration. -/
def red_client_set_migration_seamless (client : RedClient) : RedClient :=
  { client with seamless_migrate := true }

/-- Modelled from the spec: the lookup of `main-channel.cpp`, which resolves a
connection id to the client whose control channel client carries it. -/
def main_channel_get_client_by_link_id (reds : RedsState) (connection_id : Nat) :
    Option RedClient :=
  reds.clients.find? (fun c => c.mcc.connection_id == connection_id)

/-- The client object is written back at its address in the client list. -/
def RedsState.store_client (reds : RedsState) (client : RedClient) : RedsState :=
  { reds with clients := reds.clients.map (fun c => if c.ptr = client.ptr then client else c) }

/-- Embedding of `reds_channel_do_link`. -/
def reds_channel_do_link (channel : RedChannel) (client : RedClient) (link_msg : SpiceLinkMess)
    (stream : Option RedStream) : Except Halt (List Event) :=
  match stream with
  | none => Except.error Halt.assert_failed
  | some s =>
    Except.ok [Event.channel_connect channel.type channel.id client.ptr s
      (red_client_during_migrate_at_target client)
      (red_channel_capabilities_init_from_link_message link_msg)]

/-- Embedding of `reds_mig_target_client_find`. -/
def reds_mig_target_client_find (reds : RedsState) (client : RedClient) :
    Option RedsMigTargetClient :=
  reds.mig_target_clients.find? (fun r => r.client == client.ptr)

/-- Embedding of `reds_mig_target_client_add`. -/
def reds_mig_target_client_add (reds : RedsState) (client : RedClient) : RedsState :=
  { reds with mig_target_clients :=
      reds.mig_target_clients ++ [{ client := client.ptr, pending_links := [] }] }

/-- The record of `client` found by `reds_mig_target_client_find` gets `l` appended to
its pending links; the other records stay as they are. -/
def append_pending_link (client : Nat) (l : RedsMigPendingLink) :
    List RedsMigTargetClient → List RedsMigTargetClient
  | [] => []
  | r :: rs =>
    if r.client == client then { r with pending_links := r.pending_links ++ [l] } :: rs
    else r :: append_pending_link client l rs

/-- Embedding of `reds_mig_target_client_add_pending_link`, applied to the record
of `client`. -/
def reds_mig_target_client_add_pending_link (reds : RedsState) (client : RedClient)
    (link_msg : SpiceLinkMess) (stream : Option RedStream) : RedsState :=
  { reds with mig_target_clients :=
      (append_pending_link client.ptr { link_msg := link_msg, stream := stream }
        reds.mig_target_clients) }

/-- Embedding of `reds_mig_target_client_free`, applied to the record of `client`:
the record leaves the list and its pending links are released. -/
def reds_mig_target_client_free (reds : RedsState) (client : RedClient) : RedsState :=
  { reds with mig_target_clients :=
      reds.mig_target_clients.eraseP (fun r => r.client == client.ptr) }

/-- The loop of `reds_link_mig_target_channels` over the pending links, oldest
first: a link whose channel is not registered is skipped. -/
def link_pending_links (reds : RedsState) (client : RedClient) :
    List RedsMigPendingLink → Except Halt (List Event)
  | [] => Except.ok []
  | l :: ls =>
    match reds_find_channel reds l.link_msg.channel_type l.link_msg.channel_id with
    | none => link_pending_links reds client ls
    | some channel =>
      match reds_channel_do_link channel client l.link_msg l.stream with
      | Except.error h => Except.error h
      | Except.ok ev =>
        match link_pending_links reds client ls with
        | Except.error h => Except.error h
        | Except.ok evs => Except.ok (ev ++ evs)

/-- Embedding of `reds_link_mig_target_channels`: the returned flag, the server
state and the calls made. -/
def reds_link_mig_target_channels (reds : RedsState) (client : RedClient) :
    Except Halt (Bool × RedsState × List Event) :=
  match reds_mig_target_client_find reds client with
  | none => Except.ok (false, reds, [])
  | some mig_client =>
    match link_pending_links reds client mig_client.pending_links with
    | Except.error h => Except.error h
    | Except.ok ev => Except.ok (true, reds_mig_target_client_free reds client, ev)

/-- Embedding of `reds_on_migrate_dst_set_seamless`; `client` is the client of the
control channel client that received the request. -/
def reds_on_migrate_dst_set_seamless (K : ProtoConsts) (reds : RedsState) (client : RedClient)
    (src_version : Nat) : Except Halt (Bool × RedsState × RedClient × List Event) :=
  if reds.allow_multiple_clients ∨ src_version > K.SPICE_MIGRATION_PROTOCOL_VERSION then
    Except.ok (false, { reds with dst_do_seamless_migrate := false }, client, [])
  else
    let client1 := red_client_set_migration_seamless client
    match reds_link_mig_target_channels (reds.store_client client1) client1 with
    | Except.error h => Except.error h
    | Except.ok (r, reds2, ev) =>
      Except.ok (r, { reds2 with dst_do_seamless_migrate := r }, client1, ev)

/-- An item is added at the end of the pipe of the client's control channel client. -/
def RedClient.pipe_add (client : RedClient) (item : PipeItem) : RedClient :=
  { client with mcc := { client.mcc with pipe := client.mcc.pipe ++ [item] } }

/-- Embedding of `main_channel_client_handle_migrate_dst_do_seamless`, for the
control channel client `client.mcc`. -/
def main_channel_client_handle_migrate_dst_do_seamless (K : ProtoConsts) (reds : RedsState)
    (client : RedClient) (src_version : Nat) :
    Except Halt (RedsState × RedClient × List Event) :=
  match reds_on_migrate_dst_set_seamless K reds client src_version with
  | Except.error h => Except.error h
  | Except.ok (true, reds1, client1, ev) =>
    let client2 := ({ client1 with mcc := { client1.mcc with seamless_mig_dst := true } }
      : RedClient).pipe_add PipeItem.MIGRATE_DST_SEAMLESS_ACK
    Except.ok (reds1.store_client client2, client2, ev)
  | Except.ok (false, reds1, client1, ev) =>
    let client2 := client1.pipe_add PipeItem.MIGRATE_DST_SEAMLESS_NACK
    Except.ok (reds1.store_client client2, client2, ev)

/-- Embedding of `main_channel_client_push_init`. -/
def main_channel_client_push_init (client : RedClient) : RedClient :=
  client.pipe_add (PipeItem.MAIN_INIT client.mcc.connection_id)

/-- Embedding of `main_channel_client_migrate_dst_complete`; `n_clients` is the
number of clients of the main channel. -/
def main_channel_client_migrate_dst_complete (n_clients : Nat) (client : RedClient) :
    Except Halt RedClient :=
  if client.mcc.mig_wait_prev_complete then
    if client.mcc.mig_wait_prev_try_seamless ∧ n_clients ≠ 1 then
      Except.error Halt.assert_failed
    else
      let item := if client.mcc.mig_wait_prev_try_seamless then PipeItem.MIGRATE_BEGIN_SEAMLESS
        else PipeItem.MIGRATE_BEGIN
      let c1 := client.pipe_add item
      Except.ok { c1 with mcc := { c1.mcc with mig_wait_connect := true,
                                                mig_wait_prev_complete := false } }
  else Except.ok client

/-- Embedding of `reds_on_client_semi_seamless_migrate_complete`. -/
def reds_on_client_semi_seamless_migrate_complete (reds : RedsState) (client : RedClient) :
    Except Halt (RedsState × RedClient × List Event) :=
  let client1 := main_channel_client_push_init client
  match reds_link_mig_target_channels (reds.store_client client1) client1 with
  | Except.error h => Except.error h
  | Except.ok (_, reds2, ev) =>
    match main_channel_client_migrate_dst_complete reds2.clients.length client1 with
    | Except.error h => Except.error h
    | Except.ok client2 => Except.ok (reds2.store_client client2, client2, ev)

/-- Embedding of `reds_handle_other_links`, for a link whose message has been read. -/
def reds_handle_other_links (reds : RedsState) (link : RedLinkInfo) : Except Halt LinkStep :=
  match link.link_mess with
  | none => Except.ok { reds := reds, link := some link, out := [] }
  | some link_mess =>
    let client := if reds.main_channel.isSome then
      main_channel_get_client_by_link_id reds link_mess.connection_id else none
    match client with
    | none =>
      Except.ok { reds := reds, link := some link,
                  out := reds_send_link_result link LinkErr.BAD_CONNECTION_ID }
    | some client =>
      match reds_find_channel reds link_mess.channel_type link_mess.channel_id with
      | none =>
        Except.ok { reds := reds, link := some link,
                    out := reds_send_link_result link LinkErr.CHANNEL_NOT_AVAILABLE }
      | some channel =>
        let pre := reds_send_link_result link LinkErr.OK ++
          [Event.info_new_channel link_mess.connection_id link_mess.channel_type
            link_mess.channel_id]
        let mig_client := reds_mig_target_client_find reds client
        if red_client_during_migrate_at_target client ∧ !reds.dst_do_seamless_migrate then
          match mig_client with
          | none => Except.error Halt.assert_failed
          | some _ =>
            Except.ok
              { reds := reds_mig_target_client_add_pending_link reds client link_mess link.stream,
                link := some { link with link_mess := none, stream := none },
                out := pre }
        else
          match mig_client with
          | some _ => Except.error Halt.assert_failed
          | none =>
            match reds_channel_do_link channel client link_mess link.stream with
            | Except.error h => Except.error h
            | Except.ok ev =>
              Except.ok { reds := reds, link := some { link with stream := none },
                          out := pre ++ ev }

/-- Modelled from the spec: `agent_msg_filter_config`, whose code is not among the
sources, sets the three enable flags of a filter. -/
def agent_msg_filter_config (filter : AgentMsgFilter)
    (copy_paste file_xfer use_client_monitors_config : Bool) : AgentMsgFilter :=
  { filter with copy_paste_enabled := copy_paste, file_xfer_enabled := file_xfer,
                use_client_monitors_config := use_client_monitors_config }

/-- Modelled from the spec: `agent_msg_filter_init`, whose code is not among the
sources, gives a filter with the flags passed to it, no bytes left to skip and
verdict `OK`. -/
def agent_msg_filter_init (copy_paste file_xfer use_client_monitors_config discard_all : Bool) :
    AgentMsgFilter :=
  { agent_msg_filter_config {} copy_paste file_xfer use_client_monitors_config with
    discard_all := discard_all }

/-- Embedding of `reds_mig_cleanup`; the optional callback `migrate_end_complete`
is taken to be provided. -/
def reds_mig_cleanup (reds : RedsState) : Except Halt (RedsState × List Event) :=
  if reds.mig_inprogress then
    let done : RedsState :=
      { reds with mig_inprogress := false, mig_wait_connect := false,
                  mig_wait_disconnect := false, mig_wait_disconnect_clients := [],
                  mig_timer_armed := false }
    if reds.mig_wait_connect ∨ reds.mig_wait_disconnect then
      if !reds.migration_interface then Except.error Halt.assert_failed
      else Except.ok (done,
        [Event.migrate_complete_callback reds.mig_wait_connect, Event.mig_timer_cancel])
    else Except.ok (done, [Event.mig_timer_cancel])
  else Except.ok (reds, [])

/-- Embedding of `reds_mig_remove_wait_disconnect_client`. -/
def reds_mig_remove_wait_disconnect_client (reds : RedsState) (client : RedClient) :
    Except Halt (RedsState × List Event) :=
  let reds1 := { reds with
    mig_wait_disconnect_clients := reds.mig_wait_disconnect_clients.erase client.ptr }
  if reds1.mig_wait_disconnect_clients.isEmpty then reds_mig_cleanup reds1
  else Except.ok (reds1, [])

/-- Embedding of `reds_client_disconnect`; `none` is the null client. The removal
of the client from the agent device, when the device knows it, is recorded as a
call. -/
def reds_client_disconnect (reds : RedsState) (client : Option RedClient) :
    Except Halt (RedsState × List Event) :=
  if reds.config.exit_on_disconnect then Except.error Halt.exited
  else match client with
    | none => Except.ok (reds, [])
    | some client =>
      if client.disconnecting then Except.ok (reds, [])
      else
        let reds1 := match reds_mig_target_client_find reds client with
          | some _ => reds_mig_target_client_free reds client
          | none => reds
        let waited := if reds1.mig_wait_disconnect then
          reds_mig_remove_wait_disconnect_client reds1 client else Except.ok (reds1, [])
        match waited with
        | Except.error h => Except.error h
        | Except.ok (reds2, ev2) =>
          let reds3 := { reds2 with
            clients := reds2.clients.eraseP (fun c => c.ptr == client.ptr) }
          let ev3 := ev2 ++ [Event.char_device_client_remove client.ptr,
            Event.red_client_destroy client.ptr]
          if reds3.clients.length = 0 then
            let told := if reds3.agent_dev.agent_attached then
              [Event.agent_write_client_disconnected] else []
            let dev := { reds3.agent_dev with
              write_filter := agent_msg_filter_init reds3.config.agent_copypaste
                reds3.config.agent_file_xfer reds3.use_client_monitors_config true,
              read_filter := { reds3.agent_dev.read_filter with
                result := AgentMsgFilterResult.DISCARD, discard_all := true },
              mig_data := none }
            match reds_mig_cleanup { reds3 with agent_dev := dev } with
            | Except.error h => Except.error h
            | Except.ok (reds4, ev4) => Except.ok (reds4, ev3 ++ told ++ ev4)
          else Except.ok (reds3, ev3)

/-- The loop of `reds_disconnect` over the clients. -/
def disconnect_clients (reds : RedsState) : List RedClient → Except Halt (RedsState × List Event)
  | [] => Except.ok (reds, [])
  | c :: cs =>
    match reds_client_disconnect reds (some c) with
    | Except.error h => Except.error h
    | Except.ok (reds1, ev1) =>
      match disconnect_clients reds1 cs with
      | Except.error h => Except.error h
      | Except.ok (reds2, ev2) => Except.ok (reds2, ev1 ++ ev2)

/-- Embedding of `reds_disconnect`. -/
def reds_disconnect (reds : RedsState) : Except Halt (RedsState × List Event) :=
  match disconnect_clients reds reds.clients with
  | Except.error h => Except.error h
  | Except.ok (reds1, ev1) =>
    match reds_mig_cleanup reds1 with
    | Except.error h => Except.error h
    | Except.ok (reds2, ev2) => Except.ok (reds2, ev1 ++ ev2)

/-- Embedding of `reds_late_initialization`; the stream devices, which create their
channels here, are not part of this state. -/
def reds_late_initialization (reds : RedsState) : RedsState × List Event :=
  if reds.late_initialization_done then (reds, [])
  else ({ reds with late_initialization_done := true }, [Event.late_initialization])

/-- The client made by `red_client_new` in `reds_handle_main_link`, with the control
channel client `main_channel_link` makes for it from the capabilities of the link
message: `test_remote_cap` tests a bit of the channel capability words. -/
def main_link_client (env : LinkEnv) (link_mess : SpiceLinkMess) (connection_id : Nat)
    (mig_target : Bool) : RedClient :=
  let caps := (red_channel_capabilities_init_from_link_message link_mess).caps
  { ptr := env.new_client, during_target_migrate := mig_target,
    seamless_migrate := false, disconnecting := false,
    mcc := { connection_id := connection_id, seamless_mig_dst := false, pipe := [],
             cap_name_and_uuid := (test_capability (fun i => caps.getD i 0) caps.length
               env.SPICE_MAIN_CAP_NAME_AND_UUID).1 } }

/-- Embedding of `main_channel_client_push_name`: a client without the capability
SPICE_MAIN_CAP_NAME_AND_UUID gets nothing. -/
def main_channel_client_push_name (client : RedClient) : RedClient :=
  if !client.mcc.cap_name_and_uuid then client else client.pipe_add PipeItem.MAIN_NAME

/-- Embedding of `main_channel_client_push_uuid`: a client without the capability
SPICE_MAIN_CAP_NAME_AND_UUID gets nothing. -/
def main_channel_client_push_uuid (client : RedClient) : RedClient :=
  if !client.mcc.cap_name_and_uuid then client else client.pipe_add PipeItem.MAIN_UUID

/-- The items `reds_handle_main_link` pushes to a client that is not a migration
target: MAIN_INIT, then the name and the uuid when they are set. -/
def main_link_push_init (reds : RedsState) (client : RedClient) (mig_target : Bool) :
    RedClient :=
  if !mig_target then
    let c1 := main_channel_client_push_init client
    let c2 := if reds.config.spice_name_set then main_channel_client_push_name c1 else c1
    if reds.config.spice_uuid_is_set then main_channel_client_push_uuid c2 else c2
  else client

/-- Embedding of `reds_handle_main_link`, for a link whose message has been read.
The new client, with the control channel client `main_channel_link` creates for it,
is put at the head of the client list. -/
def reds_handle_main_link (env : LinkEnv) (reds : RedsState) (link : RedLinkInfo) :
    Except Halt LinkStep :=
  match link.link_mess, reds.main_channel with
  | none, _ => Except.ok { reds := reds, link := some link, out := [] }
  | some _, none => Except.error Halt.assert_failed
  | some link_mess, some _ =>
    let late := reds_late_initialization reds
    let dropped := if !reds.allow_multiple_clients then reds_disconnect late.1
      else Except.ok (late.1, [])
    let drawn : Except Halt (Nat × Bool) :=
      if link_mess.connection_id = 0 then
        match env.rand_outputs.find? (fun r => r != 0) with
        | some r => Except.ok (r, false)
        | none => Except.error Halt.rand_loop
      else Except.ok (link_mess.connection_id, true)
    match dropped, drawn with
    | Except.error h, _ => Except.error h
    | Except.ok _, Except.error h => Except.error h
    | Except.ok (reds2, ev2), Except.ok (connection_id, mig_target) =>
      let reds3 := { reds2 with mig_inprogress := false, mig_wait_connect := false,
                                mig_wait_disconnect := false }
      let client := main_link_client env link_mess connection_id mig_target
      let client1 := main_link_push_init reds client mig_target
      let reds4a := { reds3 with clients := client1 :: reds3.clients }
      let reds4 := if reds4a.vdagent then
        { reds4a with agent_dev := { reds4a.agent_dev with
            read_filter := { agent_msg_filter_config reds4a.agent_dev.read_filter
                reds4a.config.agent_copypaste reds4a.config.agent_file_xfer
                reds4a.use_client_monitors_config with discard_all := false },
            plug_generation := (reds4a.agent_dev.plug_generation + 1) % 2 ^ 32 } }
        else reds4a
      let reds5 := if !mig_target then reds4 else reds_mig_target_client_add reds4 client1
      let af_unix := match link.stream with
        | some s => s.af_unix
        | none => false
      Except.ok
        { reds := reds5, link := some { link with stream := none },
          out := late.2 ++ ev2 ++ reds_send_link_result link LinkErr.OK ++
            [Event.info_new_channel connection_id link_mess.channel_type link_mess.channel_id,
             Event.main_channel_link client.ptr link.stream connection_id mig_target
               (red_channel_capabilities_init_from_link_message link_mess)] ++
            (if !af_unix then [Event.start_net_test client.ptr (!mig_target)] else []) }

/-- Embedding of `reds_handle_link`. -/
def reds_handle_link (K : ProtoConsts) (env : LinkEnv) (reds : RedsState) (link : RedLinkInfo) :
    Except Halt LinkStep :=
  match link.link_mess with
  | none => Except.ok { reds := reds, link := some link, out := [] }
  | some link_mess =>
    let handled := if link_mess.channel_type = K.SPICE_CHANNEL_MAIN then
      reds_handle_main_link env reds link else reds_handle_other_links reds link
    match handled with
    | Except.error h => Except.error h
    | Except.ok step =>
      let freed := match step.link with
        | some l => reds_link_free l
        | none => []
      Except.ok { reds := step.reds, link := none,
                  out := Event.stream_remove_watch :: (step.out ++ freed) }

/-- The characters of a C string held in `bytes`: those before the first 0. -/
def cstr (bytes : List Nat) : List Nat :=
  bytes.takeWhile (fun b => b != 0)

/-- Embedding of `reds_handle_ticket`. `decrypted` is what `RSA_private_decrypt`
produced (`none` when it returned -1) and `ltime` the monotonic time in seconds.
After the terminating 0 is stored, `strcmp` and `strlen` see the characters of
`cstr`. -/
def reds_handle_ticket (K : ProtoConsts) (env : LinkEnv) (reds : RedsState) (link : RedLinkInfo)
    (decrypted : Option (List Nat)) (ltime : Int) : Except Halt LinkStep :=
  let error : Except Halt LinkStep :=
    Except.ok { reds := reds, link := none,
                out := reds_send_link_result link LinkErr.PERMISSION_DENIED ++
                  reds_link_free link }
  match decrypted with
  | none => error
  | some password =>
    if reds.config.ticketing_enabled ∧ !link.skip_auth then
      if (cstr reds.config.taTicket.password).length = 0 then error
      else if reds.config.taTicket.expiration_time < ltime then error
      else if cstr password ≠ cstr reds.config.taTicket.password then error
      else reds_handle_link K env reds link
    else reds_handle_link K env reds link

/-- A plain, writable TCP stream. -/
def sampleStream : RedStream := { id := 7, is_ssl := false, writable := true, af_unix := false }

/-- A configuration that accepts unencrypted channels, without SASL and without a ticket. -/
def sampleConfig : RedServerConfig :=
  { default_channel_security := 1, channels_security := [], sasl_enabled := false,
    ticketing_enabled := false, taTicket := { password := [], expiration_time := 0 },
    spice_name_set := false, spice_uuid_is_set := false, exit_on_disconnect := false }

/-- The main channel (type 1, id 0) without capabilities of its own. -/
def sampleMainChannel : RedChannel :=
  { type := 1, id := 0, local_caps := { common_caps := [], caps := [] } }

/-- A server with the main channel registered and no client. -/
def sampleReds : RedsState :=
  { config := sampleConfig, clients := [], channels := [sampleMainChannel],
    main_channel := some sampleMainChannel, mig_target_clients := [],
    mig_inprogress := false, mig_wait_connect := false, mig_wait_disconnect := false,
    mig_wait_disconnect_clients := [], migration_interface := false,
    dst_do_seamless_migrate := false, allow_multiple_clients := false,
    late_initialization_done := false, vdagent := false }

/-- A link on `sampleStream` with the given header and link message. -/
def sampleLink (header : SpiceLinkHeader) (m : Option SpiceLinkMess) : RedLinkInfo :=
  { stream := some sampleStream, link_header := header, link_mess := m,
    tiTicketing := { bn := true, rsa := false, rsa_size := 0, encrypted_data := [] },
    auth_mechanism := 0, skip_auth := false }

/-- OpenSSL and SASL calls that all succeed, with a 1024 bit key. -/
def sampleEnv : LinkEnv :=
  { HAVE_SASL := true, sasl_start_ok := true, rsa_new_ok := true, bio_new_ok := true,
    rsa_generate_ok := true, rsa_size := 128, rand_outputs := [0, 41], new_client := 100 }

/-- A link message for channel `(type, id)` of 18 bytes, without capabilities and
with capability offset 0. -/
def sampleMess (type id connection_id : Nat) : SpiceLinkMess :=
  { connection_id := connection_id, channel_type := type, channel_id := id,
    num_common_caps := 0, num_channel_caps := 0, caps_offset := 0,
    raw := List.replicate 18 0 }

/-- The sample server with SASL enabled. -/
def sampleRedsSasl : RedsState :=
  { sampleReds with config := { sampleConfig with sasl_enabled := true } }

/-- The sample server with ticketing enabled: password "ab", expiring at second 100. -/
def sampleRedsTicket : RedsState :=
  { sampleReds with config := { sampleConfig with
      ticketing_enabled := true,
      taTicket := { password := [97, 98, 0, 0], expiration_time := 100 } } }

/-- The display channel (type 2, id 0). -/
def sampleDisplayChannel : RedChannel :=
  { type := 2, id := 0, local_caps := { common_caps := [], caps := [] } }

/-- The sample server with the display channel registered as well. -/
def sampleRedsDisplay : RedsState :=
  { sampleReds with channels := [sampleDisplayChannel, sampleMainChannel] }

/-- A migration-target client at address `ptr` with connection id `id`, as
`reds_handle_main_link` creates it. -/
def sampleTargetClient (ptr id : Nat) : RedClient :=
  { ptr := ptr, during_target_migrate := true, seamless_migrate := false,
    disconnecting := false,
    mcc := { connection_id := id, seamless_mig_dst := false, pipe := [] } }

/-- A server on which an earlier client's seamless request was accepted, so that
`dst_do_seamless_migrate` is set, and to which a new migration-target client, at
address 101 with connection id 6, has connected since; the agent filters are as the
disconnection of the earlier client left them. -/
def staleSeamlessReds : RedsState :=
  { sampleRedsDisplay with
    clients := [sampleTargetClient 101 6],
    mig_target_clients := [{ client := 101, pending_links := [] }],
    dst_do_seamless_migrate := true,
    late_initialization_done := true,
    agent_dev :=
      { write_filter := agent_msg_filter_init true true false true,
        read_filter := { result := AgentMsgFilterResult.DISCARD, discard_all := true } } }

/-- Two pending links of client 101, for the display channel and for the main
channel, queued in this order on streams 8 and 9. -/
def samplePendingReds : RedsState :=
  { sampleRedsDisplay with
    clients := [sampleTargetClient 101 6],
    mig_target_clients :=
      [{ client := 101,
         pending_links :=
           [{ link_msg := sampleMess 2 0 6, stream := some { sampleStream with id := 8 } },
            { link_msg := sampleMess 1 0 6, stream := some { sampleStream with id := 9 } }] }] }

/-- Embedding of `main_channel_client_migrate_src_complete`: the returned flag and
the control channel client afterwards. -/
def main_channel_client_migrate_src_complete (mcc : MainChannelClient) (success : Bool) :
    Bool × MainChannelClient :=
  let semi_seamless_support := mcc.cap_semi_seamless_migrate
  let queued : Bool × List PipeItem :=
    if semi_seamless_support && mcc.mig_connect_ok then
      if success then (true, [PipeItem.MIGRATE_END])
      else (false, [PipeItem.MIGRATE_CANCEL])
    else
      if success then (false, [PipeItem.MIGRATE_SWITCH_HOST])
      else (false, [])
  (queued.1, { mcc with pipe := mcc.pipe ++ queued.2, mig_connect_ok := false,
                        mig_wait_connect := false })

/-- A control channel client of a peer that supports semi-seamless migration, whose
connection to the destination was not acknowledged. -/
def sampleSrcMcc : MainChannelClient :=
  { connection_id := 9, seamless_mig_dst := false, pipe := [],
    cap_semi_seamless_migrate := true, mig_connect_ok := false, mig_wait_connect := true }

/-- Constants, layouts and helpers of the agent protocol and of the agent message
filter that the sources use without defining them. The chunk header and the agent
message are handled as raw bytes; the functions read or write their fields. -/
structure AgentProto where
  sizeof_VDIChunkHeader : Nat
  /-- Reads `port` of a chunk header. -/
  chunk_port : List Nat → Nat
  /-- Reads `size` of a chunk header. -/
  chunk_size : List Nat → Nat
  /-- Stores `size` into a chunk header. -/
  chunk_with_size : List Nat → Nat → List Nat
  VDP_CLIENT_PORT : Nat
  VDP_SERVER_PORT : Nat
  SPICE_AGENT_MAX_DATA_SIZE : Nat
  sizeof_VDAgentMessage : Nat
  sizeof_VDAgentMonitorsConfig : Nat
  sizeof_VDAgentMonConfig : Nat
  VD_AGENT_ANNOUNCE_CAPABILITIES : Nat
  /-- Reads `type` of the agent message at the start of the bytes. -/
  message_type : List Nat → Nat
  /-- Reads `size` of the agent message at the start of the bytes. -/
  message_size : List Nat → Nat
  /-- Reads `num_of_monitors` of the monitors configuration after the message header. -/
  num_of_monitors : List Nat → Nat
  /-- The three `VD_AGENT_CLEAR_CAPABILITY` of the clipboard capabilities. -/
  clear_clipboard_caps : List Nat → List Nat
  /-- The macro `VD_AGENT_SET_CAPABILITY` for `VD_AGENT_CAP_FILE_XFER_DISABLED`. -/
  set_file_xfer_disabled : List Nat → List Nat
  /-- The macro `VD_AGENT_HAS_CAPABILITY` for `VD_AGENT_CAP_GRAPHICS_DEVICE_INFO`. -/
  has_graphics_device_info : List Nat → Bool
  /-- The function `agent_msg_filter_process_data` on the first `len` bytes. -/
  agent_msg_filter_process_data : AgentMsgFilter → List Nat → Nat →
    AgentMsgFilterResult × AgentMsgFilter

/-- Embedding of `reds_register_channel`; `spice_extra_checks` is the setting of the
build. -/
def reds_register_channel (spice_extra_checks : Bool) (reds : RedsState) (channel : RedChannel) :
    Except Halt (RedsState × List Event) :=
  let found := (reds_find_channel reds channel.type channel.id).isSome
  if spice_extra_checks && found then Except.error Halt.assert_failed
  else
    Except.ok ({ reds with channels := channel :: reds.channels },
      (if found then [Event.g_warn_if_fail] else []) ++
        [Event.main_channel_registered_new_channel channel.type channel.id])

/-- Embedding of `reds_unregister_channel`. -/
def reds_unregister_channel (reds : RedsState) (channel : RedChannel) : RedsState :=
  { reds with channels := reds.channels.erase channel }

/-- The array `used_ids` of `reds_get_free_channel_id` after its marking loop over
the channels, started from `used_ids`. -/
def mark_used_ids (type : Nat) : List RedChannel → (Nat → Bool) → Nat → Bool
  | [], used_ids => used_ids
  | channel :: rest, used_ids =>
    mark_used_ids type rest
      (if channel.type = type ∧ channel.id < 256 then
        fun n => if n = channel.id then true else used_ids n
      else used_ids)

/-- The search loop of `reds_get_free_channel_id`, at index `n` with `todo`
iterations to go. -/
def first_unused_id (used_ids : Nat → Bool) : Nat → Nat → Int
  | 0, _ => -1
  | todo + 1, n => if !used_ids n then (n : Int) else first_unused_id used_ids todo (n + 1)

/-- Embedding of `reds_get_free_channel_id`. -/
def reds_get_free_channel_id (reds : RedsState) (type : Nat) : Int :=
  first_unused_id (mark_used_ids type reds.channels (fun _ => false)) 256 0

/-- A server on which the channels (2,1), (3,2), (2,300) and (2,0) are registered. -/
def sampleRedsIds : RedsState :=
  { sampleReds with channels :=
      [⟨2, 1, ⟨[], []⟩⟩, ⟨3, 2, ⟨[], []⟩⟩, ⟨2, 300, ⟨[], []⟩⟩, ⟨2, 0, ⟨[], []⟩⟩] }

/-- The agent device as `red_char_device_vdi_port_new` makes it: zeroed, then
`red_char_device_vdi_port_init` and `red_char_device_vdi_port_constructed`. -/
def red_char_device_vdi_port_new (A : AgentProto) (reds : RedsState) :
    RedCharDeviceVDIPortPrivate :=
  { read_state := VDIPortReadStates.READ_HEADER,
    receive_pos := ReceivePos.chunk_header 0,
    receive_len := A.sizeof_VDIChunkHeader,
    vdi_chunk_header := List.replicate A.sizeof_VDIChunkHeader 0,
    write_filter := agent_msg_filter_init reds.config.agent_copypaste
      reds.config.agent_file_xfer reds.use_client_monitors_config true,
    read_filter := agent_msg_filter_init reds.config.agent_copypaste
      reds.config.agent_file_xfer reds.use_client_monitors_config true }

/-- Embedding of `reds_update_agent_properties`. -/
def reds_update_agent_properties (reds : RedsState) : RedsState :=
  { reds with agent_dev := { reds.agent_dev with
      write_filter := { reds.agent_dev.write_filter with
        copy_paste_enabled := reds.config.agent_copypaste,
        file_xfer_enabled := reds.config.agent_file_xfer },
      read_filter := { reds.agent_dev.read_filter with
        copy_paste_enabled := reds.config.agent_copypaste,
        file_xfer_enabled := reds.config.agent_file_xfer } } }

/-- What `do_spice_init` finds outside the server state. -/
structure InitEnv where
  /-- The core interface has major version `SPICE_INTERFACE_CORE_MAJOR`. -/
  core_major_ok : Bool
  timer_add_ok : Bool
  init_net_ok : Bool
  /-- After `reds_init_net`, `secure_listen_socket` is a socket. -/
  secure_listen_socket_open : Bool
  init_ssl_ok : Bool
  HAVE_SASL : Bool
  sasl_server_init_ok : Bool
  /-- The channel made by `main_channel_new`. -/
  main_channel : RedChannel
  /-- The channel made by `inputs_channel_new`. -/
  inputs_channel : RedChannel
  spice_extra_checks : Bool
  /-- The environment variable `SPICE_DEBUG_ALLOW_MC` is set. -/
  SPICE_DEBUG_ALLOW_MC : Bool

/-- Embedding of `spice_server_new`: the zeroed state with the defaults of the
configuration. Recording and statistics are left out. -/
def spice_server_new (K : ProtoConsts) : RedsState :=
  { config :=
      { default_channel_security := K.SPICE_CHANNEL_SECURITY_NONE ||| K.SPICE_CHANNEL_SECURITY_SSL,
        channels_security := [], sasl_enabled := false, ticketing_enabled := true,
        taTicket := { password := [], expiration_time := 0 },
        spice_name_set := false, spice_uuid_is_set := false, exit_on_disconnect := false,
        agent_copypaste := true, agent_file_xfer := true, mig_spice_set := false },
    clients := [], channels := [], main_channel := none, mig_target_clients := [],
    mig_inprogress := false, mig_wait_connect := false, mig_wait_disconnect := false,
    mig_wait_disconnect_clients := [], migration_interface := false,
    dst_do_seamless_migrate := false, allow_multiple_clients := false,
    late_initialization_done := false, vdagent := false,
    seamless_migration_enabled := false, expect_migrate := false }

/-- Embedding of `do_spice_init`: the returned value and the state. A failed
`spice_error` stops the process. The two channels register themselves when they
are made; the dispatcher, the statistics and the mouse mode are left out. -/
def do_spice_init (A : AgentProto) (env : InitEnv) (reds : RedsState) :
    Except Halt (Int × RedsState × List Event) :=
  if !env.core_major_ok then Except.ok (-1, reds, [])
  else
    let reds1 := reds_update_agent_properties
      { reds with agent_dev := red_char_device_vdi_port_new A reds }
    let reds2 := { reds1 with clients := [], channels := [], mig_target_clients := [],
                              mig_wait_disconnect_clients := [] }
    if !env.timer_add_ok then Except.error Halt.assert_failed
    else if !env.init_net_ok then Except.ok (-1, reds2, [])
    else if env.secure_listen_socket_open && !env.init_ssl_ok then Except.ok (-1, reds2, [])
    else if env.HAVE_SASL && !env.sasl_server_init_ok then Except.error Halt.assert_failed
    else
      match reds_register_channel env.spice_extra_checks reds2 env.main_channel with
      | Except.error h => Except.error h
      | Except.ok (reds3, ev3) =>
        match reds_register_channel env.spice_extra_checks
            { reds3 with main_channel := some env.main_channel } env.inputs_channel with
        | Except.error h => Except.error h
        | Except.ok (reds4, ev4) =>
          Except.ok (0,
            { reds4 with client_monitors_config := [],
                         allow_multiple_clients := env.SPICE_DEBUG_ALLOW_MC },
            ev3 ++ ev4)

/-- Embedding of `spice_server_init`; renderers and video codecs are left out. -/
def spice_server_init (A : AgentProto) (env : InitEnv) (reds : RedsState) :
    Except Halt (Int × RedsState × List Event) :=
  do_spice_init A env reds

/-- Embedding of `spice_server_set_seamless_migration`. -/
def spice_server_set_seamless_migration (reds : RedsState) (enable : Int) : RedsState :=
  { reds with seamless_migration_enabled := (enable != 0) && !reds.allow_multiple_clients }

/-- Embedding of `reds_mig_release`. -/
def reds_mig_release (config : RedServerConfig) : RedServerConfig :=
  { config with mig_spice_set := false }

/-- Embedding of `reds_set_migration_dest_info`; `dest` tells whether a host name
was passed. -/
def reds_set_migration_dest_info (reds : RedsState) (dest : Bool) (port secure_port : Int) :
    Bool × RedsState :=
  let reds1 := { reds with config := reds_mig_release reds.config }
  if (port = -1 ∧ secure_port = -1) ∨ dest = false then (false, reds1)
  else (true, { reds1 with config := { reds1.config with mig_spice_set := true } })

/-- Embedding of `reds_mig_started`. -/
def reds_mig_started (reds : RedsState) : Except Halt (RedsState × List Event) :=
  if !reds.config.mig_spice_set then Except.error Halt.assert_failed
  else Except.ok ({ reds with mig_inprogress := true, mig_wait_connect := true,
                              mig_timer_armed := true },
    [Event.mig_timer_start])

/-- What `spice_server_migrate_connect` learns from the control channel. -/
structure MigrateEnv where
  /-- Result of `red_channel_test_remote_cap` for
  `SPICE_MAIN_CAP_AGENT_CONNECTED_TOKENS` on the control channel. -/
  cap_agent_connected_tokens : Bool
  /-- Whether `main_channel_migrate_connect` returns a nonzero number of clients,
  given `try_seamless`. -/
  migrate_connect_started : Bool → Bool

/-- Embedding of `spice_server_migrate_connect`: the returned value, the state and
the calls made. What `main_channel_migrate_src_complete` and
`main_channel_migrate_connect` do inside the control channel is recorded as calls. -/
def spice_server_migrate_connect (env : MigrateEnv) (reds : RedsState) (dest : Bool)
    (port secure_port : Int) : Except Halt (Int × RedsState × List Event) :=
  if !reds.migration_interface then Except.error Halt.assert_failed
  else
    let ev0 := if reds.expect_migrate then [Event.main_channel_migrate_src_complete false]
      else []
    let set := reds_set_migration_dest_info reds dest port secure_port
    if !set.1 then Except.ok (-1, set.2, ev0 ++ [Event.migrate_complete_callback true])
    else
      let reds1 := { set.2 with expect_migrate := true }
      let try_seamless := reds1.seamless_migration_enabled && env.cap_agent_connected_tokens
      let ev1 := ev0 ++ [Event.main_channel_migrate_connect try_seamless]
      if env.migrate_connect_started try_seamless then
        match reds_mig_started reds1 with
        | Except.error h => Except.error h
        | Except.ok (reds2, ev2) => Except.ok (0, reds2, ev1 ++ ev2)
      else
        let reds2 := if reds1.clients.isEmpty then
          { reds1 with config := reds_mig_release reds1.config } else reds1
        Except.ok (0, reds2, ev1 ++ [Event.migrate_complete_callback true])

/-- The agent protocol with sizes 8, 20, 8 and 20 for the chunk header, the agent
message, the monitors configuration and one monitor, 2048 bytes per buffer, ports 1
and 2, and a filter that forwards everything. Fields are read as one byte each. -/
def sampleAgent : AgentProto :=
  { sizeof_VDIChunkHeader := 8,
    chunk_port := fun h => h.getD 0 0,
    chunk_size := fun h => h.getD 4 0,
    chunk_with_size := fun h n => h.set 4 n,
    VDP_CLIENT_PORT := 1, VDP_SERVER_PORT := 2,
    SPICE_AGENT_MAX_DATA_SIZE := 2048,
    sizeof_VDAgentMessage := 20, sizeof_VDAgentMonitorsConfig := 8,
    sizeof_VDAgentMonConfig := 20,
    VD_AGENT_ANNOUNCE_CAPABILITIES := 6,
    message_type := fun m => m.getD 4 0,
    message_size := fun m => m.getD 16 0,
    num_of_monitors := fun m => m.getD 20 0,
    clear_clipboard_caps := fun m => m,
    set_file_xfer_disabled := fun m => m,
    has_graphics_device_info := fun _ => false,
    agent_msg_filter_process_data := fun f _ _ => (AgentMsgFilterResult.OK, f) }

/-- An environment in which every step of the initialisation succeeds and the
variable `SPICE_DEBUG_ALLOW_MC` is set. -/
def sampleInitEnvMC : InitEnv :=
  { core_major_ok := true, timer_add_ok := true, init_net_ok := true,
    secure_listen_socket_open := false, init_ssl_ok := true, HAVE_SASL := true,
    sasl_server_init_ok := true, main_channel := sampleMainChannel,
    inputs_channel := { type := 3, id := 0, local_caps := { common_caps := [], caps := [] } },
    spice_extra_checks := false, SPICE_DEBUG_ALLOW_MC := true }

/-- The assertion of `reds_mig_cleanup` holds in this state: a migration in progress
that waits for the connection or for the disconnection has a migration interface. -/
def reds_mig_cleanup_asserts (reds : RedsState) : Bool :=
  !(reds.mig_inprogress && (reds.mig_wait_connect || reds.mig_wait_disconnect)) ||
    reds.migration_interface

/-- The sample server set to exit when a client disconnects. -/
def sampleRedsExit : RedsState :=
  { sampleReds with config := { sampleConfig with exit_on_disconnect := true } }

/-- Subtraction of two `size_t` values, which wraps around at 64 bits. -/
def size_t_sub (x y : Nat) : Nat :=
  (x % 2 ^ 64 + 2 ^ 64 - y % 2 ^ 64) % 2 ^ 64

/-- The constant `MAX_MONITOR_CONFIG_SIZE` of `reds_on_main_agent_monitors_config`,
an `unsigned int`. -/
def MAX_MONITOR_CONFIG_SIZE (A : AgentProto) : Nat :=
  (A.sizeof_VDAgentMonitorsConfig + 256 * A.sizeof_VDAgentMonConfig) % 2 ^ 32

/-- Embedding of `reds_on_main_agent_monitors_config` for the fragment `message` of
the control channel client of `client`: the state and the calls made. The buffer
`client_monitors_config` is the list of its bytes, its offset their number. -/
def reds_on_main_agent_monitors_config (A : AgentProto) (reds : RedsState) (client : Nat)
    (message : List Nat) : RedsState × List Event :=
  let cmc := reds.client_monitors_config
  let overflow : RedsState × List Event :=
    ({ reds with client_monitors_config := [] }, [Event.red_channel_client_disconnect client])
  if size_t_sub (A.sizeof_VDAgentMessage + MAX_MONITOR_CONFIG_SIZE A) cmc.length
      < message.length then overflow
  else
    let cmc1 := cmc ++ message
    let reds1 := { reds with client_monitors_config := cmc1 }
    if A.sizeof_VDAgentMessage > cmc1.length then (reds1, [])
    else if A.message_size cmc1 > MAX_MONITOR_CONFIG_SIZE A then overflow
    else if A.message_size cmc1 > size_t_sub cmc1.length A.sizeof_VDAgentMessage then (reds1, [])
    else if A.message_size cmc1 < A.sizeof_VDAgentMonitorsConfig then overflow
    else
      let max_monitors :=
        (size_t_sub (A.message_size cmc1) A.sizeof_VDAgentMonitorsConfig
          / A.sizeof_VDAgentMonConfig) % 2 ^ 32
      if A.num_of_monitors cmc1 > max_monitors then overflow
      else
        ({ reds with client_monitors_config := [] },
         [Event.reds_client_monitors_config (cmc1.drop A.sizeof_VDAgentMessage)])

/-- The state after the fragments have been passed, one call each, in their order,
with the calls made. -/
def monitors_config_fragments (A : AgentProto) (client : Nat) :
    RedsState → List (List Nat) → RedsState × List Event
  | reds, [] => (reds, [])
  | reds, message :: rest =>
    let step := reds_on_main_agent_monitors_config A reds client message
    let more := monitors_config_fragments A client step.1 rest
    (more.1, step.2 ++ more.2)

/-- An agent message for `sampleAgent`: a header of 20 bytes with size 28, then a
monitors configuration with one monitor. -/
def sampleMonitorsMessage : List Nat :=
  List.replicate 16 0 ++ [28, 0, 0, 0] ++ [1] ++ List.replicate 27 0

/-- The readable data of the agent device: the pieces in which its bytes become
available, first piece first. An empty piece stands for a moment at which nothing
can be read. -/
abbrev VDIPortDevice := List (List Nat)

/-- The function `read` of the agent interface, asked for at most `len` bytes: it
gives bytes of the first piece only. -/
def sif_read (device : VDIPortDevice) (len : Nat) : List Nat × VDIPortDevice :=
  match device with
  | [] => ([], [])
  | piece :: rest =>
    if len = 0 then ([], device)
    else if piece.length ≤ len then (piece, rest)
    else (piece.take len, piece.drop len :: rest)

/-- Embedding of `vdi_port_get_read_buf`, with `vdi_read_buf_new`. -/
def vdi_port_get_read_buf (dev : RedCharDeviceVDIPortPrivate) :
    Option RedVDIReadBuf × RedCharDeviceVDIPortPrivate :=
  if dev.num_read_buf ≥ 5 then (none, dev)
  else (some { len := 0, data := [] },
        { dev with num_read_buf := (dev.num_read_buf + 1) % 2 ^ 32 })

/-- Embedding of `vdi_port_read_buf_free`, which runs when the last reference to a
read buffer is dropped. -/
def vdi_port_read_buf_free (dev : RedCharDeviceVDIPortPrivate) :
    RedCharDeviceVDIPortPrivate × List Event :=
  ({ dev with num_read_buf := (dev.num_read_buf + 2 ^ 32 - 1) % 2 ^ 32 },
   if dev.agent_attached then [Event.red_char_device_wakeup] else [])

/-- Embedding of `vdi_port_read_buf_process`. -/
def vdi_port_read_buf_process (A : AgentProto) (dev : RedCharDeviceVDIPortPrivate)
    (buf : RedVDIReadBuf) : AgentMsgFilterResult × RedCharDeviceVDIPortPrivate :=
  if A.chunk_port dev.vdi_chunk_header = A.VDP_CLIENT_PORT then
    let r := A.agent_msg_filter_process_data dev.read_filter buf.data buf.len
    (r.1, { dev with read_filter := r.2 })
  else if A.chunk_port dev.vdi_chunk_header = A.VDP_SERVER_PORT then
    (AgentMsgFilterResult.DISCARD, dev)
  else (AgentMsgFilterResult.PROTO_ERROR, dev)

/-- Embedding of `reds_adjust_agent_capabilities` on the bytes of a buffer: the
state, the bytes afterwards and the calls made. -/
def reds_adjust_agent_capabilities (A : AgentProto) (reds : RedsState) (message : List Nat) :
    RedsState × List Nat × List Event :=
  if A.message_type message ≠ A.VD_AGENT_ANNOUNCE_CAPABILITIES then (reds, message, [])
  else
    let m1 := if !reds.config.agent_copypaste then A.clear_clipboard_caps message else message
    let m2 := if !reds.config.agent_file_xfer then A.set_file_xfer_disabled m1 else m1
    ({ reds with agent_dev := { reds.agent_dev with
         agent_supports_graphics_device_info := A.has_graphics_device_info m2 } },
     m2, [Event.reds_send_device_display_info])

/-- Embedding of `reds_reset_vdp`. Dropping the current read buffer frees it. -/
def reds_reset_vdp (A : AgentProto) (reds : RedsState) : RedsState × List Event :=
  let dev0 := reds.agent_dev
  let dev1 : RedCharDeviceVDIPortPrivate :=
    { dev0 with read_state := VDIPortReadStates.READ_HEADER,
                receive_pos := ReceivePos.chunk_header 0,
                receive_len := A.sizeof_VDIChunkHeader,
                message_receive_len := 0 }
  let freed : RedCharDeviceVDIPortPrivate × List Event :=
    match dev1.current_read_buf with
    | some _ =>
      let f := vdi_port_read_buf_free dev1
      ({ f.1 with current_read_buf := none }, f.2)
    | none => (dev1, [])
  let dev2 : RedCharDeviceVDIPortPrivate :=
    { freed.1 with
      read_filter := agent_msg_filter_init reds.config.agent_copypaste
        reds.config.agent_file_xfer reds.use_client_monitors_config true,
      write_filter := { freed.1.write_filter with
        result := AgentMsgFilterResult.DISCARD, discard_all := true },
      client_agent_started := false,
      agent_supports_graphics_device_info := false,
      agent_attached := false }
  ({ reds with agent_dev := dev2 },
   freed.2 ++ [Event.red_char_device_reset, Event.sif_state 0])

/-- Embedding of `reds_agent_remove`. -/
def reds_agent_remove (A : AgentProto) (reds : RedsState) : RedsState × List Event :=
  let r := reds_reset_vdp A reds
  ({ r.1 with vdagent := false },
   r.2 ++ [Event.reds_update_mouse_mode] ++
     (if reds.main_channel_connected && !reds.waiting_for_migrate_data then
        [Event.main_channel_push_agent_disconnected] else []))

/-- What one call of the agent reader leaves behind: the server state, what is
still readable from the device, the buffer returned and the calls made. -/
structure ReadOut where
  reds : RedsState
  device : VDIPortDevice
  ret : Option RedVDIReadBuf
  out : List Event
  deriving DecidableEq, Repr

/-- One turn of the loop of `vdi_port_read_one_msg_from_device`: the loop goes on,
or the function returns. -/
inductive ReadStep where
  | again (reds : RedsState) (device : VDIPortDevice) (out : List Event)
  | done (result : ReadOut)
  deriving DecidableEq, Repr

/-- The pointer `receive_pos` moved on by `n` bytes. -/
def ReceivePos.advance (pos : ReceivePos) (n : Nat) : ReceivePos :=
  match pos with
  | ReceivePos.null => ReceivePos.null
  | ReceivePos.chunk_header off => ReceivePos.chunk_header (off + n)
  | ReceivePos.read_buf off => ReceivePos.read_buf (off + n)

/-- The bytes a read of the device stores through `receive_pos`: into the chunk
header, over those that were there, or into the current read buffer, after the
bytes before the position. A read through a null pointer, which the states the
device reaches never make, stores nothing. -/
def store_received (dev : RedCharDeviceVDIPortPrivate) (bytes : List Nat) :
    RedCharDeviceVDIPortPrivate :=
  match dev.receive_pos with
  | ReceivePos.chunk_header off =>
    { dev with vdi_chunk_header :=
        dev.vdi_chunk_header.take off ++ bytes ++ dev.vdi_chunk_header.drop (off + bytes.length) }
  | ReceivePos.read_buf off =>
    match dev.current_read_buf with
    | some buf => { dev with current_read_buf := some { buf with data := buf.data.take off ++ bytes } }
    | none => dev
  | ReceivePos.null => dev

/-- The reader after a read of the device gave `bytes`: they are stored through
`receive_pos` and `receive_len` is reduced by their number. -/
def receive_bytes (dev : RedCharDeviceVDIPortPrivate) (bytes : List Nat) :
    RedCharDeviceVDIPortPrivate :=
  { store_received dev bytes with receive_len := dev.receive_len - bytes.length }

/-- The statement `receive_pos += n` of the reader. -/
def advance_receive_pos (dev : RedCharDeviceVDIPortPrivate) (n : Nat) :
    RedCharDeviceVDIPortPrivate :=
  { dev with receive_pos := dev.receive_pos.advance n }

/-- The reader once the current read buffer is full: the buffer is taken out of the
device and the next state chosen, `READ_HEADER` when the chunk is through and
`GET_BUFF` when more of it is to come. -/
def read_buf_filled (A : AgentProto) (dev : RedCharDeviceVDIPortPrivate) :
    RedCharDeviceVDIPortPrivate :=
  let dev2 : RedCharDeviceVDIPortPrivate :=
    { dev with current_read_buf := none, receive_pos := ReceivePos.null }
  if dev2.message_receive_len = 0 then
    { dev2 with read_state := VDIPortReadStates.READ_HEADER,
                receive_pos := ReceivePos.chunk_header 0,
                receive_len := A.sizeof_VDIChunkHeader }
  else { dev2 with read_state := VDIPortReadStates.GET_BUFF }

/-- The switch on the verdict of the filter at the end of the case
`VDI_PORT_READ_STATE_READ_DATA`, for the full buffer `dispatch_buf`. -/
def dispatch_verdict (A : AgentProto) (reds : RedsState) (device : VDIPortDevice)
    (out : List Event) (dispatch_buf : RedVDIReadBuf) (verdict : AgentMsgFilterResult) :
    ReadStep :=
  match verdict with
  | AgentMsgFilterResult.OK =>
    let a := reds_adjust_agent_capabilities A reds dispatch_buf.data
    ReadStep.done ⟨a.1, device, some { dispatch_buf with data := a.2.1 }, out ++ a.2.2⟩
  | AgentMsgFilterResult.PROTO_ERROR =>
    let r := reds_agent_remove A reds
    let f := vdi_port_read_buf_free r.1.agent_dev
    ReadStep.again { r.1 with agent_dev := f.1 } device (out ++ r.2 ++ f.2)
  | _ =>
    let f := vdi_port_read_buf_free reds.agent_dev
    ReadStep.again { reds with agent_dev := f.1 } device (out ++ f.2)

/-- The end of the case `VDI_PORT_READ_STATE_READ_DATA`, reached when the current
read buffer `dispatch_buf` has been filled: the reader moves on to the next state
and the buffer goes through the filter. -/
def dispatch_read_buf (A : AgentProto) (reds : RedsState) (device : VDIPortDevice)
    (out : List Event) (dispatch_buf : RedVDIReadBuf) : ReadStep :=
  let dev3 := read_buf_filled A reds.agent_dev
  let p := vdi_port_read_buf_process A dev3 dispatch_buf
  dispatch_verdict A { reds with agent_dev := p.2 } device
    (out ++ [Event.vdi_port_read_buf_process dev3.read_state dispatch_buf]) dispatch_buf p.1

/-- The case `VDI_PORT_READ_STATE_READ_DATA` of the reader. A filled buffer that is
not there, which the states the device reaches exclude, ends the call. -/
def read_data_case (A : AgentProto) (reds : RedsState) (device : VDIPortDevice)
    (out : List Event) : ReadStep :=
  let dev := reds.agent_dev
  let rd := sif_read device dev.receive_len
  if rd.1.length = 0 then ReadStep.done ⟨reds, rd.2, none, out⟩
  else
    let dev1 := receive_bytes dev rd.1
    if dev1.receive_len ≠ 0 then
      ReadStep.again { reds with agent_dev := advance_receive_pos dev1 rd.1.length } rd.2 out
    else
      match dev1.current_read_buf with
      | none => ReadStep.done ⟨{ reds with agent_dev := dev1 }, rd.2, none, out⟩
      | some dispatch_buf =>
        dispatch_read_buf A { reds with agent_dev := dev1 } rd.2 out dispatch_buf

/-- The reader once `buf` has been got for the current chunk: the assignments
between the cases `GET_BUFF` and `READ_DATA`. -/
def read_buf_taken (A : AgentProto) (dev : RedCharDeviceVDIPortPrivate)
    (buf : RedVDIReadBuf) : RedCharDeviceVDIPortPrivate :=
  let receive_len := min dev.message_receive_len A.SPICE_AGENT_MAX_DATA_SIZE
  { dev with
    current_read_buf := some { buf with len := receive_len },
    receive_pos := ReceivePos.read_buf 0,
    receive_len := receive_len,
    message_receive_len := dev.message_receive_len - receive_len,
    read_state := VDIPortReadStates.READ_DATA }

/-- The case `VDI_PORT_READ_STATE_GET_BUFF` of the reader, which falls through to
the case `READ_DATA`. -/
def get_buff_case (A : AgentProto) (reds : RedsState) (device : VDIPortDevice)
    (out : List Event) : ReadStep :=
  let g := vdi_port_get_read_buf reds.agent_dev
  match g.1 with
  | none =>
    ReadStep.done ⟨{ reds with agent_dev := { g.2 with current_read_buf := none } },
      device, none, out⟩
  | some buf =>
    read_data_case A { reds with agent_dev := read_buf_taken A g.2 buf } device out

/-- The reader once the chunk header is complete: the assignments between the cases
`READ_HEADER` and `GET_BUFF`. -/
def chunk_header_read (A : AgentProto) (dev : RedCharDeviceVDIPortPrivate) :
    RedCharDeviceVDIPortPrivate :=
  { dev with
    message_receive_len := A.chunk_size dev.vdi_chunk_header % 2 ^ 32,
    read_state := VDIPortReadStates.GET_BUFF }

/-- The case `VDI_PORT_READ_STATE_READ_HEADER` of the reader, which falls through
to the case `GET_BUFF`. -/
def read_header_case (A : AgentProto) (reds : RedsState) (device : VDIPortDevice)
    (out : List Event) : ReadStep :=
  let dev := reds.agent_dev
  let rd := sif_read device dev.receive_len
  if rd.1.length = 0 then ReadStep.done ⟨reds, rd.2, none, out⟩
  else
    let dev1 := receive_bytes dev rd.1
    if dev1.receive_len ≠ 0 then
      ReadStep.done
        ⟨{ reds with agent_dev := advance_receive_pos dev1 rd.1.length }, rd.2, none, out⟩
    else
      get_buff_case A { reds with agent_dev := chunk_header_read A dev1 } rd.2 out

/-- One turn of the loop of the reader, entered with an agent attached. -/
def read_one_msg_turn (A : AgentProto) (reds : RedsState) (device : VDIPortDevice)
    (out : List Event) : ReadStep :=
  match reds.agent_dev.read_state with
  | VDIPortReadStates.READ_HEADER => read_header_case A reds device out
  | VDIPortReadStates.GET_BUFF => get_buff_case A reds device out
  | VDIPortReadStates.READ_DATA => read_data_case A reds device out

/-- The loop `while (reds->vdagent)` of the reader, for at most `turns` turns;
`none` when they do not suffice. -/
def read_one_msg_loop (A : AgentProto) :
    Nat → RedsState → VDIPortDevice → List Event → Option ReadOut
  | 0, _, _, _ => none
  | turns + 1, reds, device, out =>
    if !reds.vdagent then some ⟨reds, device, none, out⟩
    else
      match read_one_msg_turn A reds device out with
      | ReadStep.again reds1 device1 out1 => read_one_msg_loop A turns reds1 device1 out1
      | ReadStep.done result => some result

/-- A bound on the turns the loop of the reader can take on a device: a turn after
which the loop goes on has read at least one byte. -/
def device_turns (device : VDIPortDevice) : Nat :=
  (device.map (fun piece => piece.length + 1)).sum + 1

/-- Embedding of `vdi_port_read_one_msg_from_device`. -/
def vdi_port_read_one_msg_from_device (A : AgentProto) (reds : RedsState)
    (device : VDIPortDevice) : ReadOut :=
  if !reds.vdagent then ⟨reds, device, none, []⟩
  else
    (read_one_msg_loop A (device_turns device) reds device []).getD
      ⟨reds, device, none, []⟩

/-- The number of buffers in a trace that were given to a client with
`main_channel_client_push_agent_data`. -/
def agent_data_pushed (out : List Event) : Nat :=
  (out.filter (fun e =>
    match e with
    | Event.main_channel_client_push_agent_data _ _ => true
    | _ => false)).length

/-- The switch on the verdict of the filter in `reds_on_main_channel_migrate`, for
the partly read buffer `read_buf`, which is still the current read buffer. On a
protocol error `reds_agent_remove` drops the current read buffer, which frees it, and
the switch falls through to the release of `read_buf`: the free function runs once
more, for the buffer already freed. -/
def migrate_verdict (A : AgentProto) (reds : RedsState) (client : Nat) (out : List Event)
    (read_buf : RedVDIReadBuf) (verdict : AgentMsgFilterResult) :
    Except Halt (RedsState × List Event) :=
  match verdict with
  | AgentMsgFilterResult.OK =>
    let a := reds_adjust_agent_capabilities A reds read_buf.data
    Except.ok (a.1, out ++ a.2.2 ++
      [Event.main_channel_client_push_agent_data client (a.2.1.take read_buf.len)])
  | AgentMsgFilterResult.PROTO_ERROR =>
    let r := reds_agent_remove A reds
    let f := vdi_port_read_buf_free r.1.agent_dev
    Except.ok ({ r.1 with agent_dev := f.1 }, out ++ r.2 ++ f.2)
  | _ =>
    let f := vdi_port_read_buf_free reds.agent_dev
    Except.ok ({ reds with agent_dev := f.1 }, out ++ f.2)

/-- The end of `reds_on_main_channel_migrate` after a partial push: the rest of the
buffer goes back to the chunk and the reader to GET_BUFF. -/
def migrate_to_get_buff (reds : RedsState) (out : List Event) :
    Except Halt (RedsState × List Event) :=
  if reds.agent_dev.receive_len = 0 then Except.error Halt.assert_failed
  else
    Except.ok
      ({ reds with agent_dev := { reds.agent_dev with
          message_receive_len :=
            (reds.agent_dev.message_receive_len + reds.agent_dev.receive_len) % 2 ^ 32,
          read_state := VDIPortReadStates.GET_BUFF,
          current_read_buf := none,
          receive_pos := ReceivePos.null } }, out)

/-- The partial push of `reds_on_main_channel_migrate`: the `read_data_len` bytes
read into the buffer `current` go through the filter. -/
def migrate_push_partial (A : AgentProto) (reds : RedsState) (client : Nat)
    (current : RedVDIReadBuf) (read_data_len : Nat) : Except Halt (RedsState × List Event) :=
  let read_buf : RedVDIReadBuf := { current with len := read_data_len }
  let dev1 : RedCharDeviceVDIPortPrivate :=
    { reds.agent_dev with current_read_buf := some read_buf }
  let p := vdi_port_read_buf_process A dev1 read_buf
  match migrate_verdict A { reds with agent_dev := p.2 } client
      [Event.vdi_port_read_buf_process dev1.read_state read_buf] read_buf p.1 with
  | Except.error h => Except.error h
  | Except.ok (reds2, ev2) => migrate_to_get_buff reds2 ev2

/-- Embedding of `reds_on_main_channel_migrate` for the control channel client of
`client`. The assertion on `receive_pos` holds when it points past the start of the
data of the current read buffer. -/
def reds_on_main_channel_migrate (A : AgentProto) (reds : RedsState) (client : Nat) :
    Except Halt (RedsState × List Event) :=
  let dev := reds.agent_dev
  if reds.clients.length ≠ 1 then Except.error Halt.assert_failed
  else if dev.read_state ≠ VDIPortReadStates.READ_DATA then Except.ok (reds, [])
  else
    match dev.current_read_buf, dev.receive_pos with
    | some current, ReceivePos.read_buf off =>
      if off = 0 then Except.error Halt.assert_failed
      else if dev.read_filter.msg_data_to_read ≠ 0 ∨ off % 2 ^ 32 > A.sizeof_VDAgentMessage then
        migrate_push_partial A reds client current (off % 2 ^ 32)
      else Except.ok (reds, [])
    | _, _ => Except.error Halt.assert_failed

/-- Embedding of `reds_marshall_migrate_data`: the agent part of the migration
data, as the destination will find it in `SpiceMigrateDataMain`. The part written
by `red_char_device_migrate_data_marshall` is only its flag `connected`. -/
def reds_marshall_migrate_data (A : AgentProto) (reds : RedsState) :
    Except Halt SpiceMigrateDataMain :=
  let dev := reds.agent_dev
  let zeroed : SpiceMigrateDataMain :=
    { agent_base_connected := false, client_agent_started := false,
      a2c_chunk_header_size := 0,
      a2c_chunk_header := List.replicate A.sizeof_VDIChunkHeader 0,
      a2c_msg_header_done := false, a2c_msg_header_partial_len := 0,
      a2c_msg_header_partial := [], a2c_msg_remaining := 0,
      a2c_msg_filter_result := AgentMsgFilterResult.OK,
      c2a_msg_remaining := 0, c2a_msg_filter_result := AgentMsgFilterResult.OK }
  if !reds.vdagent then
    if dev.agent_attached then Except.error Halt.assert_failed else Except.ok zeroed
  else
    let mig0 : SpiceMigrateDataMain :=
      { zeroed with agent_base_connected := true,
                    client_agent_started := dev.client_agent_started,
                    a2c_chunk_header := dev.vdi_chunk_header }
    let a2c : Except Halt SpiceMigrateDataMain :=
      match dev.read_state with
      | VDIPortReadStates.READ_HEADER =>
        if dev.read_filter.msg_data_to_read ≠ 0 then Except.error Halt.assert_failed
        else
          Except.ok { mig0 with
            a2c_chunk_header_size :=
              match dev.receive_pos with
              | ReceivePos.chunk_header off => off % 2 ^ 32
              | _ => 0,
            a2c_msg_header_done := false, a2c_msg_header_partial_len := 0 }
      | VDIPortReadStates.READ_DATA =>
        match dev.current_read_buf, dev.receive_pos with
        | some current, ReceivePos.read_buf off =>
          if ¬ (off % 2 ^ 32 < A.sizeof_VDAgentMessage) then Except.error Halt.assert_failed
          else if dev.read_filter.msg_data_to_read ≠ 0 then Except.error Halt.assert_failed
          else
            Except.ok { mig0 with
              a2c_chunk_header_size := A.sizeof_VDIChunkHeader,
              a2c_chunk_header := A.chunk_with_size dev.vdi_chunk_header dev.message_receive_len,
              a2c_msg_header_done := false,
              a2c_msg_header_partial_len := off % 2 ^ 32,
              a2c_msg_header_partial := current.data.take (off % 2 ^ 32) }
        | _, _ => Except.error Halt.use_after_free
      | VDIPortReadStates.GET_BUFF =>
        Except.ok { mig0 with
          a2c_chunk_header_size := A.sizeof_VDIChunkHeader,
          a2c_chunk_header := A.chunk_with_size dev.vdi_chunk_header dev.message_receive_len,
          a2c_msg_header_done := true,
          a2c_msg_remaining := dev.read_filter.msg_data_to_read,
          a2c_msg_filter_result := dev.read_filter.result }
    match a2c with
    | Except.error h => Except.error h
    | Except.ok mig =>
      Except.ok { mig with
        c2a_msg_remaining := dev.write_filter.msg_data_to_read,
        c2a_msg_filter_result := dev.write_filter.result }

/-- The first part of `reds_agent_state_restore`: the chunk header is taken from the
record, and either the rest of it is to be read or the length of the chunk is set. -/
def restore_chunk_header (A : AgentProto) (dev : RedCharDeviceVDIPortPrivate)
    (mig_data : SpiceMigrateDataMain) : RedCharDeviceVDIPortPrivate :=
  let chunk_header_remaining := A.sizeof_VDIChunkHeader - mig_data.a2c_chunk_header_size
  if chunk_header_remaining ≠ 0 then
    { dev with vdi_chunk_header := mig_data.a2c_chunk_header,
               read_state := VDIPortReadStates.READ_HEADER,
               receive_pos := ReceivePos.chunk_header mig_data.a2c_chunk_header_size,
               receive_len := chunk_header_remaining }
  else
    { dev with vdi_chunk_header := mig_data.a2c_chunk_header,
               message_receive_len := A.chunk_size mig_data.a2c_chunk_header % 2 ^ 32 }

/-- The part of `reds_agent_state_restore` that makes the current read buffer for a
message header read in part. -/
def restore_read_buf (A : AgentProto) (dev : RedCharDeviceVDIPortPrivate)
    (mig_data : SpiceMigrateDataMain) : Except Halt RedCharDeviceVDIPortPrivate :=
  let g := vdi_port_get_read_buf { dev with read_state := VDIPortReadStates.READ_DATA }
  match g.1 with
  | none => Except.error Halt.assert_failed
  | some buf =>
    let partial_len := mig_data.a2c_msg_header_partial_len
    let cur_buf_size := (A.SPICE_AGENT_MAX_DATA_SIZE + 2 ^ 32 - partial_len) % 2 ^ 32
    let receive_len := min g.2.message_receive_len cur_buf_size
    Except.ok { g.2 with
      current_read_buf := some
        { buf with data := mig_data.a2c_msg_header_partial.take partial_len,
                   len := (receive_len + partial_len) % 2 ^ 32 },
      receive_pos := ReceivePos.read_buf partial_len,
      receive_len := receive_len,
      message_receive_len := g.2.message_receive_len - receive_len }

/-- The second part of `reds_agent_state_restore`, on the message header. -/
def restore_msg_header (A : AgentProto) (dev : RedCharDeviceVDIPortPrivate)
    (mig_data : SpiceMigrateDataMain) : Except Halt RedCharDeviceVDIPortPrivate :=
  if !mig_data.a2c_msg_header_done then
    if A.sizeof_VDIChunkHeader - mig_data.a2c_chunk_header_size = 0 then
      restore_read_buf A dev mig_data
    else if mig_data.a2c_msg_header_partial_len ≠ 0 then Except.error Halt.assert_failed
    else Except.ok dev
  else
    Except.ok { dev with
      read_state := VDIPortReadStates.GET_BUFF,
      current_read_buf := none,
      receive_pos := ReceivePos.null,
      read_filter := { dev.read_filter with
        msg_data_to_read := mig_data.a2c_msg_remaining,
        result := mig_data.a2c_msg_filter_result } }

/-- The last part of `reds_agent_state_restore`, on the two filters. -/
def restore_filters (dev : RedCharDeviceVDIPortPrivate) (mig_data : SpiceMigrateDataMain) :
    RedCharDeviceVDIPortPrivate :=
  { dev with
    read_filter := { dev.read_filter with discard_all := false },
    write_filter := { dev.write_filter with
      discard_all := !mig_data.client_agent_started,
      msg_data_to_read := mig_data.c2a_msg_remaining,
      result := mig_data.c2a_msg_filter_result },
    client_agent_started := mig_data.client_agent_started }

/-- Embedding of `reds_agent_state_restore`; the value returned by
`red_char_device_restore` is left out. -/
def reds_agent_state_restore (A : AgentProto) (reds : RedsState)
    (mig_data : SpiceMigrateDataMain) : Except Halt (RedsState × List Event) :=
  if mig_data.a2c_chunk_header_size > A.sizeof_VDIChunkHeader then
    Except.error Halt.assert_failed
  else
    match restore_msg_header A (restore_chunk_header A reds.agent_dev mig_data) mig_data with
    | Except.error h => Except.error h
    | Except.ok dev =>
      Except.ok ({ reds with agent_dev := restore_filters dev mig_data },
        [Event.red_char_device_restore])

/-- The ledger of the read buffers: the buffers handed out and not yet freed,
`held` of them, and the current read buffer are counted in `num_read_buf`, which is
at most `REDS_VDI_PORT_NUM_RECEIVE_BUFFS`. -/
def read_buf_pool_ok (dev : RedCharDeviceVDIPortPrivate) (held : Nat) : Prop :=
  held + (if dev.current_read_buf.isSome then 1 else 0) ≤ dev.num_read_buf ∧
    dev.num_read_buf ≤ 5

/-- The ledger of the read buffers after one turn of the reader that started with
`held` buffers handed out: a returned buffer is one more handed out. -/
def ReadStep.pool_ok (step : ReadStep) (held : Nat) : Prop :=
  match step with
  | ReadStep.again reds _ _ => read_buf_pool_ok reds.agent_dev held
  | ReadStep.done result =>
    read_buf_pool_ok result.reds.agent_dev (held + (if result.ret.isSome then 1 else 0))

/-- A link message for the main channel in a payload of 22 bytes: one common
capability word, zero, at offset 18. -/
def sampleCapMess : SpiceLinkMess :=
  { connection_id := 0, channel_type := 1, channel_id := 0,
    num_common_caps := 1, num_channel_caps := 0, caps_offset := 18,
    raw := List.replicate 22 0 }

/-- A link message for the control channel in a payload of 4094 bytes: the 18 bytes
of the packed link message and then 1019 common capability words. -/
def manyCapsMess : SpiceLinkMess :=
  { connection_id := 0, channel_type := 1, channel_id := 0,
    num_common_caps := 1019, num_channel_caps := 0, caps_offset := 18,
    raw := List.replicate 4094 0 }

/-- Embedding of `main_channel_client_send_item` for an item of type `type`: the
control channel client afterwards and the calls made. -/
def main_channel_client_send_item (mcc : MainChannelClient) (type : MainPipeItemType) :
    MainChannelClient × List Event :=
  if !mcc.init_sent && !mcc.seamless_mig_dst && type != MainPipeItemType.INIT then
    (mcc, [Event.red_channel_warning])
  else
    match type with
    | MainPipeItemType.CHANNELS_LIST =>
      ({ mcc with initial_channels_list_sent := true },
       [Event.marshall_item type, Event.begin_send_message])
    | MainPipeItemType.PING =>
      ({ mcc with ping_id := (mcc.ping_id + 1) % 2 ^ 32 },
       [Event.marshall_item type, Event.begin_send_message])
    | MainPipeItemType.INIT =>
      ({ mcc with init_sent := true }, [Event.marshall_item type, Event.begin_send_message])
    | MainPipeItemType.REGISTERED_CHANNEL =>
      if !mcc.initial_channels_list_sent then (mcc, [])
      else (mcc, [Event.marshall_item type, Event.begin_send_message])
    | MainPipeItemType.other => (mcc, [Event.begin_send_message])
    | _ => (mcc, [Event.marshall_item type, Event.begin_send_message])

/-- Successive calls of `main_channel_client_send_item`, one for each item. -/
def main_channel_client_send_items (mcc : MainChannelClient) :
    List MainPipeItemType → MainChannelClient × List Event
  | [] => (mcc, [])
  | type :: rest =>
    let sent := main_channel_client_send_item mcc type
    let more := main_channel_client_send_items sent.1 rest
    (more.1, sent.2 ++ more.2)

/-- The audio data modes of the protocol (`SPICE_AUDIO_DATA_MODE_*`). -/
inductive AudioDataMode where
  | RAW
  | CELT_0_5_1
  | OPUS
  deriving DecidableEq, Repr

/-- A playback channel client: its mode, the two capabilities of its peer and
whether `SND_PLAYBACK_MODE_MASK` is set in its pending commands. -/
structure PlaybackChannelClient where
  mode : AudioDataMode
  cap_celt_0_5_1 : Bool
  cap_opus : Bool
  command_playback_mode : Bool
  deriving DecidableEq, Repr

/-- A sound channel: its channel type, its frequency and its connection. -/
structure SndChannel where
  channel_type : Nat
  frequency : Nat
  connection : Option PlaybackChannelClient
  deriving DecidableEq, Repr

/-- Embedding of `snd_desired_audio_mode`; `snd_codec_is_capable`, which is not
among the sources, is the parameter `capable`. -/
def snd_desired_audio_mode (capable : AudioDataMode → Nat → Bool)
    (playback_compression : Bool) (frequency : Nat) (client_can_celt client_can_opus : Bool) :
    AudioDataMode :=
  if !playback_compression then AudioDataMode.RAW
  else if client_can_opus && capable AudioDataMode.OPUS frequency then AudioDataMode.OPUS
  else if client_can_celt && capable AudioDataMode.CELT_0_5_1 frequency then
    AudioDataMode.CELT_0_5_1
  else AudioDataMode.RAW

/-- The mode `playback_channel_client_constructed` gives a new playback client, whose
mode starts as RAW; `codec_created` tells whether `snd_codec_create` succeeds. -/
def playback_channel_client_constructed (capable : AudioDataMode → Nat → Bool)
    (codec_created : Bool) (playback_compression : Bool) (frequency : Nat)
    (playback_client : PlaybackChannelClient) : PlaybackChannelClient :=
  let client_can_celt := playback_client.cap_celt_0_5_1
  let client_can_opus := playback_client.cap_opus
  let desired_mode := snd_desired_audio_mode capable playback_compression frequency
    client_can_celt client_can_opus
  if desired_mode ≠ AudioDataMode.RAW ∧ codec_created then
    { playback_client with mode := desired_mode }
  else playback_client

/-- Embedding of `snd_set_playback_compression` over the list `snd_channels`;
`SPICE_CHANNEL_PLAYBACK` is the parameter `playback_type`. -/
def snd_set_playback_compression (capable : AudioDataMode → Nat → Bool) (playback_type : Nat)
    (snd_channels : List SndChannel) (on_ : Bool) : List SndChannel :=
  snd_channels.map (fun now =>
    match now.connection with
    | none => now
    | some playback =>
      if now.channel_type = playback_type then
        let client_can_celt := playback.cap_celt_0_5_1
        let client_can_opus := playback.cap_opus
        let desired_mode := snd_desired_audio_mode capable on_ now.frequency
          client_can_opus client_can_celt
        if playback.mode ≠ desired_mode then
          { now with connection :=
              (some { playback with mode := desired_mode, command_playback_mode := true }) }
        else now
      else now)

/-- A playback client in mode RAW whose peer has the CELT capability and lacks the
OPUS capability. -/
def sampleCeltClient : PlaybackChannelClient :=
  { mode := AudioDataMode.RAW, cap_celt_0_5_1 := true, cap_opus := false,
    command_playback_mode := false }

/-- The constant `RECORD_SAMPLES_SIZE`, which is `SND_RECEIVE_BUF_SIZE >> 2`. -/
def RECORD_SAMPLES_SIZE : Nat := (16 * 1024 * 2) >>> 2

/-- A record channel client: the ring of `RECORD_SAMPLES_SIZE` samples, the two
32-bit positions, the mode and whether the client is active. -/
structure RecordChannelClient where
  samples : Nat → Nat
  write_pos : Nat
  read_pos : Nat
  mode : AudioDataMode
  active : Bool

/-- The call `memcpy(samples + off, src, ...)` that copies the words of `src`. -/
def memcpy_samples (samples : Nat → Nat) (off : Nat) (src : List Nat) : Nat → Nat :=
  fun i => if off ≤ i ∧ i < off + src.length then src.getD (i - off) 0 else samples i

/-- Embedding of `snd_record_start` for a channel with a connected client; the
command it sends is left out. -/
def snd_record_start (record_client : RecordChannelClient) :
    Except Halt RecordChannelClient :=
  if record_client.active then Except.error Halt.assert_failed
  else Except.ok { record_client with read_pos := 0, write_pos := 0, active := true }

/-- Embedding of `snd_record_handle_write` for a client that is there; `packet` holds
the whole samples of the packet data, and `decode` stands for `snd_codec_decode`,
which is not among the sources. -/
def snd_record_handle_write (decode : List Nat → Option (List Nat))
    (record_client : RecordChannelClient) (packet : List Nat) : Bool × RecordChannelClient :=
  let input : Option (List Nat × Nat) :=
    if record_client.mode = AudioDataMode.RAW then
      some (packet, min packet.length RECORD_SAMPLES_SIZE)
    else
      match decode packet with
      | none => none
      | some decoded => some (decoded, decoded.length)
  match input with
  | none => (false, record_client)
  | some (data, size) =>
    let write_pos := record_client.write_pos % RECORD_SAMPLES_SIZE
    let new_write_pos := (record_client.write_pos + size) % 2 ^ 32
    let len := RECORD_SAMPLES_SIZE - write_pos
    let now := min len size
    let rest := size - now
    let samples1 := memcpy_samples record_client.samples write_pos (data.take now)
    let samples2 := if rest ≠ 0 then memcpy_samples samples1 0 ((data.drop now).take rest)
      else samples1
    let read_pos :=
      if (new_write_pos + 2 ^ 32 - record_client.read_pos) % 2 ^ 32 > RECORD_SAMPLES_SIZE then
        (new_write_pos + 2 ^ 32 - RECORD_SAMPLES_SIZE) % 2 ^ 32
      else record_client.read_pos
    (true, { record_client with samples := samples2, write_pos := new_write_pos,
                                read_pos := read_pos })

/-- Successive calls of `snd_record_handle_write`, one for each packet. -/
def snd_record_handle_writes (decode : List Nat → Option (List Nat)) :
    RecordChannelClient → List (List Nat) → RecordChannelClient
  | record_client, [] => record_client
  | record_client, packet :: rest =>
    snd_record_handle_writes decode (snd_record_handle_write decode record_client packet).2 rest

/-- Embedding of `spice_server_record_get_samples` for a connected client: the
number returned, the samples copied to the caller's buffer and the client
afterwards. -/
def spice_server_record_get_samples (record_client : RecordChannelClient) (bufsize : Nat) :
    Except Halt (Nat × List Nat × RecordChannelClient) :=
  if !record_client.active then Except.error Halt.assert_failed
  else if record_client.write_pos < RECORD_SAMPLES_SIZE / 2 then
    Except.ok (0, [], record_client)
  else
    let len := min ((record_client.write_pos + 2 ^ 32 - record_client.read_pos) % 2 ^ 32) bufsize
    let read_pos := record_client.read_pos % RECORD_SAMPLES_SIZE
    let now := min len (RECORD_SAMPLES_SIZE - read_pos)
    let copied := (List.range now).map (fun i => record_client.samples (read_pos + i)) ++
      (if now < len then (List.range (len - now)).map (fun i => record_client.samples i)
       else [])
    Except.ok (len, copied,
      { record_client with read_pos := (record_client.read_pos + len) % 2 ^ 32 })

/-- A record client in raw mode that has not been started. -/
def sampleRecordClient : RecordChannelClient :=
  { samples := fun _ => 0, write_pos := 0, read_pos := 0, mode := AudioDataMode.RAW,
    active := false }

/-- The ring of a record client holds the stream `written`: the positions are those
reached by writing it without reading, and each of its last
`min written.length RECORD_SAMPLES_SIZE` samples lies at its index modulo the size
of the ring. -/
def record_ring_holds (record_client : RecordChannelClient) (written : List Nat) : Prop :=
  record_client.write_pos = written.length % 2 ^ 32 ∧
  record_client.read_pos
    = (written.length - min written.length RECORD_SAMPLES_SIZE) % 2 ^ 32 ∧
  ∀ k, written.length - min written.length RECORD_SAMPLES_SIZE ≤ k → k < written.length →
    record_client.samples (k % RECORD_SAMPLES_SIZE) = written.getD k 0

/-- Embedding of `reds_mig_fill_wait_disconnect`. -/
def reds_mig_fill_wait_disconnect (reds : RedsState) : Except Halt (RedsState × List Event) :=
  if reds.clients.isEmpty then Except.error Halt.assert_failed
  else
    Except.ok ({ reds with
      mig_wait_disconnect_clients :=
        reds.mig_wait_disconnect_clients ++ reds.clients.map (fun c => c.ptr),
      mig_wait_connect := false, mig_wait_disconnect := true, mig_timer_armed := true },
      [Event.mig_timer_start])

/-- Embedding of `reds_on_main_migrate_connected`. -/
def reds_on_main_migrate_connected (reds : RedsState) (seamless : Bool) :
    Except Halt (RedsState × List Event) :=
  let reds1 := { reds with src_do_seamless_migrate := seamless }
  if reds1.mig_wait_connect then reds_mig_cleanup reds1 else Except.ok (reds1, [])

/-- Embedding of `reds_mig_disconnect`. -/
def reds_mig_disconnect (reds : RedsState) : Except Halt (RedsState × List Event) :=
  if reds.main_channel_connected then reds_disconnect reds else reds_mig_cleanup reds

/-- Embedding of `reds_mig_target_client_disconnect_all`, over the records the list
held when the loop began. -/
def reds_mig_target_client_disconnect_all (reds : RedsState) :
    List RedsMigTargetClient → Except Halt (RedsState × List Event)
  | [] => Except.ok (reds, [])
  | mig_client :: rest =>
    match reds_client_disconnect reds
        (reds.clients.find? (fun c => c.ptr == mig_client.client)) with
    | Except.error h => Except.error h
    | Except.ok (reds1, ev1) =>
      match reds_mig_target_client_disconnect_all reds1 rest with
      | Except.error h => Except.error h
      | Except.ok (reds2, ev2) => Except.ok (reds2, ev1 ++ ev2)

/-- Embedding of `migrate_timeout`, the handler of `mig_timer`. -/
def migrate_timeout (reds : RedsState) : Except Halt (RedsState × List Event) :=
  if !(reds.mig_wait_connect || reds.mig_wait_disconnect) then
    Except.error Halt.assert_failed
  else if reds.mig_wait_connect then
    match reds_mig_target_client_disconnect_all reds reds.mig_target_clients with
    | Except.error h => Except.error h
    | Except.ok (reds1, ev1) =>
      match reds_mig_cleanup reds1 with
      | Except.error h => Except.error h
      | Except.ok (reds2, ev2) =>
        Except.ok (reds2, [Event.main_channel_migrate_cancel_wait] ++ ev1 ++ ev2)
  else reds_mig_disconnect reds

/-- The timer `mig_timer` fires: an armed timer runs its handler once and is no
longer armed; a timer that is not armed does nothing. -/
def mig_timer_fires (reds : RedsState) : Except Halt (RedsState × List Event) :=
  if reds.mig_timer_armed then migrate_timeout { reds with mig_timer_armed := false }
  else Except.ok (reds, [])

/-- Embedding of `reds_mig_finished`. -/
def reds_mig_finished (reds : RedsState) (completed : Bool) :
    Except Halt (RedsState × List Event) :=
  let reds1 := { reds with mig_inprogress := true }
  let ev1 := if reds1.src_do_seamless_migrate && completed then [Event.red_client_migrate]
    else [Event.main_channel_migrate_src_complete completed]
  let next := if completed then reds_mig_fill_wait_disconnect reds1 else reds_mig_cleanup reds1
  match next with
  | Except.error h => Except.error h
  | Except.ok (reds2, ev2) =>
    Except.ok ({ reds2 with config := reds_mig_release reds2.config }, ev1 ++ ev2)

/-- Embedding of `spice_server_migrate_end`: the returned value, the state and the
calls made; the optional callback `migrate_end_complete` is taken to be provided. -/
def spice_server_migrate_end (reds : RedsState) (completed : Bool) :
    Except Halt (Int × RedsState × List Event) :=
  if !reds.migration_interface then Except.error Halt.assert_failed
  else if completed && !reds.expect_migrate && reds.clients.length > 0 then
    match reds_disconnect reds with
    | Except.error h => Except.error h
    | Except.ok (reds1, ev1) =>
      Except.ok (-1, reds1, ev1 ++ [Event.migrate_complete_callback false])
  else
    let reds1 := { reds with expect_migrate := false }
    if !reds1.main_channel_connected then
      Except.ok (0, reds1, [Event.migrate_complete_callback false])
    else
      match reds_mig_finished reds1 completed with
      | Except.error h => Except.error h
      | Except.ok (reds2, ev2) => Except.ok (0, reds2, ev2)

/-- A server with one client, at address 100, and an attached agent whose device
has just been made. -/
def sampleAgentReds : RedsState :=
  { sampleReds with
    vdagent := true,
    clients := [{ ptr := 100, during_target_migrate := false, seamless_migrate := false,
                  disconnecting := false,
                  mcc := { connection_id := 41, seamless_mig_dst := false, pipe := [] } }],
    agent_dev := { red_char_device_vdi_port_new sampleAgent sampleReds with
                   agent_attached := true } }

/-- A migration record taken in READ_DATA: the chunk header is complete and
declares 100 payload bytes, 4 bytes of the message header have been read. -/
def sampleMigData : SpiceMigrateDataMain :=
  { agent_base_connected := true, client_agent_started := true,
    a2c_chunk_header_size := 8, a2c_chunk_header := [1, 0, 0, 0, 100, 0, 0, 0],
    a2c_msg_header_done := false, a2c_msg_header_partial_len := 4,
    a2c_msg_header_partial := [7, 7, 7, 7], a2c_msg_remaining := 0,
    a2c_msg_filter_result := AgentMsgFilterResult.OK,
    c2a_msg_remaining := 0, c2a_msg_filter_result := AgentMsgFilterResult.OK }

/-- Modelled from the spec: the caller of the reader, `red_char_device_read_from_device`,
is not among the sources. A buffer the reader returned is sent on and released, which
frees it, before the reader is called again. -/
def release_read_buf (reds : RedsState) (ret : Option RedVDIReadBuf) :
    RedsState × List Event :=
  match ret with
  | none => (reds, [])
  | some _ =>
    ({ reds with agent_dev := (vdi_port_read_buf_free reds.agent_dev).1 },
     (vdi_port_read_buf_free reds.agent_dev).2)

/-- A moment of a run of the reader: the server state, what the device still holds
and the calls made so far. -/
structure RunState where
  reds : RedsState
  device : VDIPortDevice
  out : List Event
  deriving DecidableEq, Repr

/-- Modelled from the spec: one call of the reader in a run, made when the device
reports readable data, followed by the release of the buffer it returned. -/
def run_call (A : AgentProto) (c : RunState) : RunState :=
  let r := vdi_port_read_one_msg_from_device A c.reds c.device
  let f := release_read_buf r.reds r.ret
  ⟨f.1, r.device, c.out ++ r.out ++ f.2⟩

/-- Modelled from the spec: a run of the reader, `calls` successive calls. -/
def reader_run (A : AgentProto) (calls : Nat) (c : RunState) : RunState :=
  Nat.iterate (run_call A) calls c

/-- The moment of a run after a turn of the loop of the reader: when the turn ends
the call, the returned buffer is released. -/
def ReadStep.finish (step : ReadStep) : RunState :=
  match step with
  | ReadStep.again reds device out => ⟨reds, device, out⟩
  | ReadStep.done r =>
    ⟨(release_read_buf r.reds r.ret).1, r.device, r.out ++ (release_read_buf r.reds r.ret).2⟩

/-- One turn of the loop of the reader in a run, whichever call it belongs to. -/
def run_turn (A : AgentProto) (c : RunState) : RunState :=
  if !c.reds.vdagent then c
  else (read_one_msg_turn A c.reds c.device c.out).finish

/-- The number of calls after which a run on `device` has come to rest. -/
def run_calls (device : VDIPortDevice) : Nat :=
  3 * device.flatten.length + 2

/-- A measure of what a run still has to do: three for each byte the device holds,
and in GET_BUFF one for the buffer to get and one for a current buffer to drop. -/
def run_measure (c : RunState) : Nat :=
  3 * c.device.flatten.length +
    (if c.reds.agent_dev.read_state = VDIPortReadStates.GET_BUFF then
      1 + (if c.reds.agent_dev.current_read_buf.isSome then 1 else 0)
     else 0)

/-- The reader state is well formed and a buffer can be had: in READ_DATA there is a
current read buffer, counted in `num_read_buf`; in the other states there is none and
fewer than `REDS_VDI_PORT_NUM_RECEIVE_BUFFS` buffers are out. -/
def reader_ok (dev : RedCharDeviceVDIPortPrivate) : Prop :=
  (dev.read_state = VDIPortReadStates.READ_DATA →
    dev.current_read_buf.isSome = true ∧ 1 ≤ dev.num_read_buf ∧ dev.num_read_buf ≤ 5) ∧
  (dev.read_state ≠ VDIPortReadStates.READ_DATA →
    dev.current_read_buf = none ∧ dev.num_read_buf < 5)

/-- Two ways in which a device holds the same bytes: the same pieces, or the first
piece of the one cut in two in the other. -/
def device_split (joined split : VDIPortDevice) : Prop :=
  joined = split ∨
  ∃ p1 p2 rest, p1 ≠ [] ∧ p2 ≠ [] ∧ joined = (p1 ++ p2) :: rest ∧ split = p1 :: p2 :: rest

/-- The buffers a trace shows to have been filled and given to the filter, each with
the state the reader went to. -/
def completed_bufs (out : List Event) : List (VDIPortReadStates × RedVDIReadBuf) :=
  out.filterMap (fun e =>
    match e with
    | Event.vdi_port_read_buf_process state buf => some (state, buf)
    | _ => none)

/-- The payload of a chunk cut into the buffers that take it: each of `max` bytes,
the last one of what is left. -/
def payload_bufs (max : Nat) : Nat → List Nat → List (List Nat)
  | 0, _ => []
  | n + 1, payload =>
    if payload.length ≤ max then [payload]
    else payload.take max :: payload_bufs max n (payload.drop max)

/-- The result of a turn of the reader with the calls `pre` put before its own. -/
def ReadStep.prepend (pre : List Event) (step : ReadStep) : ReadStep :=
  match step with
  | ReadStep.again reds device out => ReadStep.again reds device (pre ++ out)
  | ReadStep.done r => ReadStep.done ⟨r.reds, r.device, r.ret, pre ++ r.out⟩

/-- Two moments of runs that differ at most in how the device holds its bytes. -/
def run_split (joined split : RunState) : Prop :=
  joined.reds = split.reds ∧ joined.out = split.out ∧ device_split joined.device split.device

/-- The buffers the reader is to fill for a chunk whose payload is `payload`, each
with the state the reader goes to when the buffer is full: buffers of `max` bytes in
GET_BUFF while more than `max` bytes are left, then one of what is left in
READ_HEADER. -/
def spec_chunk_bufs (max : Nat) : Nat → List Nat → List (VDIPortReadStates × RedVDIReadBuf)
  | 0, _ => []
  | n + 1, payload =>
    if payload.length ≤ max then
      [(VDIPortReadStates.READ_HEADER, { len := payload.length, data := payload })]
    else
      (VDIPortReadStates.GET_BUFF, { len := max, data := payload.take max })
        :: spec_chunk_bufs max n (payload.drop max)

/-- The reader between two buffers of a chunk with header `header`, `left` bytes of
its payload still to come, or after the last one: no current buffer, a buffer to be
had, and either in GET_BUFF with `left` bytes to receive, or in READ_HEADER waiting
for a whole chunk header. -/
def chunk_reader_at (A : AgentProto) (header : List Nat) (left : Nat)
    (dev : RedCharDeviceVDIPortPrivate) : Prop :=
  dev.vdi_chunk_header = header ∧ dev.current_read_buf = none ∧ dev.num_read_buf < 5 ∧
  (left = 0 → dev.read_state = VDIPortReadStates.READ_HEADER ∧
    dev.receive_len = A.sizeof_VDIChunkHeader ∧ dev.receive_pos = ReceivePos.chunk_header 0) ∧
  (left ≠ 0 → dev.read_state = VDIPortReadStates.GET_BUFF ∧ dev.message_receive_len = left)

/-- The verdicts `vdi_port_read_buf_process` gives for buffers that come one after
the other, from the device state `dev` on: each buffer is judged in the state the
verdict on the buffer before it left. -/
def read_buf_verdicts (A : AgentProto) :
    RedCharDeviceVDIPortPrivate → List RedVDIReadBuf → List AgentMsgFilterResult
  | _, [] => []
  | dev, buf :: rest =>
    (vdi_port_read_buf_process A dev buf).1
      :: read_buf_verdicts A (vdi_port_read_buf_process A dev buf).2 rest

/-- A filter for the sample agent that rejects what `agent_msg_filter_process_data`
is there to reject: a buffer longer than what is left of the message being read, a
first buffer shorter than the message header of 20 bytes, a protocol field other
than 1, and data beyond the size the message header declares. Fields are read as one
byte each: the protocol at byte 0 and the size at byte 16. -/
def checkingFilter (filter : AgentMsgFilter) (data : List Nat) (len : Nat) :
    AgentMsgFilterResult × AgentMsgFilter :=
  if filter.msg_data_to_read ≠ 0 then
    if len > filter.msg_data_to_read then (AgentMsgFilterResult.PROTO_ERROR, filter)
    else (filter.result, { filter with msg_data_to_read := filter.msg_data_to_read - len })
  else if len < 20 then (AgentMsgFilterResult.PROTO_ERROR, filter)
  else if data.getD 0 0 ≠ 1 then (AgentMsgFilterResult.PROTO_ERROR, filter)
  else if len - 20 > data.getD 16 0 then (AgentMsgFilterResult.PROTO_ERROR, filter)
  else (AgentMsgFilterResult.OK,
        { filter with result := AgentMsgFilterResult.OK,
                      msg_data_to_read := data.getD 16 0 - (len - 20) })

/-- The sample agent protocol with the filter `checkingFilter`. -/
def checkingAgent : AgentProto :=
  { sampleAgent with agent_msg_filter_process_data := checkingFilter }

/-- A payload of 3000 bytes: the header of an agent message, with protocol 1 and
size 2980, and the 2980 bytes of the message. -/
def sampleChunkPayload : List Nat :=
  [1, 0, 0, 0, 0, 0, 0, 0, 0, 0, 0, 0, 0, 0, 0, 0, 2980, 0, 0, 0] ++ List.replicate 2980 7

/-! # Specification claims -/

/-- C1 (counterexample): a header of major version 1 that declares a payload of 0
bytes, less than the 18 bytes of a link message, is answered with VERSION_MISMATCH;
no INVALID_DATA reply is written. -/
theorem read_header_done_bad_size_wrong_major :
    (sampleLink ⟨0, 1, 0, 0⟩ none).link_header.size < stdConsts.sizeof_SpiceLinkMess ∧
    (reds_handle_read_header_done stdConsts sampleReds (sampleLink ⟨0, 1, 0, 0⟩ none)).out
      = [Event.send_link_error LinkErr.VERSION_MISMATCH, Event.stream_free sampleStream] ∧
    Event.send_link_error LinkErr.INVALID_DATA ∉
      (reds_handle_read_header_done stdConsts sampleReds (sampleLink ⟨0, 1, 0, 0⟩ none)).out := by
  decide

/-- C1 (amended): for every link header whose major version is SPICE_VERSION_MAJOR,
a declared payload size below sizeof(SpiceLinkMess) or above 4096 makes
`reds_handle_read_header_done` write exactly one reply, with error INVALID_DATA, and
free the link; the payload is neither allocated nor read and the server state, its
client list and channel list included, is unchanged. -/
theorem read_header_done_bad_size (K : ProtoConsts) (reds : RedsState) (link : RedLinkInfo)
    (hver : link.link_header.major_version = K.SPICE_VERSION_MAJOR)
    (hsize : link.link_header.size < K.sizeof_SpiceLinkMess ∨ link.link_header.size > 4096) :
    (reds_handle_read_header_done K reds link).out
        = Event.send_link_error LinkErr.INVALID_DATA :: reds_link_free link ∧
    (reds_handle_read_header_done K reds link).link = none ∧
    (∀ n t, Event.malloc_link_mess n ∉ (reds_handle_read_header_done K reds link).out ∧
      Event.async_read n t ∉ (reds_handle_read_header_done K reds link).out) ∧
    (reds_handle_read_header_done K reds link).reds = reds ∧
    (reds_handle_read_header_done K reds link).reds.clients = reds.clients ∧
    (reds_handle_read_header_done K reds link).reds.channels = reds.channels := by
  have h : reds_handle_read_header_done K reds link =
      { reds := reds, link := none,
        out := Event.send_link_error LinkErr.INVALID_DATA :: reds_link_free link } := by
    simp [reds_handle_read_header_done, hver, hsize, reds_send_link_error]
  rw [h]
  refine ⟨rfl, rfl, ?_, rfl, rfl, rfl⟩
  intro n t
  cases hs : link.stream <;> simp [reds_link_free, hs]

/-- C1 (witness): a version 2 header declaring 5000 bytes. -/
theorem read_header_done_bad_size_witness :
    (sampleLink ⟨0, 2, 0, 5000⟩ none).link_header.major_version
        = stdConsts.SPICE_VERSION_MAJOR ∧
    (sampleLink ⟨0, 2, 0, 5000⟩ none).link_header.size > 4096 ∧
    (reds_handle_read_header_done stdConsts sampleReds (sampleLink ⟨0, 2, 0, 5000⟩ none)).out
        = Event.send_link_error LinkErr.INVALID_DATA ::
            reds_link_free (sampleLink ⟨0, 2, 0, 5000⟩ none) ∧
    (reds_handle_read_header_done stdConsts sampleReds (sampleLink ⟨0, 2, 0, 5000⟩ none)).link
        = none :=
  have h := read_header_done_bad_size stdConsts sampleReds (sampleLink ⟨0, 2, 0, 5000⟩ none)
    (by decide) (Or.inr (by decide))
  ⟨by decide, by decide, h.1, h.2.1⟩

/-- C4: for every link header whose major version differs from SPICE_VERSION_MAJOR,
`reds_handle_read_header_done` writes a VERSION_MISMATCH reply when the peer's major
version is nonzero and writes nothing when it is 0; in both cases the link is freed
and the payload is neither allocated nor read. -/
theorem read_header_done_version_mismatch (K : ProtoConsts) (reds : RedsState)
    (link : RedLinkInfo) (hver : link.link_header.major_version ≠ K.SPICE_VERSION_MAJOR) :
    (link.link_header.major_version ≠ 0 →
      (reds_handle_read_header_done K reds link).out
        = Event.send_link_error LinkErr.VERSION_MISMATCH :: reds_link_free link) ∧
    (link.link_header.major_version = 0 →
      (reds_handle_read_header_done K reds link).out = reds_link_free link ∧
      ∀ e ∈ (reds_handle_read_header_done K reds link).out, ∃ s, e = Event.stream_free s) ∧
    (reds_handle_read_header_done K reds link).link = none ∧
    (∀ n t, Event.malloc_link_mess n ∉ (reds_handle_read_header_done K reds link).out ∧
      Event.async_read n t ∉ (reds_handle_read_header_done K reds link).out) ∧
    (reds_handle_read_header_done K reds link).reds = reds := by
  have hfree : ∀ e ∈ reds_link_free link, ∃ s, e = Event.stream_free s := by
    intro e he
    cases hs : link.stream <;> simp [reds_link_free, hs] at he
    exact ⟨_, he⟩
  by_cases h0 : link.link_header.major_version = 0
  · have h : reds_handle_read_header_done K reds link =
        { reds := reds, link := none, out := reds_link_free link } := by
      have hver0 : ¬ (0 = K.SPICE_VERSION_MAJOR) := fun h => hver (h0.trans h)
      simp [reds_handle_read_header_done, h0, hver0]
    rw [h]
    refine ⟨fun hne => absurd h0 hne, fun _ => ⟨rfl, hfree⟩, rfl, ?_, rfl⟩
    intro n t
    cases hs : link.stream <;> simp [reds_link_free, hs]
  · have h : reds_handle_read_header_done K reds link =
        { reds := reds, link := none,
          out := Event.send_link_error LinkErr.VERSION_MISMATCH :: reds_link_free link } := by
      simp [reds_handle_read_header_done, hver, Nat.pos_of_ne_zero h0, reds_send_link_error]
    rw [h]
    refine ⟨fun _ => rfl, fun h => absurd h h0, rfl, ?_, rfl⟩
    intro n t
    cases hs : link.stream <;> simp [reds_link_free, hs]

/-- C4 (witness): a header of major version 0 on the sample stream is dropped
without a reply. -/
theorem read_header_done_version_mismatch_witness :
    (sampleLink ⟨0, 0, 0, 18⟩ none).link_header.major_version ≠ stdConsts.SPICE_VERSION_MAJOR ∧
    (reds_handle_read_header_done stdConsts sampleReds (sampleLink ⟨0, 0, 0, 18⟩ none)).out
      = reds_link_free (sampleLink ⟨0, 0, 0, 18⟩ none) ∧
    (reds_handle_read_header_done stdConsts sampleReds (sampleLink ⟨0, 0, 0, 18⟩ none)).link
      = none :=
  have h := read_header_done_version_mismatch stdConsts sampleReds
    (sampleLink ⟨0, 0, 0, 18⟩ none) (by decide)
  ⟨by decide, (h.2.1 rfl).1, h.2.2.1⟩

/-- C2 (counterexample): a link message for the main channel with both capability
counts 0 and capability offset 0, below the 18 bytes of a link message, is accepted:
the link ack is written, the ticket is awaited and the link is kept. -/
theorem read_link_done_zero_caps_offset_unchecked :
    (sampleMess 1 0 0).caps_offset < stdConsts.sizeof_SpiceLinkMess ∧
    reds_handle_read_link_done stdConsts sampleEnv sampleReds
        (sampleLink ⟨0, 2, 0, 18⟩ (some (sampleMess 1 0 0)))
      = Except.ok
          { reds := sampleReds,
            link := some { sampleLink ⟨0, 2, 0, 18⟩ (some (sampleMess 1 0 0)) with
              tiTicketing := { bn := true, rsa := true, rsa_size := 128, encrypted_data := [] } },
            out := [Event.red_channel_set_common_cap 1 0 1, Event.rsa_generate_key,
                    Event.send_link_ack LinkErr.OK 1 0 true, Event.write_cap 2,
                    Event.async_read 128 ReadThen.reds_handle_ticket] } := by
  constructor
  · decide
  · rfl

/-- C2 (amended): for every link message in which at least one of the two capability
counts is nonzero, if caps_offset + 4 * (num_common_caps + num_channel_caps) exceeds
the declared payload size, or caps_offset is smaller than sizeof(SpiceLinkMess),
`reds_handle_read_link_done` replies INVALID_DATA and frees the link. -/
theorem read_link_done_caps_out_of_bounds (K : ProtoConsts) (env : LinkEnv) (reds : RedsState)
    (link : RedLinkInfo) (m : SpiceLinkMess) (hm : link.link_mess = some m)
    (hoff : m.caps_offset < 2 ^ 32)
    (hnz : m.num_common_caps + m.num_channel_caps ≠ 0)
    (hbad : m.caps_offset + 4 * (m.num_common_caps + m.num_channel_caps) > link.link_header.size ∨
      m.caps_offset < K.sizeof_SpiceLinkMess) :
    reds_handle_read_link_done K env reds link
      = Except.ok { reds := reds, link := none,
                    out := Event.send_link_error LinkErr.INVALID_DATA :: reds_link_free link } := by
  unfold reds_handle_read_link_done
  rw [hm]
  by_cases hbig : m.num_channel_caps > 1024 ∨ m.num_common_caps > 1024
  · simp [hbig, reds_send_link_error]
  · have h1 : m.num_channel_caps ≤ 1024 := by omega
    have h2 : m.num_common_caps ≤ 1024 := by omega
    have hmod : (m.num_common_caps + m.num_channel_caps) % 2 ^ 32
        = m.num_common_caps + m.num_channel_caps := Nat.mod_eq_of_lt (by omega)
    have hmod2 : ((m.num_common_caps + m.num_channel_caps) * 4 + m.caps_offset) % 2 ^ 64
        = (m.num_common_caps + m.num_channel_caps) * 4 + m.caps_offset :=
      Nat.mod_eq_of_lt (by omega)
    have hcond : (m.num_common_caps + m.num_channel_caps ≠ 0 ∧
        ((m.num_common_caps + m.num_channel_caps) * 4 + m.caps_offset > link.link_header.size ∨
          m.caps_offset < K.sizeof_SpiceLinkMess)) := by
      refine ⟨hnz, ?_⟩
      rcases hbad with h | h
      · left; omega
      · right; exact h
    simp only [if_neg hbig, hmod, hmod2, if_pos hcond, reds_send_link_error]
    rfl

/-- C2 (witness): one common capability at offset 18 in a payload of 18 bytes. -/
theorem read_link_done_caps_out_of_bounds_witness :
    (18 : Nat) + 4 * (1 + 0) > 18 ∧
    reds_handle_read_link_done stdConsts sampleEnv sampleReds
        (sampleLink ⟨0, 2, 0, 18⟩
          (some { sampleMess 1 0 0 with num_common_caps := 1, caps_offset := 18 }))
      = Except.ok
          { reds := sampleReds, link := none,
            out := Event.send_link_error LinkErr.INVALID_DATA ::
              reds_link_free (sampleLink ⟨0, 2, 0, 18⟩
                (some { sampleMess 1 0 0 with num_common_caps := 1, caps_offset := 18 })) } :=
  ⟨by decide,
   read_link_done_caps_out_of_bounds stdConsts sampleEnv sampleReds _
    { sampleMess 1 0 0 with num_common_caps := 1, caps_offset := 18 } rfl
    (by decide) (by decide) (Or.inl (by decide))⟩

/-- C3: for every link message with num_channel_caps > 1024 or num_common_caps > 1024,
`reds_handle_read_link_done` replies INVALID_DATA and frees the link; no capability
word of the payload is converted or tested, and nothing else is written. -/
theorem read_link_done_too_many_caps (K : ProtoConsts) (env : LinkEnv) (reds : RedsState)
    (link : RedLinkInfo) (m : SpiceLinkMess) (hm : link.link_mess = some m)
    (hbig : m.num_channel_caps > 1024 ∨ m.num_common_caps > 1024) :
    reds_handle_read_link_done K env reds link
      = Except.ok { reds := reds, link := none,
                    out := Event.send_link_error LinkErr.INVALID_DATA :: reds_link_free link } ∧
    ∀ i, Event.cap_from_le i ∉
          Event.send_link_error LinkErr.INVALID_DATA :: reds_link_free link ∧
        Event.cap_test i ∉
          Event.send_link_error LinkErr.INVALID_DATA :: reds_link_free link := by
  constructor
  · unfold reds_handle_read_link_done
    rw [hm]
    simp [hbig, reds_send_link_error]
  · intro i
    cases hs : link.stream <;> simp [reds_link_free, hs]

/-- C3 (witness): 1025 channel capabilities. -/
theorem read_link_done_too_many_caps_witness :
    (1025 : Nat) > 1024 ∧
    reds_handle_read_link_done stdConsts sampleEnv sampleReds
        (sampleLink ⟨0, 2, 0, 4096⟩ (some { sampleMess 1 0 0 with num_channel_caps := 1025 }))
      = Except.ok
          { reds := sampleReds, link := none,
            out := [Event.send_link_error LinkErr.INVALID_DATA, Event.stream_free sampleStream] } :=
  ⟨by decide,
   (read_link_done_too_many_caps stdConsts sampleEnv sampleReds _
      { sampleMess 1 0 0 with num_channel_caps := 1025 } rfl (Or.inl (by decide))).1⟩

/-- C7 (failing input): with SASL enabled, a link without the auth-selection
capability gets the link ack and then a VERSION_MISMATCH reply, and
`reds_handle_read_link_done` returns with the link, its stream and its RSA key
still allocated. -/
theorem read_link_done_sasl_without_auth_selection_keeps_link :
    reds_handle_read_link_done stdConsts sampleEnv sampleRedsSasl
        (sampleLink ⟨0, 2, 0, 18⟩ (some (sampleMess 1 0 0)))
      = Except.ok
          { reds := sampleRedsSasl,
            link := some { sampleLink ⟨0, 2, 0, 18⟩ (some (sampleMess 1 0 0)) with
              tiTicketing := { bn := true, rsa := true, rsa_size := 128, encrypted_data := [] } },
            out := [Event.red_channel_set_common_cap 1 0 2, Event.rsa_generate_key,
                    Event.send_link_ack LinkErr.OK 1 0 true, Event.write_cap 4,
                    Event.send_link_error LinkErr.VERSION_MISMATCH] } := by
  rfl

/-- C5 (counterexample): a valid link message for the display channel (2, 0), which
is not registered, on a server that accepts unencrypted channels: the link is freed
and no reply at all is written. -/
theorem read_link_done_unregistered_channel_no_reply :
    reds_find_channel sampleReds 2 0 = none ∧
    reds_security_check stdConsts sampleReds (sampleLink ⟨0, 2, 0, 18⟩ (some (sampleMess 2 0 0)))
      (sampleMess 2 0 0) = true ∧
    reds_handle_read_link_done stdConsts sampleEnv sampleReds
        (sampleLink ⟨0, 2, 0, 18⟩ (some (sampleMess 2 0 0)))
      = Except.ok { reds := sampleReds, link := none,
                    out := [Event.stream_free sampleStream] } := by
  refine ⟨by decide, by decide, ?_⟩
  rfl

/-- The events of `reds_link_free` are stream releases only. -/
theorem link_free_only_frees (link : RedLinkInfo) :
    ∀ e ∈ reds_link_free link, ∃ s, e = Event.stream_free s := by
  intro e he
  cases hs : link.stream <;> simp [reds_link_free, hs] at he
  exact ⟨_, he⟩

/-- The events of a capability test are capability reads only. -/
theorem test_capability_only_tests (caps : Nat → Nat) (n cap : Nat) :
    ∀ e ∈ (test_capability caps n cap).2, ∃ i, e = Event.cap_test i := by
  intro e he
  unfold test_capability at he
  by_cases h : n ≤ cap / 32
  · simp [h] at he
  · simp [h] at he
    exact ⟨_, he⟩

/-- C5 (amended): for every link message that passes the capability and security
validation and names a channel (type, id) other than the main channel that is not
registered, `reds_send_link_ack` fails: `reds_handle_read_link_done` writes no link
ack and no error code and frees the link. CHANNEL_NOT_AVAILABLE is the result
`reds_handle_other_links` sends when it is reached with a connection id that
resolves to a client while the channel is not registered. -/
theorem unregistered_channel_reply (K : ProtoConsts) (env : LinkEnv) (reds : RedsState)
    (link : RedLinkInfo) (m : SpiceLinkMess) (hm : link.link_mess = some m)
    (hoff : m.caps_offset < 2 ^ 32)
    (hcnt : m.num_channel_caps ≤ 1024 ∧ m.num_common_caps ≤ 1024)
    (hcaps : m.num_common_caps + m.num_channel_caps = 0 ∨
      (m.caps_offset + 4 * (m.num_common_caps + m.num_channel_caps) ≤ link.link_header.size ∧
        K.sizeof_SpiceLinkMess ≤ m.caps_offset))
    (hsec : reds_security_check K reds link m = true)
    (hnone : reds_find_channel reds m.channel_type m.channel_id = none)
    (hnm : m.channel_type ≠ K.SPICE_CHANNEL_MAIN) :
    (∃ out, reds_handle_read_link_done K env reds link
        = Except.ok { reds := reds, link := none, out := out } ∧
      ∀ e ∈ out, (∃ i, e = Event.cap_from_le i) ∨ (∃ i, e = Event.cap_test i) ∨
        (∃ s, e = Event.stream_free s)) ∧
    (∀ c, reds.main_channel.isSome = true →
      main_channel_get_client_by_link_id reds m.connection_id = some c →
      reds_handle_other_links reds link
        = Except.ok { reds := reds, link := some link,
                      out := [Event.send_link_result LinkErr.CHANNEL_NOT_AVAILABLE] }) := by
  constructor
  · refine ⟨(List.range (m.num_common_caps + m.num_channel_caps)).map Event.cap_from_le ++
      (red_link_info_test_capability m K.SPICE_COMMON_CAP_PROTOCOL_AUTH_SELECTION).2 ++
      reds_link_free link, ?_, ?_⟩
    · have hbig : ¬ (m.num_channel_caps > 1024 ∨ m.num_common_caps > 1024) := by omega
      have hmod : (m.num_common_caps + m.num_channel_caps) % 2 ^ 32
          = m.num_common_caps + m.num_channel_caps := Nat.mod_eq_of_lt (by omega)
      have hmod2 : ((m.num_common_caps + m.num_channel_caps) * 4 + m.caps_offset) % 2 ^ 64
          = (m.num_common_caps + m.num_channel_caps) * 4 + m.caps_offset :=
        Nat.mod_eq_of_lt (by omega)
      have hcond : ¬ (m.num_common_caps + m.num_channel_caps ≠ 0 ∧
          ((m.num_common_caps + m.num_channel_caps) * 4 + m.caps_offset > link.link_header.size ∨
            m.caps_offset < K.sizeof_SpiceLinkMess)) := by
        rintro ⟨h0, h⟩
        rcases hcaps with h' | ⟨h1, h2⟩
        · exact h0 h'
        · rcases h with h | h <;> omega
      have hack : reds_send_link_ack K env reds link m = Except.ok (false, link, []) := by
        simp [reds_send_link_ack, hnone, hnm]
      unfold reds_handle_read_link_done
      rw [hm]
      simp only [if_neg hbig, hmod, hmod2, if_neg hcond, hsec, hack]
      simp
    · intro e he
      simp only [List.mem_append, List.mem_map] at he
      rcases he with (⟨i, _, rfl⟩ | he) | he
      · exact Or.inl ⟨i, rfl⟩
      · exact Or.inr (Or.inl (test_capability_only_tests _ _ _ e he))
      · exact Or.inr (Or.inr (link_free_only_frees link e he))
  · intro c hmain hc
    simp [reds_handle_other_links, hm, hmain, hc, hnone, reds_send_link_result]

/-- C5 (witness): the display channel (2, 0) requested from the sample server. -/
theorem unregistered_channel_reply_witness :
    reds_find_channel sampleReds 2 0 = none ∧
    ∃ out, reds_handle_read_link_done stdConsts sampleEnv sampleReds
        (sampleLink ⟨0, 2, 0, 18⟩ (some (sampleMess 2 0 0)))
      = Except.ok { reds := sampleReds, link := none, out := out } :=
  ⟨by decide,
   (unregistered_channel_reply stdConsts sampleEnv sampleReds
      (sampleLink ⟨0, 2, 0, 18⟩ (some (sampleMess 2 0 0))) (sampleMess 2 0 0) rfl
      (by decide) (by decide) (Or.inl (by decide)) (by decide) (by decide) (by decide)).1.imp
      (fun _ h => h.1)⟩

/-- What `reds_handle_ticket` leaves on its error path. -/
theorem handle_link_ne_denied (K : ProtoConsts) (env : LinkEnv) (reds : RedsState)
    (link : RedLinkInfo) :
    reds_handle_link K env reds link ≠
      Except.ok { reds := reds, link := none,
                  out := Event.send_link_result LinkErr.PERMISSION_DENIED ::
                    reds_link_free link } := by
  unfold reds_handle_link
  cases link.link_mess with
  | none => simp
  | some m =>
    simp only
    split
    · simp
    · simp

/-- C6: for every ticket that decrypts, `reds_handle_ticket` hands the link to
`reds_handle_link` (authorizes it) whatever the ticket holds when ticketing is
disabled or the link has skip_auth set; otherwise it does so if and only if the
configured password is non-empty, the expiration time is not earlier than the
current time and the decrypted password equals the configured one (as C strings).
Every other outcome, a failed decryption included, writes PERMISSION_DENIED and
frees the link; the server state is unchanged, so no client is created and no
channel is linked. -/
theorem handle_ticket_authorization (K : ProtoConsts) (env : LinkEnv) (reds : RedsState)
    (link : RedLinkInfo) (ltime : Int) :
    (∀ password,
      ((reds.config.ticketing_enabled = false ∨ link.skip_auth = true) →
        reds_handle_ticket K env reds link (some password) ltime
          = reds_handle_link K env reds link) ∧
      ((reds.config.ticketing_enabled = true ∧ link.skip_auth = false) →
        (reds_handle_ticket K env reds link (some password) ltime
            = reds_handle_link K env reds link ↔
          cstr reds.config.taTicket.password ≠ [] ∧
          ¬ reds.config.taTicket.expiration_time < ltime ∧
          cstr password = cstr reds.config.taTicket.password))) ∧
    (∀ decrypted,
      reds_handle_ticket K env reds link decrypted ltime ≠ reds_handle_link K env reds link →
      reds_handle_ticket K env reds link decrypted ltime
        = Except.ok { reds := reds, link := none,
                      out := Event.send_link_result LinkErr.PERMISSION_DENIED ::
                        reds_link_free link }) ∧
    reds_handle_ticket K env reds link none ltime
      = Except.ok { reds := reds, link := none,
                    out := Event.send_link_result LinkErr.PERMISSION_DENIED ::
                      reds_link_free link } := by
  have hne := handle_link_ne_denied K env reds link
  refine ⟨fun password => ⟨?_, ?_⟩, ?_, ?_⟩
  · intro h
    have : ¬ (reds.config.ticketing_enabled = true ∧ (!link.skip_auth) = true) := by
      rcases h with h | h <;> simp [h]
    unfold reds_handle_ticket
    simp only [if_neg this]
  · rintro ⟨h1, h2⟩
    unfold reds_handle_ticket
    simp only [h1, h2, reds_send_link_result]
    by_cases hp : (cstr reds.config.taTicket.password).length = 0
    · have hp' : cstr reds.config.taTicket.password = [] := List.length_eq_zero.mp hp
      simp [hp, hp', hne.symm]
    · have hp' : cstr reds.config.taTicket.password ≠ [] := fun h => hp (by simp [h])
      by_cases he : reds.config.taTicket.expiration_time < ltime
      · simp [hp, he, hne.symm]
      · by_cases hc : cstr password = cstr reds.config.taTicket.password
        · simp [hp, hp', he, hc]
        · simp [hp, he, hc, hne.symm]
  · intro decrypted hd
    unfold reds_handle_ticket at hd ⊢
    cases decrypted with
    | none => simp [reds_send_link_result]
    | some password =>
      simp only [reds_send_link_result] at hd ⊢
      split at hd
      · split at hd
        · simp [*]
        · split at hd
          · simp [*]
          · split at hd
            · simp [*]
            · exact absurd rfl hd
      · exact absurd rfl hd
  · simp [reds_handle_ticket, reds_send_link_result]

/-- C6 (example): with the ticket "ab" valid until second 100, the decrypted
password "ab" is authorized at second 50 and denied at second 101. -/
theorem handle_ticket_authorization_witness :
    reds_handle_ticket stdConsts sampleEnv sampleRedsTicket
        (sampleLink ⟨0, 2, 0, 18⟩ (some (sampleMess 1 0 0))) (some [97, 98, 0]) 50
      = reds_handle_link stdConsts sampleEnv sampleRedsTicket
        (sampleLink ⟨0, 2, 0, 18⟩ (some (sampleMess 1 0 0))) ∧
    reds_handle_ticket stdConsts sampleEnv sampleRedsTicket
        (sampleLink ⟨0, 2, 0, 18⟩ (some (sampleMess 1 0 0))) (some [97, 98, 0]) 101
      = Except.ok { reds := sampleRedsTicket, link := none,
                    out := [Event.send_link_result LinkErr.PERMISSION_DENIED,
                            Event.stream_free sampleStream] } := by
  have h := handle_ticket_authorization stdConsts sampleEnv sampleRedsTicket
    (sampleLink ⟨0, 2, 0, 18⟩ (some (sampleMess 1 0 0)))
  refine ⟨((h 50).1 [97, 98, 0]).2 ⟨rfl, rfl⟩ |>.mpr ⟨by decide, by decide, by decide⟩, ?_⟩
  have h2 := (h 101).2.1 (some [97, 98, 0])
    (fun hh => (((h 101).1 [97, 98, 0]).2 ⟨rfl, rfl⟩ |>.mp hh).2.1 (by decide))
  exact h2

/-- A channel found by `reds_find_channel` has the type and id asked for. -/
theorem find_channel_type_id {reds : RedsState} {type id : Nat} {ch : RedChannel}
    (h : reds_find_channel reds type id = some ch) : ch.type = type ∧ ch.id = id := by
  unfold reds_find_channel at h
  have := List.find?_some h
  simpa using this

/-- The replay loop links every pending link whose channel is registered, oldest
first, each with its own message and stream. -/
theorem link_pending_links_registered (reds : RedsState) (client : RedClient)
    (ls : List (SpiceLinkMess × RedStream))
    (hreg : ∀ p ∈ ls, reds_find_channel reds p.1.channel_type p.1.channel_id ≠ none) :
    link_pending_links reds client
        (ls.map (fun p => ({ link_msg := p.1, stream := some p.2 } : RedsMigPendingLink)))
      = Except.ok (ls.map (fun p =>
          Event.channel_connect p.1.channel_type p.1.channel_id client.ptr p.2
            (red_client_during_migrate_at_target client)
            (red_channel_capabilities_init_from_link_message p.1))) := by
  induction ls with
  | nil => rfl
  | cons p ps ih =>
    obtain ⟨ch, hch⟩ := Option.ne_none_iff_exists'.mp (hreg p (by simp))
    have hti := find_channel_type_id hch
    have ih' := ih (fun q hq => hreg q (by simp [hq]))
    simp only [List.map_cons, link_pending_links, hch, reds_channel_do_link, ih']
    simp [hti.1, hti.2]

/-- Once the first record of a client is erased from a list without a second record
of that client, no record of the client is found. -/
theorem find_after_erase_none (c : Nat) (rs : List RedsMigTargetClient)
    (huniq : (rs.map (fun r => r.client)).Nodup) :
    (rs.eraseP (fun r => r.client == c)).find? (fun r => r.client == c) = none := by
  induction rs with
  | nil => rfl
  | cons r rs ih =>
    have hn := List.nodup_cons.mp huniq
    by_cases h : r.client = c
    · have hnot : ∀ x ∈ rs, ¬ (x.client = c) := by
        intro x hx hxc
        exact hn.1 (List.mem_map.mpr ⟨x, hx, hxc.trans h.symm⟩)
      have hb : (r.client == c) = true := by simpa using h
      rw [List.eraseP_cons, hb, cond_true, List.find?_eq_none]
      intro x hx
      simpa using hnot x hx
    · have hb : (r.client == c) = false := by simpa using h
      rw [List.eraseP_cons, hb, cond_false, List.find?_cons, hb]
      exact ih hn.2

/-- Queuing a pending link keeps the clients of the records as they are. -/
theorem append_pending_link_clients (c : Nat) (l : RedsMigPendingLink)
    (rs : List RedsMigTargetClient) :
    (append_pending_link c l rs).map (fun r => r.client) = rs.map (fun r => r.client) := by
  induction rs with
  | nil => rfl
  | cons r rs ih =>
    unfold append_pending_link
    by_cases h : (r.client == c) = true
    · simp [h]
    · simp [h, ih]

/-- The records stay one per client when `reds_mig_target_client_add` adds the
record of a client that has none, when a pending link is queued and when a record
is freed. -/
theorem mig_target_clients_one_per_client (reds : RedsState) (client : RedClient)
    (huniq : (reds.mig_target_clients.map (fun r => r.client)).Nodup) :
    (reds_mig_target_client_find reds client = none →
      ((reds_mig_target_client_add reds client).mig_target_clients.map
        (fun r => r.client)).Nodup) ∧
    (∀ m s, ((reds_mig_target_client_add_pending_link reds client m s).mig_target_clients.map
        (fun r => r.client)).Nodup) ∧
    ((reds_mig_target_client_free reds client).mig_target_clients.map
        (fun r => r.client)).Nodup := by
  refine ⟨?_, ?_, ?_⟩
  · intro hnone
    unfold reds_mig_target_client_find at hnone
    rw [List.find?_eq_none] at hnone
    simp only [reds_mig_target_client_add, List.map_append, List.map_cons, List.map_nil]
    rw [List.nodup_append]
    refine ⟨huniq, by simp, ?_⟩
    intro a ha hb
    simp only [List.mem_singleton] at hb
    obtain ⟨x, hx, rfl⟩ := List.mem_map.mp ha
    exact hnone x hx (by simpa using hb)
  · intro m s
    simp only [reds_mig_target_client_add_pending_link, append_pending_link_clients]
    exact huniq
  · simp only [reds_mig_target_client_free]
    exact List.Nodup.sublist ((List.eraseP_sublist _).map _) huniq

/-- The flush links every pending link of the client's record, oldest first, when
each is for a registered channel, and frees the record. -/
theorem link_mig_target_channels_flush (reds : RedsState) (client : RedClient)
    (r : RedsMigTargetClient) (ls : List (SpiceLinkMess × RedStream))
    (hfind : reds_mig_target_client_find reds client = some r)
    (hls : r.pending_links
      = ls.map (fun p => ({ link_msg := p.1, stream := some p.2 } : RedsMigPendingLink)))
    (hreg : ∀ p ∈ ls, reds_find_channel reds p.1.channel_type p.1.channel_id ≠ none) :
    reds_link_mig_target_channels reds client
      = Except.ok (true, reds_mig_target_client_free reds client,
          ls.map (fun p =>
            Event.channel_connect p.1.channel_type p.1.channel_id client.ptr p.2
              (red_client_during_migrate_at_target client)
              (red_channel_capabilities_init_from_link_message p.1))) := by
  have hloop : link_pending_links reds client r.pending_links = _ :=
    hls ▸ link_pending_links_registered reds client ls hreg
  simp only [reds_link_mig_target_channels, hfind, hloop]

/-- After the record of a client is freed, none is found for it. -/
theorem mig_target_client_find_after_free (reds : RedsState) (client : RedClient)
    (huniq : (reds.mig_target_clients.map (fun r => r.client)).Nodup) :
    reds_mig_target_client_find (reds_mig_target_client_free reds client) client = none := by
  simp only [reds_mig_target_client_find, reds_mig_target_client_free]
  exact find_after_erase_none client.ptr reds.mig_target_clients huniq

/-- C9: for every migration-target client whose record holds the pending links
l1, ..., ln, queued in this order, each for a registered channel,
`reds_link_mig_target_channels` calls `reds_channel_do_link` (which reaches
`red_channel_connect`) exactly once per link, in that order, each with the link's own
message and stream, and returns TRUE; afterwards the client has no migration-target
record, and a second flush for the same client returns FALSE and links nothing.
The records are one per client, as `reds_mig_target_client_add` leaves them. -/
theorem link_mig_target_channels_replays_in_order (reds : RedsState) (client : RedClient)
    (r : RedsMigTargetClient) (ls : List (SpiceLinkMess × RedStream))
    (hfind : reds_mig_target_client_find reds client = some r)
    (hls : r.pending_links
      = ls.map (fun p => ({ link_msg := p.1, stream := some p.2 } : RedsMigPendingLink)))
    (hreg : ∀ p ∈ ls, reds_find_channel reds p.1.channel_type p.1.channel_id ≠ none)
    (huniq : (reds.mig_target_clients.map (fun r => r.client)).Nodup) :
    reds_link_mig_target_channels reds client
      = Except.ok (true, reds_mig_target_client_free reds client,
          ls.map (fun p =>
            Event.channel_connect p.1.channel_type p.1.channel_id client.ptr p.2
              (red_client_during_migrate_at_target client)
              (red_channel_capabilities_init_from_link_message p.1))) ∧
    reds_mig_target_client_find (reds_mig_target_client_free reds client) client = none ∧
    reds_link_mig_target_channels (reds_mig_target_client_free reds client) client
      = Except.ok (false, reds_mig_target_client_free reds client, []) := by
  have hgone := mig_target_client_find_after_free reds client huniq
  refine ⟨link_mig_target_channels_flush reds client r ls hfind hls hreg, hgone, ?_⟩
  simp only [reds_link_mig_target_channels, hgone]

/-- C9 (witness): the two links queued for client 101 are linked in the order in
which they were queued. -/
theorem link_mig_target_channels_replays_in_order_witness :
    reds_link_mig_target_channels samplePendingReds (sampleTargetClient 101 6)
      = Except.ok (true, reds_mig_target_client_free samplePendingReds (sampleTargetClient 101 6),
          [Event.channel_connect 2 0 101 { sampleStream with id := 8 } true
             { common_caps := [], caps := [] },
           Event.channel_connect 1 0 101 { sampleStream with id := 9 } true
             { common_caps := [], caps := [] }]) :=
  (link_mig_target_channels_replays_in_order samplePendingReds (sampleTargetClient 101 6)
    { client := 101,
      pending_links :=
        [{ link_msg := sampleMess 2 0 6, stream := some { sampleStream with id := 8 } },
         { link_msg := sampleMess 1 0 6, stream := some { sampleStream with id := 9 } }] }
    [(sampleMess 2 0 6, { sampleStream with id := 8 }),
     (sampleMess 1 0 6, { sampleStream with id := 9 })]
    rfl rfl (by decide) (by decide)).1

/-- C10: for every "do seamless" request whose src_version is greater than
SPICE_MIGRATION_PROTOCOL_VERSION, `main_channel_client_handle_migrate_dst_do_seamless`
queues SEAMLESS_NACK and nothing else, does not touch seamless_mig_dst (false stays
false) nor the client's seamless mark, sets dst_do_seamless_migrate to false and
links no channel: every migration-target record keeps its pending links. They stay
queued until the non-seamless completion path, where
`reds_on_client_semi_seamless_migrate_complete` links them in order. -/
theorem do_seamless_newer_version_nack (K : ProtoConsts) (reds : RedsState) (client : RedClient)
    (src_version : Nat) (hv : src_version > K.SPICE_MIGRATION_PROTOCOL_VERSION) :
    ∃ reds1,
      main_channel_client_handle_migrate_dst_do_seamless K reds client src_version
        = Except.ok (reds1, client.pipe_add PipeItem.MIGRATE_DST_SEAMLESS_NACK, []) ∧
      reds1 = ({ reds with dst_do_seamless_migrate := false } : RedsState).store_client
        (client.pipe_add PipeItem.MIGRATE_DST_SEAMLESS_NACK) ∧
      (client.pipe_add PipeItem.MIGRATE_DST_SEAMLESS_NACK).mcc.pipe
        = client.mcc.pipe ++ [PipeItem.MIGRATE_DST_SEAMLESS_NACK] ∧
      (client.pipe_add PipeItem.MIGRATE_DST_SEAMLESS_NACK).mcc.seamless_mig_dst
        = client.mcc.seamless_mig_dst ∧
      (client.pipe_add PipeItem.MIGRATE_DST_SEAMLESS_NACK).seamless_migrate
        = client.seamless_migrate ∧
      reds1.dst_do_seamless_migrate = false ∧
      reds1.mig_target_clients = reds.mig_target_clients ∧
      (∀ (r : RedsMigTargetClient) (ls : List (SpiceLinkMess × RedStream)),
        reds_mig_target_client_find reds client = some r →
        r.pending_links
          = ls.map (fun p => ({ link_msg := p.1, stream := some p.2 } : RedsMigPendingLink)) →
        (∀ p ∈ ls, reds_find_channel reds p.1.channel_type p.1.channel_id ≠ none) →
        client.mcc.mig_wait_prev_complete = false →
        ∃ reds2 client2,
          reds_on_client_semi_seamless_migrate_complete reds1
              (client.pipe_add PipeItem.MIGRATE_DST_SEAMLESS_NACK)
            = Except.ok (reds2, client2,
                ls.map (fun p =>
                  Event.channel_connect p.1.channel_type p.1.channel_id client.ptr p.2
                    (red_client_during_migrate_at_target client)
                    (red_channel_capabilities_init_from_link_message p.1)))) := by
  refine ⟨_, ?_, rfl, rfl, rfl, rfl, rfl, rfl, ?_⟩
  · have h1 : reds_on_migrate_dst_set_seamless K reds client src_version
        = Except.ok (false, { reds with dst_do_seamless_migrate := false }, client, []) := by
      simp [reds_on_migrate_dst_set_seamless, hv]
    simp only [main_channel_client_handle_migrate_dst_do_seamless, h1]
  · intro r ls hfind hls hreg hwait
    have hflush := link_mig_target_channels_flush
      ((({ reds with dst_do_seamless_migrate := false } : RedsState).store_client
          (client.pipe_add PipeItem.MIGRATE_DST_SEAMLESS_NACK)).store_client
        (main_channel_client_push_init (client.pipe_add PipeItem.MIGRATE_DST_SEAMLESS_NACK)))
      (main_channel_client_push_init (client.pipe_add PipeItem.MIGRATE_DST_SEAMLESS_NACK))
      r ls hfind hls hreg
    have hdone : ∀ n, main_channel_client_migrate_dst_complete n
        (main_channel_client_push_init (client.pipe_add PipeItem.MIGRATE_DST_SEAMLESS_NACK))
        = Except.ok
          (main_channel_client_push_init (client.pipe_add PipeItem.MIGRATE_DST_SEAMLESS_NACK)) := by
      intro n
      simp [main_channel_client_migrate_dst_complete, main_channel_client_push_init,
        RedClient.pipe_add, hwait]
    refine ⟨(reds_mig_target_client_free
        ((({ reds with dst_do_seamless_migrate := false } : RedsState).store_client
            (client.pipe_add PipeItem.MIGRATE_DST_SEAMLESS_NACK)).store_client
          (main_channel_client_push_init (client.pipe_add PipeItem.MIGRATE_DST_SEAMLESS_NACK)))
        (main_channel_client_push_init
          (client.pipe_add PipeItem.MIGRATE_DST_SEAMLESS_NACK))).store_client
        (main_channel_client_push_init (client.pipe_add PipeItem.MIGRATE_DST_SEAMLESS_NACK)),
      main_channel_client_push_init (client.pipe_add PipeItem.MIGRATE_DST_SEAMLESS_NACK), ?_⟩
    simp only [reds_on_client_semi_seamless_migrate_complete, hflush, hdone]
    rfl

/-- C10 (witness): a request of version 2, where version 1 is supported, from the
client whose two links are pending. -/
theorem do_seamless_newer_version_nack_witness :
    (2 : Nat) > stdConsts.SPICE_MIGRATION_PROTOCOL_VERSION ∧
    ∃ reds1,
      main_channel_client_handle_migrate_dst_do_seamless stdConsts samplePendingReds
          (sampleTargetClient 101 6) 2
        = Except.ok (reds1,
            (sampleTargetClient 101 6).pipe_add PipeItem.MIGRATE_DST_SEAMLESS_NACK, []) ∧
      reds1.mig_target_clients = samplePendingReds.mig_target_clients :=
  ⟨by decide,
   (do_seamless_newer_version_nack stdConsts samplePendingReds (sampleTargetClient 101 6) 2
      (by decide)).imp (fun _ h => ⟨h.1, h.2.2.2.2.2.2.1⟩)⟩

/-- The record of the client gets the new pending link at the tail of its list. -/
theorem find_append_pending_link (c : Nat) (l : RedsMigPendingLink)
    (rs : List RedsMigTargetClient) (r : RedsMigTargetClient)
    (h : rs.find? (fun x => x.client == c) = some r) :
    (append_pending_link c l rs).find? (fun x => x.client == c)
      = some { r with pending_links := r.pending_links ++ [l] } := by
  induction rs with
  | nil => simp at h
  | cons x xs ih =>
    unfold append_pending_link
    by_cases hx : (x.client == c) = true
    · have hr : x = r := by simpa [List.find?_cons, hx] using h
      subst hr
      have hxc : x.client = c := by simpa using hx
      simp [List.find?_cons, hxc]
    · have hx' : (x.client == c) = false := by simpa using hx
      have h' : xs.find? (fun x => x.client == c) = some r := by
        simpa [List.find?_cons, hx'] using h
      simp [hx', List.find?_cons, ih h']

/-- The records of the other clients are found as before. -/
theorem find_append_pending_link_other (c d : Nat) (l : RedsMigPendingLink)
    (rs : List RedsMigTargetClient) (hd : d ≠ c) :
    (append_pending_link c l rs).find? (fun x => x.client == d)
      = rs.find? (fun x => x.client == d) := by
  induction rs with
  | nil => rfl
  | cons x xs ih =>
    unfold append_pending_link
    by_cases hx : (x.client == c) = true
    · have hxc : x.client = c := by simpa using hx
      have hxd : (x.client == d) = false := by
        simp only [beq_eq_false_iff_ne, ne_eq]
        exact fun h => hd (h.symm.trans hxc)
      simp [hx, List.find?_cons, hxd]
    · have hx' : (x.client == c) = false := by simpa using hx
      simp [hx', List.find?_cons, ih]

/-- What `reds_handle_other_links` does for a link whose connection id resolves to
the client `c` and whose channel is registered. It sends link result OK; it links
the channel at once when the client is not a migration target or the server-wide
flag dst_do_seamless_migrate is set, provided the client has no migration-target
record; it queues the link at the tail of the client's record, and links nothing,
when the client is a migration target and the flag is clear. -/
theorem handle_other_links_link_or_queue (reds : RedsState) (link : RedLinkInfo)
    (m : SpiceLinkMess) (c : RedClient) (ch : RedChannel)
    (hm : link.link_mess = some m) (hmain : reds.main_channel.isSome = true)
    (hc : main_channel_get_client_by_link_id reds m.connection_id = some c)
    (hch : reds_find_channel reds m.channel_type m.channel_id = some ch) :
    (∀ s, link.stream = some s →
      (c.during_target_migrate = false ∨ reds.dst_do_seamless_migrate = true) →
      reds_mig_target_client_find reds c = none →
      reds_handle_other_links reds link
        = Except.ok
            { reds := reds, link := some { link with stream := none },
              out := [Event.send_link_result LinkErr.OK,
                      Event.info_new_channel m.connection_id m.channel_type m.channel_id,
                      Event.channel_connect m.channel_type m.channel_id c.ptr s
                        c.during_target_migrate
                        (red_channel_capabilities_init_from_link_message m)] }) ∧
    (∀ r, c.during_target_migrate = true → reds.dst_do_seamless_migrate = false →
      reds_mig_target_client_find reds c = some r →
      ∃ reds1,
        reds_handle_other_links reds link
          = Except.ok
              { reds := reds1, link := some { link with link_mess := none, stream := none },
                out := [Event.send_link_result LinkErr.OK,
                        Event.info_new_channel m.connection_id m.channel_type m.channel_id] } ∧
        reds_mig_target_client_find reds1 c
          = some { r with pending_links :=
              r.pending_links ++ [{ link_msg := m, stream := link.stream }] } ∧
        (∀ d : RedClient, d.ptr ≠ c.ptr →
          reds_mig_target_client_find reds1 d = reds_mig_target_client_find reds d) ∧
        reds1.clients = reds.clients ∧ reds1.channels = reds.channels) := by
  have hti := find_channel_type_id hch
  constructor
  · intro s hs hnow hrec
    have hcond : ¬ (c.during_target_migrate = true ∧
        (!reds.dst_do_seamless_migrate) = true) := by
      rcases hnow with h | h <;> simp [h]
    unfold reds_handle_other_links
    simp only [hm, hmain, if_true, hc, hch, hrec, hs, reds_channel_do_link,
      reds_send_link_result, red_client_during_migrate_at_target, hti.1, hti.2]
    rw [if_neg hcond]
    rfl
  · intro r hdur hflag hrec
    have hcond : c.during_target_migrate = true ∧
        (!reds.dst_do_seamless_migrate) = true := by
      simp [hdur, hflag]
    refine ⟨reds_mig_target_client_add_pending_link reds c m link.stream, ?_, ?_, ?_, rfl, rfl⟩
    · unfold reds_handle_other_links
      simp only [hm, hmain, if_true, hc, hch, hrec, reds_send_link_result,
        red_client_during_migrate_at_target]
      rw [if_pos hcond]
      rfl
    · exact find_append_pending_link c.ptr _ _ r hrec
    · intro d hd
      exact find_append_pending_link_other c.ptr d.ptr _ _ hd

/-- C8 (failing input): a client connects as migration target with connection id 5
and its "do seamless" request is accepted, which sets dst_do_seamless_migrate; then
a second migration target connects with connection id 6, replacing the first, and
asks for the display channel before any "do seamless" request of its own. The
client is a migration target, it is not marked seamless and it has a
migration-target record, yet `reds_handle_other_links` takes the branch that links
at once and stops on the assertion that the client has no such record; the link is
not queued. -/
theorem handle_other_links_stale_seamless_flag :
    (∃ st1 reds2 c2 ev2 st3,
      reds_handle_main_link sampleEnv sampleRedsDisplay
          (sampleLink ⟨0, 2, 0, 18⟩ (some (sampleMess 1 0 5))) = Except.ok st1 ∧
      main_channel_get_client_by_link_id st1.reds 5 = some (sampleTargetClient 100 5) ∧
      main_channel_client_handle_migrate_dst_do_seamless stdConsts st1.reds
          (sampleTargetClient 100 5) 1 = Except.ok (reds2, c2, ev2) ∧
      reds_handle_main_link { sampleEnv with new_client := 101 } reds2
          (sampleLink ⟨0, 2, 0, 18⟩ (some (sampleMess 1 0 6))) = Except.ok st3 ∧
      st3.reds = staleSeamlessReds) ∧
    main_channel_get_client_by_link_id staleSeamlessReds 6 = some (sampleTargetClient 101 6) ∧
    red_client_during_migrate_at_target (sampleTargetClient 101 6) = true ∧
    (sampleTargetClient 101 6).seamless_migrate = false ∧
    reds_mig_target_client_find staleSeamlessReds (sampleTargetClient 101 6)
      = some { client := 101, pending_links := [] } ∧
    reds_find_channel staleSeamlessReds 2 0 = some sampleDisplayChannel ∧
    reds_handle_other_links staleSeamlessReds
        (sampleLink ⟨0, 2, 0, 18⟩ (some (sampleMess 2 0 6)))
      = Except.error Halt.assert_failed := by
  refine ⟨⟨_, _, _, _, _, rfl, rfl, rfl, rfl, rfl⟩, rfl, rfl, rfl, rfl, rfl, rfl⟩

/-- No link error is written by `reds_send_link_ack`. -/
theorem send_link_ack_writes_no_error (K : ProtoConsts) (env : LinkEnv) (reds : RedsState)
    (link : RedLinkInfo) (m : SpiceLinkMess) (b : Bool) (l : RedLinkInfo) (ev : List Event)
    (h : reds_send_link_ack K env reds link m = Except.ok (b, l, ev)) (e : LinkErr) :
    Event.send_link_error e ∉ ev := by
  have htest : ∀ cap, Event.send_link_error e ∉ (red_link_info_test_capability m cap).2 := by
    intro cap hmem
    obtain ⟨i, hi⟩ := test_capability_only_tests _ _ _ _ hmem
    cases hi
  have hbody : ∀ c : RedChannel, ∀ r : Except Halt (Bool × RedLinkInfo × List Event),
      r = Except.ok (b, l, ev) →
      (r = (match (Except.ok (some c) : Except Halt (Option RedChannel)) with
        | Except.error h => Except.error h
        | Except.ok none => Except.ok (false, link, [])
        | Except.ok (some channel) =>
          let cap := reds_channel_init_auth_caps K reds link
          let ev_cap := [Event.red_channel_set_common_cap channel.type channel.id cap]
          let common := add_capability channel.local_caps.common_caps cap
          let caps := channel.local_caps.caps
          let sasl_test : Bool × List Event :=
            if reds.config.sasl_enabled then
              red_link_info_test_capability m K.SPICE_COMMON_CAP_AUTH_SASL
            else (false, [])
          let ack := fun (with_key : Bool) =>
            Event.send_link_ack LinkErr.OK common.length caps.length with_key
          let writes := fun (with_key : Bool) =>
            if link.write_ok then
              ack with_key :: (common.map Event.write_cap ++ caps.map Event.write_cap)
            else [ack with_key]
          if !reds.config.sasl_enabled || !sasl_test.1 then
            if !env.rsa_new_ok then
              Except.ok (false,
                { link with tiTicketing := { link.tiTicketing with rsa := false } },
                ev_cap ++ sasl_test.2)
            else
              let link1 := { link with tiTicketing := { link.tiTicketing with rsa := true } }
              if !env.bio_new_ok then Except.ok (false, link1, ev_cap ++ sasl_test.2)
              else if !env.rsa_generate_ok then
                Except.ok (false, link1, ev_cap ++ sasl_test.2 ++ [Event.rsa_generate_key])
              else
                let link2 := { link1 with
                  tiTicketing := { link1.tiTicketing with rsa_size := env.rsa_size } }
                Except.ok (link.write_ok, link2,
                  ev_cap ++ sasl_test.2 ++ [Event.rsa_generate_key] ++ writes true)
          else
            Except.ok (link.write_ok, link, ev_cap ++ sasl_test.2 ++ writes false))) →
      Event.send_link_error e ∉ ev := by
    intro c r hr hdef
    rw [hr] at hdef
    simp only at hdef
    split_ifs at hdef
    all_goals
      simp only [Except.ok.injEq, Prod.mk.injEq] at hdef
      obtain ⟨_, _, rfl⟩ := hdef
      simp [htest]
  unfold reds_send_link_ack at h
  cases hf : reds_find_channel reds m.channel_type m.channel_id with
  | some c =>
    rw [hf] at h
    exact hbody c _ h.symm.symm (by rfl)
  | none =>
    rw [hf] at h
    by_cases hmain : m.channel_type ≠ K.SPICE_CHANNEL_MAIN
    · simp only [if_pos hmain, Except.ok.injEq, Prod.mk.injEq] at h
      obtain ⟨_, _, rfl⟩ := h
      simp
    · cases hmc : reds.main_channel with
      | none => simp [hmain, hmc] at h
      | some c =>
        rw [if_neg hmain, hmc] at h
        exact hbody c _ h.symm.symm (by rfl)

/-- The paths of the three handshake handlers that write a link error: those of
`reds_handle_read_header_done` and `reds_handle_auth_mechanism` free the link, and so
do those of `reds_handle_read_link_done` except the VERSION_MISMATCH reply to a peer
without auth selection while SASL is enabled. -/
theorem link_error_paths_free_link (K : ProtoConsts) (env : LinkEnv) (reds : RedsState)
    (link : RedLinkInfo) :
    (∀ e, Event.send_link_error e ∈ (reds_handle_read_header_done K reds link).out →
      (reds_handle_read_header_done K reds link).link = none) ∧
    (∀ e, Event.send_link_error e ∈ (reds_handle_auth_mechanism K env reds link).out →
      (reds_handle_auth_mechanism K env reds link).link = none) ∧
    (∀ step e, reds_handle_read_link_done K env reds link = Except.ok step →
      Event.send_link_error e ∈ step.out →
      step.link = none ∨ (e = LinkErr.VERSION_MISMATCH ∧ reds.config.sasl_enabled = true)) := by
  refine ⟨?_, ?_, ?_⟩
  · intro e he
    unfold reds_handle_read_header_done at he ⊢
    simp only at he ⊢
    split_ifs at he ⊢ <;> first | rfl | simp at he
  · intro e he
    unfold reds_handle_auth_mechanism reds_start_auth_sasl at he ⊢
    split_ifs at he ⊢ <;> first | rfl | simp [reds_get_spice_ticket] at he
  · intro step e hstep he
    unfold reds_handle_read_link_done at hstep
    cases hm : link.link_mess with
    | none =>
      rw [hm] at hstep
      simp only [Except.ok.injEq] at hstep
      subst hstep
      simp at he
    | some m =>
      have htest : ∀ cap, Event.send_link_error e ∉ (red_link_info_test_capability m cap).2 := by
        intro cap hmem
        obtain ⟨i, hi⟩ := test_capability_only_tests _ _ _ _ hmem
        cases hi
      rw [hm] at hstep
      cases hack : reds_send_link_ack K env reds link m with
      | error h =>
        simp only [hack] at hstep
        split_ifs at hstep
        all_goals (cases hstep; exact Or.inl rfl)
      | ok res =>
        obtain ⟨b, l1, ev⟩ := res
        have hev := send_link_ack_writes_no_error K env reds link m b l1 ev hack e
        cases b with
        | false =>
          simp only [hack] at hstep
          split_ifs at hstep
          all_goals (cases hstep; exact Or.inl rfl)
        | true =>
          simp only [hack] at hstep
          split_ifs at hstep
          all_goals
            first
            | (cases hstep; exact Or.inl rfl)
            | (cases hstep
               simp [htest, hev, reds_send_link_error, reds_get_spice_ticket] at he
               done)
            | (cases hstep
               simp [htest, hev, reds_send_link_error] at he
               rename_i h5
               simp only [Bool.and_eq_true] at h5
               exact Or.inr ⟨he, h5.1⟩)

/-- C20 (counterexample): with completed = true and a destination that did not
acknowledge the connection, MIGRATE_SWITCH_HOST is queued; MIGRATE_CANCEL is not. -/
theorem migrate_src_complete_unacknowledged_switches_host :
    sampleSrcMcc.mig_connect_ok = false ∧
    main_channel_client_migrate_src_complete sampleSrcMcc true
      = (false, { sampleSrcMcc with pipe := [PipeItem.MIGRATE_SWITCH_HOST],
                                    mig_connect_ok := false, mig_wait_connect := false }) ∧
    PipeItem.MIGRATE_CANCEL ∉ (main_channel_client_migrate_src_complete sampleSrcMcc true).2.pipe := by
  decide

/-- C20 (amended): with completed = true, `main_channel_client_migrate_src_complete`
queues exactly MIGRATE_END when the peer supports semi-seamless migration and
mig_connect_ok is set, and exactly MIGRATE_SWITCH_HOST otherwise; it returns TRUE
exactly when MIGRATE_END was queued. With completed = false it queues MIGRATE_CANCEL
in the first case and nothing otherwise, and returns FALSE. It always leaves
mig_connect_ok and mig_wait_connect false. -/
theorem migrate_src_complete_queues (mcc : MainChannelClient) (success : Bool) :
    (success = true →
      ((mcc.cap_semi_seamless_migrate = true ∧ mcc.mig_connect_ok = true) →
        (main_channel_client_migrate_src_complete mcc success).2.pipe
          = mcc.pipe ++ [PipeItem.MIGRATE_END] ∧
        (main_channel_client_migrate_src_complete mcc success).1 = true) ∧
      (¬ (mcc.cap_semi_seamless_migrate = true ∧ mcc.mig_connect_ok = true) →
        (main_channel_client_migrate_src_complete mcc success).2.pipe
          = mcc.pipe ++ [PipeItem.MIGRATE_SWITCH_HOST] ∧
        (main_channel_client_migrate_src_complete mcc success).1 = false)) ∧
    (success = false →
      (main_channel_client_migrate_src_complete mcc success).1 = false ∧
      (main_channel_client_migrate_src_complete mcc success).2.pipe
        = mcc.pipe ++ (if mcc.cap_semi_seamless_migrate = true ∧ mcc.mig_connect_ok = true
            then [PipeItem.MIGRATE_CANCEL] else [])) ∧
    ((main_channel_client_migrate_src_complete mcc success).1 = true ↔
      (main_channel_client_migrate_src_complete mcc success).2.pipe
        = mcc.pipe ++ [PipeItem.MIGRATE_END]) ∧
    (main_channel_client_migrate_src_complete mcc success).2.mig_connect_ok = false ∧
    (main_channel_client_migrate_src_complete mcc success).2.mig_wait_connect = false := by
  unfold main_channel_client_migrate_src_complete
  cases success <;> cases hs : mcc.cap_semi_seamless_migrate <;>
    cases hk : mcc.mig_connect_ok <;> simp

/-- C20 (example): the acknowledged case queues MIGRATE_END and returns TRUE. -/
theorem migrate_src_complete_queues_witness :
    (main_channel_client_migrate_src_complete
        { sampleSrcMcc with mig_connect_ok := true } true).2.pipe = [PipeItem.MIGRATE_END] ∧
    (main_channel_client_migrate_src_complete
        { sampleSrcMcc with mig_connect_ok := true } true).1 = true :=
  ((migrate_src_complete_queues { sampleSrcMcc with mig_connect_ok := true } true).1 rfl).1
    ⟨rfl, rfl⟩


/-- Entry `n` of `used_ids` after the marking loop: it was set before, or a channel
of this type with id `n` below 256 is in the list. -/
theorem mark_used_ids_spec (type : Nat) (chs : List RedChannel) (u : Nat → Bool) (n : Nat) :
    mark_used_ids type chs u n = true ↔
      u n = true ∨ ∃ c ∈ chs, c.type = type ∧ c.id < 256 ∧ c.id = n := by
  induction chs generalizing u with
  | nil => simp [mark_used_ids]
  | cons c rest ih =>
    rw [mark_used_ids, ih]
    by_cases hc : c.type = type ∧ c.id < 256
    · rw [if_pos hc]
      by_cases hn : n = c.id
      · subst hn
        simp [hc.1, hc.2]
      · have hn2 : ¬ c.id = n := fun h => hn h.symm
        simp [hn, hn2]
    · rw [if_neg hc]
      constructor
      · rintro (h | ⟨d, hd, h⟩)
        · exact Or.inl h
        · exact Or.inr ⟨d, List.mem_cons_of_mem _ hd, h⟩
      · rintro (h | ⟨d, hd, h⟩)
        · exact Or.inl h
        · rcases List.mem_cons.mp hd with rfl | hd
          · exact absurd ⟨h.1, h.2.1⟩ hc
          · exact Or.inr ⟨d, hd, h⟩

/-- The search loop returns `k` exactly when `k` is the first unmarked index of its
range. -/
theorem first_unused_id_eq_nat (u : Nat → Bool) (todo n k : Nat) :
    first_unused_id u todo n = (k : Int) ↔
      n ≤ k ∧ k < n + todo ∧ u k = false ∧ ∀ m, n ≤ m → m < k → u m = true := by
  induction todo generalizing n with
  | zero =>
    simp only [first_unused_id]
    constructor
    · intro h; omega
    · rintro ⟨h1, h2, _⟩; omega
  | succ t ih =>
    rw [first_unused_id]
    cases hu : u n with
    | false =>
      simp only [Bool.not_false, if_true]
      constructor
      · intro h
        have hk : n = k := by exact_mod_cast h
        subst hk
        exact ⟨le_refl _, by omega, hu, fun m h1 h2 => by omega⟩
      · rintro ⟨h1, _, h3, h4⟩
        by_cases hk : n = k
        · subst hk; rfl
        · have := h4 n (le_refl _) (by omega)
          rw [hu] at this
          exact absurd this (by simp)
    | true =>
      simp only [Bool.not_true, Bool.false_eq_true, if_false]
      rw [ih]
      constructor
      · rintro ⟨h1, h2, h3, h4⟩
        refine ⟨by omega, by omega, h3, fun m hm1 hm2 => ?_⟩
        by_cases hmn : m = n
        · subst hmn; exact hu
        · exact h4 m (by omega) hm2
      · rintro ⟨h1, h2, h3, h4⟩
        have hk : n ≠ k := by
          intro h; subst h; rw [hu] at h3; exact absurd h3 (by simp)
        exact ⟨by omega, by omega, h3, fun m hm1 hm2 => h4 m (by omega) hm2⟩

/-- The search loop returns -1 exactly when every index of its range is marked. -/
theorem first_unused_id_eq_neg_one (u : Nat → Bool) (todo n : Nat) :
    first_unused_id u todo n = -1 ↔ ∀ m, n ≤ m → m < n + todo → u m = true := by
  induction todo generalizing n with
  | zero =>
    simp only [first_unused_id, true_iff]
    intro m h1 h2; omega
  | succ t ih =>
    rw [first_unused_id]
    cases hu : u n with
    | false =>
      simp only [Bool.not_false, if_true]
      constructor
      · intro h; omega
      · intro h
        have := h n (le_refl _) (by omega)
        rw [hu] at this
        exact absurd this (by simp)
    | true =>
      simp only [Bool.not_true, Bool.false_eq_true, if_false]
      rw [ih]
      constructor
      · intro h m hm1 hm2
        by_cases hmn : m = n
        · subst hmn; exact hu
        · exact h m (by omega) (by omega)
      · intro h m hm1 hm2
        exact h m (by omega) (by omega)

/-- Entry `n` of `used_ids`, for `n` below 256, started from the cleared array. -/
theorem used_ids_spec (reds : RedsState) (type n : Nat) (hn : n < 256) :
    mark_used_ids type reds.channels (fun _ => false) n = true ↔
      ∃ c ∈ reds.channels, c.type = type ∧ c.id = n := by
  rw [mark_used_ids_spec]
  constructor
  · rintro (h | ⟨c, hc, h1, _, h3⟩)
    · exact absurd h (by simp)
    · exact ⟨c, hc, h1, h3⟩
  · rintro ⟨c, hc, h1, h3⟩
    exact Or.inr ⟨c, hc, h1, by omega, h3⟩

/-- C16: `reds_get_free_channel_id` returns the smallest `n` below 256 that no
registered channel of the type has as id, and -1 exactly when all 256 ids of the
type are registered; it returns nothing else, and a channel list that agrees on the
channels of this type with id below 256 gives the same result. -/
theorem get_free_channel_id_smallest_unused (reds : RedsState) (type : Nat) :
    (∀ n : Nat, reds_get_free_channel_id reds type = (n : Int) ↔
      n < 256 ∧ (¬ ∃ c ∈ reds.channels, c.type = type ∧ c.id = n) ∧
      ∀ m < n, ∃ c ∈ reds.channels, c.type = type ∧ c.id = m) ∧
    (reds_get_free_channel_id reds type = -1 ↔
      ∀ n < 256, ∃ c ∈ reds.channels, c.type = type ∧ c.id = n) ∧
    (reds_get_free_channel_id reds type = -1 ∨
      ∃ n : Nat, n < 256 ∧ reds_get_free_channel_id reds type = (n : Int)) ∧
    (∀ other : RedsState,
      other.channels.filter (fun c => decide (c.type = type ∧ c.id < 256))
        = reds.channels.filter (fun c => decide (c.type = type ∧ c.id < 256)) →
      reds_get_free_channel_id other type = reds_get_free_channel_id reds type) := by
  have hnat : ∀ (r : RedsState) (n : Nat), reds_get_free_channel_id r type = (n : Int) ↔
      n < 256 ∧ (¬ ∃ c ∈ r.channels, c.type = type ∧ c.id = n) ∧
      ∀ m < n, ∃ c ∈ r.channels, c.type = type ∧ c.id = m := by
    intro r n
    unfold reds_get_free_channel_id
    rw [first_unused_id_eq_nat]
    constructor
    · rintro ⟨_, h2, h3, h4⟩
      have hn : n < 256 := by omega
      refine ⟨hn, ?_, fun m hm => ?_⟩
      · intro hex
        rw [← used_ids_spec r type n hn, h3] at hex
        exact absurd hex (by simp)
      · exact (used_ids_spec r type m (by omega)).mp (h4 m (Nat.zero_le _) hm)
    · rintro ⟨h1, h2, h3⟩
      refine ⟨Nat.zero_le _, by omega, ?_, fun m _ hm => ?_⟩
      · cases hu : mark_used_ids type r.channels (fun _ => false) n with
        | false => rfl
        | true => exact absurd ((used_ids_spec r type n h1).mp hu) h2
      · exact (used_ids_spec r type m (by omega)).mpr (h3 m hm)
  have hneg : ∀ (r : RedsState), reds_get_free_channel_id r type = -1 ↔
      ∀ n < 256, ∃ c ∈ r.channels, c.type = type ∧ c.id = n := by
    intro r
    unfold reds_get_free_channel_id
    rw [first_unused_id_eq_neg_one]
    constructor
    · intro h n hn
      exact (used_ids_spec r type n hn).mp (h n (Nat.zero_le _) (by omega))
    · intro h m _ hm
      exact (used_ids_spec r type m (by omega)).mpr (h m (by omega))
  have hcases : ∀ (r : RedsState), reds_get_free_channel_id r type = -1 ∨
      ∃ n : Nat, n < 256 ∧ reds_get_free_channel_id r type = (n : Int) := by
    intro r
    by_cases hall : ∀ n < 256, ∃ c ∈ r.channels, c.type = type ∧ c.id = n
    · exact Or.inl ((hneg r).mpr hall)
    · right
      have hex : ∃ n, n < 256 ∧ ¬ ∃ c ∈ r.channels, c.type = type ∧ c.id = n := by
        by_contra hno
        apply hall
        intro n hn
        by_contra hc
        exact hno ⟨n, hn, hc⟩
      classical
      refine ⟨Nat.find hex, (Nat.find_spec hex).1, (hnat r _).mpr
        ⟨(Nat.find_spec hex).1, (Nat.find_spec hex).2, fun m hm => ?_⟩⟩
      by_contra hc
      exact Nat.find_min hex hm ⟨lt_trans hm (Nat.find_spec hex).1, hc⟩
  refine ⟨hnat reds, hneg reds, hcases reds, ?_⟩
  intro other hfilter
  have hmem : ∀ n, n < 256 → ((∃ c ∈ other.channels, c.type = type ∧ c.id = n) ↔
      ∃ c ∈ reds.channels, c.type = type ∧ c.id = n) := by
    intro n hn
    have key : ∀ (l : List RedChannel), (∃ c ∈ l, c.type = type ∧ c.id = n) ↔
        ∃ c ∈ l.filter (fun c => decide (c.type = type ∧ c.id < 256)),
          c.type = type ∧ c.id = n := by
      intro l
      constructor
      · rintro ⟨c, hc, h1, h2⟩
        exact ⟨c, List.mem_filter.mpr ⟨hc, by simp [h1, h2, hn]⟩, h1, h2⟩
      · rintro ⟨c, hc, h⟩
        exact ⟨c, (List.mem_filter.mp hc).1, h⟩
    rw [key other.channels, key reds.channels, hfilter]
  rcases hcases reds with h | ⟨n, hn, h⟩
  · rw [h, hneg]
    intro n hn
    exact (hmem n hn).mpr ((hneg reds).mp h n hn)
  · rw [h, hnat]
    have h3 := (hnat reds n).mp h
    refine ⟨hn, fun hex => h3.2.1 ((hmem n hn).mp hex), fun m hm => ?_⟩
    exact (hmem m (by omega)).mpr (h3.2.2 m hm)

/-- C16 (witness): with ids 0 and 1 of type 2 registered, next to a channel of type
3 and one of type 2 with id 300, the free id of type 2 is 2. -/
theorem get_free_channel_id_smallest_unused_witness :
    reds_get_free_channel_id sampleRedsIds 2 = ((2 : Nat) : Int) :=
  ((get_free_channel_id_smallest_unused sampleRedsIds 2).1 2).mpr
    ⟨by decide, by decide, by decide⟩


/-- No channel with this type and id is found exactly when the pair is not among
the pairs of the registered channels. -/
theorem find_channel_none_iff (reds : RedsState) (type id : Nat) :
    reds_find_channel reds type id = none ↔
      (type, id) ∉ reds.channels.map (fun c => (c.type, c.id)) := by
  unfold reds_find_channel
  rw [List.find?_eq_none]
  simp only [List.mem_map, not_exists, not_and, Bool.and_eq_true, beq_iff_eq, Prod.mk.injEq]

/-- Where no two registered channels share a pair, every registered channel is the
one found for its pair. -/
theorem find_channel_of_nodup (chs : List RedChannel) (reds : RedsState)
    (hchs : reds.channels = chs)
    (hnd : (chs.map (fun c => (c.type, c.id))).Nodup) (c : RedChannel) (hc : c ∈ chs) :
    reds_find_channel reds c.type c.id = some c := by
  unfold reds_find_channel
  rw [hchs]
  clear hchs
  induction chs with
  | nil => cases hc
  | cons d rest ih =>
    rw [List.map_cons, List.nodup_cons] at hnd
    rcases List.mem_cons.mp hc with rfl | hc
    · simp [List.find?_cons]
    · have hne : ¬ (d.type = c.type ∧ d.id = c.id) := by
        rintro ⟨h1, h2⟩
        apply hnd.1
        rw [List.mem_map]
        exact ⟨c, hc, by rw [h1, h2]⟩
      rw [List.find?_cons]
      have hb : (d.type == c.type && d.id == c.id) = false := by
        cases hbb : (d.type == c.type && d.id == c.id) with
        | false => rfl
        | true =>
          simp only [Bool.and_eq_true, beq_iff_eq] at hbb
          exact absurd hbb hne
      rw [hb]
      exact ih hnd.2 hc

/-- C17 (counterexample): in a build without extra checks, registering a second
display channel (type 2, id 0) on a server that has one succeeds: the list grows to
hold both, with a warning as the only sign. -/
theorem register_channel_duplicate_is_added :
    reds_find_channel sampleRedsDisplay 2 0 = some sampleDisplayChannel ∧
    reds_register_channel false sampleRedsDisplay
        { type := 2, id := 0, local_caps := { common_caps := [1], caps := [] } }
      = Except.ok
          ({ sampleRedsDisplay with channels :=
              [{ type := 2, id := 0, local_caps := { common_caps := [1], caps := [] } },
               sampleDisplayChannel, sampleMainChannel] },
           [Event.g_warn_if_fail, Event.main_channel_registered_new_channel 2 0]) :=
  ⟨rfl, rfl⟩

/-- C17 (amended): `reds_register_channel` has no failing result. For a pair that
is not registered yet it puts the channel at the head of the list, and a list
without two channels of one pair stays so. For a pair that is registered it stops
on an assertion in a build with extra checks and otherwise warns and adds the
channel all the same. Whenever it returns, `reds_find_channel` finds the channel
just registered; and in a list without two channels of one pair every channel is
the one found for its pair. -/
theorem register_channel_prepends (extra : Bool) (reds : RedsState) (channel : RedChannel) :
    (reds_find_channel reds channel.type channel.id = none →
      reds_register_channel extra reds channel
        = Except.ok ({ reds with channels := channel :: reds.channels },
            [Event.main_channel_registered_new_channel channel.type channel.id]) ∧
      ((reds.channels.map (fun c => (c.type, c.id))).Nodup →
        ((channel :: reds.channels).map (fun c => (c.type, c.id))).Nodup)) ∧
    (reds_find_channel reds channel.type channel.id ≠ none →
      reds_register_channel extra reds channel
        = if extra then Except.error Halt.assert_failed
          else Except.ok ({ reds with channels := channel :: reds.channels },
            [Event.g_warn_if_fail,
             Event.main_channel_registered_new_channel channel.type channel.id])) ∧
    (∀ st ev, reds_register_channel extra reds channel = Except.ok (st, ev) →
      st.channels = channel :: reds.channels ∧
      reds_find_channel st channel.type channel.id = some channel) ∧
    ((reds.channels.map (fun c => (c.type, c.id))).Nodup →
      ∀ c ∈ reds.channels, reds_find_channel reds c.type c.id = some c) := by
  refine ⟨?_, ?_, ?_, ?_⟩
  · intro hnone
    refine ⟨?_, ?_⟩
    · unfold reds_register_channel
      simp [hnone]
    · intro hnd
      rw [List.map_cons, List.nodup_cons]
      exact ⟨(find_channel_none_iff reds channel.type channel.id).mp hnone, hnd⟩
  · intro hsome
    have hf : (reds_find_channel reds channel.type channel.id).isSome = true := by
      cases h : reds_find_channel reds channel.type channel.id with
      | none => exact absurd h hsome
      | some _ => rfl
    unfold reds_register_channel
    cases extra <;> simp [hf]
  · intro st ev h
    have hst : st.channels = channel :: reds.channels := by
      unfold reds_register_channel at h
      simp only at h
      split_ifs at h <;> (cases h; rfl)
    refine ⟨hst, ?_⟩
    unfold reds_find_channel
    rw [hst]
    simp [List.find?_cons]
  · intro hnd c hc
    exact find_channel_of_nodup reds.channels reds rfl hnd c hc

/-- C17 (witness): registering the display channel on the sample server, where its
pair is free. -/
theorem register_channel_prepends_witness :
    reds_find_channel sampleReds 2 0 = none ∧
    reds_register_channel true sampleReds sampleDisplayChannel
      = Except.ok ({ sampleReds with channels := sampleDisplayChannel :: sampleReds.channels },
          [Event.main_channel_registered_new_channel 2 0]) :=
  ⟨by decide, ((register_channel_prepends true sampleReds sampleDisplayChannel).1
    (by decide)).1⟩


/-- The setter alone keeps the two modes apart: after it, seamless migration is
enabled only if multi-client mode is off. -/
theorem set_seamless_migration_excludes_multi_client (reds : RedsState) (enable : Int) :
    ((spice_server_set_seamless_migration reds enable).seamless_migration_enabled = true →
      (spice_server_set_seamless_migration reds enable).allow_multiple_clients = false) ∧
    (spice_server_set_seamless_migration reds enable).allow_multiple_clients
      = reds.allow_multiple_clients := by
  unfold spice_server_set_seamless_migration
  cases h : reds.allow_multiple_clients <;> simp [h]

/-- C19 (failing input): seamless migration is enabled on the new server, then the
server is initialised with `SPICE_DEBUG_ALLOW_MC` set. Initialisation turns
multi-client mode on and leaves seamless_migration_enabled as it was, so both are
true, and with a migration interface and a peer that has the tokens capability
`spice_server_migrate_connect` asks the control channel to try a seamless
migration. With the two calls in the other order the setter refuses. -/
theorem seamless_enabled_before_init_survives_multi_client :
    (∃ reds ev reds2,
      spice_server_init sampleAgent sampleInitEnvMC
          (spice_server_set_seamless_migration (spice_server_new stdConsts) 1)
        = Except.ok (0, reds, ev) ∧
      reds.allow_multiple_clients = true ∧
      reds.seamless_migration_enabled = true ∧
      spice_server_migrate_connect
          { cap_agent_connected_tokens := true, migrate_connect_started := fun _ => true }
          { reds with migration_interface := true } true 5900 (-1)
        = Except.ok (0, reds2,
            [Event.main_channel_migrate_connect true, Event.mig_timer_start]) ∧
      reds2.allow_multiple_clients = true) ∧
    (∃ reds ev,
      spice_server_init sampleAgent sampleInitEnvMC (spice_server_new stdConsts)
        = Except.ok (0, reds, ev) ∧
      (spice_server_set_seamless_migration reds 1).allow_multiple_clients = true ∧
      (spice_server_set_seamless_migration reds 1).seamless_migration_enabled = false) :=
  ⟨⟨_, _, _, rfl, rfl, rfl, rfl, rfl⟩, ⟨_, _, rfl, rfl, rfl⟩⟩


/-- C18 (counterexample): on a server configured to exit on disconnect, a call for
the null client, and a call for a client already marked as disconnecting, end the
process. -/
theorem client_disconnect_exits_on_null_client :
    reds_client_disconnect sampleRedsExit none = Except.error Halt.exited ∧
    reds_client_disconnect sampleRedsExit
        (some { sampleTargetClient 100 5 with disconnecting := true })
      = Except.error Halt.exited :=
  ⟨rfl, rfl⟩

/-- C18 (amended): a call of `reds_client_disconnect` for the null client or for a
client marked as disconnecting ends the process when exit_on_disconnect is set and
otherwise returns with the whole server state unchanged, having called nothing. -/
theorem client_disconnect_noop (reds : RedsState) (client : Option RedClient)
    (hc : client = none ∨ ∃ c, client = some c ∧ c.disconnecting = true) :
    (reds.config.exit_on_disconnect = true →
      reds_client_disconnect reds client = Except.error Halt.exited) ∧
    (reds.config.exit_on_disconnect = false →
      reds_client_disconnect reds client = Except.ok (reds, [])) := by
  refine ⟨fun hx => ?_, fun hx => ?_⟩
  · unfold reds_client_disconnect
    rw [if_pos hx]
  · unfold reds_client_disconnect
    rw [hx]
    rcases hc with rfl | ⟨c, rfl, hd⟩
    · rfl
    · simp [hd]

/-- C18 (witness): a second request for a client that is being disconnected, on the
sample server. -/
theorem client_disconnect_noop_witness :
    reds_client_disconnect samplePendingReds
        (some { sampleTargetClient 101 6 with disconnecting := true })
      = Except.ok (samplePendingReds, []) :=
  (client_disconnect_noop samplePendingReds
    (some { sampleTargetClient 101 6 with disconnecting := true })
    (Or.inr ⟨_, rfl, rfl⟩)).2 rfl


/-- Under its assertion `reds_mig_cleanup` returns; it keeps the configuration, the
migration interface and the migration-target records, and its assertion holds
afterwards. -/
theorem mig_cleanup_returns (reds : RedsState) (h : reds_mig_cleanup_asserts reds = true) :
    ∃ r ev, reds_mig_cleanup reds = Except.ok (r, ev) ∧ r.config = reds.config ∧
      r.mig_target_clients = reds.mig_target_clients ∧
      reds_mig_cleanup_asserts r = true := by
  unfold reds_mig_cleanup
  unfold reds_mig_cleanup_asserts at h
  by_cases h1 : reds.mig_inprogress = true
  · rw [if_pos h1]
    by_cases h2 : reds.mig_wait_connect = true ∨ reds.mig_wait_disconnect = true
    · rw [if_pos h2]
      have h3 : reds.migration_interface = true := by
        rcases h2 with h2 | h2 <;> simp [h1, h2] at h <;> exact h
      simp only [h3, Bool.not_true, Bool.false_eq_true, if_false]
      exact ⟨_, _, rfl, rfl, rfl, by simp [reds_mig_cleanup_asserts]⟩
    · rw [if_neg h2]
      exact ⟨_, _, rfl, rfl, rfl, by simp [reds_mig_cleanup_asserts]⟩
  · rw [if_neg h1]
    exact ⟨_, _, rfl, rfl, rfl, h⟩

/-- Under the assertion of `reds_mig_cleanup`, `reds_mig_remove_wait_disconnect_client`
returns and keeps the configuration and the migration-target records. -/
theorem mig_remove_wait_disconnect_client_returns (reds : RedsState) (c : RedClient)
    (h : reds_mig_cleanup_asserts reds = true) :
    ∃ r ev, reds_mig_remove_wait_disconnect_client reds c = Except.ok (r, ev) ∧
      r.config = reds.config ∧ r.mig_target_clients = reds.mig_target_clients ∧
      reds_mig_cleanup_asserts r = true := by
  unfold reds_mig_remove_wait_disconnect_client
  simp only
  split_ifs with he
  · exact mig_cleanup_returns _ h
  · exact ⟨_, _, rfl, rfl, rfl, h⟩

/-- Without exit_on_disconnect and under the assertion of `reds_mig_cleanup`,
`reds_client_disconnect` returns; it keeps the configuration and makes no
migration-target record. -/
theorem client_disconnect_returns (reds : RedsState) (c : RedClient)
    (hx : reds.config.exit_on_disconnect = false)
    (h : reds_mig_cleanup_asserts reds = true) :
    ∃ r ev, reds_client_disconnect reds (some c) = Except.ok (r, ev) ∧
      r.config = reds.config ∧ r.mig_target_clients.Sublist reds.mig_target_clients ∧
      reds_mig_cleanup_asserts r = true := by
  unfold reds_client_disconnect
  rw [hx]
  simp only [Bool.false_eq_true, if_false]
  by_cases hd : c.disconnecting = true
  · rw [if_pos hd]
    exact ⟨_, _, rfl, rfl, List.Sublist.refl _, h⟩
  · rw [if_neg hd]
    generalize hr1 : (match reds_mig_target_client_find reds c with
      | some _ => reds_mig_target_client_free reds c
      | none => reds) = reds1
    have h1 : reds1.config = reds.config ∧
        reds1.mig_target_clients.Sublist reds.mig_target_clients ∧
        reds_mig_cleanup_asserts reds1 = true := by
      rw [← hr1]
      cases reds_mig_target_client_find reds c with
      | none => exact ⟨rfl, List.Sublist.refl _, h⟩
      | some _ => exact ⟨rfl, List.eraseP_sublist _, h⟩
    have hw : ∃ r2 ev2, (if reds1.mig_wait_disconnect = true then
          reds_mig_remove_wait_disconnect_client reds1 c else Except.ok (reds1, []))
          = Except.ok (r2, ev2) ∧ r2.config = reds1.config ∧
          r2.mig_target_clients = reds1.mig_target_clients ∧
          reds_mig_cleanup_asserts r2 = true := by
      split_ifs
      · exact mig_remove_wait_disconnect_client_returns reds1 c h1.2.2
      · exact ⟨_, _, rfl, rfl, rfl, h1.2.2⟩
    obtain ⟨r2, ev2, hw1, hw2, hw3, hw4⟩ := hw
    rw [hw1]
    simp only
    obtain ⟨r4, ev4, hc1, hc2, hc3, hc4⟩ := mig_cleanup_returns
        { r2 with
          clients := r2.clients.eraseP (fun d => d.ptr == c.ptr),
          agent_dev := { r2.agent_dev with
            write_filter := agent_msg_filter_init r2.config.agent_copypaste
              r2.config.agent_file_xfer r2.use_client_monitors_config true,
            read_filter := { r2.agent_dev.read_filter with
              result := AgentMsgFilterResult.DISCARD, discard_all := true },
            mig_data := none } } hw4
    have hcfg : r4.config = reds.config := by
      rw [hc2]; exact hw2.trans h1.1
    have hsub : r4.mig_target_clients.Sublist reds.mig_target_clients := by
      rw [hc3]
      show r2.mig_target_clients.Sublist reds.mig_target_clients
      rw [hw3]; exact h1.2.1
    have hsub2 : r2.mig_target_clients.Sublist reds.mig_target_clients := by
      rw [hw3]; exact h1.2.1
    split_ifs with hlen hatt
    · rw [hc1]
      exact ⟨_, _, rfl, hcfg, hsub, hc4⟩
    · rw [hc1]
      exact ⟨_, _, rfl, hcfg, hsub, hc4⟩
    · exact ⟨_, _, rfl, hw2.trans h1.1, hsub2, hw4⟩

/-- The loop of `reds_disconnect` returns under the same two conditions. -/
theorem disconnect_clients_returns (cs : List RedClient) (reds : RedsState)
    (hx : reds.config.exit_on_disconnect = false)
    (h : reds_mig_cleanup_asserts reds = true) :
    ∃ r ev, disconnect_clients reds cs = Except.ok (r, ev) ∧
      r.config = reds.config ∧ r.mig_target_clients.Sublist reds.mig_target_clients ∧
      reds_mig_cleanup_asserts r = true := by
  induction cs generalizing reds with
  | nil => exact ⟨_, _, rfl, rfl, List.Sublist.refl _, h⟩
  | cons c cs ih =>
    obtain ⟨r1, ev1, h1, h2, h3, h4⟩ := client_disconnect_returns reds c hx h
    obtain ⟨r2, ev2, k1, k2, k3, k4⟩ := ih r1 (by rw [h2]; exact hx) h4
    refine ⟨r2, ev1 ++ ev2, ?_, k2.trans h2, k3.trans h3, k4⟩
    rw [disconnect_clients, h1]
    simp only [k1]

/-- Embedding fact: `reds_disconnect` returns when the assertion of
`reds_mig_cleanup` holds and either exit_on_disconnect is not set or there is no
client; it keeps the configuration and makes no migration-target record. -/
theorem disconnect_returns (reds : RedsState)
    (h : reds_mig_cleanup_asserts reds = true)
    (hx : reds.config.exit_on_disconnect = false ∨ reds.clients = []) :
    ∃ r ev, reds_disconnect reds = Except.ok (r, ev) ∧
      r.mig_target_clients.Sublist reds.mig_target_clients := by
  have hloop : ∃ r ev, disconnect_clients reds reds.clients = Except.ok (r, ev) ∧
      r.mig_target_clients.Sublist reds.mig_target_clients ∧
      reds_mig_cleanup_asserts r = true := by
    rcases hx with hx | hx
    · obtain ⟨r, ev, h1, _, h3, h4⟩ := disconnect_clients_returns reds.clients reds hx h
      exact ⟨r, ev, h1, h3, h4⟩
    · rw [hx]
      exact ⟨_, _, rfl, List.Sublist.refl _, h⟩
  obtain ⟨r1, ev1, h1, h3, h4⟩ := hloop
  obtain ⟨r2, ev2, k1, _, k3, _⟩ := mig_cleanup_returns r1 h4
  refine ⟨r2, ev1 ++ ev2, ?_, ?_⟩
  · unfold reds_disconnect
    rw [h1]
    simp only [k1]
  · rw [k3]; exact h3

/-- The client after the items for a client that is not a migration target have
been pushed: only its pipe changed, and MAIN_INIT with its connection id is in it. -/
theorem main_link_push_init_not_target (reds : RedsState) (c : RedClient) :
    (main_link_push_init reds c false).ptr = c.ptr ∧
    (main_link_push_init reds c false).mcc.connection_id = c.mcc.connection_id ∧
    (main_link_push_init reds c false).during_target_migrate = c.during_target_migrate ∧
    PipeItem.MAIN_INIT c.mcc.connection_id ∈ (main_link_push_init reds c false).mcc.pipe := by
  unfold main_link_push_init
  simp only [Bool.not_false, if_true]
  unfold main_channel_client_push_name main_channel_client_push_uuid
  split_ifs <;> simp [main_channel_client_push_init, RedClient.pipe_add]

/-- C15 (counterexample): a single-client server configured to exit on disconnect
has a client connected. For a control-channel link with connection_id 0,
`reds_handle_main_link` drops the connected client first, and
`reds_client_disconnect` ends the process with exit(0): the handler does not return,
so no link result is sent and no client is created. -/
theorem handle_main_link_exits_on_disconnect :
    sampleRedsExit.allow_multiple_clients = false ∧
    sampleRedsExit.config.exit_on_disconnect = true ∧
    (sampleMess 1 0 0).connection_id = 0 ∧
    reds_handle_main_link sampleEnv
        { sampleRedsExit with clients :=
            [{ ptr := 99, during_target_migrate := false, seamless_migrate := false,
               disconnecting := false,
               mcc := { connection_id := 7, seamless_mig_dst := false, pipe := [] } }] }
        (sampleLink ⟨0, 2, 0, 18⟩ (some (sampleMess 1 0 0)))
      = Except.error Halt.exited :=
  ⟨rfl, rfl, rfl, rfl⟩

/-- C15 (amended): for a control-channel link for which `reds_handle_main_link`
returns (the main channel exists, `rand` eventually gives a nonzero value, and
dropping the clients already connected neither exits nor fails an assertion: the
server accepts several clients, or it has no client, or exit_on_disconnect is not
set), the handler sends link result OK and puts a new client at the head of the
client list. With
connection_id 0 the client's connection id is a nonzero output of `rand`, the client
is not a migration target, no migration-target record is made and a MAIN_INIT item
with that id is in its pipe; with another connection_id the client is a migration
target with that id and a record of its own. MAIN_INIT is pushed exactly when
connection_id is 0. -/
theorem handle_main_link_new_client (env : LinkEnv) (reds : RedsState) (link : RedLinkInfo)
    (m : SpiceLinkMess) (hm : link.link_mess = some m)
    (hmain : reds.main_channel ≠ none)
    (hrand : ∃ r ∈ env.rand_outputs, r ≠ 0)
    (hdrop : reds.allow_multiple_clients = true ∨
      (reds_mig_cleanup_asserts reds = true ∧
        (reds.config.exit_on_disconnect = false ∨ reds.clients = []))) :
    ∃ st c rest, reds_handle_main_link env reds link = Except.ok st ∧
      Event.send_link_result LinkErr.OK ∈ st.out ∧
      st.reds.clients = c :: rest ∧ c.ptr = env.new_client ∧
      Event.main_channel_link c.ptr link.stream c.mcc.connection_id c.during_target_migrate
        (red_channel_capabilities_init_from_link_message m) ∈ st.out ∧
      (m.connection_id = 0 →
        c.mcc.connection_id ≠ 0 ∧ c.mcc.connection_id ∈ env.rand_outputs ∧
        c.during_target_migrate = false ∧
        (∀ r ∈ st.reds.mig_target_clients, r ∈ reds.mig_target_clients) ∧
        PipeItem.MAIN_INIT c.mcc.connection_id ∈ c.mcc.pipe) ∧
      (m.connection_id ≠ 0 →
        c.mcc.connection_id = m.connection_id ∧ c.during_target_migrate = true ∧
        { client := c.ptr, pending_links := [] } ∈ st.reds.mig_target_clients) ∧
      ((∃ id, PipeItem.MAIN_INIT id ∈ c.mcc.pipe) ↔ m.connection_id = 0) := by
  have hlate : (reds_late_initialization reds).1.config = reds.config ∧
      (reds_late_initialization reds).1.clients = reds.clients ∧
      (reds_late_initialization reds).1.mig_target_clients = reds.mig_target_clients ∧
      reds_mig_cleanup_asserts (reds_late_initialization reds).1
        = reds_mig_cleanup_asserts reds := by
    unfold reds_late_initialization
    split_ifs <;> exact ⟨rfl, rfl, rfl, rfl⟩
  have hdropped : ∃ r2 ev2,
      (if (!reds.allow_multiple_clients) = true then
          reds_disconnect (reds_late_initialization reds).1
        else Except.ok ((reds_late_initialization reds).1, [])) = Except.ok (r2, ev2) ∧
      r2.mig_target_clients.Sublist reds.mig_target_clients := by
    by_cases ha : reds.allow_multiple_clients = true
    · rw [ha]
      exact ⟨_, _, rfl, by rw [hlate.2.2.1]⟩
    · have ha2 : reds.allow_multiple_clients = false := by
        cases h : reds.allow_multiple_clients
        · rfl
        · exact absurd h ha
      rcases hdrop with hd | ⟨hd1, hd2⟩
      · exact absurd hd ha
      · rw [ha2]
        obtain ⟨r, ev, h1, h2⟩ := disconnect_returns (reds_late_initialization reds).1
          (by rw [hlate.2.2.2]; exact hd1)
          (by rw [hlate.1, hlate.2.1]; exact hd2)
        exact ⟨r, ev, h1, by rw [← hlate.2.2.1]; exact h2⟩
  obtain ⟨r2, ev2, hd1, hd2⟩ := hdropped
  obtain ⟨mc, hmc⟩ : ∃ mc, reds.main_channel = some mc := by
    cases h : reds.main_channel with
    | none => exact absurd h hmain
    | some mc => exact ⟨mc, rfl⟩
  unfold reds_handle_main_link
  rw [hm, hmc]
  simp only
  rw [hd1]
  by_cases hz : m.connection_id = 0
  · obtain ⟨r, hr⟩ : ∃ r, env.rand_outputs.find? (fun r => r != 0) = some r := by
      cases hf : env.rand_outputs.find? (fun r => r != 0) with
      | some r => exact ⟨r, rfl⟩
      | none =>
        rw [List.find?_eq_none] at hf
        obtain ⟨r, hr1, hr2⟩ := hrand
        have := hf r hr1
        simp at this
        exact absurd this hr2
    have hr1 : r ∈ env.rand_outputs := List.mem_of_find?_eq_some hr
    have hr2 : r ≠ 0 := by
      have := List.find?_some hr
      simpa using this
    obtain ⟨p1, p2, p3, p4⟩ :=
      main_link_push_init_not_target reds (main_link_client env m r false)
    rw [if_pos hz, hr]
    simp only
    refine ⟨_, main_link_push_init reds (main_link_client env m r false) false, r2.clients,
      rfl, ?_, ?_, p1, ?_, ?_, ?_, ?_⟩
    · simp [reds_send_link_result]
    · simp only [Bool.not_false, if_true]
      split_ifs <;> rfl
    · rw [p1, p2, p3]
      simp [main_link_client]
    · intro _
      refine ⟨by rw [p2]; exact hr2, by rw [p2]; exact hr1, p3, ?_, by rw [p2]; exact p4⟩
      intro rec hrec
      have : rec ∈ r2.mig_target_clients := by
        simp only [Bool.not_false, if_true] at hrec
        split_ifs at hrec <;> exact hrec
      exact hd2.subset this
    · intro hne
      exact absurd hz hne
    · simp only [hz, iff_true]
      exact ⟨_, p4⟩
  · rw [if_neg hz]
    simp only
    refine ⟨_, main_link_client env m m.connection_id true, r2.clients,
      rfl, ?_, ?_, rfl, ?_, ?_, ?_, ?_⟩
    · simp [reds_send_link_result]
    · simp only [Bool.not_true, Bool.false_eq_true, if_false, main_link_push_init]
      split_ifs <;> rfl
    · simp [main_link_client]
    · intro h0
      exact absurd h0 hz
    · intro _
      refine ⟨rfl, rfl, ?_⟩
      simp only [Bool.not_true, Bool.false_eq_true, if_false, main_link_push_init]
      split_ifs <;> simp [reds_mig_target_client_add, main_link_client]
    · simp [hz, main_link_client]

/-- C15 (witness): the first control-channel link on the sample server, where `rand`
gives 0 and then 41: the new client gets connection id 41. -/
theorem handle_main_link_new_client_witness :
    ∃ st c rest, reds_handle_main_link sampleEnv sampleReds
        (sampleLink ⟨0, 2, 0, 18⟩ (some (sampleMess 1 0 0))) = Except.ok st ∧
      Event.send_link_result LinkErr.OK ∈ st.out ∧
      st.reds.clients = c :: rest ∧ c.ptr = 100 ∧
      Event.main_channel_link c.ptr (some sampleStream) c.mcc.connection_id
        c.during_target_migrate
        (red_channel_capabilities_init_from_link_message (sampleMess 1 0 0)) ∈ st.out ∧
      ((sampleMess 1 0 0).connection_id = 0 →
        c.mcc.connection_id ≠ 0 ∧ c.mcc.connection_id ∈ sampleEnv.rand_outputs ∧
        c.during_target_migrate = false ∧
        (∀ r ∈ st.reds.mig_target_clients, r ∈ sampleReds.mig_target_clients) ∧
        PipeItem.MAIN_INIT c.mcc.connection_id ∈ c.mcc.pipe) ∧
      ((sampleMess 1 0 0).connection_id ≠ 0 →
        c.mcc.connection_id = (sampleMess 1 0 0).connection_id ∧
        c.during_target_migrate = true ∧
        { client := c.ptr, pending_links := [] } ∈ st.reds.mig_target_clients) ∧
      ((∃ id, PipeItem.MAIN_INIT id ∈ c.mcc.pipe) ↔ (sampleMess 1 0 0).connection_id = 0) :=
  handle_main_link_new_client sampleEnv sampleReds
    (sampleLink ⟨0, 2, 0, 18⟩ (some (sampleMess 1 0 0))) (sampleMess 1 0 0) rfl
    (by decide) ⟨41, by decide, by decide⟩ (Or.inr ⟨rfl, Or.inl rfl⟩)


/-- A `size_t` subtraction that stays within range is the plain difference. -/
theorem size_t_sub_eq (x y : Nat) (hx : x < 2 ^ 64) (hy : y ≤ x) : size_t_sub x y = x - y := by
  unfold size_t_sub
  omega

/-- One call of `reds_on_main_agent_monitors_config` on a buffer within its bound:
the bound holds afterwards, the subtraction of the size test does not wrap, a
configuration is delivered only if the message is complete, its size is at least
that of a monitors configuration and its number of monitors fits, and the buffer is
empty after a delivery and after a rejection. -/
theorem monitors_config_step (A : AgentProto)
    (hA : A.sizeof_VDAgentMessage + MAX_MONITOR_CONFIG_SIZE A < 2 ^ 64)
    (reds : RedsState)
    (hinv : reds.client_monitors_config.length
      ≤ A.sizeof_VDAgentMessage + MAX_MONITOR_CONFIG_SIZE A)
    (client : Nat) (message : List Nat) :
    (reds_on_main_agent_monitors_config A reds client message).1.client_monitors_config.length
      ≤ A.sizeof_VDAgentMessage + MAX_MONITOR_CONFIG_SIZE A ∧
    size_t_sub (A.sizeof_VDAgentMessage + MAX_MONITOR_CONFIG_SIZE A)
        reds.client_monitors_config.length
      = A.sizeof_VDAgentMessage + MAX_MONITOR_CONFIG_SIZE A
        - reds.client_monitors_config.length ∧
    (∀ cfg, Event.reds_client_monitors_config cfg
        ∈ (reds_on_main_agent_monitors_config A reds client message).2 →
      A.sizeof_VDAgentMonitorsConfig ≤ A.message_size (reds.client_monitors_config ++ message) ∧
      A.sizeof_VDAgentMessage + A.message_size (reds.client_monitors_config ++ message)
        ≤ (reds.client_monitors_config ++ message).length ∧
      A.num_of_monitors (reds.client_monitors_config ++ message)
        ≤ (A.message_size (reds.client_monitors_config ++ message)
            - A.sizeof_VDAgentMonitorsConfig) / A.sizeof_VDAgentMonConfig ∧
      cfg = (reds.client_monitors_config ++ message).drop A.sizeof_VDAgentMessage ∧
      (reds_on_main_agent_monitors_config A reds client message).1.client_monitors_config
        = []) ∧
    (Event.red_channel_client_disconnect client
        ∈ (reds_on_main_agent_monitors_config A reds client message).2 →
      (reds_on_main_agent_monitors_config A reds client message).1.client_monitors_config
        = []) := by
  have hsub := size_t_sub_eq _ _ hA hinv
  have hM : MAX_MONITOR_CONFIG_SIZE A < 2 ^ 32 := by
    unfold MAX_MONITOR_CONFIG_SIZE
    exact Nat.mod_lt _ (by norm_num)
  refine ⟨?_, hsub, ?_, ?_⟩
  · unfold reds_on_main_agent_monitors_config
    simp only [hsub]
    split_ifs <;> simp only [List.length_nil, List.length_append, Nat.zero_le] <;> omega
  · intro cfg hcfg
    unfold reds_on_main_agent_monitors_config at hcfg ⊢
    simp only [hsub] at hcfg ⊢
    split_ifs at hcfg ⊢ with h1 h2 h3 h4 h5 h6
    all_goals first
      | (simp at hcfg; done)
      | skip
    have hlen : (reds.client_monitors_config ++ message).length < 2 ^ 64 := by
      rw [List.length_append]; omega
    have hsub2 := size_t_sub_eq (reds.client_monitors_config ++ message).length
      A.sizeof_VDAgentMessage hlen (by omega)
    have hsub3 := size_t_sub_eq (A.message_size (reds.client_monitors_config ++ message))
      A.sizeof_VDAgentMonitorsConfig (by omega) (by omega)
    rw [hsub2] at h4
    rw [hsub3] at h6
    simp only [List.mem_singleton, Event.reds_client_monitors_config.injEq] at hcfg
    refine ⟨by omega, by omega, ?_, hcfg, rfl⟩
    have := Nat.mod_le ((A.message_size (reds.client_monitors_config ++ message)
      - A.sizeof_VDAgentMonitorsConfig) / A.sizeof_VDAgentMonConfig) (2 ^ 32)
    omega
  · intro hdis
    unfold reds_on_main_agent_monitors_config at hdis ⊢
    simp only [hsub] at hdis ⊢
    split_ifs at hdis ⊢ <;> first | rfl | simp at hdis

/-- C14: after any sequence of fragments passed to
`reds_on_main_agent_monitors_config`, starting from a buffer within the bound
sizeof(VDAgentMessage) + MAX_MONITOR_CONFIG_SIZE, the buffer is within that bound,
so that the subtraction in the size test of the next call does not wrap; and the
next call, for any fragment, delivers a configuration only if the message size is
at least sizeof(VDAgentMonitorsConfig) and num_of_monitors is at most
(size - sizeof(VDAgentMonitorsConfig)) / sizeof(VDAgentMonConfig), and leaves the
buffer empty when it delivers and when it rejects. -/
theorem monitors_config_reassembly (A : AgentProto)
    (hA : A.sizeof_VDAgentMessage + MAX_MONITOR_CONFIG_SIZE A < 2 ^ 64)
    (client : Nat) (fragments : List (List Nat)) (reds : RedsState)
    (hinv : reds.client_monitors_config.length
      ≤ A.sizeof_VDAgentMessage + MAX_MONITOR_CONFIG_SIZE A)
    (message : List Nat) :
    (monitors_config_fragments A client reds fragments).1.client_monitors_config.length
      ≤ A.sizeof_VDAgentMessage
        + (A.sizeof_VDAgentMonitorsConfig + 256 * A.sizeof_VDAgentMonConfig) ∧
    size_t_sub (A.sizeof_VDAgentMessage + MAX_MONITOR_CONFIG_SIZE A)
        (monitors_config_fragments A client reds fragments).1.client_monitors_config.length
      = A.sizeof_VDAgentMessage + MAX_MONITOR_CONFIG_SIZE A
        - (monitors_config_fragments A client reds fragments).1.client_monitors_config.length ∧
    (∀ cfg, Event.reds_client_monitors_config cfg
        ∈ (reds_on_main_agent_monitors_config A
            (monitors_config_fragments A client reds fragments).1 client message).2 →
      A.sizeof_VDAgentMonitorsConfig ≤ A.message_size
        ((monitors_config_fragments A client reds fragments).1.client_monitors_config
          ++ message) ∧
      A.num_of_monitors
          ((monitors_config_fragments A client reds fragments).1.client_monitors_config
            ++ message)
        ≤ (A.message_size
            ((monitors_config_fragments A client reds fragments).1.client_monitors_config
              ++ message)
            - A.sizeof_VDAgentMonitorsConfig) / A.sizeof_VDAgentMonConfig ∧
      (reds_on_main_agent_monitors_config A
          (monitors_config_fragments A client reds fragments).1 client
          message).1.client_monitors_config = []) ∧
    (Event.red_channel_client_disconnect client
        ∈ (reds_on_main_agent_monitors_config A
            (monitors_config_fragments A client reds fragments).1 client message).2 →
      (reds_on_main_agent_monitors_config A
          (monitors_config_fragments A client reds fragments).1 client
          message).1.client_monitors_config = []) := by
  have hrun : ∀ (fs : List (List Nat)) (r : RedsState),
      r.client_monitors_config.length
        ≤ A.sizeof_VDAgentMessage + MAX_MONITOR_CONFIG_SIZE A →
      (monitors_config_fragments A client r fs).1.client_monitors_config.length
        ≤ A.sizeof_VDAgentMessage + MAX_MONITOR_CONFIG_SIZE A := by
    intro fs
    induction fs with
    | nil => intro r hr; exact hr
    | cons f fs ih =>
      intro r hr
      rw [monitors_config_fragments]
      exact ih _ (monitors_config_step A hA r hr client f).1
  have hend := hrun fragments reds hinv
  obtain ⟨_, h2, h3, h4⟩ := monitors_config_step A hA _ hend client message
  have hle : MAX_MONITOR_CONFIG_SIZE A
      ≤ A.sizeof_VDAgentMonitorsConfig + 256 * A.sizeof_VDAgentMonConfig := by
    unfold MAX_MONITOR_CONFIG_SIZE
    exact Nat.mod_le _ _
  refine ⟨by omega, h2, ?_, h4⟩
  intro cfg hcfg
  obtain ⟨k1, _, k3, _, k5⟩ := h3 cfg hcfg
  exact ⟨k1, k3, k5⟩

/-- C14 (witness): a monitors configuration with one monitor, 48 bytes with its
header, passed in a fragment of 30 bytes and one of 18: the first is kept, within
the bound, and the second completes the message, which is delivered. -/
theorem monitors_config_reassembly_witness :
    (monitors_config_fragments sampleAgent 100 sampleReds
        [sampleMonitorsMessage.take 30]).1.client_monitors_config.length
      ≤ 20 + (8 + 256 * 20) ∧
    reds_on_main_agent_monitors_config sampleAgent
        (monitors_config_fragments sampleAgent 100 sampleReds
          [sampleMonitorsMessage.take 30]).1 100 (sampleMonitorsMessage.drop 30)
      = (sampleReds, [Event.reds_client_monitors_config (sampleMonitorsMessage.drop 20)]) :=
  ⟨(monitors_config_reassembly sampleAgent (by decide) 100 [sampleMonitorsMessage.take 30]
      sampleReds (by decide) (sampleMonitorsMessage.drop 30)).1, by decide⟩


/-- C28 (failing input): a client that linked with connection id 0, so that it is
not a migration target and has no migration-target record, sends "do seamless" with
the server's own protocol version. `reds_on_migrate_dst_set_seamless` marks the
client as migrating seamlessly before it looks for the record, finds none and
returns false: the peer gets SEAMLESS_NACK and the client stays marked. -/
theorem dst_set_seamless_false_leaves_client_marked :
    ∃ st c reds2 c2 reds3 c3,
      reds_handle_main_link sampleEnv sampleReds
          (sampleLink ⟨0, 2, 0, 18⟩ (some (sampleMess 1 0 0))) = Except.ok st ∧
      main_channel_get_client_by_link_id st.reds 41 = some c ∧
      c.seamless_migrate = false ∧ c.during_target_migrate = false ∧
      reds_mig_target_client_find st.reds c = none ∧
      reds_on_migrate_dst_set_seamless stdConsts st.reds c 1
        = Except.ok (false, reds2, c2, []) ∧
      c2.seamless_migrate = true ∧
      (main_channel_get_client_by_link_id reds2 41).map (fun d => d.seamless_migrate)
        = some true ∧
      main_channel_client_handle_migrate_dst_do_seamless stdConsts st.reds c 1
        = Except.ok (reds3, c3, []) ∧
      c3.seamless_migrate = true ∧
      c3.mcc.pipe = [PipeItem.MAIN_INIT 41, PipeItem.MIGRATE_DST_SEAMLESS_NACK] :=
  ⟨_, _, _, _, _, _, rfl, rfl, rfl, rfl, rfl, rfl, rfl, rfl, rfl, rfl, rfl⟩


/-- A capability test reads a word only below the number of common capabilities. -/
theorem test_capability_index_lt (m : SpiceLinkMess) (cap idx : Nat)
    (h : Event.cap_test idx ∈ (red_link_info_test_capability m cap).2) :
    idx < m.num_common_caps := by
  unfold red_link_info_test_capability test_capability at h
  simp only at h
  split_ifs at h with hle
  · simp at h
  · simp only [List.mem_singleton, Event.cap_test.injEq] at h
    omega

/-- C22 (counterexample): on a server with the constants of spice-protocol, where
the packed link message has 18 bytes, a link whose payload of 4094 bytes holds the
link message and 1019 common capability words passes `reds_handle_read_header_done`
and is accepted by `reds_handle_read_link_done`: no INVALID_DATA reply is sent and the
link is kept. The capability array ends at byte 4094 of the payload, and the
combined count, 1019, is above 1018. -/
theorem read_link_done_accepts_1019_caps :
    (reds_handle_read_header_done stdConsts sampleReds
      (sampleLink ⟨0, 2, 0, 4094⟩ (some manyCapsMess))).link ≠ none ∧
    (∃ st, reds_handle_read_link_done stdConsts sampleEnv sampleReds
        (sampleLink ⟨0, 2, 0, 4094⟩ (some manyCapsMess)) = Except.ok st ∧
      Event.send_link_error LinkErr.INVALID_DATA ∉ st.out ∧ st.link ≠ none) ∧
    manyCapsMess.caps_offset
      + 4 * (manyCapsMess.num_common_caps + manyCapsMess.num_channel_caps) = 4094 ∧
    ¬ manyCapsMess.num_common_caps + manyCapsMess.num_channel_caps ≤ 1018 := by
  set_option maxRecDepth 100000 in
  exact ⟨by decide, ⟨_, rfl, by decide, by decide⟩, by decide, by decide⟩

/-- C22 (amended): for a link whose header passed `reds_handle_read_header_done` and
whose message, with at least one capability, is accepted by
`reds_handle_read_link_done` (it returns without an INVALID_DATA reply): the
capability array starts at or after sizeof(SpiceLinkMess) and ends within the
declared payload size, which is at most 4096; the combined count is at most
(4096 - sizeof(SpiceLinkMess)) / 4, which is 1019 for the packed link message of 18
bytes; neither the sum of the two counts nor the bound wraps; and every word that is
swapped (index below the combined count), tested (index below the number of common
capabilities) or copied by `red_channel_capabilities_init_from_link_message` lies
inside the payload. -/
theorem read_link_done_accepted_caps_in_payload (K : ProtoConsts) (env : LinkEnv)
    (reds : RedsState) (link : RedLinkInfo) (m : SpiceLinkMess) (st : LinkStep)
    (hhdr : (reds_handle_read_header_done K reds link).link ≠ none)
    (hm : link.link_mess = some m)
    (hoff : m.caps_offset < 2 ^ 32)
    (hcaps : 0 < m.num_common_caps + m.num_channel_caps)
    (hok : reds_handle_read_link_done K env reds link = Except.ok st)
    (hacc : Event.send_link_error LinkErr.INVALID_DATA ∉ st.out) :
    K.sizeof_SpiceLinkMess ≤ m.caps_offset ∧
    m.caps_offset + 4 * (m.num_common_caps + m.num_channel_caps) ≤ link.link_header.size ∧
    link.link_header.size ≤ 4096 ∧
    m.num_common_caps + m.num_channel_caps ≤ (4096 - K.sizeof_SpiceLinkMess) / 4 ∧
    (K.sizeof_SpiceLinkMess = 18 → m.num_common_caps + m.num_channel_caps ≤ 1019) ∧
    m.num_common_caps + m.num_channel_caps < 2 ^ 32 ∧
    (m.num_common_caps + m.num_channel_caps) * 4 + m.caps_offset < 2 ^ 64 ∧
    (∀ i, i < m.num_common_caps + m.num_channel_caps →
      m.caps_offset + 4 * i + 4 ≤ link.link_header.size) ∧
    (∀ cap idx, Event.cap_test idx ∈ (red_link_info_test_capability m cap).2 →
      m.caps_offset + 4 * idx + 4 ≤ link.link_header.size) ∧
    (red_channel_capabilities_init_from_link_message m).common_caps
      = (List.range m.num_common_caps).map m.cap_word ∧
    (red_channel_capabilities_init_from_link_message m).caps
      = (List.range m.num_channel_caps).map (fun i => m.cap_word (m.num_common_caps + i)) := by
  have hsize : link.link_header.size ≤ 4096 := by
    unfold reds_handle_read_header_done at hhdr
    simp only at hhdr
    by_cases h1 : link.link_header.major_version ≠ K.SPICE_VERSION_MAJOR
    · rw [if_pos h1] at hhdr
      exact absurd rfl hhdr
    · rw [if_neg h1] at hhdr
      by_cases h2 : link.link_header.size < K.sizeof_SpiceLinkMess ∨
          link.link_header.size > 4096
      · rw [if_pos h2] at hhdr
        exact absurd rfl hhdr
      · push_neg at h2
        omega
  have hbounds : m.num_common_caps ≤ 1024 ∧ m.num_channel_caps ≤ 1024 ∧
      K.sizeof_SpiceLinkMess ≤ m.caps_offset ∧
      m.caps_offset + 4 * (m.num_common_caps + m.num_channel_caps)
        ≤ link.link_header.size := by
    unfold reds_handle_read_link_done at hok
    rw [hm] at hok
    simp only at hok
    by_cases h1 : m.num_channel_caps > 1024 ∨ m.num_common_caps > 1024
    · rw [if_pos h1] at hok
      cases hok
      exact absurd (by simp [reds_send_link_error]) hacc
    · rw [if_neg h1] at hok
      have hc1 : m.num_common_caps ≤ 1024 := by omega
      have hc2 : m.num_channel_caps ≤ 1024 := by omega
      have hmod : (m.num_common_caps + m.num_channel_caps) % 2 ^ 32
          = m.num_common_caps + m.num_channel_caps := Nat.mod_eq_of_lt (by omega)
      rw [hmod] at hok
      have hmod2 : ((m.num_common_caps + m.num_channel_caps) * 4 + m.caps_offset) % 2 ^ 64
          = (m.num_common_caps + m.num_channel_caps) * 4 + m.caps_offset :=
        Nat.mod_eq_of_lt (by omega)
      rw [hmod2] at hok
      by_cases h2 : m.num_common_caps + m.num_channel_caps ≠ 0 ∧
          ((m.num_common_caps + m.num_channel_caps) * 4 + m.caps_offset
              > link.link_header.size ∨
            m.caps_offset < K.sizeof_SpiceLinkMess)
      · rw [if_pos h2] at hok
        cases hok
        exact absurd (by simp [reds_send_link_error]) hacc
      · refine ⟨hc1, hc2, ?_, ?_⟩
        · by_contra hlt
          exact h2 ⟨by omega, Or.inr (by omega)⟩
        · by_contra hgt
          exact h2 ⟨by omega, Or.inl (by omega)⟩
  obtain ⟨hc1, hc2, hb1, hb2⟩ := hbounds
  refine ⟨hb1, hb2, hsize, ?_, ?_, by omega, by omega, ?_, ?_, rfl, rfl⟩
  · rw [Nat.le_div_iff_mul_le (by norm_num)]
    omega
  · intro h18
    omega
  · intro i hi
    omega
  · intro cap idx hidx
    have := test_capability_index_lt m cap idx hidx
    omega

/-- C22 (witness): the payload of 4094 bytes with 1019 common capability words at
offset 18 is accepted on the sample server: the array starts after the 18 bytes of
the link message, ends within the payload, the count is within the bound for 18
bytes, which it reaches, and the last word lies inside the payload. -/
theorem read_link_done_accepted_caps_in_payload_witness :
    stdConsts.sizeof_SpiceLinkMess ≤ manyCapsMess.caps_offset ∧
    manyCapsMess.caps_offset
        + 4 * (manyCapsMess.num_common_caps + manyCapsMess.num_channel_caps) ≤ 4094 ∧
    manyCapsMess.num_common_caps + manyCapsMess.num_channel_caps
      ≤ (4096 - stdConsts.sizeof_SpiceLinkMess) / 4 ∧
    manyCapsMess.num_common_caps + manyCapsMess.num_channel_caps ≤ 1019 ∧
    manyCapsMess.caps_offset + 4 * 1018 + 4 ≤ 4094 := by
  set_option maxRecDepth 100000 in
  exact
    have h := read_link_done_accepted_caps_in_payload stdConsts sampleEnv sampleReds
      (sampleLink ⟨0, 2, 0, 4094⟩ (some manyCapsMess)) manyCapsMess
      ((reds_handle_read_link_done stdConsts sampleEnv sampleReds
        (sampleLink ⟨0, 2, 0, 4094⟩ (some manyCapsMess))).toOption.getD ⟨sampleReds, none, []⟩)
      (by decide) rfl (by decide) (by decide) rfl (by decide)
    ⟨h.1, h.2.1, h.2.2.2.1, h.2.2.2.2.1 rfl, h.2.2.2.2.2.2.2.1 1018 (by decide)⟩


/-- C24: a control channel client that is not a seamless-migration destination and
has not sent MAIN_INIT drops every item of another type: its state is unchanged and
no message is marshalled or begun, for one item and for any sequence of items
without MAIN_INIT; the MAIN_INIT item itself is sent and sets init_sent; and
init_sent, once set, stays set over any sequence of items. -/
theorem send_item_waits_for_init (mcc : MainChannelClient)
    (hs : mcc.seamless_mig_dst = false) :
    (mcc.init_sent = false → ∀ type, type ≠ MainPipeItemType.INIT →
      main_channel_client_send_item mcc type = (mcc, [Event.red_channel_warning])) ∧
    (mcc.init_sent = false → ∀ types, MainPipeItemType.INIT ∉ types →
      (main_channel_client_send_items mcc types).1 = mcc ∧
      ∀ e ∈ (main_channel_client_send_items mcc types).2, e = Event.red_channel_warning) ∧
    main_channel_client_send_item mcc MainPipeItemType.INIT
      = ({ mcc with init_sent := true },
         [Event.marshall_item MainPipeItemType.INIT, Event.begin_send_message]) ∧
    (mcc.init_sent = true → ∀ types,
      (main_channel_client_send_items mcc types).1.init_sent = true) := by
  have hone : ∀ (c : MainChannelClient), c.seamless_mig_dst = false → c.init_sent = false →
      ∀ type, type ≠ MainPipeItemType.INIT →
      main_channel_client_send_item c type = (c, [Event.red_channel_warning]) := by
    intro c h1 h2 type ht
    unfold main_channel_client_send_item
    simp [h1, h2, ht]
  have hkeep : ∀ (c : MainChannelClient) (type : MainPipeItemType), c.init_sent = true →
      (main_channel_client_send_item c type).1.init_sent = true := by
    intro c type h
    unfold main_channel_client_send_item
    cases type <;> simp [h]
    split_ifs <;> exact h
  refine ⟨hone mcc hs, ?_, ?_, ?_⟩
  · intro hi types
    induction types with
    | nil => intro _; exact ⟨rfl, by simp [main_channel_client_send_items]⟩
    | cons t ts ih =>
      intro hno
      have ht : t ≠ MainPipeItemType.INIT := fun h => hno (by simp [h])
      have hts : MainPipeItemType.INIT ∉ ts := fun h => hno (List.mem_cons_of_mem _ h)
      have hstep := hone mcc hs hi t ht
      obtain ⟨h1, h2⟩ := ih hts
      rw [main_channel_client_send_items, hstep]
      refine ⟨h1, ?_⟩
      intro e he
      rcases List.mem_append.mp he with he | he
      · simpa using he
      · exact h2 e he
  · unfold main_channel_client_send_item
    simp
  · intro hi types
    induction types generalizing mcc with
    | nil => exact hi
    | cons t ts ih =>
      rw [main_channel_client_send_items]
      have hseam : (main_channel_client_send_item mcc t).1.seamless_mig_dst = false := by
        unfold main_channel_client_send_item
        cases t <;> simp [hs] <;> split_ifs <;> simp [hs]
      exact ih _ hseam (hkeep mcc t hi)

/-- C24 (witness): before MAIN_INIT a name, a ping and a channels list are dropped by
the sample client; after MAIN_INIT the name is sent. -/
theorem send_item_waits_for_init_witness :
    (main_channel_client_send_items sampleSrcMcc
        [MainPipeItemType.NAME, MainPipeItemType.PING, MainPipeItemType.CHANNELS_LIST]).1
      = sampleSrcMcc ∧
    (main_channel_client_send_items sampleSrcMcc
        [MainPipeItemType.INIT, MainPipeItemType.NAME]).2
      = [Event.marshall_item MainPipeItemType.INIT, Event.begin_send_message,
         Event.marshall_item MainPipeItemType.NAME, Event.begin_send_message] :=
  ⟨((send_item_waits_for_init sampleSrcMcc rfl).2.1 rfl
      [MainPipeItemType.NAME, MainPipeItemType.PING, MainPipeItemType.CHANNELS_LIST]
      (by decide)).1, by decide⟩


/-- C30 (failing input): a playback client whose peer supports CELT and not OPUS, on
a channel at 48000 Hz where the codec supports both modes, with compression on.
`playback_channel_client_constructed`, like `snd_desired_audio_mode` on these
inputs, selects CELT; `snd_set_playback_compression` passes the two capabilities in
the opposite order and selects OPUS, a mode the peer lacks. -/
theorem set_playback_compression_swaps_capabilities :
    snd_desired_audio_mode (fun _ _ => true) true 48000 true false
      = AudioDataMode.CELT_0_5_1 ∧
    (playback_channel_client_constructed (fun _ _ => true) true true 48000
        sampleCeltClient).mode = AudioDataMode.CELT_0_5_1 ∧
    snd_set_playback_compression (fun _ _ => true) 5
        [{ channel_type := 5, frequency := 48000, connection := some sampleCeltClient }] true
      = [{ channel_type := 5, frequency := 48000,
           connection := some { sampleCeltClient with mode := AudioDataMode.OPUS,
                                                       command_playback_mode := true } }] := by
  decide

/-- The mode `snd_set_playback_compression` gives a connected playback client is
`snd_desired_audio_mode` with the two capabilities exchanged. -/
theorem set_playback_compression_mode (capable : AudioDataMode → Nat → Bool)
    (playback_type frequency : Nat) (playback : PlaybackChannelClient) (on_ : Bool) :
    (snd_set_playback_compression capable playback_type
        [{ channel_type := playback_type, frequency := frequency,
           connection := some playback }] on_).map
          (fun c => c.connection.map (fun p => p.mode))
      = [some (snd_desired_audio_mode capable on_ frequency playback.cap_opus
          playback.cap_celt_0_5_1)] := by
  unfold snd_set_playback_compression
  simp only [List.map_cons, List.map_nil, if_true]
  split_ifs with h
  · rfl
  · simp only [not_not] at h
    simp [h]


/-- The value of `RECORD_SAMPLES_SIZE`. -/
theorem record_samples_size_eq : RECORD_SAMPLES_SIZE = 8192 := by decide

/-- Reading a list after its first `n` elements. -/
theorem getD_drop_nat (l : List Nat) (n i : Nat) : (l.drop n).getD i 0 = l.getD (n + i) 0 := by
  simp [List.getD_eq_getElem?_getD]

/-- Reading a list cut to its first `n` elements, below `n`. -/
theorem getD_take_nat (l : List Nat) (n i : Nat) (h : i < n) :
    (l.take n).getD i 0 = l.getD i 0 := by
  simp [List.getD_eq_getElem?_getD, List.getElem?_take, h]

/-- Reading two lists put one after the other. -/
theorem getD_append_nat (l p : List Nat) (k : Nat) :
    (l ++ p).getD k 0 = if k < l.length then l.getD k 0 else p.getD (k - l.length) 0 := by
  split_ifs with h
  · simp [List.getD_eq_getElem?_getD, List.getElem?_append_left h]
  · simp [List.getD_eq_getElem?_getD, List.getElem?_append_right (not_lt.mp h)]

/-- One raw-mode packet of at most `RECORD_SAMPLES_SIZE` samples written to a ring
that holds `written`: the ring holds `written ++ packet`. -/
theorem record_write_step (decode : List Nat → Option (List Nat))
    (rc : RecordChannelClient) (written packet : List Nat)
    (hraw : rc.mode = AudioDataMode.RAW) (hp : packet.length ≤ RECORD_SAMPLES_SIZE)
    (hinv : record_ring_holds rc written) :
    (snd_record_handle_write decode rc packet).1 = true ∧
    (snd_record_handle_write decode rc packet).2.mode = AudioDataMode.RAW ∧
    (snd_record_handle_write decode rc packet).2.active = rc.active ∧
    record_ring_holds (snd_record_handle_write decode rc packet).2 (written ++ packet) := by
  obtain ⟨hw, hr, hs⟩ := hinv
  rw [record_samples_size_eq] at hp hr hs
  unfold snd_record_handle_write
  simp only [hraw, if_true, Nat.min_eq_left (record_samples_size_eq ▸ hp)]
  refine ⟨trivial, trivial, trivial, ?_, ?_, ?_⟩
  · simp only [List.length_append, hw]
    omega
  · simp only [List.length_append, hw, hr, record_samples_size_eq]
    split_ifs <;> omega
  · intro k hk1 hk2
    simp only [List.length_append, record_samples_size_eq] at hk1 hk2 ⊢
    rw [getD_append_nat]
    have hwp : rc.write_pos % 8192 = written.length % 8192 := by rw [hw]; omega
    rw [hwp]
    by_cases hkn : k < written.length
    · rw [if_pos hkn, ← hs k (by omega) hkn]
      have h1 : ¬ (written.length % 8192 ≤ k % 8192 ∧
          k % 8192 < written.length % 8192
            + (packet.take (min (8192 - written.length % 8192) packet.length)).length) := by
        rw [List.length_take]
        omega
      split_ifs with hrest
      · have h2 : ¬ (0 ≤ k % 8192 ∧ k % 8192 < 0 +
            ((packet.drop (min (8192 - written.length % 8192) packet.length)).take
              (packet.length - min (8192 - written.length % 8192) packet.length)).length) := by
          rw [List.length_take, List.length_drop]
          omega
        simp only [memcpy_samples, if_neg h2, if_neg h1]
      · simp only [memcpy_samples, if_neg h1]
    · rw [if_neg hkn]
      by_cases hwrap : written.length % 8192 + (k - written.length) < 8192
      · have hk : k % 8192 = written.length % 8192 + (k - written.length) := by omega
        have h1 : written.length % 8192 ≤ k % 8192 ∧
            k % 8192 < written.length % 8192
              + (packet.take (min (8192 - written.length % 8192) packet.length)).length := by
          rw [List.length_take]
          omega
        have hval : (packet.take (min (8192 - written.length % 8192) packet.length)).getD
            (k % 8192 - written.length % 8192) 0 = packet.getD (k - written.length) 0 := by
          rw [getD_take_nat _ _ _ (by omega)]
          congr 1
          omega
        split_ifs with hrest
        · have h2 : ¬ (0 ≤ k % 8192 ∧ k % 8192 < 0 +
              ((packet.drop (min (8192 - written.length % 8192) packet.length)).take
                (packet.length - min (8192 - written.length % 8192) packet.length)).length) := by
            rw [List.length_take, List.length_drop]
            omega
          simp only [memcpy_samples, if_neg h2, if_pos h1]
          exact hval
        · simp only [memcpy_samples, if_pos h1]
          exact hval
      · have hk : k % 8192 = written.length % 8192 + (k - written.length) - 8192 := by omega
        have hrest : packet.length - min (8192 - written.length % 8192) packet.length ≠ 0 := by
          omega
        have h2 : 0 ≤ k % 8192 ∧ k % 8192 < 0 +
            ((packet.drop (min (8192 - written.length % 8192) packet.length)).take
              (packet.length - min (8192 - written.length % 8192) packet.length)).length := by
          rw [List.length_take, List.length_drop]
          omega
        rw [if_pos hrest]
        simp only [memcpy_samples, if_pos h2]
        rw [getD_take_nat _ _ _ (by omega), getD_drop_nat]
        congr 1
        omega

/-- Raw-mode packets of at most `RECORD_SAMPLES_SIZE` samples each, written one
after the other to a ring that holds `written`: the ring holds `written` followed
by all their samples. -/
theorem record_writes_hold (decode : List Nat → Option (List Nat))
    (packets : List (List Nat)) (rc : RecordChannelClient) (written : List Nat)
    (hraw : rc.mode = AudioDataMode.RAW)
    (hlen : ∀ p ∈ packets, p.length ≤ RECORD_SAMPLES_SIZE)
    (hinv : record_ring_holds rc written) :
    (snd_record_handle_writes decode rc packets).mode = AudioDataMode.RAW ∧
    (snd_record_handle_writes decode rc packets).active = rc.active ∧
    record_ring_holds (snd_record_handle_writes decode rc packets) (written ++ packets.flatten) := by
  induction packets generalizing rc written with
  | nil => simpa [snd_record_handle_writes] using ⟨hraw, hinv⟩
  | cons p ps ih =>
    obtain ⟨_, h2, h3, h4⟩ := record_write_step decode rc written p hraw
      (hlen p (List.mem_cons_self _ _)) hinv
    obtain ⟨k1, k2, k3⟩ := ih _ (written ++ p) h2
      (fun q hq => hlen q (List.mem_cons_of_mem _ hq)) h4
    rw [snd_record_handle_writes]
    refine ⟨k1, k2.trans h3, ?_⟩
    simpa [List.flatten_cons, List.append_assoc] using k3

/-- What `spice_server_record_get_samples` gives on an active ring that holds a
stream of `n` samples, at least half the ring and fewer than 2^32: the oldest
`min (min n RECORD_SAMPLES_SIZE) bufsize` of its last `min n RECORD_SAMPLES_SIZE`
samples, in order, and `read_pos` moved on by their number. -/
theorem record_get_samples_of_holds (rc : RecordChannelClient) (written : List Nat)
    (bufsize : Nat) (hact : rc.active = true) (hinv : record_ring_holds rc written)
    (hhalf : RECORD_SAMPLES_SIZE / 2 ≤ written.length) (hn : written.length < 2 ^ 32) :
    spice_server_record_get_samples rc bufsize
      = Except.ok (min (min written.length RECORD_SAMPLES_SIZE) bufsize,
          (written.drop (written.length - min written.length RECORD_SAMPLES_SIZE)).take
            (min (min written.length RECORD_SAMPLES_SIZE) bufsize),
          { rc with read_pos :=
              (rc.read_pos + min (min written.length RECORD_SAMPLES_SIZE) bufsize) % 2 ^ 32 }) := by
  obtain ⟨hw, hr, hs⟩ := hinv
  rw [record_samples_size_eq] at hhalf hr hs ⊢
  have hdiff : (rc.write_pos + 2 ^ 32 - rc.read_pos) % 2 ^ 32 = min written.length 8192 := by
    rw [hw, hr]; omega
  have hthr : ¬ rc.write_pos < 8192 / 2 := by rw [hw]; omega
  unfold spice_server_record_get_samples
  simp only [hact, Bool.not_true, Bool.false_eq_true, if_false, record_samples_size_eq,
    if_neg hthr, hdiff]
  congr 3
  apply List.ext_getElem?
  intro i
  by_cases hi : i < min (min written.length 8192) bufsize
  · have hkey : ∀ j, j < min written.length 8192 →
        rc.samples ((rc.read_pos + j) % 8192)
          = written.getD (written.length - min written.length 8192 + j) 0 := by
      intro j hj
      rw [← hs _ (by omega) (by omega)]
      congr 1
      rw [hr]
      omega
    have hrhs : ((written.drop (written.length - min written.length 8192)).take
        (min (min written.length 8192) bufsize))[i]?
          = some (written.getD (written.length - min written.length 8192 + i) 0) := by
      rw [List.getElem?_take_of_lt hi, List.getElem?_drop]
      rw [List.getD_eq_getElem?_getD]
      have hlt : written.length - min written.length 8192 + i < written.length := by omega
      rw [List.getElem?_eq_getElem hlt]
      rfl
    rw [hrhs, ← hkey i (by omega)]
    by_cases hfirst : i < min (min (min written.length 8192) bufsize) (8192 - rc.read_pos % 8192)
    · rw [List.getElem?_append_left (by rw [List.length_map, List.length_range]; exact hfirst)]
      rw [List.getElem?_map, List.getElem?_range hfirst]
      simp only [Option.map_some']
      congr 2
      omega
    · rw [List.getElem?_append_right (by rw [List.length_map, List.length_range]; omega)]
      simp only [List.length_map, List.length_range]
      have hlt : min (min (min written.length 8192) bufsize) (8192 - rc.read_pos % 8192)
          < min (min written.length 8192) bufsize := by omega
      rw [if_pos hlt, List.getElem?_map, List.getElem?_range (by omega)]
      simp only [Option.map_some']
      congr 2
      omega
  · have hlen1 : ((List.range (min (min (min written.length 8192) bufsize)
          (8192 - rc.read_pos % 8192))).map (fun i => rc.samples (rc.read_pos % 8192 + i)) ++
        (if min (min (min written.length 8192) bufsize) (8192 - rc.read_pos % 8192)
            < min (min written.length 8192) bufsize then
          (List.range (min (min written.length 8192) bufsize
            - min (min (min written.length 8192) bufsize) (8192 - rc.read_pos % 8192))).map
            (fun i => rc.samples i)
         else [])).length = min (min written.length 8192) bufsize := by
      rw [List.length_append, List.length_map, List.length_range]
      split_ifs with h
      · rw [List.length_map, List.length_range]; omega
      · simp only [List.length_nil]; omega
    rw [List.getElem?_eq_none (by omega), List.getElem?_eq_none]
    rw [List.length_take, List.length_drop]
    omega

/-- A started record client holds the empty stream. -/
theorem record_start_holds (rc0 rc1 : RecordChannelClient)
    (hstart : snd_record_start rc0 = Except.ok rc1) :
    rc1.mode = rc0.mode ∧ rc1.active = true ∧ record_ring_holds rc1 [] := by
  unfold snd_record_start at hstart
  split_ifs at hstart
  cases hstart
  exact ⟨rfl, rfl, rfl, rfl, fun k _ hk => absurd hk (by simp)⟩

/-- The number of samples in `count` packets of `size` samples each. -/
theorem replicate_flatten_length (count size value : Nat) :
    (List.replicate count (List.replicate size value)).flatten.length = count * size := by
  induction count with
  | zero => simp
  | succ c ih =>
    rw [List.replicate_succ, List.flatten_cons, List.length_append, ih,
      List.length_replicate]
    ring

/-- C29 (counterexample): 524288 raw-mode packets of 8192 samples each, 2^32 samples
in all, written after `snd_record_start` without a read. The 32-bit `write_pos` is
back at 0, below half the ring, and `spice_server_record_get_samples` with a buffer
of 8192 samples returns 0 and copies nothing. -/
theorem record_get_samples_after_write_pos_wraps :
    (List.replicate 524288 (List.replicate 8192 7)).flatten.length = 2 ^ 32 ∧
    (∀ p ∈ List.replicate 524288 (List.replicate 8192 7), p.length ≤ RECORD_SAMPLES_SIZE) ∧
    ∃ rc1, snd_record_start sampleRecordClient = Except.ok rc1 ∧
      (snd_record_handle_writes (fun _ => none) rc1
        (List.replicate 524288 (List.replicate 8192 7))).write_pos = 0 ∧
      spice_server_record_get_samples
          (snd_record_handle_writes (fun _ => none) rc1
            (List.replicate 524288 (List.replicate 8192 7))) 8192
        = Except.ok (0, [],
            snd_record_handle_writes (fun _ => none) rc1
              (List.replicate 524288 (List.replicate 8192 7))) := by
  have hlen : (List.replicate 524288 (List.replicate 8192 7)).flatten.length = 2 ^ 32 := by
    rw [replicate_flatten_length]
    norm_num
  have hp : ∀ p ∈ List.replicate 524288 (List.replicate 8192 7),
      p.length ≤ RECORD_SAMPLES_SIZE := by
    intro p hmem
    rw [List.eq_of_mem_replicate hmem, record_samples_size_eq, List.length_replicate]
  refine ⟨hlen, hp, _, rfl, ?_⟩
  obtain ⟨h1, h2, h3⟩ := record_start_holds sampleRecordClient _ rfl
  obtain ⟨_, k2, k3, _⟩ := record_writes_hold (fun _ => none)
    (List.replicate 524288 (List.replicate 8192 7)) _ [] h1 hp h3
  rw [List.nil_append, hlen] at k3
  generalize snd_record_handle_writes (fun _ => none)
    { sampleRecordClient with read_pos := 0, write_pos := 0, active := true }
    (List.replicate 524288 (List.replicate 8192 7)) = w at k2 k3 ⊢
  have hw0 : w.write_pos = 0 := by rw [k3, Nat.mod_self]
  have hact : w.active = true := k2
  refine ⟨hw0, ?_⟩
  unfold spice_server_record_get_samples
  rw [hact, hw0, record_samples_size_eq]
  rfl

/-- C29 (amended): after `snd_record_start`, raw-mode packets of at most
`RECORD_SAMPLES_SIZE` samples each are written without a read, `n` samples in all.
Then write_pos - read_pos, as a 32-bit difference, is min(n, RECORD_SAMPLES_SIZE);
and if n is at least RECORD_SAMPLES_SIZE / 2 and below 2^32,
`spice_server_record_get_samples` with buffer size b returns
min(n, RECORD_SAMPLES_SIZE, b), copies out the oldest that many of the last
min(n, RECORD_SAMPLES_SIZE) samples written, in write order, and moves read_pos on
by the number returned. -/
theorem record_ring_keeps_newest (decode : List Nat → Option (List Nat))
    (rc0 rc1 : RecordChannelClient) (packets : List (List Nat)) (bufsize : Nat)
    (hraw : rc0.mode = AudioDataMode.RAW)
    (hstart : snd_record_start rc0 = Except.ok rc1)
    (hlen : ∀ p ∈ packets, p.length ≤ RECORD_SAMPLES_SIZE) :
    ((snd_record_handle_writes decode rc1 packets).write_pos + 2 ^ 32
        - (snd_record_handle_writes decode rc1 packets).read_pos) % 2 ^ 32
      = min packets.flatten.length RECORD_SAMPLES_SIZE ∧
    (RECORD_SAMPLES_SIZE / 2 ≤ packets.flatten.length → packets.flatten.length < 2 ^ 32 →
      spice_server_record_get_samples (snd_record_handle_writes decode rc1 packets) bufsize
        = Except.ok
            (min (min packets.flatten.length RECORD_SAMPLES_SIZE) bufsize,
             (packets.flatten.drop
                (packets.flatten.length - min packets.flatten.length RECORD_SAMPLES_SIZE)).take
               (min (min packets.flatten.length RECORD_SAMPLES_SIZE) bufsize),
             { snd_record_handle_writes decode rc1 packets with
               read_pos := ((snd_record_handle_writes decode rc1 packets).read_pos
                 + min (min packets.flatten.length RECORD_SAMPLES_SIZE) bufsize) % 2 ^ 32 })) := by
  obtain ⟨h1, h2, h3⟩ := record_start_holds rc0 rc1 hstart
  obtain ⟨_, k2, k3⟩ := record_writes_hold decode packets rc1 [] (h1.trans hraw) hlen h3
  rw [List.nil_append] at k3
  refine ⟨?_, fun hhalf hn => ?_⟩
  · obtain ⟨hw, hr, _⟩ := k3
    rw [hw, hr, record_samples_size_eq]
    omega
  · exact record_get_samples_of_holds _ _ bufsize (k2.trans h2) k3 hhalf hn

/-- C29 (witness): a packet of 3 samples and a packet of 4097 samples, then a read
into a buffer of 5 samples. -/
theorem record_ring_keeps_newest_witness :
    spice_server_record_get_samples
        (snd_record_handle_writes (fun _ => none)
          { sampleRecordClient with active := true }
          [[1, 2, 3], List.replicate 4097 9]) 5
      = Except.ok
          (min (min [[1, 2, 3], List.replicate 4097 9].flatten.length RECORD_SAMPLES_SIZE) 5,
           ([[1, 2, 3], List.replicate 4097 9].flatten.drop
              ([[1, 2, 3], List.replicate 4097 9].flatten.length
                - min [[1, 2, 3], List.replicate 4097 9].flatten.length RECORD_SAMPLES_SIZE)).take
             (min (min [[1, 2, 3], List.replicate 4097 9].flatten.length RECORD_SAMPLES_SIZE) 5),
           { snd_record_handle_writes (fun _ => none)
               { sampleRecordClient with active := true }
               [[1, 2, 3], List.replicate 4097 9] with
             read_pos := ((snd_record_handle_writes (fun _ => none)
                 { sampleRecordClient with active := true }
                 [[1, 2, 3], List.replicate 4097 9]).read_pos
               + min (min [[1, 2, 3], List.replicate 4097 9].flatten.length
                   RECORD_SAMPLES_SIZE) 5) % 2 ^ 32 }) :=
  have hlen : [[1, 2, 3], List.replicate 4097 9].flatten.length = 4100 := by
    rw [List.flatten_cons, List.flatten_cons, List.flatten_nil, List.append_nil,
      List.length_append, List.length_replicate]
    rfl
  (record_ring_keeps_newest (fun _ => none) sampleRecordClient
    { sampleRecordClient with active := true } [[1, 2, 3], List.replicate 4097 9] 5 rfl rfl
    (by
      intro p hp
      rw [record_samples_size_eq]
      rcases List.mem_cons.mp hp with rfl | hp
      · decide
      · rw [List.mem_singleton.mp hp, List.length_replicate]
        decide)).2
    (by rw [hlen, record_samples_size_eq]; decide)
    (by rw [hlen]; decide)


/-- C21 (failing input): a server in multi-client mode with a migration interface.
A first client links the control channel; `spice_server_migrate_connect` starts a
migration, which arms the timer and sets mig_wait_connect; then a second client
links the control channel. In multi-client mode `reds_handle_main_link` does not
drop the clients, so `reds_mig_cleanup` does not run, and it clears mig_inprogress,
mig_wait_connect and mig_wait_disconnect without cancelling the timer. The timer is
armed with neither flag set, and when it fires `migrate_timeout` stops on its
assertion. In single-client mode the same steps cancel the timer. -/
theorem main_link_clears_wait_flags_with_timer_armed :
    (∃ reds0 ev0 st1 reds2 ev2 st3,
      spice_server_init sampleAgent sampleInitEnvMC (spice_server_new stdConsts)
        = Except.ok (0, reds0, ev0) ∧
      reds0.allow_multiple_clients = true ∧
      reds_handle_main_link sampleEnv { reds0 with migration_interface := true }
          (sampleLink ⟨0, 2, 0, 18⟩ (some (sampleMess 1 0 0))) = Except.ok st1 ∧
      spice_server_migrate_connect
          { cap_agent_connected_tokens := false, migrate_connect_started := fun _ => true }
          st1.reds true 5900 (-1) = Except.ok (0, reds2, ev2) ∧
      reds2.mig_timer_armed = true ∧ reds2.mig_wait_connect = true ∧
      reds_handle_main_link { sampleEnv with new_client := 101 } reds2
          (sampleLink ⟨0, 2, 0, 18⟩ (some (sampleMess 1 0 0))) = Except.ok st3 ∧
      st3.reds.mig_timer_armed = true ∧
      st3.reds.mig_inprogress = false ∧
      st3.reds.mig_wait_connect = false ∧ st3.reds.mig_wait_disconnect = false ∧
      mig_timer_fires st3.reds = Except.error Halt.assert_failed) ∧
    (∃ st1 reds2 ev2 st3,
      reds_handle_main_link sampleEnv { sampleReds with migration_interface := true }
          (sampleLink ⟨0, 2, 0, 18⟩ (some (sampleMess 1 0 0))) = Except.ok st1 ∧
      spice_server_migrate_connect
          { cap_agent_connected_tokens := false, migrate_connect_started := fun _ => true }
          st1.reds true 5900 (-1) = Except.ok (0, reds2, ev2) ∧
      reds2.mig_timer_armed = true ∧
      reds_handle_main_link { sampleEnv with new_client := 101 } reds2
          (sampleLink ⟨0, 2, 0, 18⟩ (some (sampleMess 1 0 0))) = Except.ok st3 ∧
      st3.reds.mig_timer_armed = false ∧
      mig_timer_fires st3.reds = Except.ok (st3.reds, [])) :=
  ⟨⟨_, _, _, _, _, _, rfl, rfl, rfl, rfl, rfl, rfl, rfl, rfl, rfl, rfl, rfl, rfl⟩,
   ⟨_, _, _, _, rfl, rfl, rfl, rfl, rfl, rfl⟩⟩


/-- C26 (failing input): the device delivers the eight bytes of a chunk header that
declares five payload bytes, and nothing more yet. The reader takes a buffer,
enters READ_DATA, reads nothing and returns: read_state is READ_DATA with no payload
byte in the current buffer, `receive_pos` at the start of its data. A migration that
begins now stops on the assertion of `reds_on_main_channel_migrate`. With a chunk
header that declares no payload the reader returns in READ_DATA with receive_len 0,
and stays there without reading whatever the device holds. -/
theorem reader_returns_in_read_data_without_payload :
    (vdi_port_read_one_msg_from_device sampleAgent sampleAgentReds
        [[1, 0, 0, 0, 5, 0, 0, 0]]).ret = none ∧
    (vdi_port_read_one_msg_from_device sampleAgent sampleAgentReds
        [[1, 0, 0, 0, 5, 0, 0, 0]]).reds.agent_dev.read_state = VDIPortReadStates.READ_DATA ∧
    (vdi_port_read_one_msg_from_device sampleAgent sampleAgentReds
        [[1, 0, 0, 0, 5, 0, 0, 0]]).reds.agent_dev.current_read_buf
      = some { len := 5, data := [] } ∧
    (vdi_port_read_one_msg_from_device sampleAgent sampleAgentReds
        [[1, 0, 0, 0, 5, 0, 0, 0]]).reds.agent_dev.receive_pos = ReceivePos.read_buf 0 ∧
    reds_on_main_channel_migrate sampleAgent
        (vdi_port_read_one_msg_from_device sampleAgent sampleAgentReds
          [[1, 0, 0, 0, 5, 0, 0, 0]]).reds 100 = Except.error Halt.assert_failed ∧
    (vdi_port_read_one_msg_from_device sampleAgent sampleAgentReds
        [[1, 0, 0, 0, 0, 0, 0, 0], [9, 9]]).reds.agent_dev.read_state
      = VDIPortReadStates.READ_DATA ∧
    (vdi_port_read_one_msg_from_device sampleAgent sampleAgentReds
        [[1, 0, 0, 0, 0, 0, 0, 0], [9, 9]]).reds.agent_dev.receive_len = 0 ∧
    (vdi_port_read_one_msg_from_device sampleAgent sampleAgentReds
        [[1, 0, 0, 0, 0, 0, 0, 0], [9, 9]]).device = [[9, 9]] ∧
    vdi_port_read_one_msg_from_device sampleAgent
        (vdi_port_read_one_msg_from_device sampleAgent sampleAgentReds
          [[1, 0, 0, 0, 0, 0, 0, 0], [9, 9]]).reds [[9, 9]]
      = { reds := (vdi_port_read_one_msg_from_device sampleAgent sampleAgentReds
            [[1, 0, 0, 0, 0, 0, 0, 0], [9, 9]]).reds,
          device := [[9, 9]], ret := none, out := [] } := by
  refine ⟨rfl, rfl, rfl, rfl, rfl, rfl, rfl, rfl, rfl⟩


/-- C25 (failing input): the device has delivered a chunk header that declares 30
payload bytes and the first 20 of them, as many as an agent message header has.
`reds_on_main_channel_migrate` pushes partial data only for more than
sizeof(VDAgentMessage) bytes, so it leaves the reader in READ_DATA with 20 bytes in
the current buffer; `reds_marshall_migrate_data` then stops on its assertion that
fewer than sizeof(VDAgentMessage) bytes are there. -/
theorem migrate_leaves_full_message_header_in_read_data :
    ∃ reds1,
      (vdi_port_read_one_msg_from_device sampleAgent sampleAgentReds
        [[1, 0, 0, 0, 30, 0, 0, 0], List.range 20]).reds = reds1 ∧
      reds1.agent_dev.read_state = VDIPortReadStates.READ_DATA ∧
      reds1.agent_dev.current_read_buf = some { len := 30, data := List.range 20 } ∧
      reds1.agent_dev.receive_pos = ReceivePos.read_buf 20 ∧
      reds1.agent_dev.read_filter.msg_data_to_read = 0 ∧
      sampleAgent.sizeof_VDAgentMessage = 20 ∧
      reds_on_main_channel_migrate sampleAgent reds1 100 = Except.ok (reds1, []) ∧
      reds_marshall_migrate_data sampleAgent reds1 = Except.error Halt.assert_failed :=
  ⟨_, rfl, rfl, rfl, rfl, rfl, rfl, rfl, rfl⟩


/-- C27 (counterexample): a record with a complete chunk header of size 100, the
message header not done and msg_header_partial_len 3000, above the 2048 bytes of a
buffer. The restore accepts it: the capacity subtraction wraps to 4294966344 and the
buffer gets len 3100. And two devices that differ only in receive_len before the
restore of a record with msg_header_done set differ in receive_len after it. -/
theorem agent_state_restore_unchecked_partial_len :
    (∃ st ev,
      reds_agent_state_restore sampleAgent sampleAgentReds
          { agent_base_connected := true, client_agent_started := true,
            a2c_chunk_header_size := 8, a2c_chunk_header := [1, 0, 0, 0, 100, 0, 0, 0],
            a2c_msg_header_done := false, a2c_msg_header_partial_len := 3000,
            a2c_msg_header_partial := [], a2c_msg_remaining := 0,
            a2c_msg_filter_result := AgentMsgFilterResult.OK,
            c2a_msg_remaining := 0, c2a_msg_filter_result := AgentMsgFilterResult.OK }
        = Except.ok (st, ev) ∧
      (sampleAgent.SPICE_AGENT_MAX_DATA_SIZE + 2 ^ 32 - 3000) % 2 ^ 32 = 4294966344 ∧
      st.agent_dev.current_read_buf = some { len := 3100, data := [] } ∧
      sampleAgent.SPICE_AGENT_MAX_DATA_SIZE = 2048) ∧
    (∃ st1 ev1 st2 ev2,
      reds_agent_state_restore sampleAgent sampleAgentReds
          { agent_base_connected := true, client_agent_started := true,
            a2c_chunk_header_size := 8, a2c_chunk_header := [1, 0, 0, 0, 100, 0, 0, 0],
            a2c_msg_header_done := true, a2c_msg_header_partial_len := 0,
            a2c_msg_header_partial := [], a2c_msg_remaining := 0,
            a2c_msg_filter_result := AgentMsgFilterResult.OK,
            c2a_msg_remaining := 0, c2a_msg_filter_result := AgentMsgFilterResult.OK }
        = Except.ok (st1, ev1) ∧
      reds_agent_state_restore sampleAgent
          { sampleAgentReds with agent_dev :=
              { sampleAgentReds.agent_dev with receive_len := 3 } }
          { agent_base_connected := true, client_agent_started := true,
            a2c_chunk_header_size := 8, a2c_chunk_header := [1, 0, 0, 0, 100, 0, 0, 0],
            a2c_msg_header_done := true, a2c_msg_header_partial_len := 0,
            a2c_msg_header_partial := [], a2c_msg_remaining := 0,
            a2c_msg_filter_result := AgentMsgFilterResult.OK,
            c2a_msg_remaining := 0, c2a_msg_filter_result := AgentMsgFilterResult.OK }
        = Except.ok (st2, ev2) ∧
      st1.agent_dev.receive_len = 8 ∧ st2.agent_dev.receive_len = 3) :=
  ⟨⟨_, _, rfl, rfl, rfl, rfl⟩, ⟨_, _, _, _, rfl, rfl, rfl, rfl⟩⟩

/-- The fields the first part of the restore sets: with a chunk header still to be
completed, read_state and receive_len; with a complete one, message_receive_len. -/
theorem restore_chunk_header_fields (A : AgentProto) (dev : RedCharDeviceVDIPortPrivate)
    (mig : SpiceMigrateDataMain) :
    (A.sizeof_VDIChunkHeader - mig.a2c_chunk_header_size ≠ 0 →
      (restore_chunk_header A dev mig).read_state = VDIPortReadStates.READ_HEADER ∧
      (restore_chunk_header A dev mig).receive_len
        = A.sizeof_VDIChunkHeader - mig.a2c_chunk_header_size ∧
      (restore_chunk_header A dev mig).message_receive_len = dev.message_receive_len) ∧
    (A.sizeof_VDIChunkHeader - mig.a2c_chunk_header_size = 0 →
      (restore_chunk_header A dev mig).read_state = dev.read_state ∧
      (restore_chunk_header A dev mig).receive_len = dev.receive_len ∧
      (restore_chunk_header A dev mig).message_receive_len
        = A.chunk_size mig.a2c_chunk_header % 2 ^ 32) ∧
    (restore_chunk_header A dev mig).num_read_buf = dev.num_read_buf ∧
    (restore_chunk_header A dev mig).current_read_buf = dev.current_read_buf ∧
    (restore_chunk_header A dev mig).read_filter = dev.read_filter ∧
    (restore_chunk_header A dev mig).write_filter = dev.write_filter ∧
    (restore_chunk_header A dev mig).vdi_chunk_header = mig.a2c_chunk_header := by
  unfold restore_chunk_header
  simp only
  split_ifs with h
  · exact ⟨fun _ => ⟨rfl, rfl, rfl⟩, fun h0 => absurd h0 h, rfl, rfl, rfl, rfl, rfl⟩
  · exact ⟨fun h0 => absurd h0 h, fun _ => ⟨rfl, rfl, rfl⟩, rfl, rfl, rfl, rfl, rfl⟩

/-- The buffer the restore makes: it is made exactly when the pool has room, and
then the reader is in READ_DATA with the lengths computed from the record. -/
theorem restore_read_buf_fields (A : AgentProto) (dev : RedCharDeviceVDIPortPrivate)
    (mig : SpiceMigrateDataMain) :
    (¬ dev.num_read_buf < 5 → restore_read_buf A dev mig = Except.error Halt.assert_failed) ∧
    (dev.num_read_buf < 5 → ∃ d, restore_read_buf A dev mig = Except.ok d ∧
      d.read_state = VDIPortReadStates.READ_DATA ∧
      d.receive_len = min dev.message_receive_len
        ((A.SPICE_AGENT_MAX_DATA_SIZE + 2 ^ 32 - mig.a2c_msg_header_partial_len) % 2 ^ 32) ∧
      d.message_receive_len = dev.message_receive_len - d.receive_len ∧
      d.current_read_buf = some
        { len := (d.receive_len + mig.a2c_msg_header_partial_len) % 2 ^ 32,
          data := mig.a2c_msg_header_partial.take mig.a2c_msg_header_partial_len } ∧
      d.receive_pos = ReceivePos.read_buf mig.a2c_msg_header_partial_len ∧
      d.num_read_buf = dev.num_read_buf + 1 ∧
      d.read_filter = dev.read_filter ∧ d.write_filter = dev.write_filter ∧
      d.vdi_chunk_header = dev.vdi_chunk_header) := by
  unfold restore_read_buf vdi_port_get_read_buf
  refine ⟨fun h => ?_, fun h => ?_⟩
  · have h5 : dev.num_read_buf ≥ 5 := by omega
    simp [h5]
  · have h5 : ¬ dev.num_read_buf ≥ 5 := by omega
    simp only [h5, if_false]
    refine ⟨_, rfl, rfl, rfl, rfl, rfl, rfl, ?_, rfl, rfl, rfl⟩
    simp only
    omega

/-- The last part of the restore leaves the reader fields as they are. -/
theorem restore_filters_fields (dev : RedCharDeviceVDIPortPrivate) (mig : SpiceMigrateDataMain) :
    (restore_filters dev mig).read_state = dev.read_state ∧
    (restore_filters dev mig).receive_len = dev.receive_len ∧
    (restore_filters dev mig).message_receive_len = dev.message_receive_len ∧
    (restore_filters dev mig).current_read_buf = dev.current_read_buf ∧
    (restore_filters dev mig).receive_pos = dev.receive_pos ∧
    (restore_filters dev mig).num_read_buf = dev.num_read_buf ∧
    (restore_filters dev mig).vdi_chunk_header = dev.vdi_chunk_header :=
  ⟨rfl, rfl, rfl, rfl, rfl, rfl, rfl⟩

/-- The restore returns exactly when its second part does, with the device that
part gives, passed through the last part. -/
theorem restore_iff_msg_header (A : AgentProto) (reds : RedsState) (mig : SpiceMigrateDataMain)
    (hsz : mig.a2c_chunk_header_size ≤ A.sizeof_VDIChunkHeader) :
    (∀ d, restore_msg_header A (restore_chunk_header A reds.agent_dev mig) mig = Except.ok d →
      reds_agent_state_restore A reds mig
        = Except.ok ({ reds with agent_dev := restore_filters d mig },
            [Event.red_char_device_restore])) ∧
    (∀ st ev, reds_agent_state_restore A reds mig = Except.ok (st, ev) →
      ∃ d, restore_msg_header A (restore_chunk_header A reds.agent_dev mig) mig = Except.ok d ∧
        st.agent_dev = restore_filters d mig) := by
  have hgt : ¬ mig.a2c_chunk_header_size > A.sizeof_VDIChunkHeader := by omega
  refine ⟨fun d hd => ?_, fun st ev hok => ?_⟩
  · unfold reds_agent_state_restore
    rw [if_neg hgt, hd]
  · unfold reds_agent_state_restore at hok
    rw [if_neg hgt] at hok
    cases hm : restore_msg_header A (restore_chunk_header A reds.agent_dev mig) mig with
    | error h => rw [hm] at hok; cases hok
    | ok d =>
      rw [hm] at hok
      simp only [Except.ok.injEq, Prod.mk.injEq] at hok
      exact ⟨d, rfl, by rw [← hok.1]⟩

/-- The second part of the restore when the message header is done: the reader is
put in GET_BUFF and keeps its two lengths. -/
theorem restore_msg_header_done (A : AgentProto) (dev : RedCharDeviceVDIPortPrivate)
    (mig : SpiceMigrateDataMain) (hd : mig.a2c_msg_header_done = true) :
    ∃ d, restore_msg_header A dev mig = Except.ok d ∧
      d.read_state = VDIPortReadStates.GET_BUFF ∧ d.receive_len = dev.receive_len ∧
      d.message_receive_len = dev.message_receive_len ∧ d.current_read_buf = none ∧
      d.num_read_buf = dev.num_read_buf ∧
      d.read_filter.msg_data_to_read = mig.a2c_msg_remaining ∧
      d.read_filter.result = mig.a2c_msg_filter_result ∧
      d.write_filter = dev.write_filter ∧ d.vdi_chunk_header = dev.vdi_chunk_header := by
  unfold restore_msg_header
  simp only [hd, Bool.not_true, Bool.false_eq_true, if_false]
  exact ⟨_, rfl, rfl, rfl, rfl, rfl, rfl, rfl, rfl, rfl, rfl⟩

/-- C27 (amended): for a record with chunk_header_size at most
sizeof(VDIChunkHeader). The restore returns when a buffer can be had where one is
needed and msg_header_partial_len is 0 where the chunk header is incomplete.
Whenever it returns, read_state is determined by the record alone; with an
incomplete chunk header receive_len is the rest of the header and
message_receive_len keeps its value; with a complete chunk header and
msg_header_done set, message_receive_len is the chunk size and receive_len keeps its
value; with a complete chunk header and msg_header_done clear, receive_len and
message_receive_len are computed from the record, and if msg_header_partial_len is
at most SPICE_AGENT_MAX_DATA_SIZE the capacity subtraction does not wrap and the
buffer's len is msg_header_partial_len + receive_len, at most
SPICE_AGENT_MAX_DATA_SIZE. -/
theorem agent_state_restore_fields (A : AgentProto) (reds : RedsState)
    (mig : SpiceMigrateDataMain)
    (hsz : mig.a2c_chunk_header_size ≤ A.sizeof_VDIChunkHeader) :
    ((mig.a2c_msg_header_done = false →
        mig.a2c_chunk_header_size = A.sizeof_VDIChunkHeader → reds.agent_dev.num_read_buf < 5) →
      (mig.a2c_msg_header_done = false →
        mig.a2c_chunk_header_size < A.sizeof_VDIChunkHeader →
        mig.a2c_msg_header_partial_len = 0) →
      ∃ st, reds_agent_state_restore A reds mig
        = Except.ok (st, [Event.red_char_device_restore])) ∧
    ∀ st ev, reds_agent_state_restore A reds mig = Except.ok (st, ev) →
      st.agent_dev.read_state
        = (if mig.a2c_msg_header_done then VDIPortReadStates.GET_BUFF
           else if mig.a2c_chunk_header_size = A.sizeof_VDIChunkHeader then
             VDIPortReadStates.READ_DATA
           else VDIPortReadStates.READ_HEADER) ∧
      (mig.a2c_chunk_header_size < A.sizeof_VDIChunkHeader →
        st.agent_dev.receive_len = A.sizeof_VDIChunkHeader - mig.a2c_chunk_header_size ∧
        st.agent_dev.message_receive_len = reds.agent_dev.message_receive_len) ∧
      (mig.a2c_chunk_header_size = A.sizeof_VDIChunkHeader →
        mig.a2c_msg_header_done = true →
        st.agent_dev.message_receive_len = A.chunk_size mig.a2c_chunk_header % 2 ^ 32 ∧
        st.agent_dev.receive_len = reds.agent_dev.receive_len) ∧
      (mig.a2c_chunk_header_size = A.sizeof_VDIChunkHeader →
        mig.a2c_msg_header_done = false →
        st.agent_dev.receive_len = min (A.chunk_size mig.a2c_chunk_header % 2 ^ 32)
          ((A.SPICE_AGENT_MAX_DATA_SIZE + 2 ^ 32 - mig.a2c_msg_header_partial_len) % 2 ^ 32) ∧
        st.agent_dev.message_receive_len
          = A.chunk_size mig.a2c_chunk_header % 2 ^ 32 - st.agent_dev.receive_len ∧
        (mig.a2c_msg_header_partial_len ≤ A.SPICE_AGENT_MAX_DATA_SIZE →
          A.SPICE_AGENT_MAX_DATA_SIZE < 2 ^ 32 →
          (A.SPICE_AGENT_MAX_DATA_SIZE + 2 ^ 32 - mig.a2c_msg_header_partial_len) % 2 ^ 32
            = A.SPICE_AGENT_MAX_DATA_SIZE - mig.a2c_msg_header_partial_len ∧
          ∃ buf, st.agent_dev.current_read_buf = some buf ∧
            buf.len = mig.a2c_msg_header_partial_len + st.agent_dev.receive_len ∧
            buf.len ≤ A.SPICE_AGENT_MAX_DATA_SIZE)) := by
  obtain ⟨c1, c2, c3, _, _, _, _⟩ := restore_chunk_header_fields A reds.agent_dev mig
  obtain ⟨b1, b2⟩ := restore_read_buf_fields A (restore_chunk_header A reds.agent_dev mig) mig
  obtain ⟨hfwd, hbwd⟩ := restore_iff_msg_header A reds mig hsz
  by_cases hd : mig.a2c_msg_header_done = true
  · obtain ⟨d, hdok, d1, d2, d3, _⟩ :=
      restore_msg_header_done A (restore_chunk_header A reds.agent_dev mig) mig hd
    refine ⟨fun _ _ => ⟨_, hfwd d hdok⟩, ?_⟩
    intro st ev hok
    obtain ⟨d', hd', hst⟩ := hbwd st ev hok
    have hdd : d' = d := Except.ok.inj (hd'.symm.trans hdok)
    rw [hdd] at hst
    obtain ⟨f1, f2, f3, _⟩ := restore_filters_fields d mig
    rw [hst, f1, f2, f3, d1, d2, d3]
    refine ⟨by simp [hd], ?_, ?_, ?_⟩
    · intro hlt
      obtain ⟨_, k2, k3⟩ := c1 (by omega)
      exact ⟨k2, k3⟩
    · intro heq _
      obtain ⟨_, k2, k3⟩ := c2 (by omega)
      exact ⟨k3, k2⟩
    · intro _ hfalse
      rw [hd] at hfalse
      cases hfalse
  · have hd2 : mig.a2c_msg_header_done = false := by
      cases h : mig.a2c_msg_header_done
      · rfl
      · exact absurd h hd
    by_cases hr : A.sizeof_VDIChunkHeader - mig.a2c_chunk_header_size = 0
    · have heq : mig.a2c_chunk_header_size = A.sizeof_VDIChunkHeader := by omega
      obtain ⟨_, r2, r3⟩ := c2 hr
      have hm : restore_msg_header A (restore_chunk_header A reds.agent_dev mig) mig
          = restore_read_buf A (restore_chunk_header A reds.agent_dev mig) mig := by
        unfold restore_msg_header
        simp [hd2, hr]
      refine ⟨fun hpool _ => ?_, ?_⟩
      · obtain ⟨d, hdok, _⟩ := b2 (by rw [c3]; exact hpool hd2 heq)
        exact ⟨_, hfwd d (hm.trans hdok)⟩
      · intro st ev hok
        obtain ⟨d', hd', hst⟩ := hbwd st ev hok
        rw [hm] at hd'
        by_cases hp : (restore_chunk_header A reds.agent_dev mig).num_read_buf < 5
        · obtain ⟨d, hdok, d1, d2, d3, d4, _⟩ := b2 hp
          have hdd : d' = d := Except.ok.inj (hd'.symm.trans hdok)
          rw [hdd] at hst
          obtain ⟨f1, f2, f3, f4, _⟩ := restore_filters_fields d mig
          rw [hst, f1, f2, f3, f4, d1]
          rw [r3] at d2 d3
          refine ⟨by simp [hd2, heq], fun hlt => absurd hlt (by omega), ?_, ?_⟩
          · intro _ hfalse
            rw [hd2] at hfalse
            cases hfalse
          · intro _ _
            refine ⟨d2, d3, fun hle hmax => ?_⟩
            have hcap : (A.SPICE_AGENT_MAX_DATA_SIZE + 2 ^ 32
                - mig.a2c_msg_header_partial_len) % 2 ^ 32
                = A.SPICE_AGENT_MAX_DATA_SIZE - mig.a2c_msg_header_partial_len := by omega
            rw [hcap] at d2
            refine ⟨hcap, _, d4, ?_, ?_⟩
            · simp only
              omega
            · simp only
              omega
        · rw [b1 hp] at hd'
          cases hd'
    · have hlt : mig.a2c_chunk_header_size < A.sizeof_VDIChunkHeader := by omega
      obtain ⟨r1, r2, r3⟩ := c1 hr
      refine ⟨fun _ hpart => ?_, ?_⟩
      · have hp0 := hpart hd2 hlt
        refine ⟨_, hfwd (restore_chunk_header A reds.agent_dev mig) ?_⟩
        unfold restore_msg_header
        simp [hd2, hr, hp0]
      · intro st ev hok
        obtain ⟨d', hd', hst⟩ := hbwd st ev hok
        unfold restore_msg_header at hd'
        simp only [hd2, Bool.not_false, if_true, hr, if_false] at hd'
        split_ifs at hd' with hp
        cases hd'
        obtain ⟨f1, f2, f3, _⟩ := restore_filters_fields
          (restore_chunk_header A reds.agent_dev mig) mig
        rw [hst, f1, f2, f3, r1, r2, r3]
        have hne : ¬ mig.a2c_chunk_header_size = A.sizeof_VDIChunkHeader := by omega
        refine ⟨by rw [if_neg hd, if_neg hne],
          fun _ => ⟨rfl, rfl⟩, fun h => absurd h (by omega), fun h => absurd h (by omega)⟩

/-- Witness for C27: the sample record has a complete chunk header of 8 bytes, and
the restore of it on the sample server returns. -/
theorem agent_state_restore_fields_witness :
    sampleMigData.a2c_chunk_header_size ≤ sampleAgent.sizeof_VDIChunkHeader ∧
    ∃ st, reds_agent_state_restore sampleAgent sampleAgentReds sampleMigData
      = Except.ok (st, [Event.red_char_device_restore]) :=
  ⟨by decide,
   (agent_state_restore_fields sampleAgent sampleAgentReds sampleMigData (by decide)).1
     (fun _ _ => by decide) (fun _ h => absurd h (by decide))⟩

/-! ## The agent reader, branch by branch -/

/-- Reading from a device that holds nothing gives nothing. -/
theorem sif_read_nil (len : Nat) : sif_read [] len = ([], []) := rfl

/-- A read of no bytes gives nothing and leaves the device as it is. -/
theorem sif_read_zero (device : VDIPortDevice) : sif_read device 0 = ([], device) := by
  cases device with
  | nil => rfl
  | cons piece rest => rfl

/-- A read of at least as many bytes as the first piece has gives that piece. -/
theorem sif_read_piece (piece : List Nat) (rest : VDIPortDevice) (len : Nat)
    (h0 : len ≠ 0) (h : piece.length ≤ len) :
    sif_read (piece :: rest) len = (piece, rest) := by
  show (if _ then _ else _) = _
  rw [if_neg h0]
  show (if _ then _ else _) = _
  rw [if_pos h]

/-- A read of fewer bytes than the first piece has gives its first bytes and leaves
the others in front. -/
theorem sif_read_part (piece : List Nat) (rest : VDIPortDevice) (len : Nat)
    (h0 : len ≠ 0) (h : len < piece.length) :
    sif_read (piece :: rest) len = (piece.take len, piece.drop len :: rest) := by
  show (if _ then _ else _) = _
  rw [if_neg h0]
  show (if _ then _ else _) = _
  rw [if_neg (by omega)]

/-- A read never gives more bytes than were asked for. -/
theorem sif_read_length_le (device : VDIPortDevice) (len : Nat) :
    (sif_read device len).1.length ≤ len := by
  cases device with
  | nil => simp [sif_read_nil]
  | cons piece rest =>
    by_cases h0 : len = 0
    · subst h0
      simp [sif_read_zero]
    · by_cases h : piece.length ≤ len
      · rw [sif_read_piece piece rest len h0 h]
        exact h
      · rw [sif_read_part piece rest len h0 (by omega)]
        simp

/-- The bytes read and the bytes left are the bytes of the device. -/
theorem sif_read_flatten (device : VDIPortDevice) (len : Nat) :
    (sif_read device len).1 ++ (sif_read device len).2.flatten = device.flatten := by
  cases device with
  | nil => simp [sif_read_nil]
  | cons piece rest =>
    by_cases h0 : len = 0
    · subst h0
      simp [sif_read_zero]
    · by_cases h : piece.length ≤ len
      · rw [sif_read_piece piece rest len h0 h]
        simp
      · rw [sif_read_part piece rest len h0 (by omega)]
        simp [← List.append_assoc]

/-- The case READ_DATA when the read gives nothing. -/
theorem read_data_case_zero (A : AgentProto) (reds : RedsState) (device : VDIPortDevice)
    (out : List Event) (h : (sif_read device reds.agent_dev.receive_len).1.length = 0) :
    read_data_case A reds device out
      = ReadStep.done ⟨reds, (sif_read device reds.agent_dev.receive_len).2, none, out⟩ := by
  show (if _ then _ else _) = _
  rw [if_pos h]

/-- The case READ_DATA when the read does not fill the buffer. -/
theorem read_data_case_part (A : AgentProto) (reds : RedsState) (device : VDIPortDevice)
    (out : List Event) (h : (sif_read device reds.agent_dev.receive_len).1.length ≠ 0)
    (h2 : (receive_bytes reds.agent_dev
      (sif_read device reds.agent_dev.receive_len).1).receive_len ≠ 0) :
    read_data_case A reds device out
      = ReadStep.again
          { reds with agent_dev := (advance_receive_pos
              (receive_bytes reds.agent_dev (sif_read device reds.agent_dev.receive_len).1)
              (sif_read device reds.agent_dev.receive_len).1.length) }
          (sif_read device reds.agent_dev.receive_len).2 out := by
  show (if _ then _ else _) = _
  rw [if_neg h]
  show (if _ then _ else _) = _
  rw [if_pos h2]

/-- The case READ_DATA when the read fills the buffer. -/
theorem read_data_case_full (A : AgentProto) (reds : RedsState) (device : VDIPortDevice)
    (out : List Event) (buf : RedVDIReadBuf)
    (h : (sif_read device reds.agent_dev.receive_len).1.length ≠ 0)
    (h2 : (receive_bytes reds.agent_dev
      (sif_read device reds.agent_dev.receive_len).1).receive_len = 0)
    (hb : (receive_bytes reds.agent_dev
      (sif_read device reds.agent_dev.receive_len).1).current_read_buf = some buf) :
    read_data_case A reds device out
      = dispatch_read_buf A
          { reds with agent_dev :=
              receive_bytes reds.agent_dev (sif_read device reds.agent_dev.receive_len).1 }
          (sif_read device reds.agent_dev.receive_len).2 out buf := by
  show (if _ then _ else _) = _
  rw [if_neg h]
  show (if _ then _ else _) = _
  rw [if_neg (not_not.mpr h2)]
  show (match (receive_bytes reds.agent_dev
      (sif_read device reds.agent_dev.receive_len).1).current_read_buf with
    | none => _
    | some dispatch_buf => _) = _
  rw [hb]

/-- The case READ_DATA when the read ends a buffer that is not there. -/
theorem read_data_case_full_none (A : AgentProto) (reds : RedsState)
    (device : VDIPortDevice) (out : List Event)
    (h : (sif_read device reds.agent_dev.receive_len).1.length ≠ 0)
    (h2 : (receive_bytes reds.agent_dev
      (sif_read device reds.agent_dev.receive_len).1).receive_len = 0)
    (hb : (receive_bytes reds.agent_dev
      (sif_read device reds.agent_dev.receive_len).1).current_read_buf = none) :
    read_data_case A reds device out
      = ReadStep.done
          ⟨{ reds with agent_dev :=
              receive_bytes reds.agent_dev (sif_read device reds.agent_dev.receive_len).1 },
           (sif_read device reds.agent_dev.receive_len).2, none, out⟩ := by
  show (if _ then _ else _) = _
  rw [if_neg h]
  show (if _ then _ else _) = _
  rw [if_neg (not_not.mpr h2)]
  show (match (receive_bytes reds.agent_dev
      (sif_read device reds.agent_dev.receive_len).1).current_read_buf with
    | none => _
    | some dispatch_buf => _) = _
  rw [hb]

/-- What `vdi_port_get_read_buf` gives when all the buffers are out. -/
theorem get_read_buf_exhausted (dev : RedCharDeviceVDIPortPrivate)
    (h : dev.num_read_buf ≥ 5) : vdi_port_get_read_buf dev = (none, dev) := by
  show (if _ then _ else _) = _
  rw [if_pos h]

/-- What `vdi_port_get_read_buf` gives when a buffer can be had. -/
theorem get_read_buf_fresh (dev : RedCharDeviceVDIPortPrivate)
    (h : dev.num_read_buf < 5) :
    vdi_port_get_read_buf dev
      = (some { len := 0, data := [] },
         { dev with num_read_buf := dev.num_read_buf + 1 }) := by
  show (if _ then _ else _) = _
  rw [if_neg (by omega)]
  have hm : (dev.num_read_buf + 1) % 2 ^ 32 = dev.num_read_buf + 1 := by omega
  rw [hm]

/-- The case GET_BUFF when all the buffers are out. -/
theorem get_buff_case_exhausted (A : AgentProto) (reds : RedsState)
    (device : VDIPortDevice) (out : List Event) (h : reds.agent_dev.num_read_buf ≥ 5) :
    get_buff_case A reds device out
      = ReadStep.done
          ⟨{ reds with agent_dev := { reds.agent_dev with current_read_buf := none } },
            device, none, out⟩ := by
  show (match (vdi_port_get_read_buf reds.agent_dev).1 with
    | none => ReadStep.done
        ⟨{ reds with agent_dev :=
            { (vdi_port_get_read_buf reds.agent_dev).2 with current_read_buf := none } },
          device, none, out⟩
    | some buf => _) = _
  rw [get_read_buf_exhausted _ h]

/-- The case GET_BUFF when a buffer can be had. -/
theorem get_buff_case_fresh (A : AgentProto) (reds : RedsState)
    (device : VDIPortDevice) (out : List Event) (h : reds.agent_dev.num_read_buf < 5) :
    get_buff_case A reds device out
      = read_data_case A
          { reds with agent_dev := (read_buf_taken A
              { reds.agent_dev with num_read_buf := reds.agent_dev.num_read_buf + 1 }
              { len := 0, data := [] }) }
          device out := by
  show (match (vdi_port_get_read_buf reds.agent_dev).1 with
    | none => _
    | some buf => read_data_case A
        { reds with agent_dev :=
            read_buf_taken A (vdi_port_get_read_buf reds.agent_dev).2 buf } device out) = _
  rw [get_read_buf_fresh _ h]

/-- The case READ_HEADER when the read gives nothing. -/
theorem read_header_case_zero (A : AgentProto) (reds : RedsState) (device : VDIPortDevice)
    (out : List Event) (h : (sif_read device reds.agent_dev.receive_len).1.length = 0) :
    read_header_case A reds device out
      = ReadStep.done ⟨reds, (sif_read device reds.agent_dev.receive_len).2, none, out⟩ := by
  show (if _ then _ else _) = _
  rw [if_pos h]

/-- The case READ_HEADER when the read does not complete the chunk header. -/
theorem read_header_case_part (A : AgentProto) (reds : RedsState) (device : VDIPortDevice)
    (out : List Event) (h : (sif_read device reds.agent_dev.receive_len).1.length ≠ 0)
    (h2 : (receive_bytes reds.agent_dev
      (sif_read device reds.agent_dev.receive_len).1).receive_len ≠ 0) :
    read_header_case A reds device out
      = ReadStep.done
          ⟨{ reds with agent_dev := (advance_receive_pos
              (receive_bytes reds.agent_dev (sif_read device reds.agent_dev.receive_len).1)
              (sif_read device reds.agent_dev.receive_len).1.length) },
           (sif_read device reds.agent_dev.receive_len).2, none, out⟩ := by
  show (if _ then _ else _) = _
  rw [if_neg h]
  show (if _ then _ else _) = _
  rw [if_pos h2]

/-- The case READ_HEADER when the read completes the chunk header. -/
theorem read_header_case_full (A : AgentProto) (reds : RedsState) (device : VDIPortDevice)
    (out : List Event) (h : (sif_read device reds.agent_dev.receive_len).1.length ≠ 0)
    (h2 : (receive_bytes reds.agent_dev
      (sif_read device reds.agent_dev.receive_len).1).receive_len = 0) :
    read_header_case A reds device out
      = get_buff_case A
          { reds with agent_dev := (chunk_header_read A
              (receive_bytes reds.agent_dev (sif_read device reds.agent_dev.receive_len).1)) }
          (sif_read device reds.agent_dev.receive_len).2 out := by
  show (if _ then _ else _) = _
  rw [if_neg h]
  show (if _ then _ else _) = _
  rw [if_neg (not_not.mpr h2)]

/-! ## The ledger of the read buffers -/

/-- Storing received bytes changes neither the count of the read buffers nor
whether there is a current one. -/
theorem store_received_pool (dev : RedCharDeviceVDIPortPrivate) (bytes : List Nat) :
    (store_received dev bytes).num_read_buf = dev.num_read_buf ∧
    (store_received dev bytes).current_read_buf.isSome = dev.current_read_buf.isSome := by
  unfold store_received
  cases dev.receive_pos with
  | null => exact ⟨rfl, rfl⟩
  | chunk_header off => exact ⟨rfl, rfl⟩
  | read_buf off =>
    cases h : dev.current_read_buf with
    | none => simp [h]
    | some b => simp

/-- Receiving bytes keeps the ledger of the read buffers. -/
theorem receive_bytes_pool (dev : RedCharDeviceVDIPortPrivate) (bytes : List Nat)
    (held : Nat) (h : read_buf_pool_ok dev held) :
    read_buf_pool_ok (receive_bytes dev bytes) held := by
  obtain ⟨s1, s2⟩ := store_received_pool dev bytes
  unfold read_buf_pool_ok at h ⊢
  show held + (if (store_received dev bytes).current_read_buf.isSome then 1 else 0)
      ≤ (store_received dev bytes).num_read_buf ∧ (store_received dev bytes).num_read_buf ≤ 5
  rw [s1, s2]
  exact h

/-- The first component of what `vdi_port_read_buf_free` gives. -/
theorem read_buf_free_fst (dev : RedCharDeviceVDIPortPrivate) :
    (vdi_port_read_buf_free dev).1
      = { dev with num_read_buf := (dev.num_read_buf + 2 ^ 32 - 1) % 2 ^ 32 } := rfl

/-- Freeing a read buffer that is counted takes it out of the count. -/
theorem read_buf_free_count (dev : RedCharDeviceVDIPortPrivate) (h1 : 1 ≤ dev.num_read_buf)
    (h5 : dev.num_read_buf ≤ 5) :
    (vdi_port_read_buf_free dev).1.num_read_buf = dev.num_read_buf - 1 ∧
    (vdi_port_read_buf_free dev).1.current_read_buf = dev.current_read_buf := by
  rw [read_buf_free_fst]
  constructor
  · show (dev.num_read_buf + 2 ^ 32 - 1) % 2 ^ 32 = dev.num_read_buf - 1
    omega
  · rfl

/-- Freeing one of the buffers handed out keeps the ledger. -/
theorem read_buf_free_pool (dev : RedCharDeviceVDIPortPrivate) (held : Nat)
    (h : read_buf_pool_ok dev (held + 1)) :
    read_buf_pool_ok (vdi_port_read_buf_free dev).1 held := by
  unfold read_buf_pool_ok at h ⊢
  obtain ⟨f1, f2⟩ := read_buf_free_count dev (by omega) h.2
  rw [f1, f2]
  omega

/-- The ledger of the read buffers after `reds_agent_remove` on a state without a
current read buffer. -/
theorem agent_remove_pool (A : AgentProto) (reds : RedsState)
    (hc : reds.agent_dev.current_read_buf = none) :
    (reds_agent_remove A reds).1.agent_dev.num_read_buf = reds.agent_dev.num_read_buf ∧
    (reds_agent_remove A reds).1.agent_dev.current_read_buf = none := by
  unfold reds_agent_remove reds_reset_vdp
  simp [hc]

/-- The filter leaves the buffers as they are. -/
theorem read_buf_process_pool (A : AgentProto) (dev : RedCharDeviceVDIPortPrivate)
    (buf : RedVDIReadBuf) :
    (vdi_port_read_buf_process A dev buf).2.num_read_buf = dev.num_read_buf ∧
    (vdi_port_read_buf_process A dev buf).2.current_read_buf = dev.current_read_buf := by
  unfold vdi_port_read_buf_process
  split_ifs <;> exact ⟨rfl, rfl⟩

/-- Adjusting the capabilities leaves the buffers as they are. -/
theorem adjust_caps_pool (A : AgentProto) (reds : RedsState) (m : List Nat) :
    (reds_adjust_agent_capabilities A reds m).1.agent_dev.num_read_buf
      = reds.agent_dev.num_read_buf ∧
    (reds_adjust_agent_capabilities A reds m).1.agent_dev.current_read_buf
      = reds.agent_dev.current_read_buf := by
  unfold reds_adjust_agent_capabilities
  split_ifs <;> exact ⟨rfl, rfl⟩

/-- The reader after a full buffer that ends its chunk. -/
theorem read_buf_filled_last (A : AgentProto) (dev : RedCharDeviceVDIPortPrivate)
    (h : dev.message_receive_len = 0) :
    read_buf_filled A dev
      = { dev with current_read_buf := none,
                   read_state := VDIPortReadStates.READ_HEADER,
                   receive_pos := ReceivePos.chunk_header 0,
                   receive_len := A.sizeof_VDIChunkHeader } := by
  show (if _ then _ else _) = _
  rw [if_pos h]

/-- The reader after a full buffer that does not end its chunk. -/
theorem read_buf_filled_more (A : AgentProto) (dev : RedCharDeviceVDIPortPrivate)
    (h : dev.message_receive_len ≠ 0) :
    read_buf_filled A dev
      = { dev with current_read_buf := none, receive_pos := ReceivePos.null,
                   read_state := VDIPortReadStates.GET_BUFF } := by
  show (if _ then _ else _) = _
  rw [if_neg h]

/-- A full buffer taken out of the device leaves the count as it is. -/
theorem read_buf_filled_pool (A : AgentProto) (dev : RedCharDeviceVDIPortPrivate) :
    (read_buf_filled A dev).num_read_buf = dev.num_read_buf ∧
    (read_buf_filled A dev).current_read_buf = none := by
  by_cases h : dev.message_receive_len = 0
  · rw [read_buf_filled_last A dev h]
    exact ⟨rfl, rfl⟩
  · rw [read_buf_filled_more A dev h]
    exact ⟨rfl, rfl⟩

/-- The ledger after the switch on the verdict of the filter: the full buffer is
handed out or freed. -/
theorem dispatch_verdict_pool (A : AgentProto) (reds : RedsState) (device : VDIPortDevice)
    (out : List Event) (buf : RedVDIReadBuf) (verdict : AgentMsgFilterResult) (held : Nat)
    (hc : reds.agent_dev.current_read_buf = none)
    (h : held + 1 ≤ reds.agent_dev.num_read_buf) (h5 : reds.agent_dev.num_read_buf ≤ 5) :
    (dispatch_verdict A reds device out buf verdict).pool_ok held := by
  obtain ⟨a1, a2⟩ := adjust_caps_pool A reds buf.data
  obtain ⟨r1, r2⟩ := agent_remove_pool A reds hc
  have hfree : read_buf_pool_ok (vdi_port_read_buf_free reds.agent_dev).1 held := by
    apply read_buf_free_pool
    unfold read_buf_pool_ok
    rw [hc]
    exact ⟨by simpa using h, h5⟩
  have hfree2 : read_buf_pool_ok
      (vdi_port_read_buf_free (reds_agent_remove A reds).1.agent_dev).1 held := by
    apply read_buf_free_pool
    unfold read_buf_pool_ok
    rw [r1, r2]
    exact ⟨by simpa using h, h5⟩
  cases verdict with
  | OK =>
    show read_buf_pool_ok (reds_adjust_agent_capabilities A reds buf.data).1.agent_dev
      (held + 1)
    unfold read_buf_pool_ok
    rw [a1, a2, hc]
    exact ⟨by simpa using h, h5⟩
  | PROTO_ERROR => exact hfree2
  | DISCARD => exact hfree
  | MONITORS_CONFIG => exact hfree

/-- The ledger after the end of the case READ_DATA. -/
theorem dispatch_read_buf_pool (A : AgentProto) (reds : RedsState) (device : VDIPortDevice)
    (out : List Event) (buf : RedVDIReadBuf) (held : Nat)
    (h : held + 1 ≤ reds.agent_dev.num_read_buf) (h5 : reds.agent_dev.num_read_buf ≤ 5) :
    (dispatch_read_buf A reds device out buf).pool_ok held := by
  obtain ⟨f1, f2⟩ := read_buf_filled_pool A reds.agent_dev
  obtain ⟨p1, p2⟩ := read_buf_process_pool A (read_buf_filled A reds.agent_dev) buf
  unfold dispatch_read_buf
  apply dispatch_verdict_pool
  · exact p2.trans f2
  · show held + 1 ≤ (vdi_port_read_buf_process A (read_buf_filled A reds.agent_dev) buf).2.num_read_buf
    rw [p1, f1]
    exact h
  · show (vdi_port_read_buf_process A (read_buf_filled A reds.agent_dev) buf).2.num_read_buf ≤ 5
    rw [p1, f1]
    exact h5

/-- The case READ_DATA keeps the ledger of the read buffers. -/
theorem read_data_case_pool (A : AgentProto) (reds : RedsState) (device : VDIPortDevice)
    (out : List Event) (held : Nat) (h : read_buf_pool_ok reds.agent_dev held) :
    (read_data_case A reds device out).pool_ok held := by
  have hr := receive_bytes_pool reds.agent_dev
    (sif_read device reds.agent_dev.receive_len).1 held h
  by_cases h0 : (sif_read device reds.agent_dev.receive_len).1.length = 0
  · rw [read_data_case_zero A reds device out h0]
    exact h
  · by_cases h2 : (receive_bytes reds.agent_dev
        (sif_read device reds.agent_dev.receive_len).1).receive_len = 0
    · cases hb : (receive_bytes reds.agent_dev
          (sif_read device reds.agent_dev.receive_len).1).current_read_buf with
      | none =>
        rw [read_data_case_full_none A reds device out h0 h2 hb]
        exact hr
      | some buf =>
        rw [read_data_case_full A reds device out buf h0 h2 hb]
        unfold read_buf_pool_ok at hr
        rw [hb] at hr
        exact dispatch_read_buf_pool A _ _ out buf held (by simpa using hr.1) hr.2
    · rw [read_data_case_part A reds device out h0 h2]
      exact hr

/-- The case GET_BUFF keeps the ledger of the read buffers. -/
theorem get_buff_case_pool (A : AgentProto) (reds : RedsState) (device : VDIPortDevice)
    (out : List Event) (held : Nat) (h : read_buf_pool_ok reds.agent_dev held) :
    (get_buff_case A reds device out).pool_ok held := by
  unfold read_buf_pool_ok at h
  by_cases h5 : reds.agent_dev.num_read_buf ≥ 5
  · rw [get_buff_case_exhausted A reds device out h5]
    show read_buf_pool_ok _ (held + 0)
    unfold read_buf_pool_ok
    show held + 0 + (if (none : Option RedVDIReadBuf).isSome then 1 else 0)
      ≤ reds.agent_dev.num_read_buf ∧ reds.agent_dev.num_read_buf ≤ 5
    simp only [Option.isSome_none, Bool.false_eq_true, if_false]
    omega
  · rw [get_buff_case_fresh A reds device out (by omega)]
    apply read_data_case_pool
    unfold read_buf_pool_ok
    show held + 1 ≤ reds.agent_dev.num_read_buf + 1 ∧ reds.agent_dev.num_read_buf + 1 ≤ 5
    omega

/-- The case READ_HEADER keeps the ledger of the read buffers. -/
theorem read_header_case_pool (A : AgentProto) (reds : RedsState) (device : VDIPortDevice)
    (out : List Event) (held : Nat) (h : read_buf_pool_ok reds.agent_dev held) :
    (read_header_case A reds device out).pool_ok held := by
  have hr := receive_bytes_pool reds.agent_dev
    (sif_read device reds.agent_dev.receive_len).1 held h
  by_cases h0 : (sif_read device reds.agent_dev.receive_len).1.length = 0
  · rw [read_header_case_zero A reds device out h0]
    exact h
  · by_cases h2 : (receive_bytes reds.agent_dev
        (sif_read device reds.agent_dev.receive_len).1).receive_len = 0
    · rw [read_header_case_full A reds device out h0 h2]
      exact get_buff_case_pool A _ _ out held hr
    · rw [read_header_case_part A reds device out h0 h2]
      exact hr

/-- One turn of the reader keeps the ledger of the read buffers. -/
theorem read_one_msg_turn_pool (A : AgentProto) (reds : RedsState) (device : VDIPortDevice)
    (out : List Event) (held : Nat) (h : read_buf_pool_ok reds.agent_dev held) :
    (read_one_msg_turn A reds device out).pool_ok held := by
  unfold read_one_msg_turn
  cases reds.agent_dev.read_state with
  | READ_HEADER => exact read_header_case_pool A reds device out held h
  | GET_BUFF => exact get_buff_case_pool A reds device out held h
  | READ_DATA => exact read_data_case_pool A reds device out held h

/-- The loop of the reader keeps the ledger of the read buffers. -/
theorem read_one_msg_loop_pool (A : AgentProto) (held : Nat) :
    ∀ (turns : Nat) (reds : RedsState) (device : VDIPortDevice) (out : List Event)
      (result : ReadOut), read_buf_pool_ok reds.agent_dev held →
      read_one_msg_loop A turns reds device out = some result →
      read_buf_pool_ok result.reds.agent_dev
        (held + (if result.ret.isSome then 1 else 0)) := by
  intro turns
  induction turns with
  | zero =>
    intro reds device out result _ hres
    cases hres
  | succ n ih =>
    intro reds device out result h hres
    unfold read_one_msg_loop at hres
    by_cases hv : (!reds.vdagent) = true
    · rw [if_pos hv] at hres
      cases hres
      exact h
    · rw [if_neg hv] at hres
      have ht := read_one_msg_turn_pool A reds device out held h
      cases hturn : read_one_msg_turn A reds device out with
      | again reds1 device1 out1 =>
        rw [hturn] at hres ht
        exact ih reds1 device1 out1 result ht hres
      | done r =>
        rw [hturn] at hres ht
        cases hres
        exact ht

/-- A call of the reader keeps the ledger of the read buffers: a returned buffer is
one more handed out. -/
theorem read_one_msg_from_device_pool (A : AgentProto) (reds : RedsState)
    (device : VDIPortDevice) (held : Nat) (h : read_buf_pool_ok reds.agent_dev held) :
    read_buf_pool_ok (vdi_port_read_one_msg_from_device A reds device).reds.agent_dev
      (held + (if (vdi_port_read_one_msg_from_device A reds device).ret.isSome then 1
        else 0)) := by
  unfold vdi_port_read_one_msg_from_device
  by_cases hv : (!reds.vdagent) = true
  · rw [if_pos hv]
    exact h
  · rw [if_neg hv]
    cases hl : read_one_msg_loop A (device_turns device) reds device [] with
    | none => exact h
    | some r => exact read_one_msg_loop_pool A held _ reds device [] r h hl

/-- The calls `reds_adjust_agent_capabilities` makes: none, or the one that sends
the display info. -/
theorem adjust_caps_events (A : AgentProto) (reds : RedsState) (m : List Nat) :
    (reds_adjust_agent_capabilities A reds m).2.2 = [] ∨
    (reds_adjust_agent_capabilities A reds m).2.2 = [Event.reds_send_device_display_info] := by
  unfold reds_adjust_agent_capabilities
  split_ifs <;> first | exact Or.inl rfl | exact Or.inr rfl

/-- The calls `vdi_port_read_buf_free` makes: none, or the wakeup of the device. -/
theorem read_buf_free_events (dev : RedCharDeviceVDIPortPrivate) :
    (vdi_port_read_buf_free dev).2 = [] ∨
    (vdi_port_read_buf_free dev).2 = [Event.red_char_device_wakeup] := by
  show (if dev.agent_attached then [Event.red_char_device_wakeup] else []) = [] ∨
    (if dev.agent_attached then [Event.red_char_device_wakeup] else [])
      = [Event.red_char_device_wakeup]
  split_ifs
  · exact Or.inr rfl
  · exact Or.inl rfl

/-- The buffers given to a client in a trace made of two parts. -/
theorem agent_data_pushed_append (a b : List Event) :
    agent_data_pushed (a ++ b) = agent_data_pushed a + agent_data_pushed b := by
  simp [agent_data_pushed, List.filter_append]

/-- The ledger after the switch on the verdict in `reds_on_main_channel_migrate`,
for a verdict other than PROTO_ERROR: the current read buffer is either given to the
client or freed. -/
theorem migrate_verdict_pool (A : AgentProto) (reds : RedsState) (client : Nat)
    (out : List Event) (buf read_buf : RedVDIReadBuf) (verdict : AgentMsgFilterResult)
    (held : Nat) (st : RedsState) (ev : List Event)
    (hc : reds.agent_dev.current_read_buf = some buf)
    (h : read_buf_pool_ok reds.agent_dev held)
    (hout : agent_data_pushed out = 0)
    (hne : verdict ≠ AgentMsgFilterResult.PROTO_ERROR)
    (hok : migrate_verdict A reds client out read_buf verdict = Except.ok (st, ev)) :
    held + agent_data_pushed ev ≤ st.agent_dev.num_read_buf ∧
    st.agent_dev.num_read_buf ≤ 5 := by
  unfold read_buf_pool_ok at h
  rw [hc] at h
  have h1 : held + 1 ≤ reds.agent_dev.num_read_buf := by simpa using h.1
  obtain ⟨a1, _⟩ := adjust_caps_pool A reds read_buf.data
  obtain ⟨f1, _⟩ := read_buf_free_count reds.agent_dev (by omega) h.2
  have hfree : ∀ st ev, (Except.ok
        ({ reds with agent_dev := (vdi_port_read_buf_free reds.agent_dev).1 },
          out ++ (vdi_port_read_buf_free reds.agent_dev).2) :
          Except Halt (RedsState × List Event)) = Except.ok (st, ev) →
      held + agent_data_pushed ev ≤ st.agent_dev.num_read_buf ∧
      st.agent_dev.num_read_buf ≤ 5 := by
    intro st ev hok
    simp only [Except.ok.injEq, Prod.mk.injEq] at hok
    obtain ⟨hst, hev⟩ := hok
    rw [← hst, ← hev]
    show held + agent_data_pushed _ ≤ (vdi_port_read_buf_free reds.agent_dev).1.num_read_buf ∧
      (vdi_port_read_buf_free reds.agent_dev).1.num_read_buf ≤ 5
    rw [f1, agent_data_pushed_append, hout]
    have hz : agent_data_pushed (vdi_port_read_buf_free reds.agent_dev).2 = 0 := by
      rcases read_buf_free_events reds.agent_dev with h0 | h0 <;> rw [h0] <;> rfl
    rw [hz]
    omega
  cases verdict with
  | OK =>
    simp only [migrate_verdict, Except.ok.injEq, Prod.mk.injEq] at hok
    obtain ⟨hst, hev⟩ := hok
    rw [← hst, ← hev, a1, agent_data_pushed_append, agent_data_pushed_append, hout]
    have hz : agent_data_pushed
        (reds_adjust_agent_capabilities A reds read_buf.data).2.2 = 0 := by
      rcases adjust_caps_events A reds read_buf.data with h0 | h0 <;> rw [h0] <;> rfl
    have hp : agent_data_pushed [Event.main_channel_client_push_agent_data client
        ((reds_adjust_agent_capabilities A reds read_buf.data).2.1.take read_buf.len)] = 1 := rfl
    rw [hz, hp]
    omega
  | PROTO_ERROR => exact absurd rfl hne
  | DISCARD => exact hfree st ev hok
  | MONITORS_CONFIG => exact hfree st ev hok

/-- The ledger after the end of `reds_on_main_channel_migrate`. -/
theorem migrate_to_get_buff_pool (reds : RedsState) (out : List Event) (held : Nat)
    (st : RedsState) (ev : List Event)
    (h : held ≤ reds.agent_dev.num_read_buf) (h5 : reds.agent_dev.num_read_buf ≤ 5)
    (hok : migrate_to_get_buff reds out = Except.ok (st, ev)) :
    read_buf_pool_ok st.agent_dev held ∧ ev = out := by
  unfold migrate_to_get_buff at hok
  by_cases h0 : reds.agent_dev.receive_len = 0
  · rw [if_pos h0] at hok
    cases hok
  · rw [if_neg h0] at hok
    simp only [Except.ok.injEq, Prod.mk.injEq] at hok
    obtain ⟨hst, hev⟩ := hok
    rw [← hst, ← hev]
    refine ⟨?_, rfl⟩
    unfold read_buf_pool_ok
    show held + (if (none : Option RedVDIReadBuf).isSome then 1 else 0)
      ≤ reds.agent_dev.num_read_buf ∧ reds.agent_dev.num_read_buf ≤ 5
    simp only [Option.isSome_none, Bool.false_eq_true, if_false]
    omega

/-- The ledger after the partial push of `reds_on_main_channel_migrate`, when the
verdict on the partly read buffer is not PROTO_ERROR. -/
theorem migrate_push_partial_pool (A : AgentProto) (reds : RedsState) (client : Nat)
    (current : RedVDIReadBuf) (read_data_len held : Nat) (st : RedsState) (ev : List Event)
    (hc : reds.agent_dev.current_read_buf = some current)
    (h : read_buf_pool_ok reds.agent_dev held)
    (hne : (vdi_port_read_buf_process A
      { reds.agent_dev with current_read_buf := some { current with len := read_data_len } }
      { current with len := read_data_len }).1 ≠ AgentMsgFilterResult.PROTO_ERROR)
    (hok : migrate_push_partial A reds client current read_data_len = Except.ok (st, ev)) :
    read_buf_pool_ok st.agent_dev (held + agent_data_pushed ev) := by
  unfold migrate_push_partial at hok
  obtain ⟨p1, p2⟩ := read_buf_process_pool A
    { reds.agent_dev with current_read_buf := some { current with len := read_data_len } }
    { current with len := read_data_len }
  cases hv : migrate_verdict A
      { reds with agent_dev := (vdi_port_read_buf_process A
        { reds.agent_dev with current_read_buf := some { current with len := read_data_len } }
        { current with len := read_data_len }).2 } client
      [Event.vdi_port_read_buf_process reds.agent_dev.read_state
        { current with len := read_data_len }]
      { current with len := read_data_len }
      (vdi_port_read_buf_process A
        { reds.agent_dev with current_read_buf := some { current with len := read_data_len } }
        { current with len := read_data_len }).1 with
  | error e =>
    simp only [hv] at hok
    cases hok
  | ok r =>
    obtain ⟨reds2, ev2⟩ := r
    simp only [hv] at hok
    have hpool := migrate_verdict_pool A _ client
      [Event.vdi_port_read_buf_process reds.agent_dev.read_state
        { current with len := read_data_len }] { current with len := read_data_len }
      { current with len := read_data_len } _ held reds2 ev2 p2
      (by
        unfold read_buf_pool_ok at h ⊢
        rw [hc] at h
        show held + (if (vdi_port_read_buf_process A _ _).2.current_read_buf.isSome then 1 else 0)
          ≤ (vdi_port_read_buf_process A _ _).2.num_read_buf ∧
          (vdi_port_read_buf_process A _ _).2.num_read_buf ≤ 5
        rw [p1, p2]
        exact h)
      rfl hne hv
    obtain ⟨g1, g2⟩ := migrate_to_get_buff_pool reds2 ev2 (held + agent_data_pushed ev2) st ev
      hpool.1 hpool.2 hok
    rw [g2]
    exact g1

/-- The ledger after `reds_on_main_channel_migrate`, when the verdict on the partly
read buffer is not PROTO_ERROR: a buffer given to the client is one more handed out. -/
theorem on_main_channel_migrate_pool (A : AgentProto) (reds : RedsState) (client held : Nat)
    (st : RedsState) (ev : List Event) (h : read_buf_pool_ok reds.agent_dev held)
    (hne : ∀ current off, reds.agent_dev.current_read_buf = some current →
      reds.agent_dev.receive_pos = ReceivePos.read_buf off →
      (vdi_port_read_buf_process A
        { reds.agent_dev with
          current_read_buf := some { current with len := off % 2 ^ 32 } }
        { current with len := off % 2 ^ 32 }).1 ≠ AgentMsgFilterResult.PROTO_ERROR)
    (hok : reds_on_main_channel_migrate A reds client = Except.ok (st, ev)) :
    read_buf_pool_ok st.agent_dev (held + agent_data_pushed ev) := by
  have hsame : ∀ st ev, (Except.ok (reds, []) : Except Halt (RedsState × List Event))
      = Except.ok (st, ev) → read_buf_pool_ok st.agent_dev (held + agent_data_pushed ev) := by
    intro st ev hok
    simp only [Except.ok.injEq, Prod.mk.injEq] at hok
    rw [← hok.1, ← hok.2]
    exact h
  change (if _ then _ else _) = _ at hok
  by_cases h1 : reds.clients.length ≠ 1
  · rw [if_pos h1] at hok
    cases hok
  · rw [if_neg h1] at hok
    change (if _ then _ else _) = _ at hok
    by_cases h2 : reds.agent_dev.read_state ≠ VDIPortReadStates.READ_DATA
    · rw [if_pos h2] at hok
      exact hsame st ev hok
    · rw [if_neg h2] at hok
      cases hcur : reds.agent_dev.current_read_buf with
      | none =>
        simp only [hcur] at hok
        cases hok
      | some current =>
        cases hpos : reds.agent_dev.receive_pos with
        | null =>
          simp only [hcur, hpos] at hok
          cases hok
        | chunk_header off =>
          simp only [hcur, hpos] at hok
          cases hok
        | read_buf off =>
          simp only [hcur, hpos] at hok
          by_cases h3 : off = 0
          · rw [if_pos h3] at hok
            cases hok
          · rw [if_neg h3] at hok
            split_ifs at hok with h4
            · exact migrate_push_partial_pool A reds client current _ held st ev hcur h
                (hne current off hcur hpos) hok
            · exact hsame st ev hok

/-- The second part of the restore keeps the ledger of the read buffers. -/
theorem restore_msg_header_pool (A : AgentProto) (dev d : RedCharDeviceVDIPortPrivate)
    (mig : SpiceMigrateDataMain) (held : Nat) (h : read_buf_pool_ok dev held)
    (hok : restore_msg_header A dev mig = Except.ok d) : read_buf_pool_ok d held := by
  unfold read_buf_pool_ok at h ⊢
  have hle : held ≤ dev.num_read_buf := by
    have := h.1
    omega
  by_cases hd : mig.a2c_msg_header_done = true
  · obtain ⟨d', hd', _, _, _, e1, e2, _⟩ := restore_msg_header_done A dev mig hd
    have hdd : d = d' := Except.ok.inj (hok.symm.trans hd')
    rw [hdd, e1, e2]
    simp only [Option.isSome_none, Bool.false_eq_true, if_false]
    omega
  · have hd2 : (!mig.a2c_msg_header_done) = true := by
      cases hx : mig.a2c_msg_header_done
      · rfl
      · exact absurd hx hd
    unfold restore_msg_header at hok
    rw [if_pos hd2] at hok
    by_cases hr : A.sizeof_VDIChunkHeader - mig.a2c_chunk_header_size = 0
    · rw [if_pos hr] at hok
      obtain ⟨b1, b2⟩ := restore_read_buf_fields A dev mig
      by_cases hp : dev.num_read_buf < 5
      · obtain ⟨d', hd', _, _, _, e1, _, e2, _⟩ := b2 hp
        have hdd : d = d' := Except.ok.inj (hok.symm.trans hd')
        rw [hdd, e1, e2]
        simp only [Option.isSome_some, if_true]
        omega
      · rw [b1 hp] at hok
        cases hok
    · rw [if_neg hr] at hok
      split_ifs at hok with hp
      cases hok
      exact h

/-- The restore keeps the ledger of the read buffers. -/
theorem agent_state_restore_pool (A : AgentProto) (reds st : RedsState)
    (mig : SpiceMigrateDataMain) (ev : List Event) (held : Nat)
    (h : read_buf_pool_ok reds.agent_dev held)
    (hok : reds_agent_state_restore A reds mig = Except.ok (st, ev)) :
    read_buf_pool_ok st.agent_dev held := by
  by_cases hsz : mig.a2c_chunk_header_size ≤ A.sizeof_VDIChunkHeader
  · obtain ⟨_, hbwd⟩ := restore_iff_msg_header A reds mig hsz
    obtain ⟨d, hd, hst⟩ := hbwd st ev hok
    obtain ⟨_, _, c1, c2, _⟩ := restore_chunk_header_fields A reds.agent_dev mig
    have hc : read_buf_pool_ok (restore_chunk_header A reds.agent_dev mig) held := by
      unfold read_buf_pool_ok at h ⊢
      rw [c2, c1]
      exact h
    have hdp := restore_msg_header_pool A _ d mig held hc hd
    obtain ⟨_, _, _, f1, _, f2, _⟩ := restore_filters_fields d mig
    unfold read_buf_pool_ok at hdp ⊢
    rw [hst, f1, f2]
    exact hdp
  · unfold reds_agent_state_restore at hok
    rw [if_pos (by omega)] at hok
    cases hok

/-- With all the buffers out the reader in GET_BUFF returns no buffer, stays in
GET_BUFF and reads nothing from the device. -/
theorem reader_pool_exhausted (A : AgentProto) (reds : RedsState) (device : VDIPortDevice)
    (hv : reds.vdagent = true)
    (hs : reds.agent_dev.read_state = VDIPortReadStates.GET_BUFF)
    (h5 : reds.agent_dev.num_read_buf ≥ 5) :
    vdi_port_read_one_msg_from_device A reds device
      = ⟨{ reds with agent_dev := { reds.agent_dev with current_read_buf := none } },
          device, none, []⟩ := by
  unfold vdi_port_read_one_msg_from_device
  rw [if_neg (by simp [hv])]
  have hturns : device_turns device = (device_turns device - 1) + 1 := by
    unfold device_turns
    omega
  rw [hturns]
  unfold read_one_msg_loop
  rw [if_neg (by simp [hv])]
  unfold read_one_msg_turn
  rw [hs]
  show (match get_buff_case A reds device [] with
    | ReadStep.again reds1 device1 out1 => _
    | ReadStep.done result => some result).getD _ = _
  rw [get_buff_case_exhausted A reds device [] h5]
  rfl

/-- The ledger of the read buffers, which says that the buffers handed out and the
current read buffer are counted in num_read_buf and that num_read_buf is at most 5,
is kept by `vdi_port_get_read_buf`, by `vdi_port_read_buf_free` of a buffer handed
out, by `vdi_port_read_one_msg_from_device`, by `reds_agent_state_restore`, and by
`reds_on_main_channel_migrate` when the verdict of the filter on the partly read
buffer is not PROTO_ERROR. `vdi_port_get_read_buf` gives no buffer and changes
nothing when num_read_buf is 5, and otherwise gives a fresh buffer of length 0 and
adds one to num_read_buf. With num_read_buf at 5 the reader in GET_BUFF returns no
buffer, stays in GET_BUFF and leaves the device as it is. -/
theorem read_buf_pool_invariant (A : AgentProto) (reds : RedsState) (held : Nat)
    (h : read_buf_pool_ok reds.agent_dev held) :
    (reds.agent_dev.num_read_buf = 5 →
      vdi_port_get_read_buf reds.agent_dev = (none, reds.agent_dev)) ∧
    (reds.agent_dev.num_read_buf ≠ 5 →
      vdi_port_get_read_buf reds.agent_dev
        = (some { len := 0, data := [] },
           { reds.agent_dev with num_read_buf := reds.agent_dev.num_read_buf + 1 })) ∧
    (vdi_port_get_read_buf reds.agent_dev).2.num_read_buf ≤ 5 ∧
    (1 ≤ held → read_buf_pool_ok (vdi_port_read_buf_free reds.agent_dev).1 (held - 1)) ∧
    (∀ device,
      read_buf_pool_ok (vdi_port_read_one_msg_from_device A reds device).reds.agent_dev
        (held + (if (vdi_port_read_one_msg_from_device A reds device).ret.isSome then 1
          else 0))) ∧
    (∀ client st ev,
      (∀ current off, reds.agent_dev.current_read_buf = some current →
        reds.agent_dev.receive_pos = ReceivePos.read_buf off →
        (vdi_port_read_buf_process A
          { reds.agent_dev with
            current_read_buf := some { current with len := off % 2 ^ 32 } }
          { current with len := off % 2 ^ 32 }).1 ≠ AgentMsgFilterResult.PROTO_ERROR) →
      reds_on_main_channel_migrate A reds client = Except.ok (st, ev) →
      read_buf_pool_ok st.agent_dev (held + agent_data_pushed ev)) ∧
    (∀ mig st ev, reds_agent_state_restore A reds mig = Except.ok (st, ev) →
      read_buf_pool_ok st.agent_dev held) ∧
    (∀ device, reds.vdagent = true →
      reds.agent_dev.read_state = VDIPortReadStates.GET_BUFF →
      reds.agent_dev.num_read_buf = 5 →
      (vdi_port_read_one_msg_from_device A reds device).ret = none ∧
      (vdi_port_read_one_msg_from_device A reds device).device = device ∧
      (vdi_port_read_one_msg_from_device A reds device).out = [] ∧
      (vdi_port_read_one_msg_from_device A reds device).reds.agent_dev.read_state
        = VDIPortReadStates.GET_BUFF ∧
      (vdi_port_read_one_msg_from_device A reds device).reds.agent_dev.num_read_buf = 5) := by
  have h5 : reds.agent_dev.num_read_buf ≤ 5 := h.2
  refine ⟨fun h0 => get_read_buf_exhausted _ (by omega),
    fun h0 => get_read_buf_fresh _ (by omega), ?_, ?_,
    fun device => read_one_msg_from_device_pool A reds device held h,
    fun client st ev hne hok =>
      on_main_channel_migrate_pool A reds client held st ev h hne hok,
    fun mig st ev hok => agent_state_restore_pool A reds st mig ev held h hok, ?_⟩
  · by_cases h0 : reds.agent_dev.num_read_buf < 5
    · rw [get_read_buf_fresh _ h0]
      show reds.agent_dev.num_read_buf + 1 ≤ 5
      omega
    · rw [get_read_buf_exhausted _ (by omega)]
      exact h5
  · intro h1
    apply read_buf_free_pool
    rw [Nat.sub_add_cancel h1]
    exact h
  · intro device hv hs hn
    rw [reader_pool_exhausted A reds device hv hs (by omega)]
    exact ⟨rfl, rfl, rfl, hs, hn⟩

/-- The sample server has no buffer out, and after a call of the reader on a chunk
header the ledger holds. -/
theorem read_buf_pool_invariant_witness :
    read_buf_pool_ok sampleAgentReds.agent_dev 0 ∧
    read_buf_pool_ok
      (vdi_port_read_one_msg_from_device sampleAgent sampleAgentReds
        [[1, 0, 0, 0, 5, 0, 0, 0]]).reds.agent_dev
      (0 + (if (vdi_port_read_one_msg_from_device sampleAgent sampleAgentReds
        [[1, 0, 0, 0, 5, 0, 0, 0]]).ret.isSome then 1 else 0)) :=
  ⟨⟨by decide, by decide⟩,
   (read_buf_pool_invariant sampleAgent sampleAgentReds 0 ⟨by decide, by decide⟩).2.2.2.2.1
     [[1, 0, 0, 0, 5, 0, 0, 0]]⟩

/-- The fields `reds_marshall_migrate_data` writes for an attached agent, state by
state of the reader. -/
theorem marshall_migrate_data_fields (A : AgentProto) (src : RedsState)
    (mig : SpiceMigrateDataMain) (hv : src.vdagent = true)
    (hm : reds_marshall_migrate_data A src = Except.ok mig) :
    mig.c2a_msg_remaining = src.agent_dev.write_filter.msg_data_to_read ∧
    mig.c2a_msg_filter_result = src.agent_dev.write_filter.result ∧
    mig.client_agent_started = src.agent_dev.client_agent_started ∧
    (src.agent_dev.read_state = VDIPortReadStates.READ_HEADER →
      mig.a2c_chunk_header = src.agent_dev.vdi_chunk_header ∧
      mig.a2c_msg_header_done = false ∧ mig.a2c_msg_header_partial_len = 0 ∧
      src.agent_dev.read_filter.msg_data_to_read = 0 ∧
      ∀ off, src.agent_dev.receive_pos = ReceivePos.chunk_header off →
        mig.a2c_chunk_header_size = off % 2 ^ 32) ∧
    (src.agent_dev.read_state = VDIPortReadStates.GET_BUFF →
      mig.a2c_chunk_header_size = A.sizeof_VDIChunkHeader ∧
      mig.a2c_chunk_header
        = A.chunk_with_size src.agent_dev.vdi_chunk_header src.agent_dev.message_receive_len ∧
      mig.a2c_msg_header_done = true ∧
      mig.a2c_msg_remaining = src.agent_dev.read_filter.msg_data_to_read ∧
      mig.a2c_msg_filter_result = src.agent_dev.read_filter.result) ∧
    (src.agent_dev.read_state = VDIPortReadStates.READ_DATA →
      ∃ current off, src.agent_dev.current_read_buf = some current ∧
        src.agent_dev.receive_pos = ReceivePos.read_buf off ∧
        off % 2 ^ 32 < A.sizeof_VDAgentMessage ∧
        src.agent_dev.read_filter.msg_data_to_read = 0 ∧
        mig.a2c_chunk_header_size = A.sizeof_VDIChunkHeader ∧
        mig.a2c_chunk_header
          = A.chunk_with_size src.agent_dev.vdi_chunk_header src.agent_dev.message_receive_len ∧
        mig.a2c_msg_header_done = false ∧
        mig.a2c_msg_header_partial_len = off % 2 ^ 32 ∧
        mig.a2c_msg_header_partial = current.data.take (off % 2 ^ 32)) := by
  unfold reds_marshall_migrate_data at hm
  simp only [hv, Bool.not_true, Bool.false_eq_true, if_false] at hm
  cases hs : src.agent_dev.read_state with
  | READ_HEADER =>
    simp only [hs] at hm
    split_ifs at hm with h0
    simp only [Except.ok.injEq] at hm
    subst hm
    refine ⟨rfl, rfl, rfl, fun _ => ⟨rfl, rfl, rfl, by simpa using h0, ?_⟩,
      (fun h => by cases h), (fun h => by cases h)⟩
    intro off hoff
    simp only [hoff]
  | GET_BUFF =>
    simp only [hs] at hm
    simp only [Except.ok.injEq] at hm
    subst hm
    exact ⟨rfl, rfl, rfl, (fun h => by cases h), fun _ => ⟨rfl, rfl, rfl, rfl, rfl⟩,
      (fun h => by cases h)⟩
  | READ_DATA =>
    simp only [hs] at hm
    cases hcur : src.agent_dev.current_read_buf with
    | none =>
      simp only [hcur] at hm
      cases hm
    | some current =>
      cases hpos : src.agent_dev.receive_pos with
      | null =>
        simp only [hcur, hpos] at hm
        cases hm
      | chunk_header off =>
        simp only [hcur, hpos] at hm
        cases hm
      | read_buf off =>
        simp only [hcur, hpos] at hm
        split_ifs at hm with h1 h2
        simp only [Except.ok.injEq] at hm
        subst hm
        exact ⟨rfl, rfl, rfl, (fun h => by cases h), (fun h => by cases h),
          fun _ => ⟨current, off, rfl, rfl, h1, by simpa using h2, rfl, rfl, rfl, rfl, rfl⟩⟩

/-- The first part of the restore for a record whose chunk header is incomplete. -/
theorem restore_chunk_header_part (A : AgentProto) (dev : RedCharDeviceVDIPortPrivate)
    (mig : SpiceMigrateDataMain)
    (h : A.sizeof_VDIChunkHeader - mig.a2c_chunk_header_size ≠ 0) :
    restore_chunk_header A dev mig
      = { dev with vdi_chunk_header := mig.a2c_chunk_header,
                   read_state := VDIPortReadStates.READ_HEADER,
                   receive_pos := ReceivePos.chunk_header mig.a2c_chunk_header_size,
                   receive_len := A.sizeof_VDIChunkHeader - mig.a2c_chunk_header_size } := by
  show (if _ then _ else _) = _
  rw [if_pos h]

/-- The first part of the restore for a record whose chunk header is complete. -/
theorem restore_chunk_header_full (A : AgentProto) (dev : RedCharDeviceVDIPortPrivate)
    (mig : SpiceMigrateDataMain)
    (h : A.sizeof_VDIChunkHeader - mig.a2c_chunk_header_size = 0) :
    restore_chunk_header A dev mig
      = { dev with vdi_chunk_header := mig.a2c_chunk_header,
                   message_receive_len := A.chunk_size mig.a2c_chunk_header % 2 ^ 32 } := by
  show (if _ then _ else _) = _
  rw [if_neg (not_not.mpr h)]

/-- The second part of the restore for a record whose chunk header is incomplete and
that carries no part of a message header. -/
theorem restore_msg_header_part (A : AgentProto) (dev : RedCharDeviceVDIPortPrivate)
    (mig : SpiceMigrateDataMain) (hd : mig.a2c_msg_header_done = false)
    (h : A.sizeof_VDIChunkHeader - mig.a2c_chunk_header_size ≠ 0)
    (hp : mig.a2c_msg_header_partial_len = 0) :
    restore_msg_header A dev mig = Except.ok dev := by
  unfold restore_msg_header
  rw [if_pos (by simp [hd]), if_neg h, if_neg (not_not.mpr hp)]

/-- The second part of the restore for a record whose chunk header is complete and
whose message header is not. -/
theorem restore_msg_header_buf (A : AgentProto) (dev : RedCharDeviceVDIPortPrivate)
    (mig : SpiceMigrateDataMain) (hd : mig.a2c_msg_header_done = false)
    (h : A.sizeof_VDIChunkHeader - mig.a2c_chunk_header_size = 0) :
    restore_msg_header A dev mig = restore_read_buf A dev mig := by
  unfold restore_msg_header
  rw [if_pos (by simp [hd]), if_pos h]

/-- The filters after the last part of the restore. -/
theorem restore_filters_filter_fields (dev : RedCharDeviceVDIPortPrivate)
    (mig : SpiceMigrateDataMain) :
    (restore_filters dev mig).write_filter.msg_data_to_read = mig.c2a_msg_remaining ∧
    (restore_filters dev mig).write_filter.result = mig.c2a_msg_filter_result ∧
    (restore_filters dev mig).read_filter.msg_data_to_read
      = dev.read_filter.msg_data_to_read ∧
    (restore_filters dev mig).read_filter.result = dev.read_filter.result ∧
    (restore_filters dev mig).client_agent_started = mig.client_agent_started :=
  ⟨rfl, rfl, rfl, rfl, rfl⟩

/-- A restore that returns was given a chunk header size that fits. -/
theorem restore_ok_size (A : AgentProto) (reds st : RedsState) (mig : SpiceMigrateDataMain)
    (ev : List Event) (hok : reds_agent_state_restore A reds mig = Except.ok (st, ev)) :
    mig.a2c_chunk_header_size ≤ A.sizeof_VDIChunkHeader := by
  by_cases hsz : mig.a2c_chunk_header_size ≤ A.sizeof_VDIChunkHeader
  · exact hsz
  · unfold reds_agent_state_restore at hok
    rw [if_pos (by omega)] at hok
    cases hok

/-- C11 (counterexample): three snapshots restored on a fresh destination. The
reader has read a chunk header that declares 30 payload bytes and 5 of them: 25 are
still to come, the record carries message_receive_len, which is 0, as the size of the
chunk, and the restored reader expects no more byte. The reader has read 25 of the 30
bytes and `reds_on_main_channel_migrate` has pushed them: the source is in GET_BUFF
with receive_len + message_receive_len = 10, the restored reader has 13, its
receive_len being the one the destination had. The source is in READ_HEADER with the
verdict DISCARD in its read filter: the restored read filter has the verdict the
destination had, OK. -/
theorem migrate_data_roundtrip_loses_state :
    (∃ src mig st ev,
      (vdi_port_read_one_msg_from_device sampleAgent sampleAgentReds
        [[1, 0, 0, 0, 30, 0, 0, 0], [9, 9, 9, 9, 9]]).reds = src ∧
      reds_on_main_channel_migrate sampleAgent src 100 = Except.ok (src, []) ∧
      src.vdagent = true ∧ src.agent_dev.agent_attached = true ∧
      src.agent_dev.read_state = VDIPortReadStates.READ_DATA ∧
      reds_marshall_migrate_data sampleAgent src = Except.ok mig ∧
      reds_agent_state_restore sampleAgent sampleAgentReds mig = Except.ok (st, ev) ∧
      src.agent_dev.receive_len + src.agent_dev.message_receive_len = 25 ∧
      st.agent_dev.read_state = VDIPortReadStates.READ_DATA ∧
      st.agent_dev.receive_len + st.agent_dev.message_receive_len = 0) ∧
    (∃ src out mig st ev,
      reds_on_main_channel_migrate sampleAgent
        (vdi_port_read_one_msg_from_device sampleAgent sampleAgentReds
          [[1, 0, 0, 0, 30, 0, 0, 0], List.range 25]).reds 100 = Except.ok (src, out) ∧
      src.vdagent = true ∧ src.agent_dev.agent_attached = true ∧
      src.agent_dev.read_state = VDIPortReadStates.GET_BUFF ∧
      reds_marshall_migrate_data sampleAgent src = Except.ok mig ∧
      reds_agent_state_restore sampleAgent sampleAgentReds mig = Except.ok (st, ev) ∧
      src.agent_dev.receive_len + src.agent_dev.message_receive_len = 10 ∧
      st.agent_dev.read_state = VDIPortReadStates.GET_BUFF ∧
      st.agent_dev.message_receive_len = src.agent_dev.message_receive_len ∧
      st.agent_dev.receive_len + st.agent_dev.message_receive_len = 13) ∧
    (∃ src mig st ev,
      src = { sampleAgentReds with agent_dev := { sampleAgentReds.agent_dev with
                read_filter := { sampleAgentReds.agent_dev.read_filter with
                  result := AgentMsgFilterResult.DISCARD } } } ∧
      src.vdagent = true ∧ src.agent_dev.agent_attached = true ∧
      src.agent_dev.read_state = VDIPortReadStates.READ_HEADER ∧
      reds_marshall_migrate_data sampleAgent src = Except.ok mig ∧
      reds_agent_state_restore sampleAgent sampleAgentReds mig = Except.ok (st, ev) ∧
      src.agent_dev.read_filter.result = AgentMsgFilterResult.DISCARD ∧
      st.agent_dev.read_filter.result = AgentMsgFilterResult.OK) :=
  ⟨⟨_, _, _, _, rfl, rfl, rfl, rfl, rfl, rfl, rfl, rfl, rfl, rfl⟩,
   ⟨_, _, _, _, _, rfl, rfl, rfl, rfl, rfl, rfl, rfl, rfl, rfl, rfl⟩,
   ⟨_, _, _, _, rfl, rfl, rfl, rfl, rfl, rfl, rfl, rfl⟩⟩

/-- C11 (amended): a record written by `reds_marshall_migrate_data` for an attached
agent is restored by `reds_agent_state_restore`, when it returns, as follows. The
write filter gets msg_data_to_read and result of the source and client_agent_started
is that of the source. From READ_HEADER with `off` bytes of the chunk header read:
READ_HEADER, the same chunk header bytes, `receive_pos` after `off` bytes and the rest
of the header to receive; msg_data_to_read and result of the read filter are those the
destination had. From GET_BUFF: GET_BUFF, no current buffer, the same
message_receive_len, and msg_data_to_read and result of the read filter of the source;
receive_len is that the destination had. From READ_DATA with `off` bytes in the
current buffer: READ_DATA with a current buffer that holds the same `off` bytes and
`receive_pos` after them; msg_data_to_read and result of the read filter are those the
destination had. -/
theorem migrate_data_roundtrip (A : AgentProto) (src dst st : RedsState)
    (mig : SpiceMigrateDataMain) (ev : List Event)
    (hv : src.vdagent = true)
    (hm : reds_marshall_migrate_data A src = Except.ok mig)
    (hr : reds_agent_state_restore A dst mig = Except.ok (st, ev)) :
    st.agent_dev.write_filter.msg_data_to_read = src.agent_dev.write_filter.msg_data_to_read ∧
    st.agent_dev.write_filter.result = src.agent_dev.write_filter.result ∧
    st.agent_dev.client_agent_started = src.agent_dev.client_agent_started ∧
    (src.agent_dev.read_state = VDIPortReadStates.READ_HEADER →
      ∀ off, src.agent_dev.receive_pos = ReceivePos.chunk_header off →
        off < A.sizeof_VDIChunkHeader → off < 2 ^ 32 →
        st.agent_dev.read_state = VDIPortReadStates.READ_HEADER ∧
        st.agent_dev.vdi_chunk_header = src.agent_dev.vdi_chunk_header ∧
        st.agent_dev.receive_pos = ReceivePos.chunk_header off ∧
        st.agent_dev.receive_len = A.sizeof_VDIChunkHeader - off ∧
        st.agent_dev.read_filter.msg_data_to_read = dst.agent_dev.read_filter.msg_data_to_read ∧
        st.agent_dev.read_filter.result = dst.agent_dev.read_filter.result) ∧
    (src.agent_dev.read_state = VDIPortReadStates.GET_BUFF →
      A.chunk_size (A.chunk_with_size src.agent_dev.vdi_chunk_header
        src.agent_dev.message_receive_len) = src.agent_dev.message_receive_len →
      src.agent_dev.message_receive_len < 2 ^ 32 →
      st.agent_dev.read_state = VDIPortReadStates.GET_BUFF ∧
      st.agent_dev.current_read_buf = none ∧
      st.agent_dev.message_receive_len = src.agent_dev.message_receive_len ∧
      st.agent_dev.receive_len = dst.agent_dev.receive_len ∧
      st.agent_dev.read_filter.msg_data_to_read = src.agent_dev.read_filter.msg_data_to_read ∧
      st.agent_dev.read_filter.result = src.agent_dev.read_filter.result) ∧
    (src.agent_dev.read_state = VDIPortReadStates.READ_DATA →
      ∀ current off, src.agent_dev.current_read_buf = some current →
        src.agent_dev.receive_pos = ReceivePos.read_buf off → off < 2 ^ 32 →
        st.agent_dev.read_state = VDIPortReadStates.READ_DATA ∧
        st.agent_dev.receive_pos = ReceivePos.read_buf off ∧
        (∃ buf, st.agent_dev.current_read_buf = some buf ∧
          buf.data = current.data.take off) ∧
        st.agent_dev.read_filter.msg_data_to_read = dst.agent_dev.read_filter.msg_data_to_read ∧
        st.agent_dev.read_filter.result = dst.agent_dev.read_filter.result) := by
  obtain ⟨m1, m2, m3, mh, mg, md⟩ := marshall_migrate_data_fields A src mig hv hm
  have hsz := restore_ok_size A dst st mig ev hr
  obtain ⟨_, hbwd⟩ := restore_iff_msg_header A dst mig hsz
  obtain ⟨d, hd, hst⟩ := hbwd st ev hr
  obtain ⟨w1, w2, w3, w4, w5⟩ := restore_filters_filter_fields d mig
  obtain ⟨f1, f2, f3, f4, f5, _, f7⟩ := restore_filters_fields d mig
  rw [hst]
  refine ⟨w1.trans m1, w2.trans m2, w5.trans m3, ?_, ?_, ?_⟩
  · intro hs off hoff hlt h32
    obtain ⟨k1, k2, k3, _, k5⟩ := mh hs
    have hsize : mig.a2c_chunk_header_size = off := by
      rw [k5 off hoff]
      omega
    have hrem : A.sizeof_VDIChunkHeader - mig.a2c_chunk_header_size ≠ 0 := by omega
    rw [restore_msg_header_part A _ mig k2 hrem k3] at hd
    have hdd : d = restore_chunk_header A dst.agent_dev mig := (Except.ok.inj hd).symm
    rw [restore_chunk_header_part A _ mig hrem] at hdd
    rw [f1, f7, f5, f2, w3, w4, hdd]
    refine ⟨rfl, k1, ?_, ?_, rfl, rfl⟩
    · show ReceivePos.chunk_header mig.a2c_chunk_header_size = _
      rw [hsize]
    · show A.sizeof_VDIChunkHeader - mig.a2c_chunk_header_size = _
      rw [hsize]
  · intro hs hlaw h32
    obtain ⟨k1, k2, k3, k4, k5⟩ := mg hs
    have hrem : A.sizeof_VDIChunkHeader - mig.a2c_chunk_header_size = 0 := by omega
    obtain ⟨d', hd', e1, e2, e3, e4, _, e6, e7, _⟩ :=
      restore_msg_header_done A (restore_chunk_header A dst.agent_dev mig) mig k3
    have hdd : d = d' := Except.ok.inj (hd.symm.trans hd')
    obtain ⟨_, c2, _⟩ := restore_chunk_header_fields A dst.agent_dev mig
    obtain ⟨_, c3, c4⟩ := c2 hrem
    rw [f1, f4, f3, f2, w3, w4, hdd, e1, e2, e3, e4, e6, e7, c3, c4, k2, hlaw, k4, k5]
    exact ⟨rfl, rfl, by omega, rfl, rfl, rfl⟩
  · intro hs current off hcur hpos h32
    obtain ⟨cur', off', hcur', hpos', _, _, k1, _, k3, k4, k5⟩ := md hs
    have hc : cur' = current := Option.some.inj (hcur'.symm.trans hcur)
    have ho : off' = off := by
      have := hpos'.symm.trans hpos
      cases this
      rfl
    subst hc
    subst ho
    have hmod : off' % 2 ^ 32 = off' := by omega
    rw [hmod] at k4 k5
    have hrem : A.sizeof_VDIChunkHeader - mig.a2c_chunk_header_size = 0 := by omega
    rw [restore_msg_header_buf A _ mig k3 hrem] at hd
    obtain ⟨b1, b2⟩ := restore_read_buf_fields A (restore_chunk_header A dst.agent_dev mig) mig
    by_cases hp : (restore_chunk_header A dst.agent_dev mig).num_read_buf < 5
    · obtain ⟨d', hd', e1, _, _, e4, e5, _, e7, _⟩ := b2 hp
      have hdd : d = d' := Except.ok.inj (hd.symm.trans hd')
      obtain ⟨_, _, _, _, c5, _⟩ := restore_chunk_header_fields A dst.agent_dev mig
      rw [f1, f5, f4, w3, w4, hdd, e1, e4, e5, e7, c5, k4, k5]
      refine ⟨rfl, rfl, ⟨_, rfl, ?_⟩, rfl, rfl⟩
      show (cur'.data.take off').take off' = cur'.data.take off'
      rw [List.take_take, Nat.min_self]
    · rw [b1 hp] at hd
      cases hd

/-- Witness for C11: three snapshots taken in the middle of a chunk and restored on
a fresh destination. The source has read 5 of the 8 bytes of a chunk header, its
write filter has 12 bytes of a message to skip with verdict DISCARD and the client
has started the agent: the destination is in READ_HEADER with the same 5 bytes, 3 to
receive, and the write filter and the flag of the source. The source has read 25 of
the 30 bytes of a chunk and pushed them: the destination is in GET_BUFF, without a
buffer, with the same 5 bytes of the chunk to come and the read filter of the
source. The source has read 5 of the 30 bytes of a chunk: the destination is in
READ_DATA with a buffer that holds these 5 bytes. -/
theorem migrate_data_roundtrip_witness :
    (∃ src mig st ev,
      src = { (vdi_port_read_one_msg_from_device sampleAgent sampleAgentReds
                [[1, 0, 0, 0, 30]]).reds with
              agent_dev := { (vdi_port_read_one_msg_from_device sampleAgent sampleAgentReds
                  [[1, 0, 0, 0, 30]]).reds.agent_dev with
                write_filter := { msg_data_to_read := 12,
                                  result := AgentMsgFilterResult.DISCARD },
                client_agent_started := true } } ∧
      src.vdagent = true ∧
      src.agent_dev.read_state = VDIPortReadStates.READ_HEADER ∧
      src.agent_dev.receive_pos = ReceivePos.chunk_header 5 ∧
      reds_marshall_migrate_data sampleAgent src = Except.ok mig ∧
      reds_agent_state_restore sampleAgent sampleAgentReds mig = Except.ok (st, ev) ∧
      st.agent_dev.write_filter.msg_data_to_read = 12 ∧
      st.agent_dev.write_filter.result = AgentMsgFilterResult.DISCARD ∧
      st.agent_dev.client_agent_started = true ∧
      st.agent_dev.read_state = VDIPortReadStates.READ_HEADER ∧
      st.agent_dev.vdi_chunk_header = [1, 0, 0, 0, 30, 0, 0, 0] ∧
      st.agent_dev.receive_pos = ReceivePos.chunk_header 5 ∧
      st.agent_dev.receive_len = 3) ∧
    (∃ src out mig st ev,
      reds_on_main_channel_migrate sampleAgent
        (vdi_port_read_one_msg_from_device sampleAgent sampleAgentReds
          [[1, 0, 0, 0, 30, 0, 0, 0], List.range 25]).reds 100 = Except.ok (src, out) ∧
      src.vdagent = true ∧
      src.agent_dev.read_state = VDIPortReadStates.GET_BUFF ∧
      src.agent_dev.message_receive_len = 5 ∧
      reds_marshall_migrate_data sampleAgent src = Except.ok mig ∧
      reds_agent_state_restore sampleAgent sampleAgentReds mig = Except.ok (st, ev) ∧
      st.agent_dev.read_state = VDIPortReadStates.GET_BUFF ∧
      st.agent_dev.current_read_buf = none ∧
      st.agent_dev.message_receive_len = 5 ∧
      st.agent_dev.read_filter.msg_data_to_read = src.agent_dev.read_filter.msg_data_to_read ∧
      st.agent_dev.read_filter.result = src.agent_dev.read_filter.result) ∧
    (∃ src mig st ev,
      (vdi_port_read_one_msg_from_device sampleAgent sampleAgentReds
        [[1, 0, 0, 0, 30, 0, 0, 0], [9, 8, 7, 6, 5]]).reds = src ∧
      src.vdagent = true ∧
      src.agent_dev.read_state = VDIPortReadStates.READ_DATA ∧
      src.agent_dev.receive_pos = ReceivePos.read_buf 5 ∧
      reds_marshall_migrate_data sampleAgent src = Except.ok mig ∧
      reds_agent_state_restore sampleAgent sampleAgentReds mig = Except.ok (st, ev) ∧
      st.agent_dev.read_state = VDIPortReadStates.READ_DATA ∧
      st.agent_dev.receive_pos = ReceivePos.read_buf 5 ∧
      ∃ buf, st.agent_dev.current_read_buf = some buf ∧ buf.data = [9, 8, 7, 6, 5]) := by
  refine ⟨?_, ?_, ?_⟩
  · have h := migrate_data_roundtrip sampleAgent
      { (vdi_port_read_one_msg_from_device sampleAgent sampleAgentReds
                [[1, 0, 0, 0, 30]]).reds with
              agent_dev := { (vdi_port_read_one_msg_from_device sampleAgent sampleAgentReds
                  [[1, 0, 0, 0, 30]]).reds.agent_dev with
                write_filter := { msg_data_to_read := 12,
                                  result := AgentMsgFilterResult.DISCARD },
                client_agent_started := true } }
      sampleAgentReds _ _ _ rfl rfl rfl
    have h2 := h.2.2.2.1 rfl 5 rfl (by decide) (by decide)
    exact ⟨_, _, _, _, rfl, rfl, rfl, rfl, rfl, rfl, h.1, h.2.1, h.2.2.1, h2.1, h2.2.1,
      h2.2.2.1, h2.2.2.2.1⟩
  · have h := migrate_data_roundtrip sampleAgent
      ((reds_on_main_channel_migrate sampleAgent
        (vdi_port_read_one_msg_from_device sampleAgent sampleAgentReds
          [[1, 0, 0, 0, 30, 0, 0, 0], List.range 25]).reds 100).toOption.getD
            (sampleAgentReds, [])).1
      sampleAgentReds _ _ _ rfl rfl rfl
    have h2 := h.2.2.2.2.1 rfl rfl (by decide)
    exact ⟨_, _, _, _, _, rfl, rfl, rfl, rfl, rfl, rfl, h2.1, h2.2.1, h2.2.2.1, h2.2.2.2.2.1,
      h2.2.2.2.2.2⟩
  · have h := migrate_data_roundtrip sampleAgent
      (vdi_port_read_one_msg_from_device sampleAgent sampleAgentReds
        [[1, 0, 0, 0, 30, 0, 0, 0], [9, 8, 7, 6, 5]]).reds
      sampleAgentReds _ _ _ rfl rfl rfl
    have h2 := h.2.2.2.2.2 rfl _ 5 rfl rfl (by decide)
    exact ⟨_, _, _, _, rfl, rfl, rfl, rfl, rfl, rfl, h2.1, h2.2.1, h2.2.2.1⟩

/-! ## The calls a turn of the reader adds to the trace -/

/-- The switch on the verdict adds its calls to those made before. -/
theorem dispatch_verdict_prepend (A : AgentProto) (reds : RedsState) (device : VDIPortDevice)
    (pre out : List Event) (buf : RedVDIReadBuf) (verdict : AgentMsgFilterResult) :
    dispatch_verdict A reds device (pre ++ out) buf verdict
      = (dispatch_verdict A reds device out buf verdict).prepend pre := by
  cases verdict <;> simp [dispatch_verdict, ReadStep.prepend, List.append_assoc]

/-- The end of the case READ_DATA, written out. -/
theorem dispatch_read_buf_eq (A : AgentProto) (reds : RedsState) (device : VDIPortDevice)
    (out : List Event) (buf : RedVDIReadBuf) :
    dispatch_read_buf A reds device out buf
      = dispatch_verdict A
          { reds with agent_dev :=
              (vdi_port_read_buf_process A (read_buf_filled A reds.agent_dev) buf).2 }
          device
          (out ++ [Event.vdi_port_read_buf_process
            (read_buf_filled A reds.agent_dev).read_state buf])
          buf (vdi_port_read_buf_process A (read_buf_filled A reds.agent_dev) buf).1 := rfl

/-- The end of the case READ_DATA adds its calls to those made before. -/
theorem dispatch_read_buf_prepend (A : AgentProto) (reds : RedsState) (device : VDIPortDevice)
    (pre out : List Event) (buf : RedVDIReadBuf) :
    dispatch_read_buf A reds device (pre ++ out) buf
      = (dispatch_read_buf A reds device out buf).prepend pre := by
  rw [dispatch_read_buf_eq, dispatch_read_buf_eq, List.append_assoc, dispatch_verdict_prepend]

/-- The case READ_DATA adds its calls to those made before. -/
theorem read_data_case_prepend (A : AgentProto) (reds : RedsState) (device : VDIPortDevice)
    (pre out : List Event) :
    read_data_case A reds device (pre ++ out)
      = (read_data_case A reds device out).prepend pre := by
  by_cases h0 : (sif_read device reds.agent_dev.receive_len).1.length = 0
  · rw [read_data_case_zero A reds device _ h0, read_data_case_zero A reds device _ h0]
    rfl
  · by_cases h2 : (receive_bytes reds.agent_dev
        (sif_read device reds.agent_dev.receive_len).1).receive_len = 0
    · cases hb : (receive_bytes reds.agent_dev
          (sif_read device reds.agent_dev.receive_len).1).current_read_buf with
      | none =>
        rw [read_data_case_full_none A reds device _ h0 h2 hb,
          read_data_case_full_none A reds device _ h0 h2 hb]
        rfl
      | some buf =>
        rw [read_data_case_full A reds device _ buf h0 h2 hb,
          read_data_case_full A reds device _ buf h0 h2 hb, dispatch_read_buf_prepend]
    · rw [read_data_case_part A reds device _ h0 h2, read_data_case_part A reds device _ h0 h2]
      rfl

/-- The case GET_BUFF adds its calls to those made before. -/
theorem get_buff_case_prepend (A : AgentProto) (reds : RedsState) (device : VDIPortDevice)
    (pre out : List Event) :
    get_buff_case A reds device (pre ++ out)
      = (get_buff_case A reds device out).prepend pre := by
  by_cases h5 : reds.agent_dev.num_read_buf ≥ 5
  · rw [get_buff_case_exhausted A reds device _ h5, get_buff_case_exhausted A reds device _ h5]
    rfl
  · rw [get_buff_case_fresh A reds device _ (by omega),
      get_buff_case_fresh A reds device _ (by omega), read_data_case_prepend]

/-- The case READ_HEADER adds its calls to those made before. -/
theorem read_header_case_prepend (A : AgentProto) (reds : RedsState) (device : VDIPortDevice)
    (pre out : List Event) :
    read_header_case A reds device (pre ++ out)
      = (read_header_case A reds device out).prepend pre := by
  by_cases h0 : (sif_read device reds.agent_dev.receive_len).1.length = 0
  · rw [read_header_case_zero A reds device _ h0, read_header_case_zero A reds device _ h0]
    rfl
  · by_cases h2 : (receive_bytes reds.agent_dev
        (sif_read device reds.agent_dev.receive_len).1).receive_len = 0
    · rw [read_header_case_full A reds device _ h0 h2,
        read_header_case_full A reds device _ h0 h2, get_buff_case_prepend]
    · rw [read_header_case_part A reds device _ h0 h2,
        read_header_case_part A reds device _ h0 h2]
      rfl

/-- A turn of the reader adds its calls to those made before. -/
theorem read_one_msg_turn_prepend (A : AgentProto) (reds : RedsState) (device : VDIPortDevice)
    (pre out : List Event) :
    read_one_msg_turn A reds device (pre ++ out)
      = (read_one_msg_turn A reds device out).prepend pre := by
  unfold read_one_msg_turn
  cases reds.agent_dev.read_state with
  | READ_HEADER => exact read_header_case_prepend A reds device pre out
  | GET_BUFF => exact get_buff_case_prepend A reds device pre out
  | READ_DATA => exact read_data_case_prepend A reds device pre out

/-- The loop of the reader adds its calls to those made before. -/
theorem read_one_msg_loop_prepend (A : AgentProto) (pre : List Event) :
    ∀ (turns : Nat) (reds : RedsState) (device : VDIPortDevice) (out : List Event),
      read_one_msg_loop A turns reds device (pre ++ out)
        = (read_one_msg_loop A turns reds device out).map
            (fun r => ⟨r.reds, r.device, r.ret, pre ++ r.out⟩) := by
  intro turns
  induction turns with
  | zero =>
    intro reds device out
    rfl
  | succ n ih =>
    intro reds device out
    unfold read_one_msg_loop
    by_cases hv : (!reds.vdagent) = true
    · rw [if_pos hv, if_pos hv]
      rfl
    · rw [if_neg hv, if_neg hv, read_one_msg_turn_prepend]
      cases read_one_msg_turn A reds device out with
      | again reds1 device1 out1 => exact ih reds1 device1 out1
      | done r => rfl

/-! ## A call of the reader as a sequence of turns -/

/-- A read leaves the bound on the turns no larger, and smaller when it gave bytes. -/
theorem sif_read_turns (device : VDIPortDevice) (len : Nat) :
    device_turns (sif_read device len).2 ≤ device_turns device ∧
    ((sif_read device len).1.length ≠ 0 →
      device_turns (sif_read device len).2 < device_turns device) := by
  cases device with
  | nil => simp [sif_read_nil]
  | cons piece rest =>
    by_cases h0 : len = 0
    · subst h0
      simp [sif_read_zero]
    · by_cases h : piece.length ≤ len
      · rw [sif_read_piece piece rest len h0 h]
        simp only [device_turns, List.map_cons, List.sum_cons]
        exact ⟨by omega, fun _ => by omega⟩
      · rw [sif_read_part piece rest len h0 (by omega)]
        simp only [device_turns, List.map_cons, List.sum_cons, List.length_drop]
        exact ⟨by omega, fun _ => by omega⟩

/-- The switch on the verdict leaves the device as it is. -/
theorem dispatch_verdict_again (A : AgentProto) (reds : RedsState) (device : VDIPortDevice)
    (out : List Event) (buf : RedVDIReadBuf) (verdict : AgentMsgFilterResult)
    (r1 : RedsState) (d1 : VDIPortDevice) (o1 : List Event)
    (h : dispatch_verdict A reds device out buf verdict = ReadStep.again r1 d1 o1) :
    d1 = device := by
  cases verdict <;> simp [dispatch_verdict] at h <;> exact h.2.1.symm

/-- A turn in the case READ_DATA after which the loop goes on has read from the
device. -/
theorem read_data_case_again (A : AgentProto) (reds : RedsState) (device : VDIPortDevice)
    (out : List Event) (r1 : RedsState) (d1 : VDIPortDevice) (o1 : List Event)
    (h : read_data_case A reds device out = ReadStep.again r1 d1 o1) :
    device_turns d1 < device_turns device := by
  obtain ⟨_, hlt⟩ := sif_read_turns device reds.agent_dev.receive_len
  by_cases h0 : (sif_read device reds.agent_dev.receive_len).1.length = 0
  · rw [read_data_case_zero A reds device _ h0] at h
    cases h
  · by_cases h2 : (receive_bytes reds.agent_dev
        (sif_read device reds.agent_dev.receive_len).1).receive_len = 0
    · cases hb : (receive_bytes reds.agent_dev
          (sif_read device reds.agent_dev.receive_len).1).current_read_buf with
      | none =>
        rw [read_data_case_full_none A reds device _ h0 h2 hb] at h
        cases h
      | some buf =>
        rw [read_data_case_full A reds device _ buf h0 h2 hb, dispatch_read_buf_eq] at h
        rw [dispatch_verdict_again A _ _ _ _ _ r1 d1 o1 h]
        exact hlt h0
    · rw [read_data_case_part A reds device _ h0 h2] at h
      simp only [ReadStep.again.injEq] at h
      rw [← h.2.1]
      exact hlt h0

/-- A turn in the case GET_BUFF after which the loop goes on has read from the
device. -/
theorem get_buff_case_again (A : AgentProto) (reds : RedsState) (device : VDIPortDevice)
    (out : List Event) (r1 : RedsState) (d1 : VDIPortDevice) (o1 : List Event)
    (h : get_buff_case A reds device out = ReadStep.again r1 d1 o1) :
    device_turns d1 < device_turns device := by
  by_cases h5 : reds.agent_dev.num_read_buf ≥ 5
  · rw [get_buff_case_exhausted A reds device _ h5] at h
    cases h
  · rw [get_buff_case_fresh A reds device _ (by omega)] at h
    exact read_data_case_again A _ device out r1 d1 o1 h

/-- A turn in the case READ_HEADER after which the loop goes on has read from the
device. -/
theorem read_header_case_again (A : AgentProto) (reds : RedsState) (device : VDIPortDevice)
    (out : List Event) (r1 : RedsState) (d1 : VDIPortDevice) (o1 : List Event)
    (h : read_header_case A reds device out = ReadStep.again r1 d1 o1) :
    device_turns d1 < device_turns device := by
  obtain ⟨hle, _⟩ := sif_read_turns device reds.agent_dev.receive_len
  by_cases h0 : (sif_read device reds.agent_dev.receive_len).1.length = 0
  · rw [read_header_case_zero A reds device _ h0] at h
    cases h
  · by_cases h2 : (receive_bytes reds.agent_dev
        (sif_read device reds.agent_dev.receive_len).1).receive_len = 0
    · rw [read_header_case_full A reds device _ h0 h2] at h
      have := get_buff_case_again A _ _ out r1 d1 o1 h
      omega
    · rw [read_header_case_part A reds device _ h0 h2] at h
      cases h

/-- A turn after which the loop goes on has read from the device. -/
theorem read_one_msg_turn_again (A : AgentProto) (reds : RedsState) (device : VDIPortDevice)
    (out : List Event) (r1 : RedsState) (d1 : VDIPortDevice) (o1 : List Event)
    (h : read_one_msg_turn A reds device out = ReadStep.again r1 d1 o1) :
    device_turns d1 < device_turns device := by
  unfold read_one_msg_turn at h
  cases hs : reds.agent_dev.read_state with
  | READ_HEADER =>
    rw [hs] at h
    exact read_header_case_again A reds device out r1 d1 o1 h
  | GET_BUFF =>
    rw [hs] at h
    exact get_buff_case_again A reds device out r1 d1 o1 h
  | READ_DATA =>
    rw [hs] at h
    exact read_data_case_again A reds device out r1 d1 o1 h

/-- The loop of the reader returns within the turns it is given for a device. -/
theorem read_one_msg_loop_returns (A : AgentProto) :
    ∀ (turns : Nat) (reds : RedsState) (device : VDIPortDevice) (out : List Event),
      device_turns device ≤ turns →
      ∃ r, read_one_msg_loop A turns reds device out = some r := by
  intro turns
  induction turns with
  | zero =>
    intro reds device out h
    unfold device_turns at h
    omega
  | succ n ih =>
    intro reds device out h
    unfold read_one_msg_loop
    by_cases hv : (!reds.vdagent) = true
    · rw [if_pos hv]
      exact ⟨_, rfl⟩
    · rw [if_neg hv]
      cases hturn : read_one_msg_turn A reds device out with
      | again reds1 device1 out1 =>
        have := read_one_msg_turn_again A reds device out reds1 device1 out1 hturn
        exact ih reds1 device1 out1 (by omega)
      | done r => exact ⟨_, rfl⟩

/-- The loop of the reader, followed by the release of the buffer it returned, is a
sequence of turns of the run. -/
theorem read_one_msg_loop_turns (A : AgentProto) :
    ∀ (turns : Nat) (reds : RedsState) (device : VDIPortDevice) (out : List Event)
      (r : ReadOut), read_one_msg_loop A turns reds device out = some r →
      ∃ k, Nat.iterate (run_turn A) (k + 1) ⟨reds, device, out⟩
        = ⟨(release_read_buf r.reds r.ret).1, r.device,
            r.out ++ (release_read_buf r.reds r.ret).2⟩ := by
  intro turns
  induction turns with
  | zero =>
    intro reds device out r h
    cases h
  | succ n ih =>
    intro reds device out r h
    unfold read_one_msg_loop at h
    by_cases hv : (!reds.vdagent) = true
    · rw [if_pos hv] at h
      cases h
      refine ⟨0, ?_⟩
      show run_turn A ⟨reds, device, out⟩ = _
      unfold run_turn
      rw [if_pos hv]
      simp [release_read_buf]
    · rw [if_neg hv] at h
      cases hturn : read_one_msg_turn A reds device out with
      | again reds1 device1 out1 =>
        rw [hturn] at h
        obtain ⟨k, hk⟩ := ih reds1 device1 out1 r h
        refine ⟨k + 1, ?_⟩
        rw [Function.iterate_succ_apply]
        have hstep : run_turn A ⟨reds, device, out⟩ = ⟨reds1, device1, out1⟩ := by
          unfold run_turn
          rw [if_neg hv]
          show (read_one_msg_turn A reds device out).finish = _
          rw [hturn]
          rfl
        rw [hstep]
        exact hk
      | done r' =>
        rw [hturn] at h
        cases h
        refine ⟨0, ?_⟩
        show run_turn A ⟨reds, device, out⟩ = _
        unfold run_turn
        rw [if_neg hv]
        show (read_one_msg_turn A reds device out).finish = _
        rw [hturn]
        rfl

/-- A call of the reader in a run is a sequence of turns of the run, one at
least. -/
theorem run_call_turns (A : AgentProto) (c : RunState) :
    ∃ k, run_call A c = Nat.iterate (run_turn A) (k + 1) c := by
  by_cases hv : (!c.reds.vdagent) = true
  · refine ⟨0, ?_⟩
    show run_call A c = run_turn A c
    unfold run_call run_turn vdi_port_read_one_msg_from_device
    rw [if_pos hv, if_pos hv]
    simp [release_read_buf]
  · obtain ⟨r, hr⟩ := read_one_msg_loop_returns A (device_turns c.device) c.reds c.device []
      (le_refl _)
    have hpre := read_one_msg_loop_prepend A c.out (device_turns c.device) c.reds c.device []
    rw [hr, List.append_nil] at hpre
    obtain ⟨k, hk⟩ := read_one_msg_loop_turns A _ c.reds c.device c.out _ hpre
    refine ⟨k, ?_⟩
    rw [show c = ⟨c.reds, c.device, c.out⟩ from rfl] at hk ⊢
    rw [hk]
    unfold run_call vdi_port_read_one_msg_from_device
    simp only [hv, if_false, hr, Option.getD_some, Option.map_some']
    simp [List.append_assoc]

/-- A run of calls is a run of at least as many turns. -/
theorem reader_run_turns (A : AgentProto) :
    ∀ (calls : Nat) (c : RunState),
      ∃ k, calls ≤ k ∧ reader_run A calls c = Nat.iterate (run_turn A) k c := by
  intro calls
  induction calls with
  | zero =>
    intro c
    exact ⟨0, le_refl _, rfl⟩
  | succ n ih =>
    intro c
    obtain ⟨k1, hk1⟩ := run_call_turns A c
    obtain ⟨k2, hle, hk2⟩ := ih (run_call A c)
    refine ⟨k2 + (k1 + 1), by omega, ?_⟩
    unfold reader_run at hk2 ⊢
    rw [Function.iterate_succ_apply, hk2, hk1, ← Function.iterate_add_apply]

/-! ## What the end of the case READ_DATA leaves -/

/-- The filter changes nothing but the read filter. -/
theorem read_buf_process_eq (A : AgentProto) (dev : RedCharDeviceVDIPortPrivate)
    (buf : RedVDIReadBuf) :
    ∃ f, (vdi_port_read_buf_process A dev buf).2 = { dev with read_filter := f } := by
  unfold vdi_port_read_buf_process
  split_ifs
  · exact ⟨_, rfl⟩
  · exact ⟨dev.read_filter, rfl⟩
  · exact ⟨dev.read_filter, rfl⟩

/-- Adjusting the capabilities changes nothing but the flag of the graphics device
info. -/
theorem adjust_caps_eq (A : AgentProto) (reds : RedsState) (m : List Nat) :
    ∃ b, (reds_adjust_agent_capabilities A reds m).1
      = { reds with agent_dev :=
          { reds.agent_dev with agent_supports_graphics_device_info := b } } := by
  unfold reds_adjust_agent_capabilities
  split_ifs
  · exact ⟨reds.agent_dev.agent_supports_graphics_device_info, rfl⟩
  all_goals exact ⟨_, rfl⟩

/-- Freeing a read buffer that is counted changes nothing but the count. -/
theorem read_buf_free_eq (dev : RedCharDeviceVDIPortPrivate) (h1 : 1 ≤ dev.num_read_buf)
    (h5 : dev.num_read_buf ≤ 5) :
    (vdi_port_read_buf_free dev).1 = { dev with num_read_buf := dev.num_read_buf - 1 } := by
  have hm : (dev.num_read_buf + 2 ^ 32 - 1) % 2 ^ 32 = dev.num_read_buf - 1 := by omega
  rw [read_buf_free_fst, hm]

/-- The trace of a freed buffer shows no filled buffer. -/
theorem read_buf_free_completed (dev : RedCharDeviceVDIPortPrivate) :
    completed_bufs (vdi_port_read_buf_free dev).2 = [] := by
  rcases read_buf_free_events dev with h | h <;> rw [h] <;> rfl

/-- The trace of the adjusted capabilities shows no filled buffer. -/
theorem adjust_caps_completed (A : AgentProto) (reds : RedsState) (m : List Nat) :
    completed_bufs (reds_adjust_agent_capabilities A reds m).2.2 = [] := by
  rcases adjust_caps_events A reds m with h | h <;> rw [h] <;> rfl

/-- The filled buffers of a trace made of two parts. -/
theorem completed_bufs_append (a b : List Event) :
    completed_bufs (a ++ b) = completed_bufs a ++ completed_bufs b := by
  simp [completed_bufs, List.filterMap_append]

/-- After the switch on a verdict other than PROTO_ERROR, and the release of the
buffer if it was returned, the device has one buffer less out; the read filter and
the flag of the graphics device info apart, nothing else has changed. -/
theorem dispatch_verdict_finish (A : AgentProto) (reds : RedsState) (device : VDIPortDevice)
    (out : List Event) (buf : RedVDIReadBuf) (verdict : AgentMsgFilterResult)
    (hv : verdict ≠ AgentMsgFilterResult.PROTO_ERROR)
    (h1 : 1 ≤ reds.agent_dev.num_read_buf) (h5 : reds.agent_dev.num_read_buf ≤ 5) :
    ∃ b ev, completed_bufs ev = [] ∧
      (dispatch_verdict A reds device out buf verdict).finish
        = ⟨{ reds with agent_dev :=
              { reds.agent_dev with agent_supports_graphics_device_info := b,
                                    num_read_buf := reds.agent_dev.num_read_buf - 1 } },
            device, out ++ ev⟩ := by
  have hfree : (dispatch_verdict A reds device out buf AgentMsgFilterResult.DISCARD).finish
      = ⟨{ reds with agent_dev :=
            { reds.agent_dev with
                agent_supports_graphics_device_info :=
                  reds.agent_dev.agent_supports_graphics_device_info,
                num_read_buf := reds.agent_dev.num_read_buf - 1 } },
          device, out ++ (vdi_port_read_buf_free reds.agent_dev).2⟩ := by
    show (⟨{ reds with agent_dev := (vdi_port_read_buf_free reds.agent_dev).1 }, device,
      out ++ (vdi_port_read_buf_free reds.agent_dev).2⟩ : RunState) = _
    rw [read_buf_free_eq _ h1 h5]
  cases verdict with
  | OK =>
    obtain ⟨b, hb⟩ := adjust_caps_eq A reds buf.data
    refine ⟨b, (reds_adjust_agent_capabilities A reds buf.data).2.2
      ++ (vdi_port_read_buf_free
        (reds_adjust_agent_capabilities A reds buf.data).1.agent_dev).2, ?_, ?_⟩
    · rw [completed_bufs_append, adjust_caps_completed, read_buf_free_completed]
      rfl
    · show (⟨{ (reds_adjust_agent_capabilities A reds buf.data).1 with agent_dev :=
          (vdi_port_read_buf_free
            (reds_adjust_agent_capabilities A reds buf.data).1.agent_dev).1 }, device,
        out ++ (reds_adjust_agent_capabilities A reds buf.data).2.2 ++
          (vdi_port_read_buf_free
            (reds_adjust_agent_capabilities A reds buf.data).1.agent_dev).2⟩ : RunState) = _
      rw [read_buf_free_eq _ (by rw [hb]; exact h1) (by rw [hb]; exact h5), hb,
        List.append_assoc]
  | PROTO_ERROR => exact absurd rfl hv
  | DISCARD => exact ⟨_, _, read_buf_free_completed _, hfree⟩
  | MONITORS_CONFIG => exact ⟨_, _, read_buf_free_completed _, hfree⟩

/-- After `reds_agent_remove` on a state without a current read buffer there is no
agent, and the reader waits for a chunk header. -/
theorem agent_remove_fields (A : AgentProto) (reds : RedsState)
    (hc : reds.agent_dev.current_read_buf = none) :
    (reds_agent_remove A reds).1.vdagent = false ∧
    (reds_agent_remove A reds).1.agent_dev.read_state = VDIPortReadStates.READ_HEADER ∧
    (reds_agent_remove A reds).1.agent_dev.receive_len = A.sizeof_VDIChunkHeader ∧
    (reds_agent_remove A reds).1.agent_dev.receive_pos = ReceivePos.chunk_header 0 := by
  unfold reds_agent_remove reds_reset_vdp
  simp [hc]

/-- After the end of the case READ_DATA, and the release of the buffer if it was
returned, the reader is not in READ_DATA, has no current read buffer and one buffer
less out; the device is as it was. -/
theorem dispatch_read_buf_run (A : AgentProto) (reds : RedsState) (device : VDIPortDevice)
    (out : List Event) (buf : RedVDIReadBuf)
    (h1 : 1 ≤ reds.agent_dev.num_read_buf) (h5 : reds.agent_dev.num_read_buf ≤ 5) :
    (dispatch_read_buf A reds device out buf).finish.device = device ∧
    (dispatch_read_buf A reds device out buf).finish.reds.agent_dev.read_state
      ≠ VDIPortReadStates.READ_DATA ∧
    (dispatch_read_buf A reds device out buf).finish.reds.agent_dev.current_read_buf = none ∧
    (dispatch_read_buf A reds device out buf).finish.reds.agent_dev.num_read_buf
      = reds.agent_dev.num_read_buf - 1 := by
  obtain ⟨f1, f2⟩ := read_buf_filled_pool A reds.agent_dev
  obtain ⟨p1, p2⟩ := read_buf_process_pool A (read_buf_filled A reds.agent_dev) buf
  obtain ⟨f, hf⟩ := read_buf_process_eq A (read_buf_filled A reds.agent_dev) buf
  have hstate : (read_buf_filled A reds.agent_dev).read_state ≠ VDIPortReadStates.READ_DATA := by
    by_cases h : reds.agent_dev.message_receive_len = 0
    · rw [read_buf_filled_last A _ h]
      exact fun h => by cases h
    · rw [read_buf_filled_more A _ h]
      exact fun h => by cases h
  rw [dispatch_read_buf_eq]
  by_cases hv : (vdi_port_read_buf_process A (read_buf_filled A reds.agent_dev) buf).1
      = AgentMsgFilterResult.PROTO_ERROR
  · rw [hv]
    obtain ⟨r1, r2⟩ := agent_remove_pool A
      { reds with agent_dev :=
        (vdi_port_read_buf_process A (read_buf_filled A reds.agent_dev) buf).2 }
      (p2.trans f2)
    obtain ⟨_, r3, _⟩ := agent_remove_fields A
      { reds with agent_dev :=
        (vdi_port_read_buf_process A (read_buf_filled A reds.agent_dev) buf).2 }
      (p2.trans f2)
    have r1' : (reds_agent_remove A { reds with agent_dev :=
        (vdi_port_read_buf_process A (read_buf_filled A reds.agent_dev) buf).2 }).1.agent_dev.num_read_buf
        = reds.agent_dev.num_read_buf := r1.trans (p1.trans f1)
    show (⟨{ (reds_agent_remove A _).1 with agent_dev :=
        (vdi_port_read_buf_free (reds_agent_remove A _).1.agent_dev).1 }, device, _⟩
        : RunState).device = device ∧ _
    refine ⟨rfl, ?_⟩
    show (vdi_port_read_buf_free (reds_agent_remove A _).1.agent_dev).1.read_state ≠ _ ∧
      (vdi_port_read_buf_free (reds_agent_remove A _).1.agent_dev).1.current_read_buf = none ∧
      (vdi_port_read_buf_free (reds_agent_remove A _).1.agent_dev).1.num_read_buf = _
    rw [read_buf_free_eq _ (by rw [r1']; exact h1) (by rw [r1']; exact h5)]
    refine ⟨?_, r2, ?_⟩
    · show (reds_agent_remove A _).1.agent_dev.read_state ≠ _
      rw [r3]
      exact fun h => by cases h
    · show (reds_agent_remove A _).1.agent_dev.num_read_buf - 1 = _
      rw [r1']
  · obtain ⟨b, ev, _, hfin⟩ := dispatch_verdict_finish A
      { reds with agent_dev :=
        (vdi_port_read_buf_process A (read_buf_filled A reds.agent_dev) buf).2 }
      device
      (out ++ [Event.vdi_port_read_buf_process (read_buf_filled A reds.agent_dev).read_state buf])
      buf _ hv (by rw [show _ = _ from p1, f1]; exact h1) (by rw [show _ = _ from p1, f1]; exact h5)
    rw [hfin]
    refine ⟨rfl, ?_, ?_, ?_⟩
    · show (vdi_port_read_buf_process A (read_buf_filled A reds.agent_dev) buf).2.read_state ≠ _
      rw [hf]
      exact hstate
    · exact p2.trans f2
    · show (vdi_port_read_buf_process A (read_buf_filled A reds.agent_dev) buf).2.num_read_buf - 1
        = _
      rw [p1, f1]

/-! ## The progress of a run -/

/-- A read from a device without empty pieces leaves no empty piece. -/
theorem sif_read_pieces (device : VDIPortDevice) (len : Nat)
    (hd : ∀ p ∈ device, p ≠ []) : ∀ p ∈ (sif_read device len).2, p ≠ [] := by
  cases device with
  | nil => simp [sif_read_nil]
  | cons piece rest =>
    by_cases h0 : len = 0
    · subst h0
      rw [sif_read_zero]
      exact hd
    · by_cases h : piece.length ≤ len
      · rw [sif_read_piece piece rest len h0 h]
        exact fun p hp => hd p (List.mem_cons_of_mem _ hp)
      · rw [sif_read_part piece rest len h0 (by omega)]
        intro p hp
        rcases List.mem_cons.mp hp with h1 | h1
        · rw [h1]
          intro hnil
          have := congrArg List.length hnil
          simp at this
          omega
        · exact hd p (List.mem_cons_of_mem _ h1)

/-- A read that gives nothing from a device without empty pieces leaves the device
as it is. -/
theorem sif_read_nothing (device : VDIPortDevice) (len : Nat)
    (hd : ∀ p ∈ device, p ≠ []) (h : (sif_read device len).1.length = 0) :
    (sif_read device len).2 = device := by
  cases device with
  | nil => rfl
  | cons piece rest =>
    by_cases h0 : len = 0
    · subst h0
      rw [sif_read_zero]
    · have hp : piece ≠ [] := hd piece (List.mem_cons_self _ _)
      have hl : 0 < piece.length := List.length_pos.mpr hp
      by_cases hle : piece.length ≤ len
      · rw [sif_read_piece piece rest len h0 hle] at h
        simp at h
        exact absurd h hp
      · rw [sif_read_part piece rest len h0 (by omega)] at h
        rw [List.length_take] at h
        omega

/-- The bytes left after a read are those of the device less the bytes read. -/
theorem sif_read_rest_length (device : VDIPortDevice) (len : Nat) :
    (sif_read device len).2.flatten.length + (sif_read device len).1.length
      = device.flatten.length := by
  have := congrArg List.length (sif_read_flatten device len)
  rw [List.length_append] at this
  omega

/-- Receiving bytes leaves the state, the count of the buffers and the presence of a
current buffer as they are. -/
theorem receive_bytes_fields (dev : RedCharDeviceVDIPortPrivate) (bytes : List Nat) :
    (receive_bytes dev bytes).read_state = dev.read_state ∧
    (receive_bytes dev bytes).num_read_buf = dev.num_read_buf ∧
    (receive_bytes dev bytes).current_read_buf.isSome = dev.current_read_buf.isSome ∧
    (receive_bytes dev bytes).receive_len = dev.receive_len - bytes.length ∧
    (receive_bytes dev bytes).message_receive_len = dev.message_receive_len ∧
    (receive_bytes dev bytes).receive_pos = dev.receive_pos := by
  have hs : (store_received dev bytes).read_state = dev.read_state ∧
      (store_received dev bytes).num_read_buf = dev.num_read_buf ∧
      (store_received dev bytes).current_read_buf.isSome = dev.current_read_buf.isSome ∧
      (store_received dev bytes).message_receive_len = dev.message_receive_len ∧
      (store_received dev bytes).receive_pos = dev.receive_pos := by
    unfold store_received
    cases hp : dev.receive_pos with
    | null => exact ⟨rfl, rfl, rfl, rfl, hp⟩
    | chunk_header off => exact ⟨rfl, rfl, rfl, rfl, rfl⟩
    | read_buf off =>
      cases h : dev.current_read_buf with
      | none => simp [h, hp]
      | some b => simp [hp]
  exact ⟨hs.1, hs.2.1, hs.2.2.1, rfl, hs.2.2.2.1, hs.2.2.2.2⟩

/-- A turn in the case READ_DATA of a well-formed reader: the reader stays well
formed, and either nothing was read and nothing has changed, or the device holds
fewer bytes. -/
theorem read_data_case_run (A : AgentProto) (reds : RedsState) (device : VDIPortDevice)
    (out : List Event) (hs : reds.agent_dev.read_state = VDIPortReadStates.READ_DATA)
    (hw : reader_ok reds.agent_dev) (hd : ∀ p ∈ device, p ≠ []) :
    (∀ p ∈ (read_data_case A reds device out).finish.device, p ≠ []) ∧
    reader_ok (read_data_case A reds device out).finish.reds.agent_dev ∧
    ((read_data_case A reds device out).finish = ⟨reds, device, out⟩ ∨
      (read_data_case A reds device out).finish.device.flatten.length
        < device.flatten.length) := by
  obtain ⟨hsome, h1, h5⟩ := hw.1 hs
  obtain ⟨b1, b2, b3, b4, b5, b6⟩ := receive_bytes_fields reds.agent_dev
    (sif_read device reds.agent_dev.receive_len).1
  have hpieces := sif_read_pieces device reds.agent_dev.receive_len hd
  have hlen := sif_read_rest_length device reds.agent_dev.receive_len
  by_cases h0 : (sif_read device reds.agent_dev.receive_len).1.length = 0
  · rw [read_data_case_zero A reds device _ h0]
    have hsame : (ReadStep.done ⟨reds, (sif_read device reds.agent_dev.receive_len).2,
        none, out⟩).finish = ⟨reds, device, out⟩ := by
      show (⟨reds, (sif_read device reds.agent_dev.receive_len).2, out ++ []⟩ : RunState) = _
      rw [sif_read_nothing device _ hd h0, List.append_nil]
    rw [hsame]
    exact ⟨hd, hw, Or.inl rfl⟩
  · by_cases h2 : (receive_bytes reds.agent_dev
        (sif_read device reds.agent_dev.receive_len).1).receive_len = 0
    · cases hb : (receive_bytes reds.agent_dev
          (sif_read device reds.agent_dev.receive_len).1).current_read_buf with
      | none =>
        rw [hb] at b3
        rw [hsome] at b3
        cases b3
      | some buf =>
        rw [read_data_case_full A reds device _ buf h0 h2 hb]
        obtain ⟨d1, d2, d3, d4⟩ := dispatch_read_buf_run A
          { reds with agent_dev := (receive_bytes reds.agent_dev
              (sif_read device reds.agent_dev.receive_len).1) }
          (sif_read device reds.agent_dev.receive_len).2 out buf
          (by show 1 ≤ (receive_bytes _ _).num_read_buf; rw [b2]; exact h1)
          (by show (receive_bytes _ _).num_read_buf ≤ 5; rw [b2]; exact h5)
        refine ⟨by rw [d1]; exact hpieces, ⟨fun h => absurd h d2, fun _ => ⟨d3, ?_⟩⟩,
          Or.inr (by rw [d1]; omega)⟩
        rw [d4]
        show (receive_bytes _ _).num_read_buf - 1 < 5
        rw [b2]
        omega
    · rw [read_data_case_part A reds device _ h0 h2]
      refine ⟨hpieces, ⟨fun _ => ?_, fun h => ?_⟩, Or.inr ?_⟩
      · show (receive_bytes _ _).current_read_buf.isSome = true ∧
          1 ≤ (receive_bytes _ _).num_read_buf ∧ (receive_bytes _ _).num_read_buf ≤ 5
        rw [b2, b3]
        exact ⟨hsome, h1, h5⟩
      · exact absurd (show (receive_bytes _ _).read_state = _ from b1.trans hs) h
      · show (sif_read device reds.agent_dev.receive_len).2.flatten.length < _
        omega

/-- A turn in the case GET_BUFF of a well-formed reader: the reader stays well
formed, and either it is in READ_DATA with nothing read, or the device holds fewer
bytes. -/
theorem get_buff_case_run (A : AgentProto) (reds : RedsState) (device : VDIPortDevice)
    (out : List Event) (hs : reds.agent_dev.read_state = VDIPortReadStates.GET_BUFF)
    (hw : reader_ok reds.agent_dev) (hd : ∀ p ∈ device, p ≠ []) :
    (∀ p ∈ (get_buff_case A reds device out).finish.device, p ≠ []) ∧
    reader_ok (get_buff_case A reds device out).finish.reds.agent_dev ∧
    (((get_buff_case A reds device out).finish.device = device ∧
        (get_buff_case A reds device out).finish.reds.agent_dev.read_state
          = VDIPortReadStates.READ_DATA) ∨
      (get_buff_case A reds device out).finish.device.flatten.length
        < device.flatten.length) := by
  obtain ⟨hnone, h5⟩ := hw.2 (by rw [hs]; exact fun h => by cases h)
  rw [get_buff_case_fresh A reds device out h5]
  obtain ⟨r1, r2, r3⟩ := read_data_case_run A
    { reds with agent_dev := (read_buf_taken A
        { reds.agent_dev with num_read_buf := reds.agent_dev.num_read_buf + 1 }
        { len := 0, data := [] }) } device out rfl
    ⟨fun _ => ⟨rfl, by show 1 ≤ reds.agent_dev.num_read_buf + 1; omega,
      by show reds.agent_dev.num_read_buf + 1 ≤ 5; omega⟩,
     fun h => absurd rfl h⟩ hd
  refine ⟨r1, r2, ?_⟩
  rcases r3 with h | h
  · rw [h]
    exact Or.inl ⟨rfl, rfl⟩
  · exact Or.inr h

/-- A turn in the case READ_HEADER of a well-formed reader: the reader stays well
formed, and either nothing was read and nothing has changed, or the device holds
fewer bytes. -/
theorem read_header_case_run (A : AgentProto) (reds : RedsState) (device : VDIPortDevice)
    (out : List Event) (hs : reds.agent_dev.read_state = VDIPortReadStates.READ_HEADER)
    (hw : reader_ok reds.agent_dev) (hd : ∀ p ∈ device, p ≠ []) :
    (∀ p ∈ (read_header_case A reds device out).finish.device, p ≠ []) ∧
    reader_ok (read_header_case A reds device out).finish.reds.agent_dev ∧
    ((read_header_case A reds device out).finish = ⟨reds, device, out⟩ ∨
      (read_header_case A reds device out).finish.device.flatten.length
        < device.flatten.length) := by
  obtain ⟨hnone, h5⟩ := hw.2 (by rw [hs]; exact fun h => by cases h)
  obtain ⟨b1, b2, b3, b4, b5, b6⟩ := receive_bytes_fields reds.agent_dev
    (sif_read device reds.agent_dev.receive_len).1
  have hpieces := sif_read_pieces device reds.agent_dev.receive_len hd
  have hlen := sif_read_rest_length device reds.agent_dev.receive_len
  have hcur : (receive_bytes reds.agent_dev
      (sif_read device reds.agent_dev.receive_len).1).current_read_buf = none := by
    rw [hnone] at b3
    cases hx : (receive_bytes reds.agent_dev
      (sif_read device reds.agent_dev.receive_len).1).current_read_buf with
    | none => rfl
    | some x =>
      rw [hx] at b3
      cases b3
  by_cases h0 : (sif_read device reds.agent_dev.receive_len).1.length = 0
  · rw [read_header_case_zero A reds device _ h0]
    have hsame : (ReadStep.done ⟨reds, (sif_read device reds.agent_dev.receive_len).2,
        none, out⟩).finish = ⟨reds, device, out⟩ := by
      show (⟨reds, (sif_read device reds.agent_dev.receive_len).2, out ++ []⟩ : RunState) = _
      rw [sif_read_nothing device _ hd h0, List.append_nil]
    rw [hsame]
    exact ⟨hd, hw, Or.inl rfl⟩
  · by_cases h2 : (receive_bytes reds.agent_dev
        (sif_read device reds.agent_dev.receive_len).1).receive_len = 0
    · rw [read_header_case_full A reds device _ h0 h2]
      obtain ⟨g1, g2, g3⟩ := get_buff_case_run A
        { reds with agent_dev := (chunk_header_read A
            (receive_bytes reds.agent_dev (sif_read device reds.agent_dev.receive_len).1)) }
        (sif_read device reds.agent_dev.receive_len).2 out rfl
        ⟨(fun h => by cases h),
         fun _ => ⟨hcur, by show (receive_bytes _ _).num_read_buf < 5; rw [b2]; exact h5⟩⟩
        hpieces
      refine ⟨g1, g2, Or.inr ?_⟩
      rcases g3 with h | h
      · rw [h.1]
        omega
      · omega
    · rw [read_header_case_part A reds device _ h0 h2]
      refine ⟨hpieces, ⟨fun h => ?_, fun _ => ?_⟩, Or.inr ?_⟩
      · have : (receive_bytes reds.agent_dev
            (sif_read device reds.agent_dev.receive_len).1).read_state
            = VDIPortReadStates.READ_DATA := h
        rw [b1, hs] at this
        cases this
      · show (receive_bytes _ _).current_read_buf = none ∧ (receive_bytes _ _).num_read_buf < 5
        rw [b2]
        exact ⟨hcur, h5⟩
      · show (sif_read device reds.agent_dev.receive_len).2.flatten.length < _
        omega

/-- A turn of a run from a well-formed reader on a device without empty pieces
leaves both so, and either changes nothing or lowers the measure of the run. -/
theorem run_turn_progress (A : AgentProto) (c : RunState)
    (hw : reader_ok c.reds.agent_dev) (hd : ∀ p ∈ c.device, p ≠ []) :
    (∀ p ∈ (run_turn A c).device, p ≠ []) ∧
    reader_ok (run_turn A c).reds.agent_dev ∧
    (run_turn A c = c ∨ run_measure (run_turn A c) < run_measure c) := by
  unfold run_turn
  by_cases hv : (!c.reds.vdagent) = true
  · rw [if_pos hv]
    exact ⟨hd, hw, Or.inl rfl⟩
  · rw [if_neg hv]
    have hg : ∀ c' : RunState, reader_ok c'.reds.agent_dev →
        (if c'.reds.agent_dev.read_state = VDIPortReadStates.GET_BUFF then
          1 + (if c'.reds.agent_dev.current_read_buf.isSome then 1 else 0) else 0) ≤ 1 := by
      intro c' hw'
      split_ifs with h1 h2
      · have := (hw'.2 (by rw [h1]; exact fun h => by cases h)).1
        rw [this] at h2
        cases h2
      · omega
      · omega
    cases hs : c.reds.agent_dev.read_state with
    | READ_HEADER =>
      have hturn : read_one_msg_turn A c.reds c.device c.out
          = read_header_case A c.reds c.device c.out := by
        unfold read_one_msg_turn
        rw [hs]
      rw [hturn]
      obtain ⟨r1, r2, r3⟩ := read_header_case_run A c.reds c.device c.out hs hw hd
      refine ⟨r1, r2, ?_⟩
      rcases r3 with h | h
      · exact Or.inl h
      · right
        have := hg _ r2
        unfold run_measure
        omega
    | GET_BUFF =>
      have hturn : read_one_msg_turn A c.reds c.device c.out
          = get_buff_case A c.reds c.device c.out := by
        unfold read_one_msg_turn
        rw [hs]
      rw [hturn]
      obtain ⟨r1, r2, r3⟩ := get_buff_case_run A c.reds c.device c.out hs hw hd
      refine ⟨r1, r2, Or.inr ?_⟩
      have hnone := (hw.2 (by rw [hs]; exact fun h => by cases h)).1
      unfold run_measure
      rw [hs, hnone]
      rcases r3 with h | h
      · rw [h.1, h.2]
        simp
      · have := hg _ r2
        simp only [if_true, Option.isSome_none, Bool.false_eq_true, if_false]
        omega
    | READ_DATA =>
      have hturn : read_one_msg_turn A c.reds c.device c.out
          = read_data_case A c.reds c.device c.out := by
        unfold read_one_msg_turn
        rw [hs]
      rw [hturn]
      obtain ⟨r1, r2, r3⟩ := read_data_case_run A c.reds c.device c.out hs hw hd
      refine ⟨r1, r2, ?_⟩
      rcases r3 with h | h
      · exact Or.inl h
      · right
        have := hg _ r2
        unfold run_measure
        omega

/-- The turns of a run keep the reader well formed and the device without empty
pieces. -/
theorem run_turns_ok (A : AgentProto) :
    ∀ (n : Nat) (c : RunState), reader_ok c.reds.agent_dev → (∀ p ∈ c.device, p ≠ []) →
      reader_ok (Nat.iterate (run_turn A) n c).reds.agent_dev ∧
      (∀ p ∈ (Nat.iterate (run_turn A) n c).device, p ≠ []) := by
  intro n
  induction n with
  | zero =>
    intro c hw hd
    exact ⟨hw, hd⟩
  | succ n ih =>
    intro c hw hd
    obtain ⟨p1, p2, _⟩ := run_turn_progress A c hw hd
    rw [Function.iterate_succ_apply]
    exact ih (run_turn A c) p2 p1

/-- A run has come to rest after as many turns as its measure: a further turn
changes nothing. -/
theorem run_turns_rest (A : AgentProto) :
    ∀ (n : Nat) (c : RunState), reader_ok c.reds.agent_dev → (∀ p ∈ c.device, p ≠ []) →
      run_measure c ≤ n →
      run_turn A (Nat.iterate (run_turn A) n c) = Nat.iterate (run_turn A) n c := by
  intro n
  induction n with
  | zero =>
    intro c hw hd hm
    obtain ⟨_, _, p3⟩ := run_turn_progress A c hw hd
    rcases p3 with h | h
    · exact h
    · omega
  | succ n ih =>
    intro c hw hd hm
    obtain ⟨p1, p2, p3⟩ := run_turn_progress A c hw hd
    rw [Function.iterate_succ_apply]
    rcases p3 with h | h
    · rw [h, Function.iterate_fixed h n]
      exact h
    · exact ih (run_turn A c) p2 p1 (by omega)

/-- Once a run has come to rest, more turns change nothing. -/
theorem run_turns_stable (A : AgentProto) (n m : Nat) (c : RunState)
    (hw : reader_ok c.reds.agent_dev) (hd : ∀ p ∈ c.device, p ≠ [])
    (hm : run_measure c ≤ n) (hnm : n ≤ m) :
    Nat.iterate (run_turn A) m c = Nat.iterate (run_turn A) n c := by
  have hfix := run_turns_rest A n c hw hd hm
  have hsplit : m = (m - n) + n := by omega
  rw [hsplit, Function.iterate_add_apply, Function.iterate_fixed hfix]

/-- The measure of a run is at most the number of calls given for its device. -/
theorem run_measure_le (c : RunState) :
    run_measure c ≤ run_calls c.device := by
  unfold run_measure run_calls
  split_ifs <;> omega

/-- A run of enough calls ends where a run of as many turns ends. -/
theorem reader_run_rest (A : AgentProto) (calls : Nat) (c : RunState)
    (hw : reader_ok c.reds.agent_dev) (hd : ∀ p ∈ c.device, p ≠ [])
    (hn : run_calls c.device ≤ calls) :
    reader_run A calls c = Nat.iterate (run_turn A) (run_calls c.device) c := by
  obtain ⟨k, hk, hrun⟩ := reader_run_turns A calls c
  rw [hrun]
  exact run_turns_stable A _ k c hw hd (run_measure_le c) (by omega)

/-! ## Reading a piece at once or in two parts -/

/-- Bytes stored in two parts over a list are the bytes stored at once. -/
theorem store_join_list (h b1 b2 : List Nat) (off : Nat) :
    (h.take off ++ b1 ++ h.drop (off + b1.length)).take (off + b1.length) ++ b2
        ++ (h.take off ++ b1 ++ h.drop (off + b1.length)).drop (off + b1.length + b2.length)
      = h.take off ++ (b1 ++ b2) ++ h.drop (off + (b1 ++ b2).length) := by
  by_cases hle : off ≤ h.length
  · have hl : (h.take off ++ b1).length = off + b1.length := by
      rw [List.length_append, List.length_take]
      omega
    have e1 : (h.take off ++ b1 ++ h.drop (off + b1.length)).take (off + b1.length)
        = h.take off ++ b1 := by
      rw [← hl, List.take_left']
      rfl
    have e2 : (h.take off ++ b1 ++ h.drop (off + b1.length)).drop (off + b1.length + b2.length)
        = h.drop (off + (b1 ++ b2).length) := by
      rw [← List.drop_drop, ← hl, List.drop_left', hl, List.drop_drop, List.length_append]
      · congr 1
        omega
      · rfl
    rw [e1, e2]
    simp [List.append_assoc]
  · have ht : h.take off = h := List.take_of_length_le (by omega)
    have hd1 : h.drop (off + b1.length) = [] := List.drop_of_length_le (by omega)
    have hd2 : h.drop (off + (b1 ++ b2).length) = [] := List.drop_of_length_le (by omega)
    rw [ht, hd1, hd2, List.append_nil]
    have e1 : (h ++ b1).take (off + b1.length) = h ++ b1 :=
      List.take_of_length_le (by rw [List.length_append]; omega)
    have e2 : (h ++ b1).drop (off + b1.length + b2.length) = [] :=
      List.drop_of_length_le (by rw [List.length_append]; omega)
    rw [e1, e2]
    simp [List.append_assoc]

/-- Bytes received in two parts, the position moved on between them, are the bytes
received at once. -/
theorem receive_bytes_join (dev : RedCharDeviceVDIPortPrivate) (b1 b2 : List Nat) :
    receive_bytes (advance_receive_pos (receive_bytes dev b1) b1.length) b2
      = advance_receive_pos (receive_bytes dev (b1 ++ b2)) b1.length := by
  obtain ⟨_, _, _, _, _, _, _, _, pos, _, cur, _, hdr, _⟩ := dev
  cases pos with
  | null =>
    simp [receive_bytes, advance_receive_pos, store_received, ReceivePos.advance, Nat.sub_sub]
  | chunk_header off =>
    simp only [receive_bytes, advance_receive_pos, store_received, ReceivePos.advance,
      Nat.sub_sub]
    rw [store_join_list]
    simp only [List.length_append]
  | read_buf off =>
    cases cur with
    | none =>
      simp [receive_bytes, advance_receive_pos, store_received, ReceivePos.advance, Nat.sub_sub]
    | some buf =>
      have e : (buf.data.take off ++ b1).take (off + b1.length) = buf.data.take off ++ b1 :=
        List.take_of_length_le (by rw [List.length_append, List.length_take]; omega)
      simp only [receive_bytes, advance_receive_pos, store_received, ReceivePos.advance,
        Nat.sub_sub, e, List.append_assoc, List.length_append]

/-- The position moved on twice is the position moved on once. -/
theorem advance_receive_pos_twice (dev : RedCharDeviceVDIPortPrivate) (a b : Nat) :
    advance_receive_pos (advance_receive_pos dev a) b = advance_receive_pos dev (a + b) := by
  obtain ⟨_, _, _, _, _, _, _, _, pos, _, cur, _, hdr, _⟩ := dev
  cases pos <;> simp [advance_receive_pos, ReceivePos.advance, Nat.add_assoc]

/-- A read of no more bytes than the first part of a piece has gives the same bytes
whether the piece is cut or not, and leaves devices that hold the same bytes. -/
theorem sif_read_split_same (p1 p2 : List Nat) (rest : VDIPortDevice) (len : Nat)
    (h1 : p1 ≠ []) (h2 : p2 ≠ []) (hle : len ≤ p1.length) :
    (sif_read ((p1 ++ p2) :: rest) len).1 = (sif_read (p1 :: p2 :: rest) len).1 ∧
    device_split (sif_read ((p1 ++ p2) :: rest) len).2 (sif_read (p1 :: p2 :: rest) len).2 := by
  have hl2 : 0 < p2.length := List.length_pos.mpr h2
  by_cases h0 : len = 0
  · subst h0
    rw [sif_read_zero, sif_read_zero]
    exact ⟨rfl, Or.inr ⟨p1, p2, rest, h1, h2, rfl, rfl⟩⟩
  · rw [sif_read_part (p1 ++ p2) rest len h0 (by rw [List.length_append]; omega)]
    by_cases heq : len = p1.length
    · rw [sif_read_piece p1 (p2 :: rest) len h0 (by omega)]
      subst heq
      refine ⟨by simp, Or.inl ?_⟩
      simp
    · rw [sif_read_part p1 (p2 :: rest) len h0 (by omega)]
      refine ⟨?_, Or.inr ⟨p1.drop len, p2, rest, ?_, h2, ?_, rfl⟩⟩
      · show (p1 ++ p2).take len = p1.take len
        rw [List.take_append_of_le_length hle]
      · intro hnil
        have := congrArg List.length hnil
        rw [List.length_drop] at this
        simp at this
        omega
      · show (p1 ++ p2).drop len :: rest = (p1.drop len ++ p2) :: rest
        rw [List.drop_append_of_le_length hle]

/-- A read of more bytes than the first part of a piece has: from the cut piece it
gives the first part; from the whole piece it gives the first part and what a read
of the rest gives. -/
theorem sif_read_split_more (p1 p2 : List Nat) (rest : VDIPortDevice) (len : Nat)
    (h1 : p1 ≠ []) (hgt : p1.length < len) :
    sif_read (p1 :: p2 :: rest) len = (p1, p2 :: rest) ∧
    sif_read ((p1 ++ p2) :: rest) len
      = (p1 ++ (sif_read (p2 :: rest) (len - p1.length)).1,
         (sif_read (p2 :: rest) (len - p1.length)).2) := by
  have hl1 : 0 < p1.length := List.length_pos.mpr h1
  refine ⟨sif_read_piece p1 (p2 :: rest) len (by omega) (by omega), ?_⟩
  by_cases hall : (p1 ++ p2).length ≤ len
  · rw [sif_read_piece (p1 ++ p2) rest len (by omega) hall,
      sif_read_piece p2 rest (len - p1.length) (by omega)
        (by rw [List.length_append] at hall; omega)]
  · rw [List.length_append] at hall
    rw [sif_read_part (p1 ++ p2) rest len (by omega) (by rw [List.length_append]; omega),
      sif_read_part p2 rest (len - p1.length) (by omega) (by omega)]
    have e1 : (p1 ++ p2).take len = p1 ++ p2.take (len - p1.length) := by
      rw [List.take_append_eq_append_take, List.take_of_length_le (by omega)]
    have e2 : (p1 ++ p2).drop len = p2.drop (len - p1.length) := by
      rw [List.drop_append_eq_append_drop, List.drop_of_length_le (by omega), List.nil_append]
    rw [e1, e2]

/-- A read of a piece that has bytes, for at least one byte, gives bytes. -/
theorem sif_read_some (piece : List Nat) (rest : VDIPortDevice) (len : Nat)
    (hp : piece ≠ []) (h0 : len ≠ 0) : (sif_read (piece :: rest) len).1.length ≠ 0 := by
  have hl : 0 < piece.length := List.length_pos.mpr hp
  by_cases h : piece.length ≤ len
  · rw [sif_read_piece piece rest len h0 h]
    show piece.length ≠ 0
    omega
  · rw [sif_read_part piece rest len h0 (by omega)]
    show (piece.take len).length ≠ 0
    rw [List.length_take]
    omega

/-- Devices that hold their bytes in the two ways hold the same bytes. -/
theorem device_split_flatten (joined split : VDIPortDevice) (h : device_split joined split) :
    joined.flatten = split.flatten := by
  rcases h with h | ⟨p1, p2, rest, _, _, hj, hs⟩
  · rw [h]
  · rw [hj, hs]
    simp

/-- The end of the case READ_DATA passes the device on as it is. -/
theorem dispatch_read_buf_device (A : AgentProto) (reds : RedsState)
    (d1 d2 : VDIPortDevice) (out : List Event) (buf : RedVDIReadBuf) :
    (dispatch_read_buf A reds d1 out buf).finish.reds
      = (dispatch_read_buf A reds d2 out buf).finish.reds ∧
    (dispatch_read_buf A reds d1 out buf).finish.out
      = (dispatch_read_buf A reds d2 out buf).finish.out ∧
    (dispatch_read_buf A reds d1 out buf).finish.device = d1 := by
  rw [dispatch_read_buf_eq, dispatch_read_buf_eq]
  cases (vdi_port_read_buf_process A (read_buf_filled A reds.agent_dev) buf).1 <;>
    exact ⟨rfl, rfl, rfl⟩

/-- The end of the case READ_DATA does not look at `receive_pos`. -/
theorem dispatch_read_buf_pos (A : AgentProto) (reds : RedsState)
    (dev : RedCharDeviceVDIPortPrivate) (k : Nat) (d : VDIPortDevice) (out : List Event)
    (buf : RedVDIReadBuf) :
    dispatch_read_buf A { reds with agent_dev := advance_receive_pos dev k } d out buf
      = dispatch_read_buf A { reds with agent_dev := dev } d out buf := by
  have hf : read_buf_filled A (advance_receive_pos dev k) = read_buf_filled A dev := by
    by_cases h : dev.message_receive_len = 0
    · rw [read_buf_filled_last A dev h, read_buf_filled_last A (advance_receive_pos dev k) h]
      rfl
    · rw [read_buf_filled_more A dev h, read_buf_filled_more A (advance_receive_pos dev k) h]
      rfl
  rw [dispatch_read_buf_eq, dispatch_read_buf_eq]
  show dispatch_verdict A
      { reds with agent_dev :=
        (vdi_port_read_buf_process A (read_buf_filled A (advance_receive_pos dev k)) buf).2 }
      d (out ++ [Event.vdi_port_read_buf_process
        (read_buf_filled A (advance_receive_pos dev k)).read_state buf]) buf
      (vdi_port_read_buf_process A (read_buf_filled A (advance_receive_pos dev k)) buf).1 = _
  rw [hf]

/-- The case READ_DATA on two devices whose reads give the same bytes: the same
state and the same calls, and each device is left as the read leaves it. -/
theorem read_data_case_congr (A : AgentProto) (reds : RedsState) (d1 d2 : VDIPortDevice)
    (out : List Event)
    (hb : (sif_read d1 reds.agent_dev.receive_len).1
      = (sif_read d2 reds.agent_dev.receive_len).1) :
    (read_data_case A reds d1 out).finish.reds = (read_data_case A reds d2 out).finish.reds ∧
    (read_data_case A reds d1 out).finish.out = (read_data_case A reds d2 out).finish.out ∧
    (read_data_case A reds d1 out).finish.device = (sif_read d1 reds.agent_dev.receive_len).2 ∧
    (read_data_case A reds d2 out).finish.device
      = (sif_read d2 reds.agent_dev.receive_len).2 := by
  by_cases h0 : (sif_read d2 reds.agent_dev.receive_len).1.length = 0
  · rw [read_data_case_zero A reds d2 _ h0, read_data_case_zero A reds d1 _ (by rw [hb]; exact h0)]
    exact ⟨rfl, rfl, rfl, rfl⟩
  · by_cases h2 : (receive_bytes reds.agent_dev
        (sif_read d2 reds.agent_dev.receive_len).1).receive_len = 0
    · cases hc : (receive_bytes reds.agent_dev
          (sif_read d2 reds.agent_dev.receive_len).1).current_read_buf with
      | none =>
        rw [read_data_case_full_none A reds d2 _ h0 h2 hc,
          read_data_case_full_none A reds d1 _ (by rw [hb]; exact h0) (by rw [hb]; exact h2)
            (by rw [hb]; exact hc), hb]
        exact ⟨rfl, rfl, rfl, rfl⟩
      | some buf =>
        rw [read_data_case_full A reds d2 _ buf h0 h2 hc,
          read_data_case_full A reds d1 _ buf (by rw [hb]; exact h0) (by rw [hb]; exact h2)
            (by rw [hb]; exact hc), hb]
        obtain ⟨e1, e2, e3⟩ := dispatch_read_buf_device A
          { reds with agent_dev := (receive_bytes reds.agent_dev
              (sif_read d2 reds.agent_dev.receive_len).1) }
          (sif_read d1 reds.agent_dev.receive_len).2
          (sif_read d2 reds.agent_dev.receive_len).2 out buf
        obtain ⟨_, _, e4⟩ := dispatch_read_buf_device A
          { reds with agent_dev := (receive_bytes reds.agent_dev
              (sif_read d2 reds.agent_dev.receive_len).1) }
          (sif_read d2 reds.agent_dev.receive_len).2
          (sif_read d2 reds.agent_dev.receive_len).2 out buf
        exact ⟨e1, e2, e3, e4⟩
    · rw [read_data_case_part A reds d2 _ h0 h2,
        read_data_case_part A reds d1 _ (by rw [hb]; exact h0) (by rw [hb]; exact h2), hb]
      exact ⟨rfl, rfl, rfl, rfl⟩

/-- A turn of a reader in READ_HEADER is the case READ_HEADER. -/
theorem read_one_msg_turn_header (A : AgentProto) (reds : RedsState) (device : VDIPortDevice)
    (out : List Event) (hs : reds.agent_dev.read_state = VDIPortReadStates.READ_HEADER) :
    read_one_msg_turn A reds device out = read_header_case A reds device out := by
  unfold read_one_msg_turn
  rw [hs]

/-- A turn of a reader in GET_BUFF is the case GET_BUFF. -/
theorem read_one_msg_turn_get_buff (A : AgentProto) (reds : RedsState)
    (device : VDIPortDevice) (out : List Event)
    (hs : reds.agent_dev.read_state = VDIPortReadStates.GET_BUFF) :
    read_one_msg_turn A reds device out = get_buff_case A reds device out := by
  unfold read_one_msg_turn
  rw [hs]

/-- A turn of a reader in READ_DATA is the case READ_DATA. -/
theorem read_one_msg_turn_data (A : AgentProto) (reds : RedsState) (device : VDIPortDevice)
    (out : List Event) (hs : reds.agent_dev.read_state = VDIPortReadStates.READ_DATA) :
    read_one_msg_turn A reds device out = read_data_case A reds device out := by
  unfold read_one_msg_turn
  rw [hs]

/-- The case READ_DATA asked for more bytes than the first part of a cut piece has:
on the whole piece it does what it does on the second part after the first was
read. -/
theorem read_data_case_join (A : AgentProto) (reds r1 : RedsState) (p1 p2 : List Nat)
    (rest : VDIPortDevice) (out : List Event) (h1 : p1 ≠ []) (h2 : p2 ≠ [])
    (hsome : reds.agent_dev.current_read_buf.isSome = true)
    (hgt : p1.length < reds.agent_dev.receive_len)
    (hr1 : r1 = { reds with agent_dev :=
      (advance_receive_pos (receive_bytes reds.agent_dev p1) p1.length) }) :
    read_data_case A reds (p1 :: p2 :: rest) out = ReadStep.again r1 (p2 :: rest) out ∧
    read_data_case A reds ((p1 ++ p2) :: rest) out
      = read_data_case A r1 (p2 :: rest) out := by
  obtain ⟨sS, sJ⟩ := sif_read_split_more p1 p2 rest reds.agent_dev.receive_len h1 hgt
  have hl1 : 0 < p1.length := List.length_pos.mpr h1
  have hlen : r1.agent_dev.receive_len = reds.agent_dev.receive_len - p1.length := by
    rw [hr1]
    rfl
  have hq0 := sif_read_some p2 rest (reds.agent_dev.receive_len - p1.length) h2 (by omega)
  obtain ⟨q, hq⟩ : ∃ q, q = sif_read (p2 :: rest) (reds.agent_dev.receive_len - p1.length) :=
    ⟨_, rfl⟩
  rw [← hq] at sJ hq0
  have hrb : receive_bytes r1.agent_dev q.1
      = advance_receive_pos (receive_bytes reds.agent_dev (p1 ++ q.1)) p1.length := by
    rw [hr1]
    exact receive_bytes_join reds.agent_dev p1 q.1
  obtain ⟨b1, b2, b3, b4, b5, b6⟩ := receive_bytes_fields reds.agent_dev (p1 ++ q.1)
  constructor
  · rw [read_data_case_part A reds (p1 :: p2 :: rest) out (by rw [sS]; show p1.length ≠ 0; omega)
      (by rw [sS]; show reds.agent_dev.receive_len - p1.length ≠ 0; omega), sS, hr1]
  · have hJ0 : (sif_read ((p1 ++ p2) :: rest) reds.agent_dev.receive_len).1.length ≠ 0 := by
      rw [sJ]
      show (p1 ++ q.1).length ≠ 0
      rw [List.length_append]
      omega
    have hS0 : (sif_read (p2 :: rest) r1.agent_dev.receive_len).1.length ≠ 0 := by
      rw [hlen, ← hq]
      exact hq0
    by_cases hz : (receive_bytes reds.agent_dev (p1 ++ q.1)).receive_len = 0
    · have hcur : ∃ buf, (receive_bytes reds.agent_dev (p1 ++ q.1)).current_read_buf
          = some buf := by
        rw [hsome] at b3
        exact Option.isSome_iff_exists.mp b3
      obtain ⟨buf, hbuf⟩ := hcur
      rw [read_data_case_full A reds ((p1 ++ p2) :: rest) out buf hJ0
          (by rw [sJ]; exact hz) (by rw [sJ]; exact hbuf),
        read_data_case_full A r1 (p2 :: rest) out buf hS0
          (by rw [hlen, ← hq, hrb]; exact hz) (by rw [hlen, ← hq, hrb]; exact hbuf),
        sJ, hlen, ← hq, hrb, hr1]
      exact (dispatch_read_buf_pos A reds _ p1.length q.2 out buf).symm
    · rw [read_data_case_part A reds ((p1 ++ p2) :: rest) out hJ0 (by rw [sJ]; exact hz),
        read_data_case_part A r1 (p2 :: rest) out hS0 (by rw [hlen, ← hq, hrb]; exact hz),
        sJ, hlen, ← hq, hrb, advance_receive_pos_twice, hr1]
      show ReadStep.again
        { reds with agent_dev :=
          (advance_receive_pos (receive_bytes reds.agent_dev (p1 ++ q.1)) (p1 ++ q.1).length) }
        q.2 out = _
      rw [List.length_append]

/-- The case READ_DATA on a piece and on the same piece cut in two: either the two
turns end in moments that differ in the device at most, or the turn on the cut piece
has read its first part and the turn on the whole piece does what the next turn on
the cut piece does. -/
theorem read_data_case_split (A : AgentProto) (reds : RedsState) (p1 p2 : List Nat)
    (rest : VDIPortDevice) (out : List Event) (h1 : p1 ≠ []) (h2 : p2 ≠ [])
    (hs : reds.agent_dev.read_state = VDIPortReadStates.READ_DATA)
    (hsome : reds.agent_dev.current_read_buf.isSome = true) :
    run_split (read_data_case A reds ((p1 ++ p2) :: rest) out).finish
      (read_data_case A reds (p1 :: p2 :: rest) out).finish ∨
    ∃ r1 d1, (read_data_case A reds (p1 :: p2 :: rest) out).finish = ⟨r1, d1, out⟩ ∧
      r1.vdagent = reds.vdagent ∧
      read_data_case A reds ((p1 ++ p2) :: rest) out = read_one_msg_turn A r1 d1 out := by
  by_cases hle : reds.agent_dev.receive_len ≤ p1.length
  · obtain ⟨hb, hsp⟩ := sif_read_split_same p1 p2 rest reds.agent_dev.receive_len h1 h2 hle
    obtain ⟨e1, e2, e3, e4⟩ := read_data_case_congr A reds ((p1 ++ p2) :: rest)
      (p1 :: p2 :: rest) out hb
    exact Or.inl ⟨e1, e2, by rw [e3, e4]; exact hsp⟩
  · obtain ⟨j1, j2⟩ := read_data_case_join A reds _ p1 p2 rest out h1 h2 hsome (by omega) rfl
    obtain ⟨b1, _⟩ := receive_bytes_fields reds.agent_dev p1
    refine Or.inr ⟨{ reds with agent_dev :=
      (advance_receive_pos (receive_bytes reds.agent_dev p1) p1.length) }, p2 :: rest,
      by rw [j1]; rfl, rfl, ?_⟩
    rw [j2, read_one_msg_turn_data]
    exact b1.trans hs

/-- The case GET_BUFF on a piece and on the same piece cut in two, when a buffer can
be had: as for the case READ_DATA it falls through to. -/
theorem get_buff_case_split (A : AgentProto) (reds : RedsState) (p1 p2 : List Nat)
    (rest : VDIPortDevice) (out : List Event) (h1 : p1 ≠ []) (h2 : p2 ≠ [])
    (h5 : reds.agent_dev.num_read_buf < 5) :
    run_split (get_buff_case A reds ((p1 ++ p2) :: rest) out).finish
      (get_buff_case A reds (p1 :: p2 :: rest) out).finish ∨
    ∃ r1 d1, (get_buff_case A reds (p1 :: p2 :: rest) out).finish = ⟨r1, d1, out⟩ ∧
      r1.vdagent = reds.vdagent ∧
      get_buff_case A reds ((p1 ++ p2) :: rest) out = read_one_msg_turn A r1 d1 out := by
  rw [get_buff_case_fresh A reds _ out h5, get_buff_case_fresh A reds _ out h5]
  exact read_data_case_split A _ p1 p2 rest out h1 h2 rfl rfl

/-- The case GET_BUFF on two devices that hold the same bytes in the two ways. -/
theorem get_buff_case_device_split (A : AgentProto) (reds : RedsState)
    (joined split : VDIPortDevice) (out : List Event) (hd : device_split joined split)
    (h5 : reds.agent_dev.num_read_buf < 5) :
    run_split (get_buff_case A reds joined out).finish
      (get_buff_case A reds split out).finish ∨
    ∃ r1 d1, (get_buff_case A reds split out).finish = ⟨r1, d1, out⟩ ∧
      r1.vdagent = reds.vdagent ∧
      get_buff_case A reds joined out = read_one_msg_turn A r1 d1 out := by
  rcases hd with h | ⟨p1, p2, rest, h1, h2, hj, hs⟩
  · rw [h]
    exact Or.inl ⟨rfl, rfl, Or.inl rfl⟩
  · rw [hj, hs]
    exact get_buff_case_split A reds p1 p2 rest out h1 h2 h5

/-- The buffer got for a chunk does not depend on where `receive_pos` was. -/
theorem get_buff_case_pos (A : AgentProto) (reds : RedsState)
    (dev : RedCharDeviceVDIPortPrivate) (k : Nat) (d : VDIPortDevice) (out : List Event)
    (h5 : dev.num_read_buf < 5) :
    get_buff_case A { reds with agent_dev := chunk_header_read A (advance_receive_pos dev k) }
        d out
      = get_buff_case A { reds with agent_dev := chunk_header_read A dev } d out := by
  rw [get_buff_case_fresh A _ d out (show (chunk_header_read A (advance_receive_pos dev k)).num_read_buf < 5 from h5),
    get_buff_case_fresh A _ d out (show (chunk_header_read A dev).num_read_buf < 5 from h5)]
  rfl

/-- The case READ_HEADER asked for more bytes than the first part of a cut piece
has: on the cut piece it reads the first part and returns; on the whole piece it does
what it does on the second part after the first was read. -/
theorem read_header_case_join (A : AgentProto) (reds r1 : RedsState) (p1 p2 : List Nat)
    (rest : VDIPortDevice) (out : List Event) (h1 : p1 ≠ []) (h2 : p2 ≠ [])
    (h5 : reds.agent_dev.num_read_buf < 5)
    (hgt : p1.length < reds.agent_dev.receive_len)
    (hr1 : r1 = { reds with agent_dev :=
      (advance_receive_pos (receive_bytes reds.agent_dev p1) p1.length) }) :
    read_header_case A reds (p1 :: p2 :: rest) out
      = ReadStep.done ⟨r1, p2 :: rest, none, out⟩ ∧
    read_header_case A reds ((p1 ++ p2) :: rest) out
      = read_header_case A r1 (p2 :: rest) out := by
  obtain ⟨sS, sJ⟩ := sif_read_split_more p1 p2 rest reds.agent_dev.receive_len h1 hgt
  have hl1 : 0 < p1.length := List.length_pos.mpr h1
  have hlen : r1.agent_dev.receive_len = reds.agent_dev.receive_len - p1.length := by
    rw [hr1]
    rfl
  have hq0 := sif_read_some p2 rest (reds.agent_dev.receive_len - p1.length) h2 (by omega)
  obtain ⟨q, hq⟩ : ∃ q, q = sif_read (p2 :: rest) (reds.agent_dev.receive_len - p1.length) :=
    ⟨_, rfl⟩
  rw [← hq] at sJ hq0
  have hrb : receive_bytes r1.agent_dev q.1
      = advance_receive_pos (receive_bytes reds.agent_dev (p1 ++ q.1)) p1.length := by
    rw [hr1]
    exact receive_bytes_join reds.agent_dev p1 q.1
  obtain ⟨b1, b2, b3, b4, b5, b6⟩ := receive_bytes_fields reds.agent_dev (p1 ++ q.1)
  constructor
  · rw [read_header_case_part A reds (p1 :: p2 :: rest) out
      (by rw [sS]; show p1.length ≠ 0; omega)
      (by rw [sS]; show reds.agent_dev.receive_len - p1.length ≠ 0; omega), sS, hr1]
  · have hJ0 : (sif_read ((p1 ++ p2) :: rest) reds.agent_dev.receive_len).1.length ≠ 0 := by
      rw [sJ]
      show (p1 ++ q.1).length ≠ 0
      rw [List.length_append]
      omega
    have hS0 : (sif_read (p2 :: rest) r1.agent_dev.receive_len).1.length ≠ 0 := by
      rw [hlen, ← hq]
      exact hq0
    by_cases hz : (receive_bytes reds.agent_dev (p1 ++ q.1)).receive_len = 0
    · rw [read_header_case_full A reds ((p1 ++ p2) :: rest) out hJ0 (by rw [sJ]; exact hz),
        read_header_case_full A r1 (p2 :: rest) out hS0 (by rw [hlen, ← hq, hrb]; exact hz),
        sJ, hlen, ← hq, hrb, hr1]
      exact (get_buff_case_pos A reds _ p1.length q.2 out (by rw [b2]; exact h5)).symm
    · rw [read_header_case_part A reds ((p1 ++ p2) :: rest) out hJ0 (by rw [sJ]; exact hz),
        read_header_case_part A r1 (p2 :: rest) out hS0 (by rw [hlen, ← hq, hrb]; exact hz),
        sJ, hlen, ← hq, hrb, advance_receive_pos_twice, hr1]
      show ReadStep.done
        ⟨{ reds with agent_dev :=
          (advance_receive_pos (receive_bytes reds.agent_dev (p1 ++ q.1)) (p1 ++ q.1).length) },
          q.2, none, out⟩ = _
      rw [List.length_append]

/-- The case READ_HEADER on a piece and on the same piece cut in two, when a buffer
can be had: either the two turns end in moments that differ in the device at most,
or the turn on the whole piece does what the next turn on the cut piece does. -/
theorem read_header_case_split (A : AgentProto) (reds : RedsState) (p1 p2 : List Nat)
    (rest : VDIPortDevice) (out : List Event) (h1 : p1 ≠ []) (h2 : p2 ≠ [])
    (hs : reds.agent_dev.read_state = VDIPortReadStates.READ_HEADER)
    (h5 : reds.agent_dev.num_read_buf < 5) :
    run_split (read_header_case A reds ((p1 ++ p2) :: rest) out).finish
      (read_header_case A reds (p1 :: p2 :: rest) out).finish ∨
    ∃ r1 d1, (read_header_case A reds (p1 :: p2 :: rest) out).finish = ⟨r1, d1, out⟩ ∧
      r1.vdagent = reds.vdagent ∧
      read_header_case A reds ((p1 ++ p2) :: rest) out = read_one_msg_turn A r1 d1 out := by
  by_cases hle : reds.agent_dev.receive_len ≤ p1.length
  · obtain ⟨hb, hsp⟩ := sif_read_split_same p1 p2 rest reds.agent_dev.receive_len h1 h2 hle
    obtain ⟨b1, b2, _⟩ := receive_bytes_fields reds.agent_dev
      (sif_read (p1 :: p2 :: rest) reds.agent_dev.receive_len).1
    by_cases h0 : (sif_read (p1 :: p2 :: rest) reds.agent_dev.receive_len).1.length = 0
    · rw [read_header_case_zero A reds (p1 :: p2 :: rest) _ h0,
        read_header_case_zero A reds ((p1 ++ p2) :: rest) _ (by rw [hb]; exact h0)]
      exact Or.inl ⟨rfl, rfl, hsp⟩
    · by_cases hz : (receive_bytes reds.agent_dev
          (sif_read (p1 :: p2 :: rest) reds.agent_dev.receive_len).1).receive_len = 0
      · rw [read_header_case_full A reds (p1 :: p2 :: rest) _ h0 hz,
          read_header_case_full A reds ((p1 ++ p2) :: rest) _ (by rw [hb]; exact h0)
            (by rw [hb]; exact hz), hb]
        exact get_buff_case_device_split A _ _ _ out hsp
          (show (receive_bytes _ _).num_read_buf < 5 by rw [b2]; exact h5)
      · rw [read_header_case_part A reds (p1 :: p2 :: rest) _ h0 hz,
          read_header_case_part A reds ((p1 ++ p2) :: rest) _ (by rw [hb]; exact h0)
            (by rw [hb]; exact hz), hb]
        exact Or.inl ⟨rfl, rfl, hsp⟩
  · obtain ⟨j1, j2⟩ := read_header_case_join A reds _ p1 p2 rest out h1 h2 h5 (by omega) rfl
    obtain ⟨b1, _⟩ := receive_bytes_fields reds.agent_dev p1
    refine Or.inr ⟨{ reds with agent_dev :=
      (advance_receive_pos (receive_bytes reds.agent_dev p1) p1.length) }, p2 :: rest,
      ?_, rfl, ?_⟩
    · rw [j1]
      simp [ReadStep.finish, release_read_buf]
    · rw [j2, read_one_msg_turn_header]
      exact b1.trans hs

/-- A turn of a run from two moments that differ in the device at most: the turns
end in such moments, or the turn on the whole piece ends where two turns on the cut
piece end. -/
theorem run_turn_split (A : AgentProto) (cj cs : RunState) (hr : run_split cj cs)
    (hw : reader_ok cj.reds.agent_dev) :
    run_split (run_turn A cj) (run_turn A cs) ∨
    run_turn A cj = run_turn A (run_turn A cs) := by
  obtain ⟨reds, dj, out⟩ := cj
  obtain ⟨reds', ds, out'⟩ := cs
  obtain ⟨e1, e2, hd⟩ := hr
  have e1' : reds = reds' := e1
  have e2' : out = out' := e2
  subst e1'
  subst e2'
  have hd' : device_split dj ds := hd
  have hw' : reader_ok reds.agent_dev := hw
  by_cases hv : (!reds.vdagent) = true
  · left
    unfold run_turn
    rw [if_pos hv, if_pos hv]
    exact ⟨rfl, rfl, hd'⟩
  · have hvt : ∀ r1 : RedsState, r1.vdagent = reds.vdagent → ¬ (!r1.vdagent) = true := by
      intro r1 h
      rw [h]
      exact hv
    have hturn : ∀ d, run_turn A ⟨reds, d, out⟩ = (read_one_msg_turn A reds d out).finish := by
      intro d
      unfold run_turn
      rw [if_neg hv]
    rcases hd' with h | ⟨p1, p2, rest, h1, h2, hj, hs⟩
    · left
      rw [h]
      exact ⟨rfl, rfl, Or.inl rfl⟩
    · rw [hj, hs, hturn, hturn]
      have key : ∀ (stepj steps : ReadStep),
          (run_split stepj.finish steps.finish ∨
            ∃ r1 d1, steps.finish = ⟨r1, d1, out⟩ ∧ r1.vdagent = reds.vdagent ∧
              stepj = read_one_msg_turn A r1 d1 out) →
          (run_split stepj.finish steps.finish ∨
            stepj.finish = run_turn A steps.finish) := by
        intro stepj steps h
        rcases h with h | ⟨r1, d1, hf, hv1, hstep⟩
        · exact Or.inl h
        · right
          rw [hf, hstep]
          unfold run_turn
          rw [if_neg (hvt r1 hv1)]
      apply key
      cases hst : reds.agent_dev.read_state with
      | READ_HEADER =>
        rw [read_one_msg_turn_header A reds _ out hst, read_one_msg_turn_header A reds _ out hst]
        exact read_header_case_split A reds p1 p2 rest out h1 h2 hst
          (hw'.2 (by rw [hst]; exact fun h => by cases h)).2
      | GET_BUFF =>
        rw [read_one_msg_turn_get_buff A reds _ out hst,
          read_one_msg_turn_get_buff A reds _ out hst]
        exact get_buff_case_split A reds p1 p2 rest out h1 h2
          (hw'.2 (by rw [hst]; exact fun h => by cases h)).2
      | READ_DATA =>
        rw [read_one_msg_turn_data A reds _ out hst, read_one_msg_turn_data A reds _ out hst]
        exact read_data_case_split A reds p1 p2 rest out h1 h2 hst (hw'.1 hst).1

/-- A moment of a run differs from itself in nothing. -/
theorem run_split_refl (c : RunState) : run_split c c := ⟨rfl, rfl, Or.inl rfl⟩

/-- After any number of turns on the whole piece, some number of turns on the cut
piece, no smaller, has led to a moment that differs in the device at most. -/
theorem run_turns_split (A : AgentProto) :
    ∀ (n : Nat) (cj cs : RunState), run_split cj cs → reader_ok cj.reds.agent_dev →
      (∀ p ∈ cj.device, p ≠ []) →
      ∃ m, n ≤ m ∧ run_split (Nat.iterate (run_turn A) n cj) (Nat.iterate (run_turn A) m cs) := by
  intro n
  induction n with
  | zero =>
    intro cj cs hr _ _
    exact ⟨0, le_refl _, hr⟩
  | succ n ih =>
    intro cj cs hr hw hd
    obtain ⟨p1, p2, _⟩ := run_turn_progress A cj hw hd
    rcases run_turn_split A cj cs hr hw with h | h
    · obtain ⟨m, hm, hsp⟩ := ih (run_turn A cj) (run_turn A cs) h p2 p1
      refine ⟨m + 1, by omega, ?_⟩
      rw [Function.iterate_succ_apply, Function.iterate_succ_apply]
      exact hsp
    · obtain ⟨m, hm, hsp⟩ := ih (run_turn A cj) (run_turn A (run_turn A cs))
        (by rw [h]; exact run_split_refl _) p2 p1
      refine ⟨m + 2, by omega, ?_⟩
      rw [Function.iterate_succ_apply, Function.iterate_succ_apply,
        Function.iterate_succ_apply]
      exact hsp

/-- Runs from two moments that differ in the device at most come to rest with the
same server state and the same calls made. -/
theorem run_rest_split (A : AgentProto) (cj cs : RunState) (hr : run_split cj cs)
    (hw : reader_ok cj.reds.agent_dev) (hdj : ∀ p ∈ cj.device, p ≠ [])
    (hds : ∀ p ∈ cs.device, p ≠ []) :
    (Nat.iterate (run_turn A) (run_calls cj.device) cj).reds
      = (Nat.iterate (run_turn A) (run_calls cs.device) cs).reds ∧
    (Nat.iterate (run_turn A) (run_calls cj.device) cj).out
      = (Nat.iterate (run_turn A) (run_calls cs.device) cs).out := by
  have hflat := device_split_flatten cj.device cs.device hr.2.2
  have hcalls : run_calls cj.device = run_calls cs.device := by
    unfold run_calls
    rw [hflat]
  obtain ⟨m, hm, hsp⟩ := run_turns_split A (run_calls cj.device) cj cs hr hw hdj
  have hws : reader_ok cs.reds.agent_dev := by
    rw [← hr.1]
    exact hw
  have hst := run_turns_stable A (run_calls cs.device) m cs hws hds (run_measure_le cs)
    (by omega)
  rw [hst] at hsp
  exact ⟨hsp.1, hsp.2.1⟩

/-- A run on a device comes to rest as a run on the device that holds the same bytes
in one piece. -/
theorem run_rest_flatten (A : AgentProto) (reds : RedsState) (out : List Event)
    (hw : reader_ok reds.agent_dev) :
    ∀ (n : Nat) (d : VDIPortDevice), d.length = n + 1 → (∀ p ∈ d, p ≠ []) →
      (Nat.iterate (run_turn A) (run_calls d) ⟨reds, d, out⟩).reds
        = (Nat.iterate (run_turn A) (run_calls [d.flatten]) ⟨reds, [d.flatten], out⟩).reds ∧
      (Nat.iterate (run_turn A) (run_calls d) ⟨reds, d, out⟩).out
        = (Nat.iterate (run_turn A) (run_calls [d.flatten]) ⟨reds, [d.flatten], out⟩).out := by
  intro n
  induction n with
  | zero =>
    intro d hlen _
    match d, hlen with
    | [p], _ =>
      have : [p].flatten = p := by simp
      rw [this]
      exact ⟨rfl, rfl⟩
  | succ n ih =>
    intro d hlen hd
    match d, hlen, hd with
    | p1 :: p2 :: rest, hlen, hd =>
      have h1 : p1 ≠ [] := hd p1 (by simp)
      have h2 : p2 ≠ [] := hd p2 (by simp)
      have hdj : ∀ p ∈ (p1 ++ p2) :: rest, p ≠ [] := by
        intro p hp
        rcases List.mem_cons.mp hp with h | h
        · rw [h]
          simp [h1]
        · exact hd p (by simp [h])
      have hflat : ((p1 ++ p2) :: rest).flatten = (p1 :: p2 :: rest).flatten := by simp
      obtain ⟨s1, s2⟩ := run_rest_split A ⟨reds, (p1 ++ p2) :: rest, out⟩
        ⟨reds, p1 :: p2 :: rest, out⟩
        ⟨rfl, rfl, Or.inr ⟨p1, p2, rest, h1, h2, rfl, rfl⟩⟩ hw hdj hd
      obtain ⟨i1, i2⟩ := ih ((p1 ++ p2) :: rest) (by simp at hlen ⊢; omega) hdj
      rw [hflat] at i1 i2
      exact ⟨s1.symm.trans i1, s2.symm.trans i2⟩

/-- Runs on two devices that hold the same bytes come to rest with the same server
state and the same calls made. -/
theorem run_rest_eq (A : AgentProto) (reds : RedsState) (out : List Event)
    (d1 d2 : VDIPortDevice) (hw : reader_ok reds.agent_dev)
    (h1 : ∀ p ∈ d1, p ≠ []) (h2 : ∀ p ∈ d2, p ≠ []) (hb : d1.flatten = d2.flatten) :
    (Nat.iterate (run_turn A) (run_calls d1) ⟨reds, d1, out⟩).reds
      = (Nat.iterate (run_turn A) (run_calls d2) ⟨reds, d2, out⟩).reds ∧
    (Nat.iterate (run_turn A) (run_calls d1) ⟨reds, d1, out⟩).out
      = (Nat.iterate (run_turn A) (run_calls d2) ⟨reds, d2, out⟩).out := by
  have hnil : ∀ d : VDIPortDevice, (∀ p ∈ d, p ≠ []) → d.flatten = [] → d = [] := by
    intro d hd hf
    cases d with
    | nil => rfl
    | cons p rest =>
      have hp := hd p (by simp)
      simp at hf
      exact absurd hf.1 hp
  cases hd1 : d1 with
  | nil =>
    rw [hd1] at hb
    have hd2 : d2 = [] := hnil d2 h2 hb.symm
    rw [hd2]
    exact ⟨rfl, rfl⟩
  | cons p1 r1 =>
    cases hd2 : d2 with
    | nil =>
      rw [hd2] at hb
      have := hnil d1 h1 hb
      rw [hd1] at this
      cases this
    | cons p2 r2 =>
      rw [← hd1, ← hd2]
      obtain ⟨a1, a2⟩ := run_rest_flatten A reds out hw r1.length d1 (by rw [hd1]; simp) h1
      obtain ⟨b1, b2⟩ := run_rest_flatten A reds out hw r2.length d2 (by rw [hd2]; simp) h2
      rw [hb] at a1 a2
      exact ⟨a1.trans b1.symm, a2.trans b2.symm⟩

/-- C23: two runs of the reader from the same well-formed state, on devices without
empty pieces that hold the same bytes, each of enough calls for its device to be read
out, end with the same server state, reader state included, and the same calls made;
so the buffers filled and given to the filter are the same, in the same order. -/
theorem reader_run_split_independent (A : AgentProto) (reds : RedsState)
    (d1 d2 : VDIPortDevice) (n1 n2 : Nat) (hw : reader_ok reds.agent_dev)
    (h1 : ∀ p ∈ d1, p ≠ []) (h2 : ∀ p ∈ d2, p ≠ []) (hb : d1.flatten = d2.flatten)
    (hn1 : run_calls d1 ≤ n1) (hn2 : run_calls d2 ≤ n2) :
    (reader_run A n1 ⟨reds, d1, []⟩).reds = (reader_run A n2 ⟨reds, d2, []⟩).reds ∧
    (reader_run A n1 ⟨reds, d1, []⟩).out = (reader_run A n2 ⟨reds, d2, []⟩).out ∧
    completed_bufs (reader_run A n1 ⟨reds, d1, []⟩).out
      = completed_bufs (reader_run A n2 ⟨reds, d2, []⟩).out := by
  obtain ⟨e1, e2⟩ := run_rest_eq A reds [] d1 d2 hw h1 h2 hb
  rw [reader_run_rest A n1 ⟨reds, d1, []⟩ hw h1 hn1,
    reader_run_rest A n2 ⟨reds, d2, []⟩ hw h2 hn2]
  exact ⟨e1, e2, by rw [e2]⟩

/-- Witness for C23: a chunk of two bytes read from one piece and from three; the
run fills one buffer with the two bytes. -/
theorem reader_run_split_independent_witness :
    reader_ok sampleAgentReds.agent_dev ∧
    [[1, 0, 0, 0, 2, 0, 0, 0, 7, 7]].flatten = [[1, 0, 0], [0, 2, 0, 0, 0, 7], [7]].flatten ∧
    completed_bufs (reader_run sampleAgent 32
        ⟨sampleAgentReds, [[1, 0, 0], [0, 2, 0, 0, 0, 7], [7]], []⟩).out
      = [(VDIPortReadStates.READ_HEADER, { len := 2, data := [7, 7] })] ∧
    (reader_run sampleAgent 32 ⟨sampleAgentReds, [[1, 0, 0, 0, 2, 0, 0, 0, 7, 7]], []⟩).out
      = (reader_run sampleAgent 32
          ⟨sampleAgentReds, [[1, 0, 0], [0, 2, 0, 0, 0, 7], [7]], []⟩).out :=
  ⟨⟨fun h => absurd h (by decide), fun _ => ⟨rfl, by decide⟩⟩, by decide, rfl,
   (reader_run_split_independent sampleAgent sampleAgentReds
      [[1, 0, 0, 0, 2, 0, 0, 0, 7, 7]] [[1, 0, 0], [0, 2, 0, 0, 0, 7], [7]] 32 32
      ⟨fun h => absurd h (by decide), fun _ => ⟨rfl, by decide⟩⟩
      (by decide) (by decide) (by decide) (by decide) (by decide)).2.1⟩

/-! ## A chunk read buffer by buffer -/

/-- The verdict on a buffer and the filter afterwards depend on the device only
through the chunk header and the read filter; the chunk header is kept. -/
theorem read_buf_process_congr (A : AgentProto) (dev dev2 : RedCharDeviceVDIPortPrivate)
    (buf : RedVDIReadBuf) (hh : dev.vdi_chunk_header = dev2.vdi_chunk_header)
    (hf : dev.read_filter = dev2.read_filter) :
    (vdi_port_read_buf_process A dev buf).1 = (vdi_port_read_buf_process A dev2 buf).1 ∧
    (vdi_port_read_buf_process A dev buf).2.read_filter
      = (vdi_port_read_buf_process A dev2 buf).2.read_filter ∧
    (vdi_port_read_buf_process A dev buf).2.vdi_chunk_header = dev.vdi_chunk_header := by
  refine ⟨?_, ?_, ?_⟩
  · unfold vdi_port_read_buf_process
    rw [hh, hf]
    split_ifs <;> rfl
  · unfold vdi_port_read_buf_process
    rw [hh, hf]
    split_ifs
    · rfl
    · exact hf
    · exact hf
  · obtain ⟨f, hf2⟩ := read_buf_process_eq A dev buf
    rw [hf2]

/-- The verdicts on a list of buffers depend on the device only through the chunk
header and the read filter. -/
theorem read_buf_verdicts_congr (A : AgentProto) :
    ∀ (bufs : List RedVDIReadBuf) (dev dev2 : RedCharDeviceVDIPortPrivate),
      dev.vdi_chunk_header = dev2.vdi_chunk_header → dev.read_filter = dev2.read_filter →
      read_buf_verdicts A dev bufs = read_buf_verdicts A dev2 bufs := by
  intro bufs
  induction bufs with
  | nil => intro dev dev2 _ _; rfl
  | cons buf rest ih =>
    intro dev dev2 hh hf
    obtain ⟨c1, c2, c3⟩ := read_buf_process_congr A dev dev2 buf hh hf
    obtain ⟨_, _, c4⟩ := read_buf_process_congr A dev2 dev buf hh.symm hf.symm
    show (vdi_port_read_buf_process A dev buf).1
        :: read_buf_verdicts A (vdi_port_read_buf_process A dev buf).2 rest
      = (vdi_port_read_buf_process A dev2 buf).1
        :: read_buf_verdicts A (vdi_port_read_buf_process A dev2 buf).2 rest
    rw [c1, ih _ _ (c3.trans (hh.trans c4.symm)) c2]

/-- The case GET_BUFF on a device whose first piece is what the next buffer of the
chunk takes, with a verdict other than PROTO_ERROR: the buffer is filled with the
piece and given to the filter, and the reader is between two buffers or after the
last one. -/
theorem get_buff_case_block (A : AgentProto) (reds : RedsState) (piece : List Nat)
    (rest : VDIPortDevice) (out : List Event) (header : List Nat) (left : Nat)
    (hh : reds.agent_dev.vdi_chunk_header = header)
    (h5 : reds.agent_dev.num_read_buf < 5)
    (hleft : reds.agent_dev.message_receive_len = left)
    (hp : piece.length = min left A.SPICE_AGENT_MAX_DATA_SIZE) (hp0 : piece ≠ [])
    (hverdict : (vdi_port_read_buf_process A reds.agent_dev
      { len := piece.length, data := piece }).1 ≠ AgentMsgFilterResult.PROTO_ERROR) :
    ∃ reds1 ev, (get_buff_case A reds (piece :: rest) out).finish
        = ⟨reds1, rest, out ++ [Event.vdi_port_read_buf_process
            (if left - piece.length = 0 then VDIPortReadStates.READ_HEADER
             else VDIPortReadStates.GET_BUFF) { len := piece.length, data := piece }] ++ ev⟩ ∧
      completed_bufs ev = [] ∧ reds1.vdagent = reds.vdagent ∧
      chunk_reader_at A header (left - piece.length) reds1.agent_dev ∧
      reds1.agent_dev.read_filter = (vdi_port_read_buf_process A reds.agent_dev
        { len := piece.length, data := piece }).2.read_filter := by
  have hl : 0 < piece.length := List.length_pos.mpr hp0
  rw [get_buff_case_fresh A reds _ out h5]
  obtain ⟨t0, ht0⟩ : ∃ t0, t0 = read_buf_taken A
      { reds.agent_dev with num_read_buf := reds.agent_dev.num_read_buf + 1 }
      { len := 0, data := [] } := ⟨_, rfl⟩
  rw [← ht0]
  have hrl : t0.receive_len = piece.length := by
    rw [ht0]
    show min reds.agent_dev.message_receive_len A.SPICE_AGENT_MAX_DATA_SIZE = _
    rw [hleft, hp]
  have hread : sif_read (piece :: rest) t0.receive_len = (piece, rest) := by
    rw [hrl]
    exact sif_read_piece piece rest _ (by omega) (le_refl _)
  obtain ⟨x, hx⟩ : ∃ x, x = receive_bytes t0 piece := ⟨_, rfl⟩
  have hxlen : x.receive_len = 0 := by
    rw [hx]
    show t0.receive_len - piece.length = 0
    omega
  have hxcur : x.current_read_buf = some { len := piece.length, data := piece } := by
    rw [hx, ht0]
    simp [receive_bytes, store_received, read_buf_taken, hleft, hp]
  have hxnum : x.num_read_buf = reds.agent_dev.num_read_buf + 1 := by
    rw [hx, ht0]
    simp [receive_bytes, store_received, read_buf_taken]
  have hxhdr : x.vdi_chunk_header = header := by
    rw [hx, ht0]
    simp [receive_bytes, store_received, read_buf_taken, hh]
  have hxleft : x.message_receive_len = left - piece.length := by
    rw [hx, ht0]
    simp [receive_bytes, store_received, read_buf_taken, hleft, hp]
  have hxflt : x.read_filter = reds.agent_dev.read_filter := by
    rw [hx, ht0]
    simp [receive_bytes, store_received, read_buf_taken]
  rw [read_data_case_full A { reds with agent_dev := t0 } (piece :: rest) out
      { len := piece.length, data := piece }
      (by show (sif_read (piece :: rest) t0.receive_len).1.length ≠ 0; rw [hread]; show piece.length ≠ 0; omega)
      (by show (receive_bytes t0 (sif_read (piece :: rest) t0.receive_len).1).receive_len = 0
          rw [hread, ← hx]; exact hxlen)
      (by show (receive_bytes t0 (sif_read (piece :: rest) t0.receive_len).1).current_read_buf = _
          rw [hread, ← hx]; exact hxcur)]
  show ∃ reds1 ev, (dispatch_read_buf A
      { reds with agent_dev := receive_bytes t0 (sif_read (piece :: rest) t0.receive_len).1 }
      (sif_read (piece :: rest) t0.receive_len).2 out { len := piece.length, data := piece }).finish
        = _ ∧ _
  rw [hread, ← hx, dispatch_read_buf_eq]
  obtain ⟨f1, f2⟩ := read_buf_filled_pool A x
  have hfhdr : (read_buf_filled A x).vdi_chunk_header = header := by
    by_cases h : x.message_receive_len = 0
    · rw [read_buf_filled_last A x h]
      exact hxhdr
    · rw [read_buf_filled_more A x h]
      exact hxhdr
  have hfstate : (read_buf_filled A x).read_state
      = (if left - piece.length = 0 then VDIPortReadStates.READ_HEADER
         else VDIPortReadStates.GET_BUFF) := by
    by_cases h : x.message_receive_len = 0
    · rw [read_buf_filled_last A x h, if_pos (by rw [← hxleft]; exact h)]
    · rw [read_buf_filled_more A x h, if_neg (by rw [← hxleft]; exact h)]
  have hfflt : (read_buf_filled A x).read_filter = reds.agent_dev.read_filter := by
    by_cases h : x.message_receive_len = 0
    · rw [read_buf_filled_last A x h]
      exact hxflt
    · rw [read_buf_filled_more A x h]
      exact hxflt
  obtain ⟨g1, g2, _⟩ := read_buf_process_congr A (read_buf_filled A x) reds.agent_dev
    { len := piece.length, data := piece } (hfhdr.trans hh.symm) hfflt
  obtain ⟨f, hf⟩ := read_buf_process_eq A (read_buf_filled A x)
    { len := piece.length, data := piece }
  obtain ⟨p1, p2⟩ := read_buf_process_pool A (read_buf_filled A x)
    { len := piece.length, data := piece }
  obtain ⟨b, ev, hev, hfin⟩ := dispatch_verdict_finish A
    { reds with agent_dev := (vdi_port_read_buf_process A (read_buf_filled A x)
        { len := piece.length, data := piece }).2 }
    rest
    (out ++ [Event.vdi_port_read_buf_process (read_buf_filled A x).read_state
      { len := piece.length, data := piece }])
    { len := piece.length, data := piece } _
    (fun h => hverdict (g1.symm.trans h))
    (by show 1 ≤ (vdi_port_read_buf_process A _ _).2.num_read_buf; rw [p1, f1, hxnum]; omega)
    (by show (vdi_port_read_buf_process A _ _).2.num_read_buf ≤ 5; rw [p1, f1, hxnum]; omega)
  rw [hfin, hfstate]
  refine ⟨_, ev, rfl, hev, rfl, ?_, g2⟩
  show chunk_reader_at A header (left - piece.length)
    { (vdi_port_read_buf_process A (read_buf_filled A x)
        { len := piece.length, data := piece }).2 with
      agent_supports_graphics_device_info := b,
      num_read_buf := (vdi_port_read_buf_process A (read_buf_filled A x)
        { len := piece.length, data := piece }).2.num_read_buf - 1 }
  rw [hf]
  refine ⟨hfhdr, f2, ?_, ?_, ?_⟩
  · show (read_buf_filled A x).num_read_buf - 1 < 5
    rw [f1, hxnum]
    omega
  · intro h0
    have hx0 : x.message_receive_len = 0 := by rw [hxleft]; exact h0
    show (read_buf_filled A x).read_state = _ ∧ (read_buf_filled A x).receive_len = _ ∧
      (read_buf_filled A x).receive_pos = _
    rw [read_buf_filled_last A x hx0]
    exact ⟨rfl, rfl, rfl⟩
  · intro h0
    have hx0 : x.message_receive_len ≠ 0 := by rw [hxleft]; exact h0
    show (read_buf_filled A x).read_state = _ ∧ (read_buf_filled A x).message_receive_len = _
    rw [read_buf_filled_more A x hx0]
    exact ⟨rfl, hxleft⟩

/-- The case READ_HEADER on a device whose first piece is a whole chunk header and
whose second piece is what the first buffer of the chunk takes: the header is read,
the buffer is filled and given to the filter. -/
theorem read_header_case_block (A : AgentProto) (reds : RedsState) (header piece : List Nat)
    (rest : VDIPortDevice) (out : List Event) (left : Nat)
    (hpos : reds.agent_dev.receive_pos = ReceivePos.chunk_header 0)
    (hlen : reds.agent_dev.receive_len = A.sizeof_VDIChunkHeader)
    (hold : reds.agent_dev.vdi_chunk_header.length ≤ A.sizeof_VDIChunkHeader)
    (h5 : reds.agent_dev.num_read_buf < 5)
    (hh : header.length = A.sizeof_VDIChunkHeader) (hh0 : header ≠ [])
    (hleft : A.chunk_size header % 2 ^ 32 = left)
    (hp : piece.length = min left A.SPICE_AGENT_MAX_DATA_SIZE) (hp0 : piece ≠ [])
    (hverdict : (vdi_port_read_buf_process A
      { reds.agent_dev with vdi_chunk_header := header }
      { len := piece.length, data := piece }).1 ≠ AgentMsgFilterResult.PROTO_ERROR) :
    ∃ reds1 ev, (read_header_case A reds (header :: piece :: rest) out).finish
        = ⟨reds1, rest, out ++ [Event.vdi_port_read_buf_process
            (if left - piece.length = 0 then VDIPortReadStates.READ_HEADER
             else VDIPortReadStates.GET_BUFF) { len := piece.length, data := piece }] ++ ev⟩ ∧
      completed_bufs ev = [] ∧ reds1.vdagent = reds.vdagent ∧
      chunk_reader_at A header (left - piece.length) reds1.agent_dev ∧
      reds1.agent_dev.read_filter = (vdi_port_read_buf_process A
        { reds.agent_dev with vdi_chunk_header := header }
        { len := piece.length, data := piece }).2.read_filter := by
  have hl : 0 < header.length := List.length_pos.mpr hh0
  have hread : sif_read (header :: piece :: rest) reds.agent_dev.receive_len
      = (header, piece :: rest) := by
    rw [hlen]
    exact sif_read_piece header _ _ (by omega) (by omega)
  obtain ⟨x, hx⟩ : ∃ x, x = receive_bytes reds.agent_dev header := ⟨_, rfl⟩
  obtain ⟨b1, b2, b3, b4, b5, b6⟩ := receive_bytes_fields reds.agent_dev header
  rw [← hx] at b1 b2 b3 b4 b5 b6
  have hxhdr : x.vdi_chunk_header = header := by
    rw [hx]
    show (store_received reds.agent_dev header).vdi_chunk_header = header
    unfold store_received
    rw [hpos]
    show reds.agent_dev.vdi_chunk_header.take 0 ++ header
      ++ reds.agent_dev.vdi_chunk_header.drop (0 + header.length) = header
    rw [List.drop_of_length_le (by omega)]
    simp
  rw [read_header_case_full A reds _ out
      (by rw [hread]; show header.length ≠ 0; omega)
      (by rw [hread, ← hx, b4]; omega), hread, ← hx]
  have hxflt : x.read_filter = reds.agent_dev.read_filter := by
    rw [hx]
    show (store_received reds.agent_dev header).read_filter = _
    unfold store_received
    rw [hpos]
  obtain ⟨g1, g2, _⟩ := read_buf_process_congr A (chunk_header_read A x)
    { reds.agent_dev with vdi_chunk_header := header }
    { len := piece.length, data := piece } hxhdr hxflt
  obtain ⟨reds1, ev, e1, e2, e3, e4, e5⟩ := get_buff_case_block A
    { reds with agent_dev := chunk_header_read A x } piece rest out header left hxhdr
    (show x.num_read_buf < 5 by rw [b2]; exact h5)
    (show A.chunk_size x.vdi_chunk_header % 2 ^ 32 = left by rw [hxhdr]; exact hleft)
    hp hp0 (fun h => hverdict (g1.symm.trans h))
  exact ⟨reds1, ev, e1, e2, e3, e4, e5.trans g2⟩

/-- A turn of a run with an agent is a turn of the loop of the reader. -/
theorem run_turn_eq (A : AgentProto) (c : RunState) (hv : c.reds.vdagent = true) :
    run_turn A c = (read_one_msg_turn A c.reds c.device c.out).finish := by
  unfold run_turn
  rw [if_neg (by simp [hv])]

/-- The filled buffers of a trace that ends with a filled buffer and calls that show
none. -/
theorem completed_bufs_block (out ev : List Event) (state : VDIPortReadStates)
    (buf : RedVDIReadBuf) (hev : completed_bufs ev = []) :
    completed_bufs (out ++ [Event.vdi_port_read_buf_process state buf] ++ ev)
      = completed_bufs out ++ [(state, buf)] := by
  rw [completed_bufs_append, completed_bufs_append, hev, List.append_nil]
  rfl

/-- A run from between two buffers of a chunk, on a device that holds the rest of
the payload buffer by buffer: the buffers are filled in order, and the run ends after
the last one with nothing left in the device. -/
theorem chunk_blocks_run (A : AgentProto) (header : List Nat)
    (hmax : 1 ≤ A.SPICE_AGENT_MAX_DATA_SIZE) :
    ∀ (fuel : Nat) (payload : List Nat) (c : RunState),
      payload.length ≤ fuel → 1 ≤ payload.length → c.reds.vdagent = true →
      chunk_reader_at A header payload.length c.reds.agent_dev →
      c.device = payload_bufs A.SPICE_AGENT_MAX_DATA_SIZE fuel payload →
      AgentMsgFilterResult.PROTO_ERROR ∉ read_buf_verdicts A c.reds.agent_dev
        ((spec_chunk_bufs A.SPICE_AGENT_MAX_DATA_SIZE fuel payload).map (fun b => b.2)) →
      ∃ k c1, Nat.iterate (run_turn A) k c = c1 ∧ c1.device = [] ∧
        c1.reds.vdagent = true ∧ chunk_reader_at A header 0 c1.reds.agent_dev ∧
        completed_bufs c1.out
          = completed_bufs c.out ++ spec_chunk_bufs A.SPICE_AGENT_MAX_DATA_SIZE fuel payload := by
  intro fuel
  induction fuel with
  | zero =>
    intro payload c h1 h2
    omega
  | succ n ih =>
    intro payload c hfuel h1 hv hat hdev hnv
    obtain ⟨a1, a2, a3, _, a5⟩ := hat
    obtain ⟨a6, a7⟩ := a5 (by omega)
    have hturn : run_turn A c = (get_buff_case A c.reds c.device c.out).finish := by
      rw [run_turn_eq A c hv, read_one_msg_turn_get_buff A c.reds c.device c.out a6]
    by_cases hle : payload.length ≤ A.SPICE_AGENT_MAX_DATA_SIZE
    · have hd : c.device = [payload] := by
        rw [hdev]
        show (if _ then _ else _) = _
        rw [if_pos hle]
      have hsp : spec_chunk_bufs A.SPICE_AGENT_MAX_DATA_SIZE (n + 1) payload
          = [(VDIPortReadStates.READ_HEADER, { len := payload.length, data := payload })] := by
        show (if _ then _ else _) = _
        rw [if_pos hle]
      rw [hsp] at hnv
      have hv0 : (vdi_port_read_buf_process A c.reds.agent_dev
          { len := payload.length, data := payload }).1 ≠ AgentMsgFilterResult.PROTO_ERROR := by
        intro h
        apply hnv
        show AgentMsgFilterResult.PROTO_ERROR ∈ (vdi_port_read_buf_process A c.reds.agent_dev
          { len := payload.length, data := payload }).1 :: _
        rw [h]
        exact List.mem_cons_self _ _
      obtain ⟨reds1, ev, hfin, hev, hv1, hat1, _⟩ := get_buff_case_block A c.reds payload []
        c.out header payload.length a1 a3 a7 (by omega)
        (List.length_pos.mp (by omega)) hv0
      rw [hd] at hturn
      rw [Nat.sub_self] at hfin hat1
      refine ⟨1, _, rfl, ?_, ?_, ?_, ?_⟩
      · show (run_turn A c).device = []
        rw [hturn, hfin]
      · show (run_turn A c).reds.vdagent = true
        rw [hturn, hfin]
        exact hv1.trans hv
      · show chunk_reader_at A header 0 (run_turn A c).reds.agent_dev
        rw [hturn, hfin]
        exact hat1
      · show completed_bufs (run_turn A c).out = _
        rw [hturn, hfin]
        show completed_bufs (c.out ++ [Event.vdi_port_read_buf_process _ _] ++ ev) = _
        rw [completed_bufs_block _ _ _ _ hev]
        show _ = completed_bufs c.out ++ (if _ then _ else _)
        rw [if_pos hle]
        rfl
    · have hd : c.device = payload.take A.SPICE_AGENT_MAX_DATA_SIZE
          :: payload_bufs A.SPICE_AGENT_MAX_DATA_SIZE n
            (payload.drop A.SPICE_AGENT_MAX_DATA_SIZE) := by
        rw [hdev]
        show (if _ then _ else _) = _
        rw [if_neg hle]
      have htl : (payload.take A.SPICE_AGENT_MAX_DATA_SIZE).length
          = A.SPICE_AGENT_MAX_DATA_SIZE := by
        rw [List.length_take]
        omega
      have hsp : spec_chunk_bufs A.SPICE_AGENT_MAX_DATA_SIZE (n + 1) payload
          = (VDIPortReadStates.GET_BUFF,
              { len := A.SPICE_AGENT_MAX_DATA_SIZE,
                data := payload.take A.SPICE_AGENT_MAX_DATA_SIZE })
            :: spec_chunk_bufs A.SPICE_AGENT_MAX_DATA_SIZE n
              (payload.drop A.SPICE_AGENT_MAX_DATA_SIZE) := by
        show (if _ then _ else _) = _
        rw [if_neg hle]
      rw [hsp] at hnv
      have hnv2 : AgentMsgFilterResult.PROTO_ERROR ∉
          (vdi_port_read_buf_process A c.reds.agent_dev
            { len := A.SPICE_AGENT_MAX_DATA_SIZE,
              data := payload.take A.SPICE_AGENT_MAX_DATA_SIZE }).1
          :: read_buf_verdicts A (vdi_port_read_buf_process A c.reds.agent_dev
              { len := A.SPICE_AGENT_MAX_DATA_SIZE,
                data := payload.take A.SPICE_AGENT_MAX_DATA_SIZE }).2
            ((spec_chunk_bufs A.SPICE_AGENT_MAX_DATA_SIZE n
              (payload.drop A.SPICE_AGENT_MAX_DATA_SIZE)).map (fun b => b.2)) := hnv
      rw [List.mem_cons, not_or] at hnv2
      obtain ⟨hv0, hvrest⟩ := hnv2
      obtain ⟨reds1, ev, hfin, hev, hv1, hat1, hflt1⟩ := get_buff_case_block A c.reds
        (payload.take A.SPICE_AGENT_MAX_DATA_SIZE)
        (payload_bufs A.SPICE_AGENT_MAX_DATA_SIZE n (payload.drop A.SPICE_AGENT_MAX_DATA_SIZE))
        c.out header payload.length a1 a3 a7 (by rw [htl]; omega)
        (List.length_pos.mp (by omega)) (by rw [htl]; exact fun h => hv0 h.symm)
      rw [hd] at hturn
      rw [htl] at hfin hat1 hflt1
      obtain ⟨_, _, hph⟩ := read_buf_process_congr A c.reds.agent_dev c.reds.agent_dev
        { len := A.SPICE_AGENT_MAX_DATA_SIZE,
          data := payload.take A.SPICE_AGENT_MAX_DATA_SIZE } rfl rfl
      have hdl : (payload.drop A.SPICE_AGENT_MAX_DATA_SIZE).length
          = payload.length - A.SPICE_AGENT_MAX_DATA_SIZE := List.length_drop _ _
      obtain ⟨k, c1, hk, hc1, hv2, hat2, hout⟩ := ih
        (payload.drop A.SPICE_AGENT_MAX_DATA_SIZE) (run_turn A c)
        (by rw [hdl]; omega) (by rw [hdl]; omega)
        (by rw [hturn, hfin]; exact hv1.trans hv)
        (by rw [hturn, hfin, hdl]; exact hat1)
        (by rw [hturn, hfin])
        (by
          rw [hturn, hfin]
          show AgentMsgFilterResult.PROTO_ERROR ∉ read_buf_verdicts A reds1.agent_dev _
          rw [read_buf_verdicts_congr A _ reds1.agent_dev
            (vdi_port_read_buf_process A c.reds.agent_dev
              { len := A.SPICE_AGENT_MAX_DATA_SIZE,
                data := payload.take A.SPICE_AGENT_MAX_DATA_SIZE }).2
            (hat1.1.trans (a1.symm.trans hph.symm)) hflt1]
          exact hvrest)
      refine ⟨k + 1, c1, ?_, hc1, hv2, hat2, ?_⟩
      · rw [Function.iterate_succ_apply]
        exact hk
      · rw [hout, hturn, hfin]
        show completed_bufs (c.out ++ [Event.vdi_port_read_buf_process _ _] ++ ev) ++ _ = _
        rw [completed_bufs_block _ _ _ _ hev, if_neg (by omega), List.append_assoc]
        show _ = completed_bufs c.out ++ (if _ then _ else _)
        rw [if_neg hle]
        rfl

/-- The pieces a payload is cut into hold the payload, and none is empty. -/
theorem payload_bufs_spec (max : Nat) (hmax : 1 ≤ max) :
    ∀ (fuel : Nat) (payload : List Nat), payload.length ≤ fuel → 1 ≤ payload.length →
      (payload_bufs max fuel payload).flatten = payload ∧
      ∀ p ∈ payload_bufs max fuel payload, p ≠ [] := by
  intro fuel
  induction fuel with
  | zero =>
    intro payload h1 h2
    omega
  | succ n ih =>
    intro payload h1 h2
    by_cases hle : payload.length ≤ max
    · have hd : payload_bufs max (n + 1) payload = [payload] := by
        show (if _ then _ else _) = _
        rw [if_pos hle]
      rw [hd]
      refine ⟨by simp, ?_⟩
      intro p hp
      rw [List.mem_singleton.mp hp]
      exact List.length_pos.mp (by omega)
    · have hd : payload_bufs max (n + 1) payload
          = payload.take max :: payload_bufs max n (payload.drop max) := by
        show (if _ then _ else _) = _
        rw [if_neg hle]
      have hdl : (payload.drop max).length = payload.length - max := List.length_drop _ _
      obtain ⟨i1, i2⟩ := ih (payload.drop max) (by rw [hdl]; omega) (by rw [hdl]; omega)
      rw [hd]
      refine ⟨?_, ?_⟩
      · rw [List.flatten_cons, i1, List.take_append_drop]
      · intro p hp
        rcases List.mem_cons.mp hp with h | h
        · rw [h]
          apply List.length_pos.mp
          rw [List.length_take]
          omega
        · exact i2 p h

/-- The buffers to fill for a chunk, one by one: the buffer at index `i` takes the
`max` bytes of the payload after the first `i * max`, or what is left of them, and
the reader goes to READ_HEADER after the buffer that takes the last byte and to
GET_BUFF after the others. -/
theorem spec_chunk_bufs_index (max : Nat) (hmax : 1 ≤ max) :
    ∀ (fuel : Nat) (payload : List Nat), payload.length ≤ fuel → 1 ≤ payload.length →
      ∀ (i : Nat) (state : VDIPortReadStates) (buf : RedVDIReadBuf),
        (spec_chunk_bufs max fuel payload)[i]? = some (state, buf) →
        buf.len = min max (payload.length - i * max) ∧
        buf.data = (payload.drop (i * max)).take max ∧
        state = (if payload.length ≤ (i + 1) * max then VDIPortReadStates.READ_HEADER
                 else VDIPortReadStates.GET_BUFF) := by
  intro fuel
  induction fuel with
  | zero =>
    intro payload h1 h2
    omega
  | succ n ih =>
    intro payload h1 h2 i state buf hget
    by_cases hle : payload.length ≤ max
    · have hd : spec_chunk_bufs max (n + 1) payload
          = [(VDIPortReadStates.READ_HEADER, { len := payload.length, data := payload })] := by
        show (if _ then _ else _) = _
        rw [if_pos hle]
      rw [hd] at hget
      cases i with
      | zero =>
        simp only [List.getElem?_cons_zero, Option.some.injEq, Prod.mk.injEq] at hget
        obtain ⟨hs, hb⟩ := hget
        rw [← hs, ← hb]
        refine ⟨?_, ?_, ?_⟩
        · show payload.length = min max (payload.length - 0 * max)
          rw [Nat.zero_mul]
          omega
        · show payload = (payload.drop (0 * max)).take max
          rw [Nat.zero_mul, List.drop_zero, List.take_of_length_le hle]
        · rw [if_pos (by rw [Nat.one_mul]; exact hle)]
      | succ j => simp at hget
    · have hd : spec_chunk_bufs max (n + 1) payload
          = (VDIPortReadStates.GET_BUFF, { len := max, data := payload.take max })
            :: spec_chunk_bufs max n (payload.drop max) := by
        show (if _ then _ else _) = _
        rw [if_neg hle]
      have hdl : (payload.drop max).length = payload.length - max := List.length_drop _ _
      rw [hd] at hget
      cases i with
      | zero =>
        simp only [List.getElem?_cons_zero, Option.some.injEq, Prod.mk.injEq] at hget
        obtain ⟨hs, hb⟩ := hget
        rw [← hs, ← hb]
        refine ⟨?_, ?_, ?_⟩
        · show max = min max (payload.length - 0 * max)
          rw [Nat.zero_mul]
          omega
        · show payload.take max = (payload.drop (0 * max)).take max
          rw [Nat.zero_mul, List.drop_zero]
        · rw [if_neg (by rw [Nat.zero_add, Nat.one_mul]; exact hle)]
      | succ j =>
        rw [List.getElem?_cons_succ] at hget
        obtain ⟨r1, r2, r3⟩ := ih (payload.drop max) (by rw [hdl]; omega) (by rw [hdl]; omega)
          j state buf hget
        have hmul : (j + 1) * max = j * max + max := Nat.succ_mul j max
        have hmul2 : (j + 1 + 1) * max = (j + 1) * max + max := Nat.succ_mul (j + 1) max
        refine ⟨?_, ?_, ?_⟩
        · rw [r1, hdl, hmul]
          omega
        · rw [r2, List.drop_drop, hmul]
          congr 2
          omega
        · rw [r3, hdl]
          by_cases hc : payload.length - max ≤ (j + 1) * max
          · rw [if_pos hc, if_pos (by omega)]
          · rw [if_neg hc, if_neg (by omega)]

/-- The buffers to fill for a chunk, together: as many as the payload has times
`max` bytes, rounded up; their lengths add up to the length of the payload and their
bytes, one buffer after the other, are the payload. -/
theorem spec_chunk_bufs_total (max : Nat) (hmax : 1 ≤ max) :
    ∀ (fuel : Nat) (payload : List Nat), payload.length ≤ fuel → 1 ≤ payload.length →
      (spec_chunk_bufs max fuel payload).length = (payload.length + max - 1) / max ∧
      ((spec_chunk_bufs max fuel payload).map (fun b => b.2.len)).sum = payload.length ∧
      ((spec_chunk_bufs max fuel payload).map (fun b => b.2.data)).flatten = payload := by
  intro fuel
  induction fuel with
  | zero =>
    intro payload h1 h2
    omega
  | succ n ih =>
    intro payload h1 h2
    by_cases hle : payload.length ≤ max
    · have hd : spec_chunk_bufs max (n + 1) payload
          = [(VDIPortReadStates.READ_HEADER, { len := payload.length, data := payload })] := by
        show (if _ then _ else _) = _
        rw [if_pos hle]
      rw [hd]
      refine ⟨?_, by simp, by simp⟩
      show 1 = (payload.length + max - 1) / max
      have e : payload.length + max - 1 = (payload.length - 1) + max := by omega
      rw [e, Nat.add_div_right _ (by omega), Nat.div_eq_of_lt (by omega)]
    · have hd : spec_chunk_bufs max (n + 1) payload
          = (VDIPortReadStates.GET_BUFF, { len := max, data := payload.take max })
            :: spec_chunk_bufs max n (payload.drop max) := by
        show (if _ then _ else _) = _
        rw [if_neg hle]
      have hdl : (payload.drop max).length = payload.length - max := List.length_drop _ _
      obtain ⟨i1, i2, i3⟩ := ih (payload.drop max) (by rw [hdl]; omega) (by rw [hdl]; omega)
      rw [hd]
      refine ⟨?_, ?_, ?_⟩
      · rw [List.length_cons, i1, hdl]
        have e : payload.length + max - 1 = (payload.length - max + max - 1) + max := by omega
        rw [e, Nat.add_div_right _ (by omega)]
      · rw [List.map_cons, List.sum_cons, i2, hdl]
        show max + (payload.length - max) = payload.length
        omega
      · rw [List.map_cons, List.flatten_cons, i3]
        exact List.take_append_drop _ _

/-- A run at rest with the reader after the last buffer of a chunk and nothing in
the device stays there. -/
theorem chunk_run_rest (A : AgentProto) (header : List Nat) (c : RunState)
    (hd : c.device = []) (hat : chunk_reader_at A header 0 c.reds.agent_dev) :
    reader_ok c.reds.agent_dev ∧ run_turn A c = c := by
  obtain ⟨_, a2, a3, a4, _⟩ := hat
  obtain ⟨a5, _, _⟩ := a4 rfl
  have hw : reader_ok c.reds.agent_dev :=
    ⟨(fun h => by rw [a5] at h; cases h), fun _ => ⟨a2, a3⟩⟩
  refine ⟨hw, ?_⟩
  obtain ⟨_, _, p3⟩ := run_turn_progress A c hw (by rw [hd]; simp)
  rcases p3 with h | h
  · exact h
  · have hm : run_measure c = 0 := by
      unfold run_measure
      rw [hd, a5]
      simp
    omega

/-- A run from a reader that waits for a chunk header, on the device that holds the
header in one piece and the payload buffer by buffer: the buffers are filled in
order, and the run ends after the last one with nothing left in the device. -/
theorem chunk_run_canonical (A : AgentProto) (reds : RedsState) (header payload : List Nat)
    (hv : reds.vdagent = true)
    (hpos : reds.agent_dev.receive_pos = ReceivePos.chunk_header 0)
    (hlen : reds.agent_dev.receive_len = A.sizeof_VDIChunkHeader)
    (hold : reds.agent_dev.vdi_chunk_header.length ≤ A.sizeof_VDIChunkHeader)
    (hs : reds.agent_dev.read_state = VDIPortReadStates.READ_HEADER)
    (h5 : reds.agent_dev.num_read_buf < 5)
    (hh : header.length = A.sizeof_VDIChunkHeader) (hh0 : header ≠ [])
    (hsize : A.chunk_size header = payload.length)
    (h1 : 1 ≤ payload.length) (h32 : payload.length < 2 ^ 32)
    (hmax : 1 ≤ A.SPICE_AGENT_MAX_DATA_SIZE)
    (hverdict : AgentMsgFilterResult.PROTO_ERROR ∉ read_buf_verdicts A
      { reds.agent_dev with vdi_chunk_header := header }
      ((spec_chunk_bufs A.SPICE_AGENT_MAX_DATA_SIZE payload.length payload).map
        (fun b => b.2))) :
    ∃ k c1, Nat.iterate (run_turn A) k
        ⟨reds, header :: payload_bufs A.SPICE_AGENT_MAX_DATA_SIZE payload.length payload, []⟩
          = c1 ∧
      c1.device = [] ∧ c1.reds.vdagent = true ∧ chunk_reader_at A header 0 c1.reds.agent_dev ∧
      completed_bufs c1.out
        = spec_chunk_bufs A.SPICE_AGENT_MAX_DATA_SIZE payload.length payload := by
  have hleft : A.chunk_size header % 2 ^ 32 = payload.length := by
    rw [hsize]
    omega
  obtain ⟨n, hn⟩ : ∃ n, payload.length = n + 1 := ⟨payload.length - 1, by omega⟩
  rw [hn] at hverdict
  rw [hn]
  have hturn : ∀ d, run_turn A ⟨reds, d, []⟩ = (read_header_case A reds d []).finish := by
    intro d
    rw [run_turn_eq A _ hv]
    show (read_one_msg_turn A reds d []).finish = _
    rw [read_one_msg_turn_header A reds d [] hs]
  by_cases hle : payload.length ≤ A.SPICE_AGENT_MAX_DATA_SIZE
  · have hd : payload_bufs A.SPICE_AGENT_MAX_DATA_SIZE (n + 1) payload = [payload] := by
      show (if _ then _ else _) = _
      rw [if_pos hle]
    have hsp : spec_chunk_bufs A.SPICE_AGENT_MAX_DATA_SIZE (n + 1) payload
        = [(VDIPortReadStates.READ_HEADER, { len := payload.length, data := payload })] := by
      show (if _ then _ else _) = _
      rw [if_pos hle]
    rw [hsp] at hverdict
    have hv0 : (vdi_port_read_buf_process A { reds.agent_dev with vdi_chunk_header := header }
        { len := payload.length, data := payload }).1 ≠ AgentMsgFilterResult.PROTO_ERROR := by
      intro h
      apply hverdict
      show AgentMsgFilterResult.PROTO_ERROR ∈ (vdi_port_read_buf_process A
        { reds.agent_dev with vdi_chunk_header := header }
        { len := payload.length, data := payload }).1 :: _
      rw [h]
      exact List.mem_cons_self _ _
    obtain ⟨reds1, ev, hfin, hev, hv1, hat1, _⟩ := read_header_case_block A reds header
      payload [] [] payload.length hpos hlen hold h5 hh hh0 hleft (by omega)
      (List.length_pos.mp (by omega)) hv0
    rw [Nat.sub_self] at hfin hat1
    rw [hd, hsp]
    refine ⟨1, _, rfl, ?_, ?_, ?_, ?_⟩
    · show (run_turn A _).device = []
      rw [hturn, hfin]
    · show (run_turn A _).reds.vdagent = true
      rw [hturn, hfin]
      exact hv1.trans hv
    · show chunk_reader_at A header 0 (run_turn A _).reds.agent_dev
      rw [hturn, hfin]
      exact hat1
    · show completed_bufs (run_turn A _).out = _
      rw [hturn, hfin]
      show completed_bufs ([] ++ [Event.vdi_port_read_buf_process _ _] ++ ev) = _
      rw [completed_bufs_block _ _ _ _ hev]
      rfl
  · have hd : payload_bufs A.SPICE_AGENT_MAX_DATA_SIZE (n + 1) payload
        = payload.take A.SPICE_AGENT_MAX_DATA_SIZE
          :: payload_bufs A.SPICE_AGENT_MAX_DATA_SIZE n
            (payload.drop A.SPICE_AGENT_MAX_DATA_SIZE) := by
      show (if _ then _ else _) = _
      rw [if_neg hle]
    have hsp : spec_chunk_bufs A.SPICE_AGENT_MAX_DATA_SIZE (n + 1) payload
        = (VDIPortReadStates.GET_BUFF,
            { len := A.SPICE_AGENT_MAX_DATA_SIZE,
              data := payload.take A.SPICE_AGENT_MAX_DATA_SIZE })
          :: spec_chunk_bufs A.SPICE_AGENT_MAX_DATA_SIZE n
            (payload.drop A.SPICE_AGENT_MAX_DATA_SIZE) := by
      show (if _ then _ else _) = _
      rw [if_neg hle]
    have htl : (payload.take A.SPICE_AGENT_MAX_DATA_SIZE).length
        = A.SPICE_AGENT_MAX_DATA_SIZE := by
      rw [List.length_take]
      omega
    have hdl : (payload.drop A.SPICE_AGENT_MAX_DATA_SIZE).length
        = payload.length - A.SPICE_AGENT_MAX_DATA_SIZE := List.length_drop _ _
    rw [hsp] at hverdict
    have hnv2 : AgentMsgFilterResult.PROTO_ERROR ∉
        (vdi_port_read_buf_process A { reds.agent_dev with vdi_chunk_header := header }
          { len := A.SPICE_AGENT_MAX_DATA_SIZE,
            data := payload.take A.SPICE_AGENT_MAX_DATA_SIZE }).1
        :: read_buf_verdicts A (vdi_port_read_buf_process A
            { reds.agent_dev with vdi_chunk_header := header }
            { len := A.SPICE_AGENT_MAX_DATA_SIZE,
              data := payload.take A.SPICE_AGENT_MAX_DATA_SIZE }).2
          ((spec_chunk_bufs A.SPICE_AGENT_MAX_DATA_SIZE n
            (payload.drop A.SPICE_AGENT_MAX_DATA_SIZE)).map (fun b => b.2)) := hverdict
    rw [List.mem_cons, not_or] at hnv2
    obtain ⟨hv0, hvrest⟩ := hnv2
    obtain ⟨reds1, ev, hfin, hev, hv1, hat1, hflt1⟩ := read_header_case_block A reds header
      (payload.take A.SPICE_AGENT_MAX_DATA_SIZE)
      (payload_bufs A.SPICE_AGENT_MAX_DATA_SIZE n (payload.drop A.SPICE_AGENT_MAX_DATA_SIZE))
      [] payload.length hpos hlen hold h5 hh hh0 hleft (by rw [htl]; omega)
      (List.length_pos.mp (by omega)) (by rw [htl]; exact fun h => hv0 h.symm)
    rw [htl] at hfin hat1 hflt1
    obtain ⟨_, _, hph⟩ := read_buf_process_congr A
      { reds.agent_dev with vdi_chunk_header := header }
      { reds.agent_dev with vdi_chunk_header := header }
      { len := A.SPICE_AGENT_MAX_DATA_SIZE,
        data := payload.take A.SPICE_AGENT_MAX_DATA_SIZE } rfl rfl
    rw [hd, hsp]
    obtain ⟨k, c1, hk, hc1, hv2, hat2, hout⟩ := chunk_blocks_run A header hmax n
      (payload.drop A.SPICE_AGENT_MAX_DATA_SIZE)
      (run_turn A ⟨reds, header :: payload.take A.SPICE_AGENT_MAX_DATA_SIZE
        :: payload_bufs A.SPICE_AGENT_MAX_DATA_SIZE n
          (payload.drop A.SPICE_AGENT_MAX_DATA_SIZE), []⟩)
      (by rw [hdl]; omega) (by rw [hdl]; omega)
      (by rw [hturn, hfin]; exact hv1.trans hv)
      (by rw [hturn, hfin, hdl]; exact hat1)
      (by rw [hturn, hfin])
      (by
        rw [hturn, hfin]
        show AgentMsgFilterResult.PROTO_ERROR ∉ read_buf_verdicts A reds1.agent_dev _
        rw [read_buf_verdicts_congr A _ reds1.agent_dev
          (vdi_port_read_buf_process A { reds.agent_dev with vdi_chunk_header := header }
            { len := A.SPICE_AGENT_MAX_DATA_SIZE,
              data := payload.take A.SPICE_AGENT_MAX_DATA_SIZE }).2
          (hat1.1.trans hph.symm) hflt1]
        exact hvrest)
    refine ⟨k + 1, c1, ?_, hc1, hv2, hat2, ?_⟩
    · rw [Function.iterate_succ_apply]
      exact hk
    · rw [hout, hturn, hfin]
      show completed_bufs ([] ++ [Event.vdi_port_read_buf_process _ _] ++ ev) ++ _ = _
      rw [completed_bufs_block _ _ _ _ hev, if_neg (by omega)]
      rfl

/-- C12 (amended): a reader with an agent waits for a whole chunk header, with no
current buffer and a buffer to be had. The device, without empty pieces, holds a
chunk header that declares `payload.length` bytes, at least 1, and then the payload;
none of the buffers of the chunk, given to `vdi_port_read_buf_process` one after the
other from the state of the reader on, gets the verdict PROTO_ERROR. A run of enough
calls for the device to be read out fills the buffers of `spec_chunk_bufs`, in order:
as many as
payload.length / SPICE_AGENT_MAX_DATA_SIZE rounded up, the buffer at index i of
length min(SPICE_AGENT_MAX_DATA_SIZE, payload.length - i * SPICE_AGENT_MAX_DATA_SIZE)
with the payload bytes from i * SPICE_AGENT_MAX_DATA_SIZE on; the reader goes to
GET_BUFF after each buffer but the last and to READ_HEADER after the last; the
lengths add up to payload.length and the bytes of the buffers, one after the other,
are the payload. The run ends in READ_HEADER with a whole chunk header to receive. -/
theorem chunk_read_in_bufs (A : AgentProto) (reds : RedsState) (header payload : List Nat)
    (d : VDIPortDevice) (n : Nat)
    (hv : reds.vdagent = true)
    (hs : reds.agent_dev.read_state = VDIPortReadStates.READ_HEADER)
    (hpos : reds.agent_dev.receive_pos = ReceivePos.chunk_header 0)
    (hlen : reds.agent_dev.receive_len = A.sizeof_VDIChunkHeader)
    (hold : reds.agent_dev.vdi_chunk_header.length ≤ A.sizeof_VDIChunkHeader)
    (hcur : reds.agent_dev.current_read_buf = none)
    (h5 : reds.agent_dev.num_read_buf < 5)
    (hh : header.length = A.sizeof_VDIChunkHeader) (hh0 : header ≠ [])
    (hsize : A.chunk_size header = payload.length)
    (h1 : 1 ≤ payload.length) (h32 : payload.length < 2 ^ 32)
    (hmax : 1 ≤ A.SPICE_AGENT_MAX_DATA_SIZE)
    (hverdict : AgentMsgFilterResult.PROTO_ERROR ∉ read_buf_verdicts A
      { reds.agent_dev with vdi_chunk_header := header }
      ((spec_chunk_bufs A.SPICE_AGENT_MAX_DATA_SIZE payload.length payload).map
        (fun b => b.2)))
    (hd : ∀ p ∈ d, p ≠ []) (hflat : d.flatten = header ++ payload)
    (hn : run_calls d ≤ n) :
    completed_bufs (reader_run A n ⟨reds, d, []⟩).out
      = spec_chunk_bufs A.SPICE_AGENT_MAX_DATA_SIZE payload.length payload ∧
    (spec_chunk_bufs A.SPICE_AGENT_MAX_DATA_SIZE payload.length payload).length
      = (payload.length + A.SPICE_AGENT_MAX_DATA_SIZE - 1) / A.SPICE_AGENT_MAX_DATA_SIZE ∧
    (∀ (i : Nat) (state : VDIPortReadStates) (buf : RedVDIReadBuf),
      (spec_chunk_bufs A.SPICE_AGENT_MAX_DATA_SIZE payload.length payload)[i]?
        = some (state, buf) →
      buf.len = min A.SPICE_AGENT_MAX_DATA_SIZE
        (payload.length - i * A.SPICE_AGENT_MAX_DATA_SIZE) ∧
      buf.data = (payload.drop (i * A.SPICE_AGENT_MAX_DATA_SIZE)).take
        A.SPICE_AGENT_MAX_DATA_SIZE ∧
      state = (if payload.length ≤ (i + 1) * A.SPICE_AGENT_MAX_DATA_SIZE then
        VDIPortReadStates.READ_HEADER else VDIPortReadStates.GET_BUFF)) ∧
    ((spec_chunk_bufs A.SPICE_AGENT_MAX_DATA_SIZE payload.length payload).map
      (fun b => b.2.len)).sum = payload.length ∧
    ((spec_chunk_bufs A.SPICE_AGENT_MAX_DATA_SIZE payload.length payload).map
      (fun b => b.2.data)).flatten = payload ∧
    (reader_run A n ⟨reds, d, []⟩).reds.agent_dev.read_state
      = VDIPortReadStates.READ_HEADER ∧
    (reader_run A n ⟨reds, d, []⟩).reds.agent_dev.receive_len = A.sizeof_VDIChunkHeader ∧
    (reader_run A n ⟨reds, d, []⟩).reds.agent_dev.receive_pos = ReceivePos.chunk_header 0 ∧
    (reader_run A n ⟨reds, d, []⟩).reds.agent_dev.current_read_buf = none := by
  have hw : reader_ok reds.agent_dev :=
    ⟨(fun h => by rw [hs] at h; cases h), fun _ => ⟨hcur, h5⟩⟩
  obtain ⟨q1, q2⟩ := payload_bufs_spec A.SPICE_AGENT_MAX_DATA_SIZE hmax payload.length payload
    (le_refl _) h1
  have hD : ∀ p ∈ header :: payload_bufs A.SPICE_AGENT_MAX_DATA_SIZE payload.length payload,
      p ≠ [] := by
    intro p hp
    rcases List.mem_cons.mp hp with h | h
    · rw [h]
      exact hh0
    · exact q2 p h
  have hDflat : d.flatten
      = (header :: payload_bufs A.SPICE_AGENT_MAX_DATA_SIZE payload.length payload).flatten := by
    rw [hflat, List.flatten_cons, q1]
  obtain ⟨e1, e2⟩ := run_rest_eq A reds [] d _ hw hd hD hDflat
  obtain ⟨k, c1, hk, hc1, _, hat, hout⟩ := chunk_run_canonical A reds header payload hv hpos
    hlen hold hs h5 hh hh0 hsize h1 h32 hmax hverdict
  obtain ⟨_, hfix⟩ := chunk_run_rest A header c1 hc1 hat
  have hrest : Nat.iterate (run_turn A)
      (run_calls (header :: payload_bufs A.SPICE_AGENT_MAX_DATA_SIZE payload.length payload))
      ⟨reds, header :: payload_bufs A.SPICE_AGENT_MAX_DATA_SIZE payload.length payload, []⟩
        = c1 := by
    have s1 := run_turns_stable A
      (run_calls (header :: payload_bufs A.SPICE_AGENT_MAX_DATA_SIZE payload.length payload))
      (run_calls (header :: payload_bufs A.SPICE_AGENT_MAX_DATA_SIZE payload.length payload) + k)
      ⟨reds, header :: payload_bufs A.SPICE_AGENT_MAX_DATA_SIZE payload.length payload, []⟩
      hw hD (run_measure_le _) (by omega)
    rw [← s1, Function.iterate_add_apply, hk, Function.iterate_fixed hfix]
  rw [hrest] at e1 e2
  rw [reader_run_rest A n ⟨reds, d, []⟩ hw hd hn, e1, e2]
  obtain ⟨t1, t2, t3⟩ := spec_chunk_bufs_total A.SPICE_AGENT_MAX_DATA_SIZE hmax
    payload.length payload (le_refl _) h1
  obtain ⟨_, a2, _, a4, _⟩ := hat
  obtain ⟨a5, a6, a7⟩ := a4 rfl
  exact ⟨hout, t1,
    spec_chunk_bufs_index A.SPICE_AGENT_MAX_DATA_SIZE hmax payload.length payload (le_refl _) h1,
    t2, t3, a5, a6, a7, a2⟩

/-- Witness for C12: a chunk of 3000 bytes for the client, an agent message of 2980
bytes with its header, is delivered in two pieces, the chunk header with the first
1000 bytes and then the other 2000, to a reader whose filter checks the message
header and the size. The filter passes both buffers of the chunk, and the run fills
a buffer of 2048 bytes, after which the reader is in GET_BUFF, and a buffer of the
other 952 bytes, after which it is in READ_HEADER. -/
theorem chunk_read_in_bufs_witness :
    sampleAgentReds.vdagent = true ∧
    sampleChunkPayload.length = 3000 ∧
    read_buf_verdicts checkingAgent
        { sampleAgentReds.agent_dev with vdi_chunk_header := [1, 0, 0, 0, 3000, 0, 0, 0] }
        [{ len := 2048, data := sampleChunkPayload.take 2048 },
         { len := 952, data := sampleChunkPayload.drop 2048 }]
      = [AgentMsgFilterResult.OK, AgentMsgFilterResult.OK] ∧
    completed_bufs (reader_run checkingAgent 9026
        ⟨sampleAgentReds,
         [[1, 0, 0, 0, 3000, 0, 0, 0] ++ sampleChunkPayload.take 1000,
          sampleChunkPayload.drop 1000], []⟩).out
      = [(VDIPortReadStates.GET_BUFF,
           { len := 2048, data := sampleChunkPayload.take 2048 }),
         (VDIPortReadStates.READ_HEADER,
           { len := 952, data := sampleChunkPayload.drop 2048 })] := by
  have hlen : sampleChunkPayload.length = 3000 := by
    unfold sampleChunkPayload
    rw [List.length_append, List.length_replicate]
    rfl
  have hdrop : (sampleChunkPayload.drop 2048).length = 952 := by
    rw [List.length_drop, hlen]
  have hspec : spec_chunk_bufs checkingAgent.SPICE_AGENT_MAX_DATA_SIZE
      sampleChunkPayload.length sampleChunkPayload
      = [(VDIPortReadStates.GET_BUFF,
           { len := 2048, data := sampleChunkPayload.take 2048 }),
         (VDIPortReadStates.READ_HEADER,
           { len := 952, data := sampleChunkPayload.drop 2048 })] := by
    rw [hlen]
    show (if sampleChunkPayload.length ≤ 2048 then _ else _) = _
    rw [if_neg (by rw [hlen]; decide)]
    show _ :: (if (sampleChunkPayload.drop 2048).length ≤ 2048 then _ else _) = _
    rw [if_pos (by rw [hdrop]; decide)]
    show [(VDIPortReadStates.GET_BUFF,
            ({ len := 2048, data := sampleChunkPayload.take 2048 } : RedVDIReadBuf)),
          (VDIPortReadStates.READ_HEADER,
            { len := (sampleChunkPayload.drop 2048).length,
              data := sampleChunkPayload.drop 2048 })] = _
    rw [hdrop]
  have hverdicts : read_buf_verdicts checkingAgent
      { sampleAgentReds.agent_dev with vdi_chunk_header := [1, 0, 0, 0, 3000, 0, 0, 0] }
      [{ len := 2048, data := sampleChunkPayload.take 2048 },
       { len := 952, data := sampleChunkPayload.drop 2048 }]
      = [AgentMsgFilterResult.OK, AgentMsgFilterResult.OK] := rfl
  have hflat : [[1, 0, 0, 0, 3000, 0, 0, 0] ++ sampleChunkPayload.take 1000,
      sampleChunkPayload.drop 1000].flatten
        = [1, 0, 0, 0, 3000, 0, 0, 0] ++ sampleChunkPayload := by
    rw [List.flatten_cons, List.flatten_cons, List.flatten_nil, List.append_nil,
      List.append_assoc, List.take_append_drop]
  have h := chunk_read_in_bufs checkingAgent sampleAgentReds [1, 0, 0, 0, 3000, 0, 0, 0]
    sampleChunkPayload
    [[1, 0, 0, 0, 3000, 0, 0, 0] ++ sampleChunkPayload.take 1000,
      sampleChunkPayload.drop 1000] 9026
    rfl rfl rfl rfl (by decide) rfl (by decide) rfl (by decide)
    (by rw [hlen]; rfl) (by rw [hlen]; decide) (by rw [hlen]; decide) (by decide)
    (by
      rw [hspec]
      show AgentMsgFilterResult.PROTO_ERROR ∉ read_buf_verdicts checkingAgent _
        [{ len := 2048, data := sampleChunkPayload.take 2048 },
         { len := 952, data := sampleChunkPayload.drop 2048 }]
      rw [hverdicts]
      decide)
    (by
      intro p hp
      rw [List.mem_cons, List.mem_singleton] at hp
      rcases hp with hp | hp
      · rw [hp]
        exact fun h => by cases h
      · rw [hp]
        intro h
        have := congrArg List.length h
        rw [List.length_drop, hlen] at this
        cases this)
    hflat
    (by
      unfold run_calls
      rw [hflat, List.length_append, hlen]
      decide)
  rw [hspec] at h
  exact ⟨rfl, hlen, hverdicts, h.1⟩

/-- A call of the reader in a run without an agent changes nothing. -/
theorem run_call_no_agent (A : AgentProto) (c : RunState) (hv : c.reds.vdagent = false) :
    run_call A c = c := by
  unfold run_call vdi_port_read_one_msg_from_device
  rw [if_pos (by simp [hv])]
  simp [release_read_buf]

/-- A turn of a run without an agent changes nothing. -/
theorem run_turn_no_agent (A : AgentProto) (c : RunState) (hv : c.reds.vdagent = false) :
    run_turn A c = c := by
  unfold run_turn
  rw [if_pos (by simp [hv])]

/-- A run whose first turn removes the agent is that turn, however many calls are
made. -/
theorem reader_run_agent_removed (A : AgentProto) (c : RunState)
    (hv : (run_turn A c).reds.vdagent = false) (n : Nat) (hn : 1 ≤ n) :
    reader_run A n c = run_turn A c := by
  have hcall : run_call A c = run_turn A c := by
    obtain ⟨k, hk⟩ := run_call_turns A c
    rw [hk, Function.iterate_succ_apply,
      Function.iterate_fixed (run_turn_no_agent A _ hv)]
  obtain ⟨m, hm⟩ : ∃ m, n = m + 1 := ⟨n - 1, by omega⟩
  rw [hm]
  unfold reader_run
  rw [Function.iterate_succ_apply, hcall,
    Function.iterate_fixed (run_call_no_agent A _ hv)]

/-- The first turn of the sample reader on a chunk header with port 3 that declares
3000 bytes, followed by the 3000 bytes: one buffer of 2048 bytes is filled, and the
agent is removed. -/
theorem proto_error_turn (payload : List Nat) (hlen : payload.length = 3000) :
    ∃ r o, run_turn sampleAgent ⟨sampleAgentReds, [[3, 0, 0, 0, 3000, 0, 0, 0], payload], []⟩
        = ⟨r, [payload.drop 2048], o⟩ ∧ r.vdagent = false ∧
      completed_bufs o
        = [(VDIPortReadStates.GET_BUFF, { len := 2048, data := payload.take 2048 })] := by
  rw [run_turn_eq sampleAgent _ rfl]
  show ∃ r o, (read_one_msg_turn sampleAgent sampleAgentReds
    [[3, 0, 0, 0, 3000, 0, 0, 0], payload] []).finish = _ ∧ _
  rw [read_one_msg_turn_header sampleAgent sampleAgentReds _ [] rfl]
  have hr1 : sif_read [[3, 0, 0, 0, 3000, 0, 0, 0], payload]
      sampleAgentReds.agent_dev.receive_len = ([3, 0, 0, 0, 3000, 0, 0, 0], [payload]) := rfl
  rw [read_header_case_full sampleAgent sampleAgentReds _ []
    (by rw [hr1]; simp) (by rw [hr1]; rfl), hr1]
  obtain ⟨reds2, h2⟩ : ∃ reds2 : RedsState, reds2 =
      { sampleAgentReds with agent_dev := (chunk_header_read sampleAgent
          (receive_bytes sampleAgentReds.agent_dev [3, 0, 0, 0, 3000, 0, 0, 0])) } := ⟨_, rfl⟩
  show ∃ r o, (get_buff_case sampleAgent
      { sampleAgentReds with agent_dev := (chunk_header_read sampleAgent
          (receive_bytes sampleAgentReds.agent_dev [3, 0, 0, 0, 3000, 0, 0, 0])) }
      [payload] []).finish = _ ∧ _
  rw [← h2]
  rw [get_buff_case_fresh sampleAgent reds2 [payload] [] (by rw [h2]; decide)]
  obtain ⟨reds3, h3⟩ : ∃ reds3 : RedsState, reds3 =
      { reds2 with agent_dev := (read_buf_taken sampleAgent
        { reds2.agent_dev with num_read_buf := reds2.agent_dev.num_read_buf + 1 }
        { len := 0, data := [] }) } := ⟨_, rfl⟩
  rw [← h3]
  have hrl : reds3.agent_dev.receive_len = 2048 := by
    rw [h3, h2]
    rfl
  have hmrl : reds3.agent_dev.message_receive_len = 952 := by
    rw [h3, h2]
    rfl
  have hcur3 : reds3.agent_dev.current_read_buf = some { len := 2048, data := [] } := by
    rw [h3, h2]
    rfl
  have hpos3 : reds3.agent_dev.receive_pos = ReceivePos.read_buf 0 := by
    rw [h3, h2]
    rfl
  have hhdr3 : reds3.agent_dev.vdi_chunk_header = [3, 0, 0, 0, 3000, 0, 0, 0] := by
    rw [h3, h2]
    rfl
  have hv3 : reds3.vdagent = true := by
    rw [h3, h2]
    rfl
  have hr2 : sif_read [payload] reds3.agent_dev.receive_len
      = (payload.take 2048, [payload.drop 2048]) := by
    rw [hrl]
    exact sif_read_part payload [] 2048 (by decide) (by rw [hlen]; decide)
  have htl : (payload.take 2048).length = 2048 := by
    rw [List.length_take, hlen]
    rfl
  obtain ⟨x, hx⟩ : ∃ x, x = receive_bytes reds3.agent_dev (payload.take 2048) := ⟨_, rfl⟩
  obtain ⟨b1, b2, b3, b4, b5, b6⟩ := receive_bytes_fields reds3.agent_dev (payload.take 2048)
  rw [← hx] at b1 b2 b3 b4 b5 b6
  have hxcur : x.current_read_buf = some { len := 2048, data := payload.take 2048 } := by
    rw [hx]
    show (store_received reds3.agent_dev (payload.take 2048)).current_read_buf = _
    unfold store_received
    rw [hpos3, hcur3]
    rfl
  have hxhdr : x.vdi_chunk_header = [3, 0, 0, 0, 3000, 0, 0, 0] := by
    rw [hx]
    show (store_received reds3.agent_dev (payload.take 2048)).vdi_chunk_header = _
    unfold store_received
    rw [hpos3, hcur3]
    exact hhdr3
  rw [read_data_case_full sampleAgent reds3 [payload] [] { len := 2048, data := payload.take 2048 }
    (by rw [hr2]; show (payload.take 2048).length ≠ 0; rw [htl]; decide)
    (by rw [hr2, ← hx, b4, hrl, htl])
    (by rw [hr2, ← hx]; exact hxcur), hr2, ← hx, dispatch_read_buf_eq]
  have hxm : x.message_receive_len ≠ 0 := by
    rw [b5, hmrl]
    decide
  have hverdict : (vdi_port_read_buf_process sampleAgent (read_buf_filled sampleAgent x)
      { len := 2048, data := payload.take 2048 }).1 = AgentMsgFilterResult.PROTO_ERROR := by
    have hport : (read_buf_filled sampleAgent x).vdi_chunk_header
        = [3, 0, 0, 0, 3000, 0, 0, 0] := by
      rw [read_buf_filled_more sampleAgent x hxm]
      exact hxhdr
    unfold vdi_port_read_buf_process
    rw [hport]
    rfl
  have hstate : (read_buf_filled sampleAgent x).read_state = VDIPortReadStates.GET_BUFF := by
    rw [read_buf_filled_more sampleAgent x hxm]
  obtain ⟨_, p2⟩ := read_buf_process_pool sampleAgent (read_buf_filled sampleAgent x)
    { len := 2048, data := payload.take 2048 }
  obtain ⟨_, f2⟩ := read_buf_filled_pool sampleAgent x
  obtain ⟨r1, _⟩ := agent_remove_fields sampleAgent
    { reds3 with agent_dev := (vdi_port_read_buf_process sampleAgent
        (read_buf_filled sampleAgent x) { len := 2048, data := payload.take 2048 }).2 }
    (p2.trans f2)
  rw [hverdict, hstate]
  refine ⟨_, _, rfl, r1, ?_⟩
  rw [completed_bufs_append, completed_bufs_append, read_buf_free_completed, List.append_nil]
  have hrem : ∀ reds : RedsState, reds.agent_dev.current_read_buf = none →
      completed_bufs (reds_agent_remove sampleAgent reds).2 = [] := by
    intro reds hc
    unfold reds_agent_remove reds_reset_vdp
    simp only [hc]
    split_ifs <;> rfl
  rw [hrem _ (p2.trans f2)]
  rfl

/-- C12 (counterexample): a chunk header with port 3, which is neither the client
port nor the server port, declares 3000 payload bytes, and the device delivers them.
The first call of the reader fills one buffer of 2048 bytes; the verdict on it is
PROTO_ERROR, the agent is removed, and no later call reads anything: after the 9026
calls that are enough for the device, one buffer has been filled, not the two that
3000 bytes take, and 952 bytes are still in the device. -/
theorem chunk_proto_error_stops_reader :
    (List.replicate 3000 7).length = 3000 ∧
    (completed_bufs (reader_run sampleAgent 9026
        ⟨sampleAgentReds, [[3, 0, 0, 0, 3000, 0, 0, 0], List.replicate 3000 7], []⟩).out)
      = [(VDIPortReadStates.GET_BUFF,
          { len := 2048, data := (List.replicate 3000 7).take 2048 })] ∧
    (reader_run sampleAgent 9026
        ⟨sampleAgentReds, [[3, 0, 0, 0, 3000, 0, 0, 0], List.replicate 3000 7], []⟩).reds.vdagent
      = false ∧
    (reader_run sampleAgent 9026
        ⟨sampleAgentReds, [[3, 0, 0, 0, 3000, 0, 0, 0], List.replicate 3000 7], []⟩).device
      = [(List.replicate 3000 7).drop 2048] ∧
    run_calls [[3, 0, 0, 0, 3000, 0, 0, 0], List.replicate 3000 7] = 9026 ∧
    (3000 + sampleAgent.SPICE_AGENT_MAX_DATA_SIZE - 1) / sampleAgent.SPICE_AGENT_MAX_DATA_SIZE
      = 2 := by
  have hlen : (List.replicate 3000 7).length = 3000 := List.length_replicate _ _
  obtain ⟨r, o, hturn, hv, hout⟩ := proto_error_turn (List.replicate 3000 7) hlen
  have hrun := reader_run_agent_removed sampleAgent
    ⟨sampleAgentReds, [[3, 0, 0, 0, 3000, 0, 0, 0], List.replicate 3000 7], []⟩
    (by rw [hturn]; exact hv) 9026 (by decide)
  rw [hrun, hturn]
  refine ⟨hlen, hout, hv, rfl, ?_, by decide⟩
  unfold run_calls
  rw [List.flatten_cons, List.flatten_cons, List.flatten_nil, List.append_nil,
    List.length_append, hlen]
  rfl

end Spice
